import Mathlib

/-! # glTFRuntime static meshes: a shallow embedding of `glTFRuntimeParserStaticMeshes.cpp`

The development follows the C++ source function by function.

* Engine scalars (`float`, `double`) are idealised as elements of a linearly ordered
  field `K`; the conversions between `FVector3f` and `FVector` are the identity.
  Concrete evaluations are carried out over `ℚ`, and over `ℝ` where a square root is
  needed.
* Engine functions (`FVector`, `FBox`, `FTransform`, `TMap`) follow the engine's
  definitions; what the engine or the rest of the parser computes outside this file and
  no theorem depends on is a field of `FEngine` or `FAsset`.
* Engine pointers to `UObject`s are object identities (`Nat`); a null pointer is `none`.
* The source is read with `ENGINE_MAJOR_VERSION > 4` and without `WITH_EDITOR`
  (the file uses `FVector3d`, `FVector::One()` and `TArray::IsEmpty`, which only exist there).
* Loops over an index are folds over `List.range`; in-place array writes are `List.set`.
-/

namespace glTFRuntime

/-! ## Engine math types -/

/-- Engine type `FVector2D`. -/
structure FVector2D (K : Type) where
  X : K
  Y : K
deriving DecidableEq, Repr

/-- Engine type `FVector` (also `FVector3f`, `FVector3d`). -/
structure FVector (K : Type) where
  X : K
  Y : K
  Z : K
deriving DecidableEq, Repr

/-- Engine type `FVector4`. -/
structure FVector4 (K : Type) where
  X : K
  Y : K
  Z : K
  W : K
deriving DecidableEq, Repr

/-- Engine type `FQuat`. -/
structure FQuat (K : Type) where
  X : K
  Y : K
  Z : K
  W : K
deriving DecidableEq, Repr

/-- Engine type `FTransform`: scale, then rotation, then translation. -/
structure FTransform (K : Type) where
  Rotation : FQuat K
  Translation : FVector K
  Scale3D : FVector K
deriving DecidableEq, Repr

/-- Engine type `FColor` (four `uint8` channels). -/
structure FColor where
  R : Nat
  G : Nat
  B : Nat
  A : Nat
deriving DecidableEq, Repr

/-- Engine constant `FColor::White`. -/
def FColor.White : FColor := ⟨255, 255, 255, 255⟩

/-- Engine type `FBox`: an axis-aligned box with a validity flag. -/
structure FBox (K : Type) where
  Min : FVector K
  Max : FVector K
  IsValid : Bool
deriving DecidableEq, Repr

/-- Engine type `FBoxSphereBounds`; `BoxExtent` is the half size of the box. -/
structure FBoxSphereBounds (K : Type) where
  Origin : FVector K
  BoxExtent : FVector K
  SphereRadius : K
deriving DecidableEq, Repr

section Math

variable {K : Type} [LinearOrderedField K]

/-- Engine constant `FVector::ZeroVector`. -/
def FVector.ZeroVector : FVector K := ⟨0, 0, 0⟩

/-- Engine constant `FVector2D::ZeroVector`. -/
def FVector2D.ZeroVector : FVector2D K := ⟨0, 0⟩

/-- Engine `FVector::operator+`. -/
def FVector.add (A B : FVector K) : FVector K := ⟨A.X + B.X, A.Y + B.Y, A.Z + B.Z⟩

/-- Engine `FVector::operator-`. -/
def FVector.sub (A B : FVector K) : FVector K := ⟨A.X - B.X, A.Y - B.Y, A.Z - B.Z⟩

/-- Engine unary `FVector::operator-`. -/
def FVector.neg (A : FVector K) : FVector K := ⟨-A.X, -A.Y, -A.Z⟩

/-- Engine `FVector::operator*(Scale)`. -/
def FVector.scale (A : FVector K) (s : K) : FVector K := ⟨A.X * s, A.Y * s, A.Z * s⟩

/-- Engine componentwise `FVector::operator*(FVector)`. -/
def FVector.mul (A B : FVector K) : FVector K := ⟨A.X * B.X, A.Y * B.Y, A.Z * B.Z⟩

/-- Engine `FVector::CrossProduct(A, B)`. -/
def FVector.CrossProduct (A B : FVector K) : FVector K :=
  ⟨A.Y * B.Z - A.Z * B.Y, A.Z * B.X - A.X * B.Z, A.X * B.Y - A.Y * B.X⟩

/-- Engine `FVector::DotProduct(A, B)`. -/
def FVector.DotProduct (A B : FVector K) : K := A.X * B.X + A.Y * B.Y + A.Z * B.Z

/-- Engine `FVector::SizeSquared()`. -/
def FVector.SizeSquared (A : FVector K) : K := A.X * A.X + A.Y * A.Y + A.Z * A.Z

/-- Engine constant `UE_SMALL_NUMBER` (1e-8), the default normalisation tolerance. -/
def SMALL_NUMBER : K := 1 / 100000000

/-- Engine `FVector::GetSafeNormal()` with its default tolerance and zero result:
a vector of squared size exactly 1 is returned as is, one of squared size below the
tolerance gives the zero vector, any other is scaled by `InvSqrt` of its squared size. -/
def FVector.GetSafeNormal (InvSqrt : K → K) (A : FVector K) : FVector K :=
  if A.SizeSquared = 1 then A
  else if A.SizeSquared < SMALL_NUMBER then FVector.ZeroVector
  else A.scale (InvSqrt A.SizeSquared)

/-- Engine `FVector::Normalize()` with its default tolerance: scales in place when the
squared size exceeds the tolerance, leaves the vector alone otherwise. -/
def FVector.Normalize (InvSqrt : K → K) (A : FVector K) : FVector K :=
  if SMALL_NUMBER < A.SizeSquared then A.scale (InvSqrt A.SizeSquared) else A

/-- Engine `FVector::Size()`. -/
def FVector.Size (Sqrt : K → K) (A : FVector K) : K := Sqrt A.SizeSquared

/-- The `X`, `Y`, `Z` part of an `FVector4` (engine conversion `FVector(FVector4)`). -/
def FVector4.toFVector (A : FVector4 K) : FVector K := ⟨A.X, A.Y, A.Z⟩

/-- Engine `FQuat::RotateVector`: `V + W * T + Q × T` with `T = 2 * (Q × V)`. -/
def FQuat.RotateVector (Q : FQuat K) (V : FVector K) : FVector K :=
  let Qv : FVector K := ⟨Q.X, Q.Y, Q.Z⟩
  let TT := (FVector.CrossProduct Qv V).scale 2
  (V.add (TT.scale Q.W)).add (FVector.CrossProduct Qv TT)

/-- Engine constant `FTransform::Identity`. -/
def FTransform.Identity : FTransform K := ⟨⟨0, 0, 0, 1⟩, ⟨0, 0, 0⟩, ⟨1, 1, 1⟩⟩

/-- Engine `FTransform::TransformPosition`: scale, rotate, translate. -/
def FTransform.TransformPosition (T : FTransform K) (V : FVector K) : FVector K :=
  (T.Rotation.RotateVector (T.Scale3D.mul V)).add T.Translation

/-- Engine `FTransform::TransformVectorNoScale`: rotate only. -/
def FTransform.TransformVectorNoScale (T : FTransform K) (V : FVector K) : FVector K :=
  T.Rotation.RotateVector V

/-- Engine `FBox::Init()`. -/
def FBox.Init : FBox K := ⟨FVector.ZeroVector, FVector.ZeroVector, false⟩

/-- Engine `FBox::operator+=(FVector)`: grow the box to contain the point. -/
def FBox.addPoint (B : FBox K) (P : FVector K) : FBox K :=
  if B.IsValid then
    ⟨⟨min B.Min.X P.X, min B.Min.Y P.Y, min B.Min.Z P.Z⟩,
     ⟨max B.Max.X P.X, max B.Max.Y P.Y, max B.Max.Z P.Z⟩, true⟩
  else ⟨P, P, true⟩

/-- Engine `FBox::GetCenter()`: `(Min + Max) * 0.5`. -/
def FBox.GetCenter (B : FBox K) : FVector K := (B.Min.add B.Max).scale (1 / 2)

/-- Engine `FBox::GetExtent()`: `0.5 * (Max - Min)`, the half size. -/
def FBox.GetExtent (B : FBox K) : FVector K := (B.Max.sub B.Min).scale (1 / 2)

/-- Engine `FBox::GetSize()`: `Max - Min`. -/
def FBox.GetSize (B : FBox K) : FVector K := B.Max.sub B.Min

/-- Engine `FBox::GetCenterAndExtents`: the extent is `GetExtent()` and the centre is
`Min + Extent`. -/
def FBox.GetCenterAndExtents (B : FBox K) : FVector K × FVector K :=
  (B.Min.add B.GetExtent, B.GetExtent)

end Math

/-! ## Data model (declarations of `glTFRuntimeParser.h`, as the source file uses them) -/

/-- Identity of an engine object (`UStaticMesh*`, `UMaterialInterface*`, ...). -/
abbrev UObjectId := Nat

/-- Source macro `MODE_POINTS`. -/
def MODE_POINTS : Nat := 0

/-- Source macro `MODE_LINES`. -/
def MODE_LINES : Nat := 1

/-- Source macro `MODE_TRIANGLES`. -/
def MODE_TRIANGLES : Nat := 4

/-- Source macro `RESTRICT_POINTCLOUD_SIZE_FOR_TESTING_ON_LAPTOP`. -/
def RESTRICT_POINTCLOUD_SIZE_FOR_TESTING_ON_LAPTOP : Bool := true

/-- Source macro `NUM_CUSTOM_FLOATS_PER_INSTANCE`. -/
def NUM_CUSTOM_FLOATS_PER_INSTANCE : Nat := 4

/-- Engine constant `MAX_STATIC_TEXCOORDS`: the size of the `UVs` array of a build vertex. -/
def MAX_STATIC_TEXCOORDS : Nat := 8

/-- Engine constant `MAX_uint16`. -/
def MAX_uint16 : Nat := 65535

/-- Source macro `GLYPHER_SCALING_FACTOR` (`0.1f`). -/
def GLYPHER_SCALING_FACTOR {K : Type} [LinearOrderedField K] : K := 1 / 10

/-- Type `FglTFRuntimePrimitive`: one indexed set of vertex attributes with a render
mode and a material. -/
structure FglTFRuntimePrimitive (K : Type) where
  Positions : List (FVector K) := []
  Normals : List (FVector K) := []
  Tangents : List (FVector4 K) := []
  UVs : List (List (FVector2D K)) := []
  Colors : List (FVector4 K) := []
  Indices : List Nat := []
  Mode : Nat := MODE_TRIANGLES
  Material : Option UObjectId := none
  MaterialName : String := ""
  bHasMaterial : Bool := false
  bHighPrecisionUVs : Bool := false
deriving DecidableEq, Repr

/-- Type `FglTFRuntimeMeshLOD`. -/
structure FglTFRuntimeMeshLOD (K : Type) where
  Primitives : List (FglTFRuntimePrimitive K) := []
  AdditionalTransforms : List (FTransform K) := []
deriving DecidableEq, Repr

/-- Enum `EglTFRuntimeNormalsGenerationStrategy`. -/
inductive EglTFRuntimeNormalsGenerationStrategy where
  | IfMissing
  | Never
  | Always
deriving DecidableEq, Repr

/-- Enum `EglTFRuntimeTangentsGenerationStrategy`. -/
inductive EglTFRuntimeTangentsGenerationStrategy where
  | IfMissing
  | Never
  | Always
deriving DecidableEq, Repr

/-- Enum `EglTFRuntimePivotPosition`. -/
inductive EglTFRuntimePivotPosition where
  | Asset
  | Center
  | Top
  | Bottom
deriving DecidableEq, Repr

/-- Enum `EglTFRuntimeCacheMode`. -/
inductive EglTFRuntimeCacheMode where
  | ReadWrite
  | None
  | Read
  | Write
deriving DecidableEq, Repr

/-- Modelled from the spec: `CanReadFromCache` is declared outside this file; the spec
lists the cache modes ReadWrite, ReadOnly, WriteOnly and None, and reading is enabled in
the first two. -/
def CanReadFromCache (CacheMode : EglTFRuntimeCacheMode) : Bool :=
  CacheMode == .ReadWrite || CacheMode == .Read

/-- Modelled from the spec: `CanWriteToCache` is declared outside this file; writing is
enabled in the modes ReadWrite and WriteOnly. -/
def CanWriteToCache (CacheMode : EglTFRuntimeCacheMode) : Bool :=
  CacheMode == .ReadWrite || CacheMode == .Write

/-- Type `FglTFRuntimeStaticMeshConfig`, restricted to the options this file reads.
The field defaults are the default configuration: normals and tangents generated when
missing, no winding reversal, pivot left at the asset origin, read/write caching. -/
structure FglTFRuntimeStaticMeshConfig (K : Type) [LinearOrderedField K] where
  CacheMode : EglTFRuntimeCacheMode := .ReadWrite
  bReverseWinding : Bool := false
  bReverseTangents : Bool := false
  bUseHighPrecisionUVs : Bool := false
  NormalsGenerationStrategy : EglTFRuntimeNormalsGenerationStrategy := .IfMissing
  TangentsGenerationStrategy : EglTFRuntimeTangentsGenerationStrategy := .IfMissing
  PivotPosition : EglTFRuntimePivotPosition := .Asset
  ExportOriginalPivotToSocket : String := ""
  Sockets : List (String × FTransform K) := []
  LODScreenSize : List (Int × K) := []
  LODScreenSizeMultiplier : K := 2
  bBuildSimpleCollision : Bool := false
  bBuildComplexCollision : Bool := false
  bBuildNavCollision : Bool := false

/-- Engine type `FStaticMeshBuildVertex`; `UVs` has `MAX_STATIC_TEXCOORDS` entries. -/
structure FStaticMeshBuildVertex (K : Type) where
  Position : FVector K
  TangentX : FVector K
  TangentY : FVector K
  TangentZ : FVector K
  UVs : List (FVector2D K)
  Color : FColor
deriving DecidableEq, Repr

/-- Engine type `FStaticMeshSection`. -/
structure FStaticMeshSection where
  MaterialIndex : Nat := 0
  FirstIndex : Nat := 0
  NumTriangles : Nat := 0
  bEnableCollision : Bool := false
  bCastShadow : Bool := true
deriving DecidableEq, Repr

/-- Engine type `FStaticMaterial`: a material reference with its slot name. -/
structure FStaticMaterial where
  MaterialInterface : Option UObjectId
  MaterialSlotName : String
deriving DecidableEq, Repr

/-- Engine type `FStaticMeshLODResources`, reduced to what the builder stores in it:
the sections, the build vertices handed to the position, tangent/UV and colour vertex
buffers, and the index buffer with its stride. -/
structure FStaticMeshLODResources (K : Type) where
  Sections : List FStaticMeshSection := []
  Vertices : List (FStaticMeshBuildVertex K) := []
  NumTexCoords : Nat := 0
  bUseFullPrecisionUVs : Bool := false
  bHasColorVertexData : Bool := false
  Indices : List Nat := []
  b32BitIndices : Bool := false
deriving DecidableEq, Repr

/-- The engine and the parts of the parser that live outside this file, as far as the
builder calls them: the numeric primitives `FMath::InvSqrt` and `FMath::Sqrt`, the
colour conversion `FLinearColor(..).ToFColor(true)`, the parser helpers
`ComputeTangentY` and `ComputeTangentYWithW`, the product of two transforms
(`FTransform::operator*`), and the results of the `LoadObject` calls (the glyph proxy
mesh and whether the two Niagara systems can be loaded). -/
structure FEngine (K : Type) where
  InvSqrt : K → K
  Sqrt : K → K
  ToFColor : FVector4 K → FColor
  ComputeTangentY : FVector K → FVector K → FVector K
  ComputeTangentYWithW : FVector K → FVector K → K → FVector K
  TransformMultiply : FTransform K → FTransform K → FTransform K
  GlyphMesh : Option UObjectId
  bLineSystem : Bool
  bPointSystem : Bool

/-- Engine type `UStaticMeshComponent`, reduced to what the builder reads: the world
transform of the component and its chain of parent components. -/
structure UStaticMeshComponent (K : Type) where
  ComponentTransform : FTransform K
  Parents : List UObjectId
deriving DecidableEq, Repr

/-! ## Containers -/

/-- Engine `TMap::Contains` on an association list. -/
def TMapContains {α β : Type} [DecidableEq α] (M : List (α × β)) (Key : α) : Bool :=
  M.any (fun p => decide (p.1 = Key))

/-- Engine `TMap::Find` / `operator[]` on an association list. -/
def TMapFind {α β : Type} [DecidableEq α] : List (α × β) → α → Option β
  | [], _ => none
  | p :: M, Key => if p.1 = Key then some p.2 else TMapFind M Key

/-- Engine `TMap::Add`: the value of an existing key is replaced, a new key is added. -/
def TMapAdd {α β : Type} [DecidableEq α] : List (α × β) → α → β → List (α × β)
  | [], Key, Value => [(Key, Value)]
  | p :: M, Key, Value => if p.1 = Key then (Key, Value) :: M else p :: TMapAdd M Key Value

/-- Engine `FString::operator==`, the comparison of the keys of a `TMap` keyed by
`FString`: two strings are equal when they differ at most in the case of the letters A
to Z. -/
def FStringEq (A B : String) : Bool :=
  decide (A.data.map Char.toLower = B.data.map Char.toLower)

/-- Engine `TMap::Contains` on a map keyed by `FString`, as an association list. -/
def TMapContainsFString {β : Type} (M : List (String × β)) (Key : String) : Bool :=
  M.any (fun p => FStringEq p.1 Key)

/-- Modelled from the spec: the template `GetSafeValue` is declared outside this file.
The spec has a missing entry default and flag "missing" when the source array is shorter
than the referenced index: the entry at `Index` is returned when there is one and the
flag is left alone, otherwise the default is returned and the flag is raised. -/
def GetSafeValue {T : Type} (Values : List T) (Index : Nat) (DefaultValue : T)
    (bMissing : Bool) : T × Bool :=
  match Values[Index]? with
  | some Value => (Value, bMissing)
  | none => (DefaultValue, true)

/-- The values of `i` visited by `for (i = 0; i < Num; i += 3)`. -/
def TriangleStarts (Num : Nat) : List Nat :=
  (List.range ((Num + 2) / 3)).map (fun t => 3 * t)

section Builder

variable {K : Type} [LinearOrderedField K]

/-- A default-constructed `FStaticMeshBuildVertex`, as `TArray::SetNum` leaves it
(the engine leaves the memory unspecified; it is taken to be zero). -/
def FStaticMeshBuildVertex.Default : FStaticMeshBuildVertex K :=
  { Position := FVector.ZeroVector, TangentX := FVector.ZeroVector,
    TangentY := FVector.ZeroVector, TangentZ := FVector.ZeroVector,
    UVs := List.replicate MAX_STATIC_TEXCOORDS FVector2D.ZeroVector,
    Color := ⟨0, 0, 0, 0⟩ }

/-- The locals of `LoadStaticMesh_Internal` that the geometry generation loop of one
Triangles primitive reads and writes. -/
structure FGeometryState (K : Type) where
  LODIndices : List Nat
  StaticMeshBuildVertices : List (FStaticMeshBuildVertex K)
  BoundingBox : FBox K
  bMissingNormals : Bool
  bMissingTangents : Bool

/-- The UV loop of the geometry generation (source lines 495-505): channel `UVIndex`
of the vertex is written when the primitive has that channel. The vertex has
`MAX_STATIC_TEXCOORDS` channels in a fixed array, which the source does not check: a
write to a channel past the last one is outside the array there, and is left out here,
where `List.set` keeps the list as it is. What is proved of the UV channels is proved of
primitives with at most `MAX_STATIC_TEXCOORDS` of them. -/
def PopulateUVs (Primitive : FglTFRuntimePrimitive K) (NumUVs VertexIndex : Nat)
    (UVs : List (FVector2D K)) : List (FVector2D K) :=
  (List.range NumUVs).foldl (fun UVs UVIndex =>
    if UVIndex < Primitive.UVs.length then
      UVs.set UVIndex
        (GetSafeValue (Primitive.UVs.getD UVIndex []) VertexIndex FVector2D.ZeroVector false).1
    else UVs) UVs

/-- The vertex that one iteration of the geometry generation loop writes (source lines
479-533) for the source index `VertexIndex`; `Old` is the vertex that is in the slot,
whose UV channels and colour stay where the loop does not write them.
`AdditionalTransform` is `LOD->AdditionalTransforms[AdditionalTransformsPrimitiveIndex]`,
read only when `bApplyAdditionalTransforms` holds. -/
def GeometryVertex (Engine : FEngine K) (StaticMeshConfig : FglTFRuntimeStaticMeshConfig K)
    (Primitive : FglTFRuntimePrimitive K) (NumUVs : Nat) (bHasVertexColors : Bool)
    (bApplyAdditionalTransforms : Bool) (AdditionalTransform : FTransform K)
    (Old : FStaticMeshBuildVertex K) (VertexIndex : Nat) : FStaticMeshBuildVertex K :=
  let TangentsDirection : K := if StaticMeshConfig.bReverseTangents then -1 else 1
  let Position := (GetSafeValue Primitive.Positions VertexIndex FVector.ZeroVector false).1
  let TangentX :=
    (GetSafeValue Primitive.Tangents VertexIndex (⟨0, 0, 0, 1⟩ : FVector4 K) false).1
  let TangentZ := (GetSafeValue Primitive.Normals VertexIndex FVector.ZeroVector false).1
  let TangentY := Engine.ComputeTangentYWithW TangentZ TangentX.toFVector
    (TangentX.W * TangentsDirection)
  let UVs := PopulateUVs Primitive NumUVs VertexIndex Old.UVs
  let Color :=
    if bHasVertexColors then
      if VertexIndex < Primitive.Colors.length then
        Engine.ToFColor (Primitive.Colors.getD VertexIndex ⟨0, 0, 0, 0⟩)
      else FColor.White
    else Old.Color
  if bApplyAdditionalTransforms then
    { Position := AdditionalTransform.TransformPosition Position,
      TangentX := AdditionalTransform.TransformVectorNoScale TangentX.toFVector,
      TangentY := AdditionalTransform.TransformVectorNoScale TangentY,
      TangentZ := AdditionalTransform.TransformVectorNoScale TangentZ,
      UVs := UVs, Color := Color }
  else
    { Position := Position, TangentX := TangentX.toFVector, TangentY := TangentY,
      TangentZ := TangentZ, UVs := UVs, Color := Color }

/-- One iteration of the geometry generation loop (source lines 471-540), for the vertex
instance `VertexInstanceSectionIndex` of the section: the index entry and the vertex of
the slot are written, the bounding box grows by the new position, and the
"missing" flags are raised by the `GetSafeValue` reads of the tangents and normals. -/
def GeometryGenerationStep (Engine : FEngine K) (StaticMeshConfig : FglTFRuntimeStaticMeshConfig K)
    (Primitive : FglTFRuntimePrimitive K) (NumUVs : Nat) (bHasVertexColors : Bool)
    (bApplyAdditionalTransforms : Bool) (AdditionalTransform : FTransform K)
    (VertexInstanceBaseIndex : Nat) (st : FGeometryState K)
    (VertexInstanceSectionIndex : Nat) : FGeometryState K :=
  let VertexIndex := Primitive.Indices.getD VertexInstanceSectionIndex 0
  let Slot := VertexInstanceBaseIndex + VertexInstanceSectionIndex
  let Vertex := GeometryVertex Engine StaticMeshConfig Primitive NumUVs bHasVertexColors
    bApplyAdditionalTransforms AdditionalTransform
    (st.StaticMeshBuildVertices.getD Slot FStaticMeshBuildVertex.Default) VertexIndex
  { LODIndices := st.LODIndices.set Slot Slot,
    StaticMeshBuildVertices := st.StaticMeshBuildVertices.set Slot Vertex,
    BoundingBox := st.BoundingBox.addPoint Vertex.Position,
    bMissingNormals :=
      (GetSafeValue Primitive.Normals VertexIndex FVector.ZeroVector st.bMissingNormals).2,
    bMissingTangents :=
      (GetSafeValue Primitive.Tangents VertexIndex (⟨0, 0, 0, 1⟩ : FVector4 K)
        st.bMissingTangents).2 }

/-- The geometry generation loop of one Triangles primitive (source lines 471-540). -/
def GeometryGeneration (Engine : FEngine K) (StaticMeshConfig : FglTFRuntimeStaticMeshConfig K)
    (Primitive : FglTFRuntimePrimitive K) (NumUVs : Nat) (bHasVertexColors : Bool)
    (bApplyAdditionalTransforms : Bool) (AdditionalTransform : FTransform K)
    (VertexInstanceBaseIndex : Nat) (st : FGeometryState K) : FGeometryState K :=
  (List.range Primitive.Indices.length).foldl
    (GeometryGenerationStep Engine StaticMeshConfig Primitive NumUVs bHasVertexColors
      bApplyAdditionalTransforms AdditionalTransform VertexInstanceBaseIndex) st

/-- The body of the winding reversal loop (source lines 549-553): the vertices at
offsets 1 and 2 of the triangle starting at `Base + i` are exchanged. -/
def ReverseWindingStep (Base : Nat) (Vertices : List (FStaticMeshBuildVertex K)) (i : Nat) :
    List (FStaticMeshBuildVertex K) :=
  let StaticMeshVertex1 := Vertices.getD (Base + i + 1) FStaticMeshBuildVertex.Default
  let StaticMeshVertex2 := Vertices.getD (Base + i + 2) FStaticMeshBuildVertex.Default
  (Vertices.set (Base + i + 1) StaticMeshVertex2).set (Base + i + 2) StaticMeshVertex1

/-- The winding reversal loop (source lines 547-554). -/
def ReverseWinding (Num Base : Nat) (Vertices : List (FStaticMeshBuildVertex K)) :
    List (FStaticMeshBuildVertex K) :=
  (TriangleStarts Num).foldl (ReverseWindingStep Base) Vertices

/-- The flat normal of a triangle (source lines 568-570):
`CrossProduct(SideB, SideA).GetSafeNormal()` with `SideA = P1 - P0`, `SideB = P2 - P0`. -/
def NormalFromCross (Engine : FEngine K) (P0 P1 P2 : FVector K) : FVector K :=
  let SideA := P1.sub P0
  let SideB := P2.sub P0
  (FVector.CrossProduct SideB SideA).GetSafeNormal Engine.InvSqrt

/-- The body of the normal generation loop (source lines 563-574). -/
def GenerateNormalsStep (Engine : FEngine K) (Base : Nat)
    (Vertices : List (FStaticMeshBuildVertex K)) (i : Nat) : List (FStaticMeshBuildVertex K) :=
  let StaticMeshVertex0 := Vertices.getD (Base + i) FStaticMeshBuildVertex.Default
  let StaticMeshVertex1 := Vertices.getD (Base + i + 1) FStaticMeshBuildVertex.Default
  let StaticMeshVertex2 := Vertices.getD (Base + i + 2) FStaticMeshBuildVertex.Default
  let Normal := NormalFromCross Engine StaticMeshVertex0.Position StaticMeshVertex1.Position
    StaticMeshVertex2.Position
  ((Vertices.set (Base + i) { StaticMeshVertex0 with TangentZ := Normal }).set (Base + i + 1)
    { StaticMeshVertex1 with TangentZ := Normal }).set (Base + i + 2)
    { StaticMeshVertex2 with TangentZ := Normal }

/-- The normal generation loop (source lines 561-586). -/
def GenerateNormals (Engine : FEngine K) (Num Base : Nat)
    (Vertices : List (FStaticMeshBuildVertex K)) : List (FStaticMeshBuildVertex K) :=
  (TriangleStarts Num).foldl (GenerateNormalsStep Engine Base) Vertices

/-- The tangent of one corner (source lines 648-649 and 658-659): the triangle tangent
made orthogonal to the corner normal and normalised, with the bitangent recomputed. -/
def CornerTangent (Engine : FEngine K) (TangentsDirection : K) (TriangleTangentX : FVector K)
    (Vertex : FStaticMeshBuildVertex K) : FStaticMeshBuildVertex K :=
  let TangentZ := Vertex.TangentZ
  let TangentX := FVector.Normalize Engine.InvSqrt
    (TriangleTangentX.sub (TangentZ.scale (FVector.DotProduct TangentZ TriangleTangentX)))
  { Vertex with
    TangentX := TangentX,
    TangentY := (Engine.ComputeTangentY Vertex.TangentZ TangentX).scale TangentsDirection }

/-- The body of the tangent generation loop (source lines 597-675). -/
def GenerateTangentsStep (Engine : FEngine K) (TangentsDirection : K) (Base : Nat)
    (Vertices : List (FStaticMeshBuildVertex K)) (i : Nat) : List (FStaticMeshBuildVertex K) :=
  let StaticMeshVertex0 := Vertices.getD (Base + i) FStaticMeshBuildVertex.Default
  let StaticMeshVertex1 := Vertices.getD (Base + i + 1) FStaticMeshBuildVertex.Default
  let StaticMeshVertex2 := Vertices.getD (Base + i + 2) FStaticMeshBuildVertex.Default
  let UV0 := StaticMeshVertex0.UVs.getD 0 FVector2D.ZeroVector
  let UV1 := StaticMeshVertex1.UVs.getD 0 FVector2D.ZeroVector
  let UV2 := StaticMeshVertex2.UVs.getD 0 FVector2D.ZeroVector
  let DeltaPosition0 := StaticMeshVertex1.Position.sub StaticMeshVertex0.Position
  let DeltaPosition1 := StaticMeshVertex2.Position.sub StaticMeshVertex0.Position
  let DeltaUV0 : FVector2D K := ⟨UV1.X - UV0.X, UV1.Y - UV0.Y⟩
  let DeltaUV1 : FVector2D K := ⟨UV2.X - UV0.X, UV2.Y - UV0.Y⟩
  let Factor : K := 1 / (DeltaUV0.X * DeltaUV1.Y - DeltaUV0.Y * DeltaUV1.X)
  let TriangleTangentX :=
    ((DeltaPosition0.scale DeltaUV1.Y).sub (DeltaPosition1.scale DeltaUV0.Y)).scale Factor
  ((Vertices.set (Base + i)
      (CornerTangent Engine TangentsDirection TriangleTangentX StaticMeshVertex0)).set
      (Base + i + 1)
      (CornerTangent Engine TangentsDirection TriangleTangentX StaticMeshVertex1)).set
      (Base + i + 2)
      (CornerTangent Engine TangentsDirection TriangleTangentX StaticMeshVertex2)

/-- The tangent generation loop (source lines 595-677). -/
def GenerateTangents (Engine : FEngine K) (TangentsDirection : K) (Num Base : Nat)
    (Vertices : List (FStaticMeshBuildVertex K)) : List (FStaticMeshBuildVertex K) :=
  (TriangleStarts Num).foldl (GenerateTangentsStep Engine TangentsDirection Base) Vertices

/-- The locals of `LoadStaticMesh_Internal` that the loop over the primitives of one LOD
reads and writes, with the two values that outlive the LOD (`SectionMaterialMap` and the
context's `StaticMaterials`). -/
structure FPrimitiveLoopState (K : Type) where
  Sections : List FStaticMeshSection
  LODIndices : List Nat
  StaticMeshBuildVertices : List (FStaticMeshBuildVertex K)
  BoundingBox : FBox K
  bHighPrecisionUVs : Bool
  VertexInstanceBaseIndex : Nat
  AdditionalTransformsPrimitiveIndex : Nat
  SectionMaterialMap : List (Nat × Nat)
  StaticMaterials : List FStaticMaterial

/-- Source lines 557-558: `bCanGenerateNormals`. -/
def bCanGenerateNormals (StaticMeshConfig : FglTFRuntimeStaticMeshConfig K)
    (bMissingNormals : Bool) : Bool :=
  (bMissingNormals && decide (StaticMeshConfig.NormalsGenerationStrategy = .IfMissing)) ||
    decide (StaticMeshConfig.NormalsGenerationStrategy = .Always)

/-- Source lines 590-591: `bCanGenerateTangents`. -/
def bCanGenerateTangents (StaticMeshConfig : FglTFRuntimeStaticMeshConfig K)
    (bMissingTangents : Bool) : Bool :=
  (bMissingTangents && decide (StaticMeshConfig.TangentsGenerationStrategy = .IfMissing)) ||
    decide (StaticMeshConfig.TangentsGenerationStrategy = .Always)

/-- The passes that follow the geometry generation of a Triangles primitive (source
lines 545-678): winding reversal, normal generation, tangent generation, each behind its
guard. `Geometry` is the state the geometry generation loop left. -/
def TrianglePasses (Engine : FEngine K) (StaticMeshConfig : FglTFRuntimeStaticMeshConfig K)
    (Primitive : FglTFRuntimePrimitive K) (VertexInstanceBaseIndex : Nat)
    (Geometry : FGeometryState K) : List (FStaticMeshBuildVertex K) :=
  let TangentsDirection : K := if StaticMeshConfig.bReverseTangents then -1 else 1
  let NumVertexInstancesPerSection := Primitive.Indices.length
  let Reversed :=
    if StaticMeshConfig.bReverseWinding && NumVertexInstancesPerSection % 3 == 0 then
      ReverseWinding NumVertexInstancesPerSection VertexInstanceBaseIndex
        Geometry.StaticMeshBuildVertices
    else Geometry.StaticMeshBuildVertices
  let bNormals := bCanGenerateNormals StaticMeshConfig Geometry.bMissingNormals &&
    NumVertexInstancesPerSection % 3 == 0
  let WithNormals :=
    if bNormals then
      GenerateNormals Engine NumVertexInstancesPerSection VertexInstanceBaseIndex Reversed
    else Reversed
  let bMissingNormals := if bNormals then false else Geometry.bMissingNormals
  if bCanGenerateTangents StaticMeshConfig Geometry.bMissingTangents && !bMissingNormals &&
      decide (Primitive.UVs.length > 0) && NumVertexInstancesPerSection % 3 == 0 then
    GenerateTangents Engine TangentsDirection NumVertexInstancesPerSection
      VertexInstanceBaseIndex WithNormals
  else WithNormals

/-- The geometry state at the start of the geometry generation of a Triangles primitive:
`LODIndices.AddUninitialized(NumVertexInstancesPerSection)` has run (the new entries are
taken to be zero) and the two "missing" flags of the primitive are clear. -/
def GeometryStart (Primitive : FglTFRuntimePrimitive K) (st : FPrimitiveLoopState K) :
    FGeometryState K :=
  { LODIndices := st.LODIndices ++ List.replicate Primitive.Indices.length 0,
    StaticMeshBuildVertices := st.StaticMeshBuildVertices,
    BoundingBox := st.BoundingBox,
    bMissingNormals := false,
    bMissingTangents := false }

/-- The `MODE_TRIANGLES` branch of the primitive loop (source lines 428-681). `st` is
the loop state after `Sections.AddDefaulted_GetRef()`, so the section of this primitive
is the last one; `StaticMaterial` is the material record built at source lines 190-192. -/
def TrianglesBranch (Engine : FEngine K) (StaticMeshConfig : FglTFRuntimeStaticMeshConfig K)
    (LOD : FglTFRuntimeMeshLOD K) (NumUVs : Nat) (bHasVertexColors : Bool)
    (Primitive : FglTFRuntimePrimitive K) (StaticMaterial : FStaticMaterial)
    (st : FPrimitiveLoopState K) : FPrimitiveLoopState K :=
  let NumVertexInstancesPerSection := Primitive.Indices.length
  let bApplyAdditionalTransforms :=
    decide (LOD.Primitives.length = LOD.AdditionalTransforms.length)
  let SectionIndex := st.Sections.length - 1
  let bNewMaterial := Primitive.bHasMaterial || !TMapContains st.SectionMaterialMap SectionIndex
  let MaterialIndex :=
    if bNewMaterial then st.StaticMaterials.length
    else if TMapContains st.SectionMaterialMap SectionIndex then
      (TMapFind st.SectionMaterialMap SectionIndex).getD 0
    else 0
  let Section : FStaticMeshSection :=
    { st.Sections.getD SectionIndex {} with
      NumTriangles := NumVertexInstancesPerSection / 3,
      FirstIndex := st.VertexInstanceBaseIndex,
      bEnableCollision := true,
      bCastShadow := true,
      MaterialIndex := MaterialIndex }
  let Geometry := GeometryGeneration Engine StaticMeshConfig Primitive NumUVs bHasVertexColors
    bApplyAdditionalTransforms
    (LOD.AdditionalTransforms.getD st.AdditionalTransformsPrimitiveIndex FTransform.Identity)
    st.VertexInstanceBaseIndex (GeometryStart Primitive st)
  { Sections := st.Sections.set SectionIndex Section,
    LODIndices := Geometry.LODIndices,
    StaticMeshBuildVertices :=
      TrianglePasses Engine StaticMeshConfig Primitive st.VertexInstanceBaseIndex Geometry,
    BoundingBox := Geometry.BoundingBox,
    bHighPrecisionUVs := Primitive.bHighPrecisionUVs || st.bHighPrecisionUVs,
    VertexInstanceBaseIndex := st.VertexInstanceBaseIndex + NumVertexInstancesPerSection,
    AdditionalTransformsPrimitiveIndex := st.AdditionalTransformsPrimitiveIndex + 1,
    SectionMaterialMap :=
      if bNewMaterial then TMapAdd st.SectionMaterialMap SectionIndex MaterialIndex
      else st.SectionMaterialMap,
    StaticMaterials :=
      if bNewMaterial then st.StaticMaterials ++ [StaticMaterial] else st.StaticMaterials }

/-- What `LoadStaticMesh_Internal` hands back to its caller: a pointer (`none` is
`nullptr`), or no return at all because an array was indexed out of its range (the
engine's range check stops the program). -/
inductive FOutcome where
  | Returned (StaticMesh : Option UObjectId)
  | Crashed
deriving DecidableEq, Repr

/-- One beam handed to the line effect: world-space ends, length and, when the
primitive has colours, the colours of the two ends. The rotation of the beam is a
function of the two ends and is not recorded. -/
structure FBeam (K : Type) where
  PositionStart : FVector K
  PositionEnd : FVector K
  Length : K
  Colors : Option (FColor × FColor)

/-- One instance added to the glyph `UInstancedStaticMeshComponent`: its transform and,
when the primitive has colours, the colour stored in its custom data. -/
structure FGlyphInstance (K : Type) where
  Transform : FTransform K
  Color : Option FColor

/-- The effects of the Lines and Points branches outside the static mesh. `bGlyphProxy`
records source lines 299-301 and 360: the context's mesh is replaced by the glyph proxy
mesh, `bFinalizeStaticMesh` is cleared and the caller's component is replaced.
`PointClouds` lists the `PointCount` of every `InjectPointcloudData` call. -/
structure FSideEffects (K : Type) where
  Beams : List (FBeam K) := []
  GlyphInstances : List (FGlyphInstance K) := []
  PointClouds : List Nat := []
  bGlyphProxy : Bool := false

/-- The beam loop of the `MODE_LINES` branch (source lines 211-254): one beam per pair of
indices. A beam is spawned and given its length (lines 229-233) before the colours of its
ends are read (lines 238-239); reading a colour past the end of `Colors` is an
out-of-range access, which stops the program with the beams spawned so far, the last of
them without colours. The result is the list of beams and whether the program has
stopped. -/
def LineBeams (Engine : FEngine K) (MeshTransform : FTransform K)
    (Primitive : FglTFRuntimePrimitive K) : List (FBeam K) × Bool :=
  (List.range (Primitive.Indices.length / 2)).foldl
    (fun (Acc : List (FBeam K) × Bool) LineIndex =>
      if Acc.2 then Acc
      else
        let VertexIndexStart := Primitive.Indices.getD (LineIndex * 2) 0
        let VertexIndexEnd := Primitive.Indices.getD (LineIndex * 2 + 1) 0
        let PositionStart := MeshTransform.TransformPosition
          (GetSafeValue Primitive.Positions VertexIndexStart FVector.ZeroVector false).1
        let PositionEnd := MeshTransform.TransformPosition
          (GetSafeValue Primitive.Positions VertexIndexEnd FVector.ZeroVector false).1
        let Diff := PositionEnd.sub PositionStart
        if Primitive.Colors.isEmpty then
          (Acc.1 ++ [⟨PositionStart, PositionEnd, Diff.Size Engine.Sqrt, none⟩], false)
        else
          match Primitive.Colors[LineIndex * 2]?, Primitive.Colors[LineIndex * 2 + 1]? with
          | some StartColor, some EndColor =>
            (Acc.1 ++ [⟨PositionStart, PositionEnd, Diff.Size Engine.Sqrt,
              some (Engine.ToFColor StartColor, Engine.ToFColor EndColor)⟩], false)
          | _, _ =>
            (Acc.1 ++ [⟨PositionStart, PositionEnd, Diff.Size Engine.Sqrt, none⟩], true))
    ([], false)

/-- The `MODE_LINES` branch (source lines 197-263): the beams of `LineBeams` when the line
effect can be loaded, then `return nullptr`, unless the beam loop stops the program at a
colour read. -/
def LinesBranch (Engine : FEngine K) (StaticMeshComponent : UStaticMeshComponent K)
    (Primitive : FglTFRuntimePrimitive K) : FOutcome × FSideEffects K :=
  let MeshTransform := StaticMeshComponent.ComponentTransform
  if Engine.bLineSystem then
    let Spawned := LineBeams Engine MeshTransform Primitive
    if Spawned.2 then (.Crashed, { Beams := Spawned.1 })
    else (.Returned none, { Beams := Spawned.1 })
  else (.Returned none, {})

/-- The glyph loop of the `MODE_POINTS` branch (source lines 311-359): one instance per
index, at the referenced position with uniform scale `GLYPHER_SCALING_FACTOR`. The
instance is added (`AddInstance`, line 332) before its colour is read (line 338); reading
a colour past the end of `Colors` is an out-of-range access, which stops the program with
the instances added so far, the last of them without custom data. The result is the list
of instances and whether the program has stopped. -/
def GlyphInstances (Engine : FEngine K) (Primitive : FglTFRuntimePrimitive K) :
    List (FGlyphInstance K) × Bool :=
  (List.range Primitive.Indices.length).foldl
    (fun (Acc : List (FGlyphInstance K) × Bool) PointIndex =>
      if Acc.2 then Acc
      else
        let VertexIndexStart := Primitive.Indices.getD PointIndex 0
        let Position :=
          (GetSafeValue Primitive.Positions VertexIndexStart FVector.ZeroVector false).1
        let Scale : K := GLYPHER_SCALING_FACTOR
        let Transform : FTransform K :=
          { Rotation := ⟨0, 0, 0, 1⟩, Translation := Position,
            Scale3D := (⟨1, 1, 1⟩ : FVector K).scale Scale }
        if Primitive.Colors.isEmpty then (Acc.1 ++ [⟨Transform, none⟩], false)
        else
          match Primitive.Colors[PointIndex]? with
          | some Color => (Acc.1 ++ [⟨Transform, some (Engine.ToFColor Color)⟩], false)
          | none => (Acc.1 ++ [⟨Transform, none⟩], true))
    ([], false)

/-- The result of one pass through the body of the primitive loop: go on with the next
primitive, or leave `LoadStaticMesh_Internal`. -/
inductive FPrimitiveStep (K : Type) where
  | Next (st : FPrimitiveLoopState K)
  | Return (st : FPrimitiveLoopState K) (Outcome : FOutcome) (Effects : FSideEffects K)

/-- The `MODE_POINTS` branch (source lines 265-426). More than 1000 points: `return
nullptr`. Otherwise `bGlyphers` is still true: the component's first parent is read
(`Parents[0]`, out of range when the component has no parent), the glyph proxy mesh
replaces the mesh, the instances are added and the proxy mesh is returned, unless the
glyph loop stops the program at a colour read. The particle texture path after the glyph
block is kept as the alternative of `bGlyphers`. -/
def PointsBranch (Engine : FEngine K) (StaticMeshComponent : UStaticMeshComponent K)
    (Primitive : FglTFRuntimePrimitive K) (st : FPrimitiveLoopState K) : FPrimitiveStep K :=
  let NumVertexInstancesPerSection := Primitive.Indices.length
  let bGlyphers := true
  if RESTRICT_POINTCLOUD_SIZE_FOR_TESTING_ON_LAPTOP && decide (NumVertexInstancesPerSection > 1000) then
    .Return st (.Returned none) {}
  else if bGlyphers then
    match StaticMeshComponent.Parents with
    | [] => .Return st .Crashed {}
    | _ :: _ =>
      let Added := GlyphInstances Engine Primitive
      if Added.2 then .Return st .Crashed { GlyphInstances := Added.1, bGlyphProxy := true }
      else
        .Return st (.Returned Engine.GlyphMesh) { GlyphInstances := Added.1, bGlyphProxy := true }
  else if Engine.bPointSystem then
    .Return st (.Returned none) { PointClouds := [NumVertexInstancesPerSection] }
  else .Next st

/-- The body of the loop over the primitives of a LOD (source lines 184-682). -/
def ProcessPrimitive (Engine : FEngine K) (StaticMeshConfig : FglTFRuntimeStaticMeshConfig K)
    (StaticMeshComponent : UStaticMeshComponent K) (LOD : FglTFRuntimeMeshLOD K)
    (CurrentLODIndex NumUVs : Nat) (bHasVertexColors : Bool) (st : FPrimitiveLoopState K)
    (Primitive : FglTFRuntimePrimitive K) : FPrimitiveStep K :=
  let MaterialName := "LOD_" ++ toString CurrentLODIndex ++ "_Section_" ++
    toString st.StaticMaterials.length ++ "_" ++ Primitive.MaterialName
  let StaticMaterial : FStaticMaterial := ⟨Primitive.Material, MaterialName⟩
  let st1 := { st with Sections := st.Sections ++ [{}] }
  if Primitive.Mode = MODE_LINES then
    let r := LinesBranch Engine StaticMeshComponent Primitive
    .Return st1 r.1 r.2
  else
    let Step := if Primitive.Mode = MODE_POINTS then
      PointsBranch Engine StaticMeshComponent Primitive st1 else .Next st1
    match Step with
    | .Return st2 Outcome Effects => .Return st2 Outcome Effects
    | .Next st2 =>
      if Primitive.Mode = MODE_TRIANGLES then
        .Next (TrianglesBranch Engine StaticMeshConfig LOD NumUVs bHasVertexColors Primitive
          StaticMaterial st2)
      else .Next st2

/-- The loop over the primitives of a LOD (source line 184), left early by a `return`
inside the body. -/
def PrimitiveLoop (Engine : FEngine K) (StaticMeshConfig : FglTFRuntimeStaticMeshConfig K)
    (StaticMeshComponent : UStaticMeshComponent K) (LOD : FglTFRuntimeMeshLOD K)
    (CurrentLODIndex NumUVs : Nat) (bHasVertexColors : Bool) :
    List (FglTFRuntimePrimitive K) → FPrimitiveLoopState K → FPrimitiveStep K
  | [], st => .Next st
  | Primitive :: Rest, st =>
    match ProcessPrimitive Engine StaticMeshConfig StaticMeshComponent LOD CurrentLODIndex
        NumUVs bHasVertexColors st Primitive with
    | .Return st1 Outcome Effects => .Return st1 Outcome Effects
    | .Next st1 =>
      PrimitiveLoop Engine StaticMeshConfig StaticMeshComponent LOD CurrentLODIndex NumUVs
        bHasVertexColors Rest st1

/-- Type `FglTFRuntimeStaticMeshContext`: the aggregate of one build. `LODs` holds the
pointed-to LODs by value; `LODResources` is `RenderData->LODResources`. -/
structure FglTFRuntimeStaticMeshContext (K : Type) [LinearOrderedField K] where
  StaticMeshConfig : FglTFRuntimeStaticMeshConfig K
  StaticMesh : Option UObjectId
  LODs : List (FglTFRuntimeMeshLOD K) := []
  StaticMaterials : List FStaticMaterial := []
  BoundingBoxAndSphere : FBoxSphereBounds K :=
    ⟨FVector.ZeroVector, FVector.ZeroVector, 0⟩
  LOD0PivotDelta : FVector K := FVector.ZeroVector
  AdditionalSockets : List (String × FTransform K) := []
  LODResources : List (FStaticMeshLODResources K) := []

/-- The first loop over the primitives of a LOD (source lines 155-168): the number of
UV channels (at least 1), the running `bHasVertexColors` flag and the number of vertex
instances of the LOD. -/
def LODPrepass (LOD : FglTFRuntimeMeshLOD K) (bHasVertexColors : Bool) : Nat × Bool × Nat :=
  LOD.Primitives.foldl
    (fun Acc Primitive =>
      (if Primitive.UVs.length > Acc.1 then Primitive.UVs.length else Acc.1,
       if Primitive.Colors.length > 0 then true else Acc.2.1,
       Acc.2.2 + Primitive.Indices.length))
    (1, bHasVertexColors, 0)

/-- The pivot delta of a LOD for a policy other than `Asset` (source lines 687-698). -/
def PivotDeltaOf (PivotPosition : EglTFRuntimePivotPosition) (BoundingBox : FBox K) :
    FVector K :=
  match PivotPosition with
  | .Center => BoundingBox.GetCenter
  | .Top => BoundingBox.GetCenter.add ⟨0, 0, BoundingBox.GetExtent.Z⟩
  | .Bottom => BoundingBox.GetCenter.sub ⟨0, 0, BoundingBox.GetExtent.Z⟩
  | .Asset => FVector.ZeroVector

/-- The sphere radius loop (source lines 718-726): the largest distance from `Origin`
to a vertex position, starting from 0. -/
def SphereRadiusOf (Engine : FEngine K) (Origin : FVector K)
    (Vertices : List (FStaticMeshBuildVertex K)) : K :=
  Vertices.foldl (fun Radius Vertex => max ((Vertex.Position.sub Origin).Size Engine.Sqrt) Radius) 0

/-- The end of the body of the LOD loop (source lines 684-743): pivot repositioning, the
bounds of LOD 0 and the buffers of the LOD. -/
def FinishLOD (Engine : FEngine K) (CurrentLODIndex NumUVs : Nat) (bHasVertexColors : Bool)
    (Context : FglTFRuntimeStaticMeshContext K) (st : FPrimitiveLoopState K) :
    FglTFRuntimeStaticMeshContext K :=
  let StaticMeshConfig := Context.StaticMeshConfig
  let bPivot := decide (StaticMeshConfig.PivotPosition ≠ .Asset)
  let PivotDelta : FVector K :=
    if bPivot then PivotDeltaOf StaticMeshConfig.PivotPosition st.BoundingBox
    else FVector.ZeroVector
  let Vertices :=
    if bPivot then
      st.StaticMeshBuildVertices.map
        (fun Vertex => { Vertex with Position := Vertex.Position.sub PivotDelta })
    else st.StaticMeshBuildVertices
  let LOD0PivotDelta :=
    if bPivot && CurrentLODIndex == 0 then PivotDelta else Context.LOD0PivotDelta
  let BoundingBoxAndSphere : FBoxSphereBounds K :=
    if CurrentLODIndex = 0 then
      let CenterAndExtents := st.BoundingBox.GetCenterAndExtents
      { Origin := CenterAndExtents.1.sub PivotDelta,
        BoxExtent := CenterAndExtents.2,
        SphereRadius := SphereRadiusOf Engine CenterAndExtents.1 Vertices }
    else Context.BoundingBoxAndSphere
  let LODResources : FStaticMeshLODResources K :=
    { Sections := st.Sections,
      Vertices := Vertices,
      NumTexCoords := NumUVs,
      bUseFullPrecisionUVs := st.bHighPrecisionUVs || StaticMeshConfig.bUseHighPrecisionUVs,
      bHasColorVertexData := bHasVertexColors,
      Indices := st.LODIndices,
      b32BitIndices := decide (Vertices.length > MAX_uint16) }
  { Context with
    StaticMaterials := st.StaticMaterials,
    LOD0PivotDelta := LOD0PivotDelta,
    BoundingBoxAndSphere := BoundingBoxAndSphere,
    LODResources := Context.LODResources.set CurrentLODIndex LODResources }

/-- The function-level state of `LoadStaticMesh_Internal` carried from one LOD to the
next. -/
structure FLODLoopState (K : Type) [LinearOrderedField K] where
  Context : FglTFRuntimeStaticMeshContext K
  bHasVertexColors : Bool
  SectionMaterialMap : List (Nat × Nat)
  LODIndex : Nat

/-- The result of `LoadStaticMesh_Internal`: what it hands back, the context as it left
it, the parser flag `bFinalizeStaticMesh` and the effects outside the mesh. -/
structure FBuildResult (K : Type) [LinearOrderedField K] where
  Outcome : FOutcome
  Context : FglTFRuntimeStaticMeshContext K
  bFinalizeStaticMesh : Bool
  Effects : FSideEffects K

/-- The loop state at the start of the primitive loop of a LOD (source lines 149-182). -/
def PrimitiveLoopStart (NumVertexInstancesPerLOD : Nat) (SectionMaterialMap : List (Nat × Nat))
    (StaticMaterials : List FStaticMaterial) : FPrimitiveLoopState K :=
  { Sections := [],
    LODIndices := [],
    StaticMeshBuildVertices :=
      List.replicate NumVertexInstancesPerLOD FStaticMeshBuildVertex.Default,
    BoundingBox := FBox.Init,
    bHighPrecisionUVs := false,
    VertexInstanceBaseIndex := 0,
    AdditionalTransformsPrimitiveIndex := 0,
    SectionMaterialMap := SectionMaterialMap,
    StaticMaterials := StaticMaterials }

/-- The loop over the LODs of the context (source lines 139-827). A `return` inside the
primitive loop ends the build with the sections and materials written so far. -/
def LODLoop (Engine : FEngine K) (StaticMeshComponent : UStaticMeshComponent K) :
    List (FglTFRuntimeMeshLOD K) → FLODLoopState K → FBuildResult K
  | [], s =>
    { Outcome := .Returned s.Context.StaticMesh, Context := s.Context,
      bFinalizeStaticMesh := true, Effects := {} }
  | LOD :: Rest, s =>
    let CurrentLODIndex := s.LODIndex
    let Pre := LODPrepass LOD s.bHasVertexColors
    let NumUVs := Pre.1
    let bHasVertexColors := Pre.2.1
    match PrimitiveLoop Engine s.Context.StaticMeshConfig StaticMeshComponent LOD CurrentLODIndex
        NumUVs bHasVertexColors LOD.Primitives
        (PrimitiveLoopStart Pre.2.2 s.SectionMaterialMap s.Context.StaticMaterials) with
    | .Return st Outcome Effects =>
      { Outcome := Outcome,
        Context :=
          { s.Context with
            StaticMesh := if Effects.bGlyphProxy then Engine.GlyphMesh else s.Context.StaticMesh,
            StaticMaterials := st.StaticMaterials,
            LODResources := s.Context.LODResources.set CurrentLODIndex
              { s.Context.LODResources.getD CurrentLODIndex {} with Sections := st.Sections } },
        bFinalizeStaticMesh := !Effects.bGlyphProxy,
        Effects := Effects }
    | .Next st =>
      LODLoop Engine StaticMeshComponent Rest
        { Context := FinishLOD Engine CurrentLODIndex NumUVs bHasVertexColors s.Context st,
          bHasVertexColors := bHasVertexColors,
          SectionMaterialMap := st.SectionMaterialMap,
          LODIndex := CurrentLODIndex + 1 }

/-- Source function `FglTFRuntimeParser::LoadStaticMesh_Internal(StaticMeshContext, StaticMeshComponent)`
(source lines 115-832). The delegates broadcast at entry and exit have no listener. -/
def LoadStaticMesh_Internal (Engine : FEngine K) (StaticMeshContext : FglTFRuntimeStaticMeshContext K)
    (StaticMeshComponent : UStaticMeshComponent K) : FBuildResult K :=
  LODLoop Engine StaticMeshComponent StaticMeshContext.LODs
    { Context :=
        { StaticMeshContext with
          LODResources := List.replicate StaticMeshContext.LODs.length {} },
      bHasVertexColors := false,
      SectionMaterialMap := [],
      LODIndex := 0 }

/-- The component `NewObject<UStaticMeshComponent>()` of source line 111: at the origin,
attached to nothing. -/
def DummyComponent : UStaticMeshComponent K := ⟨FTransform.Identity, []⟩

/-- Source function `FglTFRuntimeParser::LoadStaticMesh_Internal(StaticMeshContext)` (source lines
110-113): the build with a fresh dummy component. -/
def LoadStaticMesh_Internal_Dummy (Engine : FEngine K)
    (StaticMeshContext : FglTFRuntimeStaticMeshContext K) : FBuildResult K :=
  LoadStaticMesh_Internal Engine StaticMeshContext DummyComponent

end Builder

/-! ## The parser: caches and entry points -/

/-- Engine constant `INDEX_NONE`. -/
def INDEX_NONE : Int := -1

/-- Type `FglTFRuntimeNode`, reduced to the fields this file reads. -/
structure FglTFRuntimeNode (K : Type) where
  Index : Int
  Name : String
  Transform : FTransform K
  ParentIndex : Int
  MeshIndex : Int

/-- The parsed document and the decoders of the parser that live outside this file, as
the entry points call them. A JSON mesh object is named by its identity.
`GetMeshObject i` is `GetJsonObjectFromRootIndex("meshes", i)`; `LoadPrimitives` decodes
the primitives of a mesh object; `LoadScene0` gives the root node indices of scene 0;
`LoadNodesRecursive i Nodes` appends the subtree of node `i` to `Nodes`. A result
`none` is the failure of the call (a null object, or `false`). -/
structure FAsset (K : Type) where
  GetMeshObject : Int → Option Nat
  LoadPrimitives : Nat → Option (List (FglTFRuntimePrimitive K))
  LoadScene0 : Option (List Int)
  LoadNodesRecursive : Int → List (FglTFRuntimeNode K) → Option (List (FglTFRuntimeNode K))
  LoadNodeByName : String → Option (FglTFRuntimeNode K)
  LoadNode : Int → Option (FglTFRuntimeNode K)

/-- What an entry point does that a caller or the engine can observe, in order. -/
inductive FEvent where
  | Build
  | Finalize (StaticMesh : UObjectId)
  | CacheWrite (MeshIndex : Int) (StaticMesh : UObjectId)
  | Callback (StaticMesh : Option UObjectId)
  | Error (Message : String)
  | Crash
  | Hang
deriving DecidableEq, Repr

/-- The mutable state of `FglTFRuntimeParser` that this file touches: the mesh cache,
the LOD cache and the flag `bFinalizeStaticMesh`; with it the number of engine objects
created so far (`NewObject` hands out the next identity) and the log of events. -/
structure FglTFRuntimeParser (K : Type) where
  StaticMeshesCache : List (Int × UObjectId)
  LODsCache : List (Nat × FglTFRuntimeMeshLOD K)
  bFinalizeStaticMesh : Bool
  NumObjects : Nat
  Log : List FEvent

/-- Modelled from the spec: the constructor of the parser is outside this file; the spec
has the mesh cache answer no index immediately after construction, and both caches are
default-constructed maps. -/
def FglTFRuntimeParser.New {K : Type} : FglTFRuntimeParser K :=
  { StaticMeshesCache := [], LODsCache := [], bFinalizeStaticMesh := true,
    NumObjects := 0, Log := [] }

section Parser

variable {K : Type} [LinearOrderedField K]

/-- Append an event to the log of the parser. -/
def FglTFRuntimeParser.Emit (Parser : FglTFRuntimeParser K) (Event : FEvent) :
    FglTFRuntimeParser K :=
  { Parser with Log := Parser.Log ++ [Event] }

/-- The constructor of `FglTFRuntimeStaticMeshContext` (source lines 28-59): the context
starts with a new `UStaticMesh` object and empty render data. -/
def MakeContext (Parser : FglTFRuntimeParser K) (StaticMeshConfig : FglTFRuntimeStaticMeshConfig K) :
    FglTFRuntimeStaticMeshContext K × FglTFRuntimeParser K :=
  ({ StaticMeshConfig := StaticMeshConfig, StaticMesh := some Parser.NumObjects },
   { Parser with NumObjects := Parser.NumObjects + 1 })

/-- Source function `FglTFRuntimeParser::LoadMeshIntoMeshLOD` (source lines 1109-1129). -/
def LoadMeshIntoMeshLOD (Asset : FAsset K) (Parser : FglTFRuntimeParser K) (JsonMeshObject : Nat) :
    Option (FglTFRuntimeMeshLOD K) × FglTFRuntimeParser K :=
  if TMapContains Parser.LODsCache JsonMeshObject then
    (TMapFind Parser.LODsCache JsonMeshObject, Parser)
  else
    match Asset.LoadPrimitives JsonMeshObject with
    | none => (none, Parser)
    | some Primitives =>
      let NewLOD : FglTFRuntimeMeshLOD K := { Primitives := Primitives }
      (some NewLOD, { Parser with LODsCache := TMapAdd Parser.LODsCache JsonMeshObject NewLOD })

/-- A call of `LoadStaticMesh_Internal` from an entry point: the build is logged, the
parser flag `bFinalizeStaticMesh` takes the value the build leaves, and the result is
the pointer handed back with the context as the build left it; `none` when the build
does not return. -/
def RunBuild (Engine : FEngine K) (Parser : FglTFRuntimeParser K)
    (StaticMeshContext : FglTFRuntimeStaticMeshContext K)
    (StaticMeshComponent : UStaticMeshComponent K) :
    Option (Option UObjectId × FglTFRuntimeStaticMeshContext K) × FglTFRuntimeParser K :=
  let Result := LoadStaticMesh_Internal Engine StaticMeshContext StaticMeshComponent
  let Parser1 :=
    { Parser.Emit .Build with bFinalizeStaticMesh := Result.bFinalizeStaticMesh }
  match Result.Outcome with
  | .Returned StaticMesh => (some (StaticMesh, Result.Context), Parser1)
  | .Crashed => (none, Parser1.Emit .Crash)

/-- Source function `FglTFRuntimeParser::FinalizeStaticMesh` (source lines 929-1085) as the entry points
see it: the mesh of the context is post-processed in place and handed back. Only the
call is recorded here. The function reads through the mesh pointer of the context
without a check, so a context without a mesh stops the program. -/
def FinalizeStaticMesh (Parser : FglTFRuntimeParser K)
    (StaticMeshContext : FglTFRuntimeStaticMeshContext K) :
    FOutcome × FglTFRuntimeParser K :=
  match StaticMeshContext.StaticMesh with
  | some StaticMesh => (.Returned (some StaticMesh), Parser.Emit (.Finalize StaticMesh))
  | none => (.Crashed, Parser.Emit .Crash)

/-- Engine call `AsyncCallback.ExecuteIfBound(StaticMesh)`. -/
def ExecuteIfBound (bBound : Bool) (StaticMesh : Option UObjectId)
    (Parser : FglTFRuntimeParser K) : FglTFRuntimeParser K :=
  if bBound then Parser.Emit (.Callback StaticMesh) else Parser

/-- Source function `FglTFRuntimeParser::LoadStaticMesh` (source lines 1131-1171). -/
def LoadStaticMesh (Engine : FEngine K) (Asset : FAsset K) (Parser : FglTFRuntimeParser K)
    (MeshIndex : Int) (StaticMeshConfig : FglTFRuntimeStaticMeshConfig K) :
    FOutcome × FglTFRuntimeParser K :=
  match Asset.GetMeshObject MeshIndex with
  | none => (.Returned none, Parser)
  | some JsonMeshObject =>
    if CanReadFromCache StaticMeshConfig.CacheMode &&
        TMapContains Parser.StaticMeshesCache MeshIndex then
      (.Returned (TMapFind Parser.StaticMeshesCache MeshIndex), Parser)
    else
      let (StaticMeshContext, Parser1) := MakeContext Parser StaticMeshConfig
      match LoadMeshIntoMeshLOD Asset Parser1 JsonMeshObject with
      | (none, Parser2) => (.Returned none, Parser2)
      | (some LOD, Parser2) =>
        let StaticMeshContext1 :=
          { StaticMeshContext with LODs := StaticMeshContext.LODs ++ [LOD] }
        match RunBuild Engine Parser2 StaticMeshContext1 DummyComponent with
        | (none, Parser3) => (.Crashed, Parser3)
        | (some (none, _), Parser3) => (.Returned none, Parser3)
        | (some (some _, StaticMeshContext2), Parser3) =>
          match FinalizeStaticMesh Parser3 StaticMeshContext2 with
          | (.Crashed, Parser4) => (.Crashed, Parser4)
          | (.Returned none, Parser4) => (.Returned none, Parser4)
          | (.Returned (some StaticMesh), Parser4) =>
            if CanWriteToCache StaticMeshConfig.CacheMode then
              (.Returned (some StaticMesh),
               { Parser4.Emit (.CacheWrite MeshIndex StaticMesh) with
                 StaticMeshesCache := TMapAdd Parser4.StaticMeshesCache MeshIndex StaticMesh })
            else (.Returned (some StaticMesh), Parser4)

/-- The body of the worker thread of `LoadStaticMeshAsync` before the game-thread task
(source lines 76-87): the context after the decode and the build. The context keeps the
mesh its constructor created unless the build ran, in which case it holds what the build
handed back. `none`: the build did not return. -/
def LoadStaticMeshAsync_Worker (Engine : FEngine K) (Asset : FAsset K)
    (Parser : FglTFRuntimeParser K) (StaticMeshContext : FglTFRuntimeStaticMeshContext K)
    (MeshIndex : Int) : Option (FglTFRuntimeStaticMeshContext K) × FglTFRuntimeParser K :=
  match Asset.GetMeshObject MeshIndex with
  | none => (some StaticMeshContext, Parser)
  | some JsonMeshObject =>
    match LoadMeshIntoMeshLOD Asset Parser JsonMeshObject with
    | (none, Parser1) => (some StaticMeshContext, Parser1)
    | (some LOD, Parser1) =>
      let StaticMeshContext1 :=
        { StaticMeshContext with LODs := StaticMeshContext.LODs ++ [LOD] }
      match RunBuild Engine Parser1 StaticMeshContext1 DummyComponent with
      | (none, Parser2) => (none, Parser2)
      | (some (StaticMesh, StaticMeshContext2), Parser2) =>
        (some { StaticMeshContext2 with StaticMesh := StaticMesh }, Parser2)

/-- Source function `FglTFRuntimeParser::LoadStaticMeshAsync` (source lines 62-108). The worker thread
and the game-thread task it waits for run to completion one after the other; requests
do not interleave. `bBound` tells whether the callback delegate is bound. -/
def LoadStaticMeshAsync (Engine : FEngine K) (Asset : FAsset K) (Parser : FglTFRuntimeParser K)
    (MeshIndex : Int) (bBound : Bool) (StaticMeshConfig : FglTFRuntimeStaticMeshConfig K) :
    FglTFRuntimeParser K :=
  if CanReadFromCache StaticMeshConfig.CacheMode &&
      TMapContains Parser.StaticMeshesCache MeshIndex then
    ExecuteIfBound bBound (TMapFind Parser.StaticMeshesCache MeshIndex) Parser
  else
    let (StaticMeshContext, Parser1) := MakeContext Parser StaticMeshConfig
    match LoadStaticMeshAsync_Worker Engine Asset Parser1 StaticMeshContext MeshIndex with
    | (none, Parser2) => Parser2
    | (some StaticMeshContext1, Parser2) =>
      if StaticMeshContext1.StaticMesh.isSome then
        match FinalizeStaticMesh Parser2 StaticMeshContext1 with
        | (.Crashed, Parser3) => Parser3
        | (.Returned none, Parser3) => ExecuteIfBound bBound none Parser3
        | (.Returned (some StaticMesh), Parser3) =>
          if CanWriteToCache StaticMeshContext1.StaticMeshConfig.CacheMode then
            ExecuteIfBound bBound (some StaticMesh)
              { Parser3.Emit (.CacheWrite MeshIndex StaticMesh) with
                StaticMeshesCache := TMapAdd Parser3.StaticMeshesCache MeshIndex StaticMesh }
          else ExecuteIfBound bBound (some StaticMesh) Parser3
      else ExecuteIfBound bBound none Parser2

/-- The game-thread task of `LoadStaticMeshLODsAsync`, `LoadStaticMeshRecursiveAsync` and
`LoadStaticMeshFromRuntimeLODsAsync` (source lines 1286-1294, 1577-1585, 1639-1647):
finalize when the context holds a mesh, then run the callback. -/
def CompletionTask (Parser : FglTFRuntimeParser K)
    (StaticMeshContext : FglTFRuntimeStaticMeshContext K) (bBound : Bool) :
    FglTFRuntimeParser K :=
  if StaticMeshContext.StaticMesh.isSome then
    match FinalizeStaticMesh Parser StaticMeshContext with
    | (.Crashed, Parser1) => Parser1
    | (.Returned StaticMesh, Parser1) => ExecuteIfBound bBound StaticMesh Parser1
  else ExecuteIfBound bBound none Parser

/-- The loop over the mesh indices of `LoadStaticMeshLODs` and `LoadStaticMeshLODsAsync`
(source lines 1221-1237 and 1261-1279): the LODs decoded up to the first failure, and
whether every index succeeded. -/
def LoadLODs (Asset : FAsset K) :
    List Int → FglTFRuntimeParser K → List (FglTFRuntimeMeshLOD K) →
    Bool × List (FglTFRuntimeMeshLOD K) × FglTFRuntimeParser K
  | [], Parser, LODs => (true, LODs, Parser)
  | MeshIndex :: Rest, Parser, LODs =>
    match Asset.GetMeshObject MeshIndex with
    | none => (false, LODs, Parser)
    | some JsonMeshObject =>
      match LoadMeshIntoMeshLOD Asset Parser JsonMeshObject with
      | (none, Parser1) => (false, LODs, Parser1)
      | (some LOD, Parser1) => LoadLODs Asset Rest Parser1 (LODs ++ [LOD])

/-- Source function `FglTFRuntimeParser::LoadStaticMeshLODs` (source lines 1216-1252). -/
def LoadStaticMeshLODs (Engine : FEngine K) (Asset : FAsset K) (Parser : FglTFRuntimeParser K)
    (MeshIndices : List Int) (StaticMeshConfig : FglTFRuntimeStaticMeshConfig K)
    (StaticMeshComponent : UStaticMeshComponent K) : FOutcome × FglTFRuntimeParser K :=
  let (StaticMeshContext, Parser1) := MakeContext Parser StaticMeshConfig
  match LoadLODs Asset MeshIndices Parser1 StaticMeshContext.LODs with
  | (false, _, Parser2) => (.Returned none, Parser2)
  | (true, LODs, Parser2) =>
    match RunBuild Engine Parser2 { StaticMeshContext with LODs := LODs } StaticMeshComponent with
    | (none, Parser3) => (.Crashed, Parser3)
    | (some (none, _), Parser3) => (.Returned none, Parser3)
    | (some (some StaticMesh, StaticMeshContext1), Parser3) =>
      if Parser3.bFinalizeStaticMesh then FinalizeStaticMesh Parser3 StaticMeshContext1
      else (.Returned (some StaticMesh), Parser3)

/-- Source function `FglTFRuntimeParser::LoadStaticMeshLODsAsync` (source lines 1254-1297), run to
completion as `LoadStaticMeshAsync` is. -/
def LoadStaticMeshLODsAsync (Engine : FEngine K) (Asset : FAsset K)
    (Parser : FglTFRuntimeParser K) (MeshIndices : List Int) (bBound : Bool)
    (StaticMeshConfig : FglTFRuntimeStaticMeshConfig K) : FglTFRuntimeParser K :=
  let (StaticMeshContext, Parser1) := MakeContext Parser StaticMeshConfig
  match LoadLODs Asset MeshIndices Parser1 StaticMeshContext.LODs with
  | (false, LODs, Parser2) => CompletionTask Parser2 { StaticMeshContext with LODs := LODs } bBound
  | (true, LODs, Parser2) =>
    match RunBuild Engine Parser2 { StaticMeshContext with LODs := LODs } DummyComponent with
    | (none, Parser3) => Parser3
    | (some (StaticMesh, StaticMeshContext1), Parser3) =>
      CompletionTask Parser3 { StaticMeshContext1 with StaticMesh := StaticMesh } bBound

/-- Parser call `AddError(Context, Message)`: the error is recorded. -/
def AddError (Parser : FglTFRuntimeParser K) (Context Message : String) : FglTFRuntimeParser K :=
  Parser.Emit (.Error (Context ++ ": " ++ Message))

/-- The node list of `LoadStaticMeshRecursive` and `LoadStaticMeshRecursiveAsync` (source
lines 1385-1419 and 1490-1524): the node tree of scene 0 when `NodeName` is empty, the
subtree of the named node otherwise; `none` with an error recorded when a lookup fails. -/
def LoadNodeTree (Asset : FAsset K) (Parser : FglTFRuntimeParser K) (NodeName : String) :
    Option (List (FglTFRuntimeNode K)) × FglTFRuntimeParser K :=
  if NodeName.isEmpty then
    match Asset.LoadScene0 with
    | none => (none, AddError Parser "LoadStaticMeshRecursive()" "No Scene found in asset")
    | some RootNodesIndices =>
      match RootNodesIndices.foldl
          (fun (Nodes : Option (List (FglTFRuntimeNode K))) NodeIndex =>
            match Nodes with
            | none => none
            | some Nodes => Asset.LoadNodesRecursive NodeIndex Nodes)
          (some []) with
      | none =>
        (none, AddError Parser "LoadStaticMeshRecursive()"
          "Unable to build Node Tree from first Scene")
      | some Nodes => (some Nodes, Parser)
  else
    match Asset.LoadNodeByName NodeName with
    | none =>
      (none, AddError Parser "LoadStaticMeshRecursive()"
        ("Unable to find Node " ++ NodeName.quote))
    | some Node =>
      match Asset.LoadNodesRecursive Node.Index [] with
      | none =>
        (none, AddError Parser "LoadStaticMeshRecursive()"
          ("Unable to build Node Tree from " ++ NodeName.quote))
      | some Nodes => (some Nodes, Parser)

/-- How the walk over the nodes ends: with the combined LOD and the sockets, with a
failed lookup, or not at all (the parent chain of a node does not end within the fuel). -/
inductive FCombine (K : Type) where
  | Done (CombinedLOD : FglTFRuntimeMeshLOD K)
      (AdditionalSockets : List (String × FTransform K)) (Parser : FglTFRuntimeParser K)
  | Failed (Parser : FglTFRuntimeParser K)
  | OutOfFuel (Parser : FglTFRuntimeParser K)

/-- The loop `while (CurrentNode.ParentIndex != INDEX_NONE)` (source lines 1449-1456):
the transform of the node multiplied by those of its ancestors. The outer `none` means
that the fuel ran out, the inner one that `LoadNode` failed. -/
def ParentChain (Engine : FEngine K) (Asset : FAsset K) :
    Nat → FglTFRuntimeNode K → FTransform K → Option (Option (FTransform K))
  | 0, _, _ => none
  | Fuel + 1, CurrentNode, AdditionalTransform =>
    if CurrentNode.ParentIndex ≠ INDEX_NONE then
      match Asset.LoadNode CurrentNode.ParentIndex with
      | none => some none
      | some Parent =>
        ParentChain Engine Asset Fuel Parent
          (Engine.TransformMultiply AdditionalTransform Parent.Transform)
    else some (some AdditionalTransform)

/-- The loop over the nodes (source lines 1425-1468 and 1528-1571): every primitive of
every node with a mesh, outside the excluded names, joins the combined LOD with the
transform of its node; a named node gives a socket. -/
def CombineNodes (Engine : FEngine K) (Asset : FAsset K) (ExcludeNodes : List String)
    (Fuel : Nat) :
    List (FglTFRuntimeNode K) → FglTFRuntimeMeshLOD K → List (String × FTransform K) →
    FglTFRuntimeParser K → FCombine K
  | [], CombinedLOD, AdditionalSockets, Parser => .Done CombinedLOD AdditionalSockets Parser
  | ChildNode :: Rest, CombinedLOD, AdditionalSockets, Parser =>
    if ExcludeNodes.contains ChildNode.Name then
      CombineNodes Engine Asset ExcludeNodes Fuel Rest CombinedLOD AdditionalSockets Parser
    else if ChildNode.MeshIndex ≠ INDEX_NONE then
      match Asset.GetMeshObject ChildNode.MeshIndex with
      | none => .Failed Parser
      | some JsonMeshObject =>
        match LoadMeshIntoMeshLOD Asset Parser JsonMeshObject with
        | (none, Parser1) => .Failed Parser1
        | (some LOD, Parser1) =>
          match ParentChain Engine Asset Fuel ChildNode ChildNode.Transform with
          | none => .OutOfFuel Parser1
          | some none => .Failed Parser1
          | some (some AdditionalTransform) =>
            let Added := LOD.Primitives.foldl
              (fun (Acc : FglTFRuntimeMeshLOD K × List (String × FTransform K)) Primitive =>
                ({ Primitives := Acc.1.Primitives ++ [Primitive],
                   AdditionalTransforms := Acc.1.AdditionalTransforms ++ [AdditionalTransform] },
                 if ChildNode.Name.isEmpty then Acc.2
                 else TMapAdd Acc.2 ChildNode.Name AdditionalTransform))
              (CombinedLOD, AdditionalSockets)
            CombineNodes Engine Asset ExcludeNodes Fuel Rest Added.1 Added.2 Parser1
    else CombineNodes Engine Asset ExcludeNodes Fuel Rest CombinedLOD AdditionalSockets Parser

/-- Source function `FglTFRuntimeParser::LoadStaticMeshRecursiveAsync` (source lines 1481-1588), run to
completion as `LoadStaticMeshAsync` is. Every `return` of the worker thread before the
game-thread task is dispatched ends the request there. -/
def LoadStaticMeshRecursiveAsync (Engine : FEngine K) (Asset : FAsset K)
    (Parser : FglTFRuntimeParser K) (Fuel : Nat) (NodeName : String)
    (ExcludeNodes : List String) (bBound : Bool)
    (StaticMeshConfig : FglTFRuntimeStaticMeshConfig K) : FglTFRuntimeParser K :=
  let (StaticMeshContext, Parser1) := MakeContext Parser StaticMeshConfig
  match LoadNodeTree Asset Parser1 NodeName with
  | (none, Parser2) => Parser2
  | (some Nodes, Parser2) =>
    match CombineNodes Engine Asset ExcludeNodes Fuel Nodes {} StaticMeshContext.AdditionalSockets
        Parser2 with
    | .Failed Parser3 => Parser3
    | .OutOfFuel Parser3 => Parser3.Emit .Hang
    | .Done CombinedLOD AdditionalSockets Parser3 =>
      match RunBuild Engine Parser3
          { StaticMeshContext with
            LODs := StaticMeshContext.LODs ++ [CombinedLOD],
            AdditionalSockets := AdditionalSockets } DummyComponent with
      | (none, Parser4) => Parser4
      | (some (StaticMesh, StaticMeshContext1), Parser4) =>
        CompletionTask Parser4 { StaticMeshContext1 with StaticMesh := StaticMesh } bBound

/-- The number of times the completion callback ran, read off the log. -/
def CallbackCount (Log : List FEvent) : Nat :=
  (Log.filter (fun Event => match Event with | .Callback _ => true | _ => false)).length

/-- A sequence of `LoadStaticMesh` requests issued one after the other on one parser. -/
def LoadStaticMeshRequests (Engine : FEngine K) (Asset : FAsset K) :
    List (Int × FglTFRuntimeStaticMeshConfig K) → FglTFRuntimeParser K → FglTFRuntimeParser K
  | [], Parser => Parser
  | Request :: Rest, Parser =>
    LoadStaticMeshRequests Engine Asset Rest
      (LoadStaticMesh Engine Asset Parser Request.1 Request.2).2

end Parser

/-! ## Notions used to state the theorems -/

section Auxiliary

variable {K : Type} [LinearOrderedField K]

/-- The flat normal the normal generation loop computes for the triangle that starts at
slot `Start` of the array. -/
def TriangleNormal (Engine : FEngine K) (vs : List (FStaticMeshBuildVertex K)) (Start : Nat) :
    FVector K :=
  NormalFromCross Engine (vs.getD Start FStaticMeshBuildVertex.Default).Position
    (vs.getD (Start + 1) FStaticMeshBuildVertex.Default).Position
    (vs.getD (Start + 2) FStaticMeshBuildVertex.Default).Position

/-- The section-relative slot whose vertex ends up in slot `k` of a section after the
winding pass: with the reversal on, slots `3t+1` and `3t+2` exchange their vertices. -/
def WindingSource (bReverseWinding : Bool) (k : Nat) : Nat :=
  if bReverseWinding then
    if k % 3 = 1 then k + 1 else if k % 3 = 2 then k - 1 else k
  else k

/-- The vertices after the winding pass of `TrianglePasses` (source lines 545-555). -/
def Reversed (C : FglTFRuntimeStaticMeshConfig K) (Num Base : Nat)
    (vs : List (FStaticMeshBuildVertex K)) : List (FStaticMeshBuildVertex K) :=
  if C.bReverseWinding && Num % 3 == 0 then ReverseWinding Num Base vs else vs

/-- Every whole triangle below slot `Bound` carries its flat normal on its three slots. -/
def FlatBelow (Engine : FEngine K) (vs : List (FStaticMeshBuildVertex K)) (Bound : Nat) : Prop :=
  ∀ t j, 3 * t + 3 ≤ Bound → j < 3 →
    vs[3 * t + j]?.map (fun v => v.TangentZ) = some (TriangleNormal Engine vs (3 * t))

/-- The sum of the index counts of a list of primitives. -/
def TotalIndices (Primitives : List (FglTFRuntimePrimitive K)) : Nat :=
  (Primitives.map (fun p => p.Indices.length)).sum

end Auxiliary

/-! ## Sample inputs -/

/-- An engine over `ℚ` for concrete evaluations: the bitangent helpers are the cross
product (scaled by `W`), the other numeric primitives are only read on inputs where
their value does not matter. -/
def SampleEngine : FEngine ℚ where
  InvSqrt := fun _ => 1
  Sqrt := fun x => x
  ToFColor := fun _ => FColor.White
  ComputeTangentY := fun Normal TangentX => FVector.CrossProduct Normal TangentX
  ComputeTangentYWithW := fun Normal TangentX W => (FVector.CrossProduct Normal TangentX).scale W
  TransformMultiply := fun A _ => A
  GlyphMesh := some 1000
  bLineSystem := true
  bPointSystem := true

/-- A document without scenes, nodes or meshes: every lookup fails. -/
def EmptyAsset : FAsset ℚ where
  GetMeshObject := fun _ => none
  LoadPrimitives := fun _ => none
  LoadScene0 := none
  LoadNodesRecursive := fun _ _ => none
  LoadNodeByName := fun _ => none
  LoadNode := fun _ => none

/-- The triangle primitive of the spec's scenario: positions (0,0,0), (1,0,0), (0,1,0),
indices 0, 1, 2, nothing else. -/
def TrianglePrimitive : FglTFRuntimePrimitive ℚ :=
  { Positions := [⟨0, 0, 0⟩, ⟨1, 0, 0⟩, ⟨0, 1, 0⟩], Indices := [0, 1, 2] }

/-- A document with one mesh, index 0, holding `TrianglePrimitive`. -/
def TriangleAsset : FAsset ℚ where
  GetMeshObject := fun MeshIndex => if MeshIndex = 0 then some 0 else none
  LoadPrimitives := fun _ => some [TrianglePrimitive]
  LoadScene0 := none
  LoadNodesRecursive := fun _ _ => none
  LoadNodeByName := fun _ => none
  LoadNode := fun _ => none

/-- A document whose mesh 0 exists but whose primitives fail to decode. -/
def UndecodableAsset : FAsset ℚ where
  GetMeshObject := fun MeshIndex => if MeshIndex = 0 then some 0 else none
  LoadPrimitives := fun _ => none
  LoadScene0 := none
  LoadNodesRecursive := fun _ _ => none
  LoadNodeByName := fun _ => none
  LoadNode := fun _ => none

/-- A document whose node "Root" refers to mesh 3, which the document does not have. -/
def DanglingNodeAsset : FAsset ℚ where
  GetMeshObject := fun _ => none
  LoadPrimitives := fun _ => none
  LoadScene0 := none
  LoadNodesRecursive := fun _ Nodes => some (Nodes ++ [⟨0, "Root", FTransform.Identity, INDEX_NONE, 3⟩])
  LoadNodeByName := fun _ => some ⟨0, "Root", FTransform.Identity, INDEX_NONE, 3⟩
  LoadNode := fun _ => none

/-- An engine with the given inverse square root and square root; the bitangent helpers
are the cross product (scaled by `W`), every colour converts to white, the product of
two transforms is the first one. -/
def EngineOf {K : Type} [LinearOrderedField K] (InvSqrt Sqrt : K → K) : FEngine K where
  InvSqrt := InvSqrt
  Sqrt := Sqrt
  ToFColor := fun _ => FColor.White
  ComputeTangentY := fun Normal TangentX => FVector.CrossProduct Normal TangentX
  ComputeTangentYWithW := fun Normal TangentX W => (FVector.CrossProduct Normal TangentX).scale W
  TransformMultiply := fun A _ => A
  GlyphMesh := some 1000
  bLineSystem := true
  bPointSystem := true

/-- The context of the spec's scenario: default configuration, one LOD holding
`TrianglePrimitive`. -/
def TriangleContext : FglTFRuntimeStaticMeshContext ℚ :=
  { StaticMeshConfig := {}, StaticMesh := some 0, LODs := [{ Primitives := [TrianglePrimitive] }] }

/-- The LOD of `TriangleContext`. -/
def TriangleLOD : FglTFRuntimeMeshLOD ℚ := { Primitives := [TrianglePrimitive] }

/-- The loop state in which the primitive loop reaches the Triangles branch for the only
primitive of a LOD with three vertex instances: the section has been added. -/
def TriangleLoopState : FPrimitiveLoopState ℚ :=
  { (PrimitiveLoopStart 3 [] [] : FPrimitiveLoopState ℚ) with Sections := [{}] }

/-- The loop state at the start of the primitive loop of a LOD with three vertex
instances. -/
def TriangleLoopStart : FPrimitiveLoopState ℚ := PrimitiveLoopStart 3 [] []

/-- The primitive `TrianglePrimitive` with the source normal (0,0,1) on each of its three vertices. -/
def NormalsPrimitive : FglTFRuntimePrimitive ℚ :=
  { TrianglePrimitive with Normals := [⟨0, 0, 1⟩, ⟨0, 0, 1⟩, ⟨0, 0, 1⟩] }

/-- A LOD holding `NormalsPrimitive`, without additional transforms. -/
def NormalsLOD : FglTFRuntimeMeshLOD ℚ := { Primitives := [NormalsPrimitive] }

/-- A Triangles primitive with four indices: `TrianglePrimitive` with index 0 repeated. -/
def FourIndexPrimitive : FglTFRuntimePrimitive ℚ :=
  { TrianglePrimitive with Indices := [0, 1, 2, 0] }

/-- A context with one LOD holding `FourIndexPrimitive`, default configuration. -/
def FourIndexContext : FglTFRuntimeStaticMeshContext ℚ :=
  { StaticMeshConfig := {}, StaticMesh := some 0, LODs := [{ Primitives := [FourIndexPrimitive] }] }

/-- A context with the policy "always generate normals" and one LOD holding one
degenerate triangle: the three positions (0,0,0), (1,0,0), (2,0,0) lie on a line. -/
def DegenerateContext : FglTFRuntimeStaticMeshContext ℚ :=
  { StaticMeshConfig := { NormalsGenerationStrategy := .Always }, StaticMesh := some 0,
    LODs := [{ Primitives := [{ Positions := [⟨0, 0, 0⟩, ⟨1, 0, 0⟩, ⟨2, 0, 0⟩],
                                Indices := [0, 1, 2] }] }] }

/-- The LOD of `DoubleTriangleContext`: one triangle with the positions (0,0,0), (2,0,0),
(0,2,0). -/
def DoubleTriangleLOD (K : Type) [LinearOrderedField K] : FglTFRuntimeMeshLOD K :=
  { Primitives := [{ Positions := [⟨0, 0, 0⟩, ⟨2, 0, 0⟩, ⟨0, 2, 0⟩], Indices := [0, 1, 2] }] }

/-- A context with the policy "always generate normals" and the LOD `DoubleTriangleLOD`. -/
def DoubleTriangleContext (K : Type) [LinearOrderedField K] : FglTFRuntimeStaticMeshContext K :=
  { StaticMeshConfig := { NormalsGenerationStrategy := .Always }, StaticMesh := some 0,
    LODs := [DoubleTriangleLOD K] }

/-- A primitive with the material 7, not marked as explicit. -/
def InheritingPrimitive : FglTFRuntimePrimitive ℚ :=
  { TrianglePrimitive with Material := some 7 }

/-- A primitive with the explicit material 8. -/
def ExplicitPrimitive : FglTFRuntimePrimitive ℚ :=
  { TrianglePrimitive with Material := some 8, bHasMaterial := true }

/-- A primitive with the material 9, not marked as explicit. -/
def LaterInheritingPrimitive : FglTFRuntimePrimitive ℚ :=
  { TrianglePrimitive with Material := some 9 }

/-- Two LODs of one primitive each: the primitive of LOD 0 has no explicit material, the
primitive of LOD 1 has one. -/
def ExplicitLaterContext : FglTFRuntimeStaticMeshContext ℚ :=
  { StaticMeshConfig := {}, StaticMesh := some 0,
    LODs := [{ Primitives := [InheritingPrimitive] }, { Primitives := [ExplicitPrimitive] }] }

/-- Two LODs of one primitive each, neither with an explicit material. -/
def InheritingContext : FglTFRuntimeStaticMeshContext ℚ :=
  { StaticMeshConfig := {}, StaticMesh := some 0,
    LODs := [{ Primitives := [InheritingPrimitive] },
             { Primitives := [LaterInheritingPrimitive] }] }

/-- The loop state at the start of the primitive loop of LOD 1 of `ExplicitLaterContext`:
slot 0 is mapped to material index 0, the material of LOD 0. -/
def SecondLODLoopStart : FPrimitiveLoopState ℚ :=
  PrimitiveLoopStart 3 [(0, 0)] [⟨some 7, "LOD_0_Section_0_"⟩]

section Auxiliary2

variable {K : Type} [LinearOrderedField K]

/-- Some primitive of the LOD has a non-empty colours array. -/
def HasColors (LOD : FglTFRuntimeMeshLOD K) : Bool :=
  LOD.Primitives.any (fun p => decide (p.Colors.length > 0))

/-- Every primitive of every LOD of the list is in Triangles mode. -/
def AllTriangles (LODs : List (FglTFRuntimeMeshLOD K)) : Prop :=
  ∀ LOD ∈ LODs, ∀ p ∈ LOD.Primitives, p.Mode = MODE_TRIANGLES

end Auxiliary2

/-- The primitive `TrianglePrimitive` with a colour on each of its three vertices. -/
def ColoredPrimitive : FglTFRuntimePrimitive ℚ :=
  { TrianglePrimitive with Colors := [⟨1, 0, 0, 1⟩, ⟨0, 1, 0, 1⟩, ⟨0, 0, 1, 1⟩] }

/-- Two LODs of one primitive each: the primitive of LOD 0 has colours, the primitive of
LOD 1 has none. -/
def ColoredThenPlainContext : FglTFRuntimeStaticMeshContext ℚ :=
  { StaticMeshConfig := {}, StaticMesh := some 0,
    LODs := [{ Primitives := [ColoredPrimitive] }, { Primitives := [TrianglePrimitive] }] }

/-- The LODs of `ColoredThenPlainContext` in the other order. -/
def PlainThenColoredContext : FglTFRuntimeStaticMeshContext ℚ :=
  { StaticMeshConfig := {}, StaticMesh := some 0,
    LODs := [{ Primitives := [TrianglePrimitive] }, { Primitives := [ColoredPrimitive] }] }

/-- Engine `FTransform::TransformVector`: scale and rotate, without the translation. The
builder does not call it; it states what "rotation and scale, no translation" means. -/
def FTransform.TransformVector {K : Type} [LinearOrderedField K] (T : FTransform K)
    (V : FVector K) : FVector K :=
  T.Rotation.RotateVector (T.Scale3D.mul V)

/-- A transform that doubles every length: no rotation, no translation, scale (2,2,2). -/
def DoublingTransform : FTransform ℚ := ⟨⟨0, 0, 0, 1⟩, ⟨0, 0, 0⟩, ⟨2, 2, 2⟩⟩

/-- A LOD holding `NormalsPrimitive` with the additional transform `DoublingTransform`. -/
def DoubledLOD : FglTFRuntimeMeshLOD ℚ :=
  { Primitives := [NormalsPrimitive], AdditionalTransforms := [DoublingTransform] }

/-- A context with the default configuration and the LOD `DoubledLOD`. -/
def DoubledContext : FglTFRuntimeStaticMeshContext ℚ :=
  { StaticMeshConfig := {}, StaticMesh := some 0, LODs := [DoubledLOD] }

/-- The configuration that never generates normals or tangents and keeps the winding. -/
def NeverConfig : FglTFRuntimeStaticMeshConfig ℚ :=
  { NormalsGenerationStrategy := .Never, TangentsGenerationStrategy := .Never }

/-- A Triangles primitive whose arrays are shorter than its indices ask for: one
position, one normal, one tangent, one UV channel with one entry, and the indices 0, 5, 7. -/
def ShortArraysPrimitive : FglTFRuntimePrimitive ℚ :=
  { Positions := [⟨1, 2, 3⟩], Normals := [⟨0, 0, 1⟩], Tangents := [⟨1, 0, 0, -1⟩],
    UVs := [[⟨1 / 2, 1 / 4⟩]], Indices := [0, 5, 7] }

/-- A LOD holding `ShortArraysPrimitive`, without additional transforms. -/
def ShortArraysLOD : FglTFRuntimeMeshLOD ℚ := { Primitives := [ShortArraysPrimitive] }

/-- A context with the configuration `NeverConfig` and the LOD `ShortArraysLOD`. -/
def ShortArraysContext : FglTFRuntimeStaticMeshContext ℚ :=
  { StaticMeshConfig := NeverConfig, StaticMesh := some 0, LODs := [ShortArraysLOD] }

/-- The additional-transform step of the geometry generation loop (source lines 519-533),
applied to the vertex `V` that source lines 479-517 have filled: with the flag set, the
position goes through `TransformPosition` and the three tangent-space vectors through
`TransformVectorNoScale`; without it the vertex stays as it is. -/
def AdditionalTransformed {K : Type} [LinearOrderedField K] (bApplyAdditionalTransforms : Bool)
    (AdditionalTransform : FTransform K) (V : FStaticMeshBuildVertex K) :
    FStaticMeshBuildVertex K :=
  if bApplyAdditionalTransforms then
    { V with
      Position := AdditionalTransform.TransformPosition V.Position,
      TangentX := AdditionalTransform.TransformVectorNoScale V.TangentX,
      TangentY := AdditionalTransform.TransformVectorNoScale V.TangentY,
      TangentZ := AdditionalTransform.TransformVectorNoScale V.TangentZ }
  else V

section Auxiliary3

variable {K : Type} [LinearOrderedField K]

/-- The bounding box recomputed from a list of points: `FBox::Init()` followed by `+=`
of every point. -/
def BoxOf (Points : List (FVector K)) : FBox K := Points.foldl FBox.addPoint FBox.Init

/-- The interval from `lo` to `hi` is the hull of the numbers `xs`: it contains them all
and both its ends are among them. -/
def TightInterval (lo hi : K) (xs : List K) : Prop :=
  (∀ x ∈ xs, lo ≤ x ∧ x ≤ hi) ∧ lo ∈ xs ∧ hi ∈ xs

/-- The box is valid and is the hull of the points on each of the three axes. -/
def TightBox (B : FBox K) (Points : List (FVector K)) : Prop :=
  B.IsValid = true ∧
  TightInterval B.Min.X B.Max.X (Points.map (fun p => p.X)) ∧
  TightInterval B.Min.Y B.Max.Y (Points.map (fun p => p.Y)) ∧
  TightInterval B.Min.Z B.Max.Z (Points.map (fun p => p.Z))

end Auxiliary3

/-- A context with the pivot policy `Center` and one LOD holding `TrianglePrimitive`. -/
def CenteredContext : FglTFRuntimeStaticMeshContext ℚ :=
  { StaticMeshConfig := { PivotPosition := .Center }, StaticMesh := some 0,
    LODs := [TriangleLOD] }

/-- A context with the pivot policy `Center` and one LOD holding one triangle with the
positions (13,13,0), (-7,3,0), (3,-7,0): the centre of its bounding box is (3,3,0). -/
def OffCentreContext (K : Type) [LinearOrderedField K] : FglTFRuntimeStaticMeshContext K :=
  { StaticMeshConfig := { PivotPosition := .Center }, StaticMesh := some 0,
    LODs := [{ Primitives := [{ Positions := [⟨13, 13, 0⟩, ⟨-7, 3, 0⟩, ⟨3, -7, 0⟩],
                                Indices := [0, 1, 2] }] }] }

/-- A Points primitive with one point at (1,2,3). -/
def OnePointPrimitive : FglTFRuntimePrimitive ℚ :=
  { Positions := [⟨1, 2, 3⟩], Indices := [0], Mode := MODE_POINTS }

/-- A Points primitive that draws its only vertex twice and has one colour, the colour of
that vertex. -/
def RepeatedPointPrimitive : FglTFRuntimePrimitive ℚ :=
  { Positions := [⟨1, 2, 3⟩], Colors := [⟨1, 0, 0, 1⟩], Indices := [0, 0], Mode := MODE_POINTS }

/-- A context with the default configuration and one LOD holding `OnePointPrimitive`. -/
def OnePointContext : FglTFRuntimeStaticMeshContext ℚ :=
  { StaticMeshConfig := {}, StaticMesh := some 0, LODs := [{ Primitives := [OnePointPrimitive] }] }

/-- A context with the default configuration and one LOD holding
`RepeatedPointPrimitive`. -/
def RepeatedPointContext : FglTFRuntimeStaticMeshContext ℚ :=
  { StaticMeshConfig := {}, StaticMesh := some 0,
    LODs := [{ Primitives := [RepeatedPointPrimitive] }] }

/-- A component attached to the parent component 500. -/
def AttachedComponent : UStaticMeshComponent ℚ := ⟨FTransform.Identity, [500]⟩

/-! ## The finalizer: LOD screen sizes -/

/-- Engine constant `MAX_STATIC_MESH_LODS`: the number of entries of the array
`FStaticMeshRenderData::ScreenSize`, the most LODs a static mesh can have. -/
def MAX_STATIC_MESH_LODS : Nat := 8

section Finalizer

variable {K : Type} [LinearOrderedField K]

/-- The default screen sizes of `FinalizeStaticMesh` (source lines 951-958):
`DeltaScreenSize = (1.0f / NumLODs) / LODScreenSizeMultiplier`, then entry `LODIndex` of
the array gets the running `ScreenSize`, which starts at 1 and drops by the delta after
every LOD. `ScreenSize` is the array `RenderData->ScreenSize` as the loop finds it. -/
def DefaultScreenSizes (NumLODs : Nat) (LODScreenSizeMultiplier : K) (ScreenSize : List K) :
    List K :=
  let DeltaScreenSize : K := (1 / (NumLODs : K)) / LODScreenSizeMultiplier
  ((List.range NumLODs).foldl
    (fun (Acc : List K × K) LODIndex => (Acc.1.set LODIndex Acc.2, Acc.2 - DeltaScreenSize))
    (ScreenSize, 1)).1

/-- The override loop of `FinalizeStaticMesh` (source lines 960-968): every pair of the
configuration's `LODScreenSize` map whose key is a LOD index, `0 <= Key < NumLODs`,
overwrites the entry of that LOD. -/
def OverrideScreenSizes (NumLODs : Nat) (LODScreenSize : List (Int × K)) (ScreenSize : List K) :
    List K :=
  LODScreenSize.foldl
    (fun Acc Pair =>
      let CurrentLODIndex := Pair.1
      if CurrentLODIndex ≥ 0 ∧ CurrentLODIndex < (NumLODs : Int) then
        Acc.set CurrentLODIndex.toNat Pair.2
      else Acc)
    ScreenSize

/-- The screen sizes that `FinalizeStaticMesh` leaves in the render data (source lines
951-968), from the array as it was: the defaults, then the overrides. The number of LODs
is `RenderData->LODResources.Num()`. -/
def FinalizeScreenSizes (StaticMeshContext : FglTFRuntimeStaticMeshContext K)
    (ScreenSize : List K) : List K :=
  OverrideScreenSizes StaticMeshContext.LODResources.length
    StaticMeshContext.StaticMeshConfig.LODScreenSize
    (DefaultScreenSizes StaticMeshContext.LODResources.length
      StaticMeshContext.StaticMeshConfig.LODScreenSizeMultiplier ScreenSize)

end Finalizer

/-- A finalized context with three LODs, the default multiplier 2, an override for LOD 1
and two overrides whose keys are no LOD index. -/
def ThreeLODContext : FglTFRuntimeStaticMeshContext ℚ :=
  { StaticMeshConfig := { LODScreenSize := [(1, 3 / 4), (-1, 1 / 8), (3, 1 / 16)] },
    StaticMesh := some 0, LODResources := [{}, {}, {}] }

section PassAccess

variable {K : Type} [LinearOrderedField K]

/-- The slots of `StaticMeshBuildVertices` that one pass over the triangles of a section
indexes: for every `i` of `for (i = 0; i < Num; i += 3)`, the slots `Base + i + o` for
the offsets `o` that the body of the pass uses. -/
def PassSlots (Num Base : Nat) (Offsets : List Nat) : List Nat :=
  (TriangleStarts Num).flatMap (fun i => Offsets.map (fun o => Base + i + o))

/-- The slots of `StaticMeshBuildVertices` that the three passes after the geometry
generation index, pass by pass (source lines 545-678): the winding reversal indexes the
offsets 1 and 2 of every triangle (lines 549-553), the normal generation and the tangent
generation the offsets 0, 1 and 2 (lines 563-565 and 597-599). A pass whose guard fails
indexes nothing. The guards are those of `TrianglePasses`. -/
def TrianglePassesSlots (StaticMeshConfig : FglTFRuntimeStaticMeshConfig K)
    (Primitive : FglTFRuntimePrimitive K) (VertexInstanceBaseIndex : Nat)
    (Geometry : FGeometryState K) : List Nat :=
  let NumVertexInstancesPerSection := Primitive.Indices.length
  let bNormals := bCanGenerateNormals StaticMeshConfig Geometry.bMissingNormals &&
    NumVertexInstancesPerSection % 3 == 0
  let bMissingNormals := if bNormals then false else Geometry.bMissingNormals
  (if StaticMeshConfig.bReverseWinding && NumVertexInstancesPerSection % 3 == 0 then
      PassSlots NumVertexInstancesPerSection VertexInstanceBaseIndex [1, 2]
    else []) ++
  (if bNormals then PassSlots NumVertexInstancesPerSection VertexInstanceBaseIndex [0, 1, 2]
    else []) ++
  (if bCanGenerateTangents StaticMeshConfig Geometry.bMissingTangents && !bMissingNormals &&
      decide (Primitive.UVs.length > 0) && NumVertexInstancesPerSection % 3 == 0 then
      PassSlots NumVertexInstancesPerSection VertexInstanceBaseIndex [0, 1, 2]
    else [])

end PassAccess

/-- The loop state in which the primitive loop reaches the Triangles branch for the only
primitive of a LOD with four vertex instances: the section has been added. -/
def FourIndexLoopState : FPrimitiveLoopState ℚ :=
  { (PrimitiveLoopStart 4 [] [] : FPrimitiveLoopState ℚ) with Sections := [{}] }

section TangentPass

variable {K : Type} [LinearOrderedField K]

/-- The divisor of `Factor` in the body of the tangent generation loop (source lines
597-643), for the triangle that starts at slot `Base + i`:
`DeltaUV0.X * DeltaUV1.Y - DeltaUV0.Y * DeltaUV1.X` with `DeltaUV0 = UV1 - UV0` and
`DeltaUV1 = UV2 - UV0`, the UVs being channel 0 of the three corners. -/
def TangentDivisor (Base : Nat) (Vertices : List (FStaticMeshBuildVertex K)) (i : Nat) : K :=
  let StaticMeshVertex0 := Vertices.getD (Base + i) FStaticMeshBuildVertex.Default
  let StaticMeshVertex1 := Vertices.getD (Base + i + 1) FStaticMeshBuildVertex.Default
  let StaticMeshVertex2 := Vertices.getD (Base + i + 2) FStaticMeshBuildVertex.Default
  let UV0 := StaticMeshVertex0.UVs.getD 0 FVector2D.ZeroVector
  let UV1 := StaticMeshVertex1.UVs.getD 0 FVector2D.ZeroVector
  let UV2 := StaticMeshVertex2.UVs.getD 0 FVector2D.ZeroVector
  let DeltaUV0 : FVector2D K := ⟨UV1.X - UV0.X, UV1.Y - UV0.Y⟩
  let DeltaUV1 : FVector2D K := ⟨UV2.X - UV0.X, UV2.Y - UV0.Y⟩
  DeltaUV0.X * DeltaUV1.Y - DeltaUV0.Y * DeltaUV1.X

end TangentPass

/-- The primitive `NormalsPrimitive` with one UV channel that gives the three vertices
the same coordinates (1/2, 1/2); it has no tangents. -/
def EqualUVPrimitive : FglTFRuntimePrimitive ℚ :=
  { NormalsPrimitive with UVs := [[⟨1 / 2, 1 / 2⟩, ⟨1 / 2, 1 / 2⟩, ⟨1 / 2, 1 / 2⟩]] }

/-- A LOD holding `EqualUVPrimitive`, without additional transforms. -/
def EqualUVLOD : FglTFRuntimeMeshLOD ℚ := { Primitives := [EqualUVPrimitive] }

/-- A primitive in triangle-strip mode (glTF mode 5), which the builder gives a section
and nothing else: the positions of `TrianglePrimitive` with the indices 0, 1, 2. -/
def StripPrimitive : FglTFRuntimePrimitive ℚ :=
  { TrianglePrimitive with Mode := 5 }

/-- A transform that moves every point by (10,0,0): no rotation, scale (1,1,1). -/
def ShiftTransform : FTransform ℚ := ⟨⟨0, 0, 0, 1⟩, ⟨10, 0, 0⟩, ⟨1, 1, 1⟩⟩

/-- A combined LOD of two primitives with one additional transform each: a triangle
strip that goes with `ShiftTransform`, then `TrianglePrimitive`, which goes with the
identity. -/
def StripThenTrianglesLOD : FglTFRuntimeMeshLOD ℚ :=
  { Primitives := [StripPrimitive, TrianglePrimitive],
    AdditionalTransforms := [ShiftTransform, FTransform.Identity] }

/-- A context with the default configuration and the LOD `StripThenTrianglesLOD`. -/
def StripThenTrianglesContext : FglTFRuntimeStaticMeshContext ℚ :=
  { StaticMeshConfig := {}, StaticMesh := some 0, LODs := [StripThenTrianglesLOD] }

/-! ## The point-cloud texture -/

/-- Source function `FglTFRuntimeParser::InjectPointcloudData` (source lines 836-910),
reduced to the texture size it computes (lines 840-843): `TextureWidth` and
`TextureHeight`. Lines 840-841 are calls of the floating-point library
(`UKismetMathLibrary::Sqrt`, `log`, `ceil`, `pow`), which this file does not define and
whose rounding depends on the platform: `CeilLog2Sqrt PointCount` stands for the value
that `ceil(log(SqrtPointCount) / log(2))` takes for the point count, a whole number that
is not negative for a positive count, and `pow(2, e)` for such a value is the power of
two. Line 843 is integer arithmetic. The integers are unbounded; the `int32` product
`SqrtNextPow2 * SqrtNextPow2` of the source stays in range for exponents up to 15. -/
def InjectPointcloudData (CeilLog2Sqrt : Nat → Nat) (PointCount : Nat) : Nat × Nat :=
  let SqrtNextPow2 := 2 ^ CeilLog2Sqrt PointCount
  let TextureWidth := SqrtNextPow2
  let TextureHeight :=
    if SqrtNextPow2 * SqrtNextPow2 / 2 > PointCount then SqrtNextPow2 / 2 else SqrtNextPow2
  (TextureWidth, TextureHeight)

/-- The value of `ceil(log(sqrt(PointCount)) / log(2))` in exact arithmetic: the least
exponent `e` with `sqrt(PointCount) <= 2^e`, that is with `PointCount <= 4^e`. Theorem
`ExactCeilLog2Sqrt_real` compares it with the expression over the real numbers. -/
def ExactCeilLog2Sqrt (PointCount : Nat) : Nat := Nat.clog 4 PointCount

/-! ## The finalizer: sockets -/

/-- Engine type `UStaticMeshSocket`, reduced to the fields the finalizer writes. The
rotation is kept as the quaternion of the transform it is read from (the engine stores
it as a rotator). -/
structure UStaticMeshSocket (K : Type) where
  SocketName : String
  RelativeLocation : FVector K
  RelativeRotation : FQuat K
  RelativeScale : FVector K
deriving DecidableEq, Repr

section Sockets

variable {K : Type} [LinearOrderedField K]

/-- A socket as `NewObject<UStaticMeshSocket>` leaves it: no name, at the origin, not
rotated, scale (1,1,1). -/
def UStaticMeshSocket.New : UStaticMeshSocket K :=
  { SocketName := "", RelativeLocation := FVector.ZeroVector, RelativeRotation := ⟨0, 0, 0, 1⟩,
    RelativeScale := ⟨1, 1, 1⟩ }

/-- The socket made from a pair of a name and a transform (source lines 1042-1046 and
1057-1061): the name, and the location, rotation and scale of the transform. -/
def SocketOfPair (Pair : String × FTransform K) : UStaticMeshSocket K :=
  { (UStaticMeshSocket.New : UStaticMeshSocket K) with
    SocketName := Pair.1,
    RelativeLocation := Pair.2.Translation,
    RelativeRotation := Pair.2.Rotation,
    RelativeScale := Pair.2.Scale3D }

/-- The sockets of `FinalizeStaticMesh` (source lines 1040-1071). `Sockets` is the socket
list of the mesh before the call; `AddSocket` appends the new socket to it. First loop:
one socket per pair of the configuration's `Sockets`. Second loop: one socket per pair
of the context's `AdditionalSockets`, unless the configuration's `Sockets` contain the
name. Last: when `ExportOriginalPivotToSocket` is not empty, a socket of that name at
`-LOD0PivotDelta`. Both maps are keyed by `FString`, so `Contains` compares the names
without regard to case. -/
def FinalizeSockets (StaticMeshContext : FglTFRuntimeStaticMeshContext K)
    (Sockets : List (UStaticMeshSocket K)) : List (UStaticMeshSocket K) :=
  let StaticMeshConfig := StaticMeshContext.StaticMeshConfig
  let Sockets1 := StaticMeshConfig.Sockets.foldl
    (fun Acc Pair => Acc ++ [SocketOfPair Pair]) Sockets
  let Sockets2 := StaticMeshContext.AdditionalSockets.foldl
    (fun Acc Pair =>
      if TMapContainsFString StaticMeshConfig.Sockets Pair.1 then Acc
      else Acc ++ [SocketOfPair Pair])
    Sockets1
  if !StaticMeshConfig.ExportOriginalPivotToSocket.isEmpty then
    Sockets2 ++
      [{ (UStaticMeshSocket.New : UStaticMeshSocket K) with
         SocketName := StaticMeshConfig.ExportOriginalPivotToSocket,
         RelativeLocation := StaticMeshContext.LOD0PivotDelta.neg }]
  else Sockets2

end Sockets

/-- A finalized context with the explicit sockets "Muzzle" and "Grip", the
builder-discovered sockets "Grip" and "Barrel", the export name "Origin" and the LOD-0
pivot delta (1,2,3). -/
def SocketsContext : FglTFRuntimeStaticMeshContext ℚ :=
  { StaticMeshConfig :=
      { Sockets := [("Muzzle", ⟨⟨0, 0, 0, 1⟩, ⟨5, 0, 0⟩, ⟨1, 1, 1⟩⟩),
                    ("Grip", FTransform.Identity)],
        ExportOriginalPivotToSocket := "Origin" },
    StaticMesh := some 0,
    LOD0PivotDelta := ⟨1, 2, 3⟩,
    AdditionalSockets := [("Grip", ⟨⟨0, 0, 0, 1⟩, ⟨0, 7, 0⟩, ⟨1, 1, 1⟩⟩),
                          ("Barrel", ⟨⟨0, 0, 0, 1⟩, ⟨0, 0, 9⟩, ⟨2, 2, 2⟩⟩)] }

/-- A finalized context with the explicit socket "Grip" and the builder-discovered
sockets "grip" and "Barrel". -/
def CaseClashContext : FglTFRuntimeStaticMeshContext ℚ :=
  { StaticMeshConfig := { Sockets := [("Grip", FTransform.Identity)] },
    StaticMesh := some 0,
    AdditionalSockets := [("grip", ⟨⟨0, 0, 0, 1⟩, ⟨0, 7, 0⟩, ⟨1, 1, 1⟩⟩),
                          ("Barrel", ⟨⟨0, 0, 0, 1⟩, ⟨0, 0, 9⟩, ⟨2, 2, 2⟩⟩)] }

/-- A finalized context whose export name "Pivot" is also the name of its only explicit
socket. -/
def ExplicitClashContext : FglTFRuntimeStaticMeshContext ℚ :=
  { StaticMeshConfig :=
      { Sockets := [("Pivot", FTransform.Identity)], ExportOriginalPivotToSocket := "Pivot" },
    StaticMesh := some 0 }

/-- A finalized context whose export name "Wheel" is also the name of its only
builder-discovered socket. -/
def DiscoveredClashContext : FglTFRuntimeStaticMeshContext ℚ :=
  { StaticMeshConfig := { ExportOriginalPivotToSocket := "Wheel" },
    StaticMesh := some 0,
    AdditionalSockets := [("Wheel", FTransform.Identity)] }

/-- A document with one mesh, index 0, holding `OnePointPrimitive`. -/
def OnePointAsset : FAsset ℚ where
  GetMeshObject := fun MeshIndex => if MeshIndex = 0 then some 0 else none
  LoadPrimitives := fun _ => some [OnePointPrimitive]
  LoadScene0 := none
  LoadNodesRecursive := fun _ _ => none
  LoadNodeByName := fun _ => none
  LoadNode := fun _ => none

section OutputNotions

variable {K : Type} [LinearOrderedField K]

end OutputNotions

section EntryPoints

variable {K : Type} [LinearOrderedField K]

end EntryPoints

/-! # Theorems -/

set_option linter.unusedSectionVars false

/-! ## Maps -/

theorem TMapContains_eq_isSome {α β : Type} [DecidableEq α] (M : List (α × β)) (Key : α) :
    TMapContains M Key = (TMapFind M Key).isSome := by
  induction M with
  | nil => rfl
  | cons p M ih =>
    unfold TMapContains at ih ⊢
    by_cases h : p.1 = Key
    · simp [TMapFind, h]
    · simp [TMapFind, h, ih]

theorem TMapFind_TMapAdd {α β : Type} [DecidableEq α] (M : List (α × β)) (Key Key2 : α)
    (Value : β) :
    TMapFind (TMapAdd M Key Value) Key2 = if Key = Key2 then some Value else TMapFind M Key2 := by
  induction M with
  | nil => simp [TMapAdd, TMapFind]
  | cons p M ih =>
    unfold TMapAdd
    by_cases h : p.1 = Key
    · rw [if_pos h]
      unfold TMapFind
      by_cases h2 : Key = Key2
      · simp [h2]
      · have h3 : ¬ p.1 = Key2 := by rw [h]; exact h2
        simp [h2, h3]
    · rw [if_neg h]
      unfold TMapFind
      by_cases h2 : p.1 = Key2
      · have h3 : ¬ Key = Key2 := by rw [← h2]; exact fun e => h e.symm
        simp [h2, h3]
      · simp [h2, ih]

section ParserFacts

variable {K : Type} [LinearOrderedField K]

theorem MakeContext_cache (Parser : FglTFRuntimeParser K) (C : FglTFRuntimeStaticMeshConfig K) :
    (MakeContext Parser C).2.StaticMeshesCache = Parser.StaticMeshesCache := rfl

theorem LoadMeshIntoMeshLOD_cache (Asset : FAsset K) (Parser : FglTFRuntimeParser K) (J : Nat) :
    (LoadMeshIntoMeshLOD Asset Parser J).2.StaticMeshesCache = Parser.StaticMeshesCache := by
  unfold LoadMeshIntoMeshLOD
  split
  · rfl
  · split <;> rfl

theorem RunBuild_cache (Engine : FEngine K) (Parser : FglTFRuntimeParser K)
    (C : FglTFRuntimeStaticMeshContext K) (Comp : UStaticMeshComponent K) :
    (RunBuild Engine Parser C Comp).2.StaticMeshesCache = Parser.StaticMeshesCache := by
  unfold RunBuild
  simp only
  split <;> rfl

theorem FinalizeStaticMesh_cache (Parser : FglTFRuntimeParser K)
    (C : FglTFRuntimeStaticMeshContext K) :
    (FinalizeStaticMesh Parser C).2.StaticMeshesCache = Parser.StaticMeshesCache := by
  unfold FinalizeStaticMesh
  split <;> rfl

theorem LoadMeshIntoMeshLOD_cache_of_eq {Asset : FAsset K} {Parser Parser1 : FglTFRuntimeParser K}
    {J : Nat} {r : Option (FglTFRuntimeMeshLOD K)}
    (h : LoadMeshIntoMeshLOD Asset Parser J = (r, Parser1)) :
    Parser1.StaticMeshesCache = Parser.StaticMeshesCache := by
  have := LoadMeshIntoMeshLOD_cache Asset Parser J
  rw [h] at this
  exact this

theorem RunBuild_cache_of_eq {Engine : FEngine K} {Parser Parser1 : FglTFRuntimeParser K}
    {C : FglTFRuntimeStaticMeshContext K} {Comp : UStaticMeshComponent K}
    {r : Option (Option UObjectId × FglTFRuntimeStaticMeshContext K)}
    (h : RunBuild Engine Parser C Comp = (r, Parser1)) :
    Parser1.StaticMeshesCache = Parser.StaticMeshesCache := by
  have := RunBuild_cache Engine Parser C Comp
  rw [h] at this
  exact this

theorem FinalizeStaticMesh_cache_of_eq {Parser Parser1 : FglTFRuntimeParser K}
    {C : FglTFRuntimeStaticMeshContext K} {r : FOutcome}
    (h : FinalizeStaticMesh Parser C = (r, Parser1)) :
    Parser1.StaticMeshesCache = Parser.StaticMeshesCache := by
  have := FinalizeStaticMesh_cache Parser C
  rw [h] at this
  exact this

/-- What `LoadStaticMesh` does to the mesh cache: nothing, or one `Add` at its index of
the mesh it hands back. -/
theorem LoadStaticMesh_cache_cases (Engine : FEngine K) (Asset : FAsset K)
    (Parser : FglTFRuntimeParser K) (MeshIndex : Int) (C : FglTFRuntimeStaticMeshConfig K) :
    (LoadStaticMesh Engine Asset Parser MeshIndex C).2.StaticMeshesCache = Parser.StaticMeshesCache ∨
    (∃ StaticMesh, CanWriteToCache C.CacheMode = true ∧
      (CanReadFromCache C.CacheMode && TMapContains Parser.StaticMeshesCache MeshIndex) = false ∧
      (LoadStaticMesh Engine Asset Parser MeshIndex C).1 = .Returned (some StaticMesh) ∧
      (LoadStaticMesh Engine Asset Parser MeshIndex C).2.StaticMeshesCache =
        TMapAdd Parser.StaticMeshesCache MeshIndex StaticMesh) := by
  unfold LoadStaticMesh
  split
  · left; rfl
  · split
    · left; rfl
    · rename_i hmiss
      simp only
      split
      · rename_i h1
        left
        exact (LoadMeshIntoMeshLOD_cache_of_eq h1).trans (MakeContext_cache _ _)
      · rename_i LOD Parser2 h1
        have e2 : Parser2.StaticMeshesCache = Parser.StaticMeshesCache :=
          (LoadMeshIntoMeshLOD_cache_of_eq h1).trans (MakeContext_cache _ _)
        split
        · rename_i h2
          left
          exact (RunBuild_cache_of_eq h2).trans e2
        · rename_i h2
          left
          exact (RunBuild_cache_of_eq h2).trans e2
        · rename_i Parser3 h2
          have e3 : Parser3.StaticMeshesCache = Parser.StaticMeshesCache :=
            (RunBuild_cache_of_eq h2).trans e2
          split
          · rename_i h3
            left
            exact (FinalizeStaticMesh_cache_of_eq h3).trans e3
          · rename_i h3
            left
            exact (FinalizeStaticMesh_cache_of_eq h3).trans e3
          · rename_i StaticMesh Parser4 h3
            have e4 : Parser4.StaticMeshesCache = Parser.StaticMeshesCache :=
              (FinalizeStaticMesh_cache_of_eq h3).trans e3
            split
            · rename_i hw
              right
              refine ⟨StaticMesh, hw, ?_, rfl, ?_⟩
              · simpa using hmiss
              · simp [e4]
            · left; exact e4

end ParserFacts

section ParserFacts2

variable {K : Type} [LinearOrderedField K]

/-- A `LoadStaticMesh` that hands a mesh back with write caching enabled leaves that mesh
in the cache at its index, and its index names a mesh object of the document. -/
theorem LoadStaticMesh_returned_cached {Engine : FEngine K} {Asset : FAsset K}
    {Parser Parser1 : FglTFRuntimeParser K} {MeshIndex : Int}
    {C : FglTFRuntimeStaticMeshConfig K} {StaticMesh : UObjectId}
    (hWrite : CanWriteToCache C.CacheMode = true)
    (h : LoadStaticMesh Engine Asset Parser MeshIndex C = (.Returned (some StaticMesh), Parser1)) :
    TMapFind Parser1.StaticMeshesCache MeshIndex = some StaticMesh ∧
      ∃ J, Asset.GetMeshObject MeshIndex = some J := by
  unfold LoadStaticMesh at h
  split at h
  · simp at h
  · rename_i J hJ
    refine ⟨?_, J, hJ⟩
    split at h
    · simp only [Prod.mk.injEq, FOutcome.Returned.injEq] at h
      rw [← h.2]; exact h.1
    · simp only at h
      split at h
      · simp at h
      · split at h
        · simp at h
        · simp at h
        · split at h
          · simp at h
          · simp at h
          · simp only [hWrite, if_true, Prod.mk.injEq, FOutcome.Returned.injEq, Option.some.injEq] at h
            rw [← h.2, ← h.1]
            simp [TMapFind_TMapAdd]

/-- With read caching enabled, an index the cache answers is returned from the cache and
nothing else happens. -/
theorem LoadStaticMesh_hit {Engine : FEngine K} {Asset : FAsset K}
    {Parser : FglTFRuntimeParser K} {MeshIndex : Int} {C : FglTFRuntimeStaticMeshConfig K}
    {StaticMesh : UObjectId} {J : Nat} (hJ : Asset.GetMeshObject MeshIndex = some J)
    (hRead : CanReadFromCache C.CacheMode = true)
    (hFind : TMapFind Parser.StaticMeshesCache MeshIndex = some StaticMesh) :
    LoadStaticMesh Engine Asset Parser MeshIndex C = (.Returned (some StaticMesh), Parser) := by
  unfold LoadStaticMesh
  simp [hJ, hRead, TMapContains_eq_isSome, hFind]

/-- A `LoadStaticMesh` with read caching enabled never replaces a cache entry. -/
theorem LoadStaticMesh_keeps_entry (Engine : FEngine K) (Asset : FAsset K)
    (Parser : FglTFRuntimeParser K) (Index MeshIndex : Int) (C : FglTFRuntimeStaticMeshConfig K)
    (StaticMesh : UObjectId) (hRead : CanReadFromCache C.CacheMode = true)
    (hFind : TMapFind Parser.StaticMeshesCache MeshIndex = some StaticMesh) :
    TMapFind (LoadStaticMesh Engine Asset Parser Index C).2.StaticMeshesCache MeshIndex =
      some StaticMesh := by
  rcases LoadStaticMesh_cache_cases Engine Asset Parser Index C with h | ⟨m, _, hmiss, _, h⟩
  · rw [h]; exact hFind
  · rw [h, TMapFind_TMapAdd]
    have hne : ¬ Index = MeshIndex := by
      intro e
      rw [hRead, Bool.true_and, TMapContains_eq_isSome, e, hFind] at hmiss
      simp at hmiss
    rw [if_neg hne]; exact hFind

theorem LoadStaticMeshRequests_keeps_entry (Engine : FEngine K) (Asset : FAsset K)
    (Requests : List (Int × FglTFRuntimeStaticMeshConfig K)) (Parser : FglTFRuntimeParser K)
    (MeshIndex : Int) (StaticMesh : UObjectId)
    (hRead : ∀ Request ∈ Requests, CanReadFromCache Request.2.CacheMode = true)
    (hFind : TMapFind Parser.StaticMeshesCache MeshIndex = some StaticMesh) :
    TMapFind (LoadStaticMeshRequests Engine Asset Requests Parser).StaticMeshesCache MeshIndex =
      some StaticMesh := by
  induction Requests generalizing Parser with
  | nil => exact hFind
  | cons Request Rest ih =>
    unfold LoadStaticMeshRequests
    apply ih
    · intro r hr; exact hRead r (List.mem_cons_of_mem _ hr)
    · exact LoadStaticMesh_keeps_entry Engine Asset Parser Request.1 MeshIndex Request.2 StaticMesh
        (hRead Request (List.mem_cons_self _ _)) hFind

end ParserFacts2

/-! ## Arrays and loops -/

theorem getD_of_getElem? {α : Type} {l : List α} {i : Nat} {x d : α} (h : l[i]? = some x) :
    l.getD i d = x := by
  rw [List.getD_eq_getElem?_getD, h]; rfl

theorem getD_congr {α : Type} {l l' : List α} {i : Nat} (d : α) (h : l[i]? = l'[i]?) :
    l.getD i d = l'.getD i d := by
  rw [List.getD_eq_getElem?_getD, List.getD_eq_getElem?_getD, h]

theorem getElem?_length_iff {α : Type} {l l' : List α} {i : Nat} (h : l[i]? = l'[i]?) :
    i < l.length ↔ i < l'.length := by
  constructor
  · intro hi
    by_contra hc
    rw [List.getElem?_eq_getElem hi, List.getElem?_eq_none (Nat.le_of_not_lt hc)] at h
    exact Option.noConfusion h
  · intro hi
    by_contra hc
    rw [List.getElem?_eq_getElem hi, List.getElem?_eq_none (Nat.le_of_not_lt hc)] at h
    exact Option.noConfusion h

theorem TriangleStarts_of_mod {Num : Nat} (h : Num % 3 = 0) :
    TriangleStarts Num = (List.range (Num / 3)).map (fun t => 3 * t) := by
  unfold TriangleStarts
  have : (Num + 2) / 3 = Num / 3 := by omega
  rw [this]

/-- A loop over the triangles of a section whose body only writes the three slots of its
triangle, from what these three slots hold: after `m` triangles every slot outside
the section is as before, and every slot of the section holds what the body writes
there when it is run on the initial array. -/
theorem foldl_triangles {α : Type} (step : List α → Nat → List α) (Base : Nat)
    (hlocal : ∀ vs i k, (k < Base + i ∨ Base + i + 3 ≤ k) → (step vs i)[k]? = vs[k]?)
    (hdet : ∀ vs vs' i j, j < 3 → (∀ j', j' < 3 → vs[Base + i + j']? = vs'[Base + i + j']?) →
      (step vs i)[Base + i + j]? = (step vs' i)[Base + i + j]?)
    (vs : List α) (m : Nat) :
    (∀ k, (k < Base ∨ Base + 3 * m ≤ k) →
      (((List.range m).map (fun t => 3 * t)).foldl step vs)[k]? = vs[k]?) ∧
    (∀ t j, t < m → j < 3 →
      (((List.range m).map (fun t => 3 * t)).foldl step vs)[Base + 3 * t + j]? =
        (step vs (3 * t))[Base + 3 * t + j]?) := by
  induction m with
  | zero =>
    exact ⟨fun _ _ => rfl, fun t j ht _ => absurd ht (Nat.not_lt_zero t)⟩
  | succ m ih =>
    obtain ⟨ihout, ihin⟩ := ih
    rw [List.range_succ, List.map_append, List.foldl_append]
    simp only [List.map_cons, List.map_nil, List.foldl_cons, List.foldl_nil]
    constructor
    · intro k hk
      rw [hlocal _ _ _ (by omega)]
      exact ihout k (by omega)
    · intro t j ht hj
      by_cases htm : t < m
      · rw [hlocal _ _ _ (by omega)]
        exact ihin t j htm hj
      · have e : t = m := by omega
        subst e
        apply hdet _ _ _ _ hj
        intro j' _
        exact ihout _ (by omega)

/-- A loop over the triangles of a section keeps the length of the array when its body
does. -/
theorem foldl_length {α β : Type} (step : List α → β → List α)
    (hlen : ∀ vs i, (step vs i).length = vs.length) (vs : List α) (l : List β) :
    (l.foldl step vs).length = vs.length := by
  induction l generalizing vs with
  | nil => rfl
  | cons i l ih => rw [List.foldl_cons, ih, hlen]

/-- A loop whose body keeps the image of the array under `f` keeps it. -/
theorem foldl_map_eq {α β γ : Type} (f : α → γ) (step : List α → β → List α)
    (hmap : ∀ vs i, (step vs i).map f = vs.map f) (vs : List α) (l : List β) :
    (l.foldl step vs).map f = vs.map f := by
  induction l generalizing vs with
  | nil => rfl
  | cons i l ih => rw [List.foldl_cons, ih, hmap]

/-- Writing at slot `i` a value with the same image under `f` as the one it replaces does
not change the image of the array. -/
theorem map_set_getD {α γ : Type} (f : α → γ) (l : List α) (i : Nat) (a d : α)
    (h : f a = f (l.getD i d)) : (l.set i a).map f = l.map f := by
  apply List.ext_getElem?
  intro n
  rw [List.getElem?_map, List.getElem?_map, List.getElem?_set]
  by_cases hin : i = n
  · subst hin
    by_cases hl : i < l.length
    · rw [if_pos rfl, if_pos hl, List.getElem?_eq_getElem hl]
      have : l.getD i d = l[i] := getD_of_getElem? (List.getElem?_eq_getElem hl)
      rw [this] at h
      simp [h]
    · rw [if_pos rfl, if_neg hl, List.getElem?_eq_none (Nat.le_of_not_lt hl)]
  · rw [if_neg hin]

theorem getElem?_set3 {α : Type} (l : List α) (a : Nat) (x0 x1 x2 : α) (k : Nat) :
    (((l.set a x0).set (a + 1) x1).set (a + 2) x2)[k]? =
      if k = a + 2 then (if a + 2 < l.length then some x2 else none)
      else if k = a + 1 then (if a + 1 < l.length then some x1 else none)
      else if k = a then (if a < l.length then some x0 else none)
      else l[k]? := by
  simp only [List.getElem?_set, List.length_set]
  by_cases h2 : k = a + 2
  · subst h2; simp
  · by_cases h1 : k = a + 1
    · subst h1; simp
    · by_cases h0 : k = a
      · subst h0; simp
      · have e2 : ¬ a + 2 = k := fun e => h2 e.symm
        have e1 : ¬ a + 1 = k := fun e => h1 e.symm
        have e0 : ¬ a = k := fun e => h0 e.symm
        simp [h2, h1, h0, e2, e1, e0]

theorem getElem?_set2 {α : Type} (l : List α) (a : Nat) (x1 x2 : α) (k : Nat) :
    ((l.set (a + 1) x1).set (a + 2) x2)[k]? =
      if k = a + 2 then (if a + 2 < l.length then some x2 else none)
      else if k = a + 1 then (if a + 1 < l.length then some x1 else none)
      else l[k]? := by
  simp only [List.getElem?_set, List.length_set]
  by_cases h2 : k = a + 2
  · subst h2; simp
  · by_cases h1 : k = a + 1
    · subst h1; simp
    · have e2 : ¬ a + 2 = k := fun e => h2 e.symm
      have e1 : ¬ a + 1 = k := fun e => h1 e.symm
      simp [h2, h1, e2, e1]

section Passes

variable {K : Type} [LinearOrderedField K]

/-! ### Winding reversal -/

theorem ReverseWindingStep_length (Base : Nat) (vs : List (FStaticMeshBuildVertex K)) (i : Nat) :
    (ReverseWindingStep Base vs i).length = vs.length := by
  simp [ReverseWindingStep]

theorem ReverseWindingStep_local (Base : Nat) (vs : List (FStaticMeshBuildVertex K)) (i k : Nat)
    (hk : k < Base + i + 1 ∨ Base + i + 3 ≤ k) : (ReverseWindingStep Base vs i)[k]? = vs[k]? := by
  unfold ReverseWindingStep
  simp only
  rw [getElem?_set2]
  rw [if_neg (by omega), if_neg (by omega)]

theorem ReverseWindingStep_det (Base : Nat) (vs vs' : List (FStaticMeshBuildVertex K)) (i j : Nat)
    (_ : j < 3) (h : ∀ j', j' < 3 → vs[Base + i + j']? = vs'[Base + i + j']?) :
    (ReverseWindingStep Base vs i)[Base + i + j]? = (ReverseWindingStep Base vs' i)[Base + i + j]? := by
  unfold ReverseWindingStep
  simp only
  rw [getElem?_set2, getElem?_set2]
  have h0 := h 0 (by omega)
  have h1 := h 1 (by omega)
  have h2 := h 2 (by omega)
  rw [getD_congr _ h1, getD_congr _ h2]
  have l1 := getElem?_length_iff h1
  have l2 := getElem?_length_iff h2
  by_cases c2 : Base + i + j = Base + i + 2
  · rw [if_pos c2, if_pos c2]
    by_cases hl : Base + i + 2 < vs.length
    · rw [if_pos hl, if_pos (l2.mp hl)]
    · rw [if_neg hl, if_neg (fun h' => hl (l2.mpr h'))]
  · rw [if_neg c2, if_neg c2]
    by_cases c1 : Base + i + j = Base + i + 1
    · rw [if_pos c1, if_pos c1]
      by_cases hl : Base + i + 1 < vs.length
      · rw [if_pos hl, if_pos (l1.mp hl)]
      · rw [if_neg hl, if_neg (fun h' => hl (l1.mpr h'))]
    · rw [if_neg c1, if_neg c1]
      have : j = 0 := by omega
      subst this
      exact h0

/-- The winding reversal of a section of `Num` vertices (a multiple of 3) that lies inside
the array: slot `3t` keeps its vertex, slots `3t+1` and `3t+2` exchange theirs, and every
slot outside the section is untouched. -/
theorem ReverseWinding_spec (Num Base : Nat) (vs : List (FStaticMeshBuildVertex K))
    (hmod : Num % 3 = 0) (hlen : Base + Num ≤ vs.length) :
    (ReverseWinding Num Base vs).length = vs.length ∧
    (∀ k, (k < Base ∨ Base + Num ≤ k) → (ReverseWinding Num Base vs)[k]? = vs[k]?) ∧
    (∀ t, t < Num / 3 →
      (ReverseWinding Num Base vs)[Base + 3 * t]? = vs[Base + 3 * t]? ∧
      (ReverseWinding Num Base vs)[Base + 3 * t + 1]? = vs[Base + 3 * t + 2]? ∧
      (ReverseWinding Num Base vs)[Base + 3 * t + 2]? = vs[Base + 3 * t + 1]?) := by
  unfold ReverseWinding
  rw [TriangleStarts_of_mod hmod]
  obtain ⟨hout, hin⟩ := foldl_triangles (ReverseWindingStep Base) Base
    (fun vs i k hk => ReverseWindingStep_local Base vs i k (by omega))
    (ReverseWindingStep_det Base) vs (Num / 3)
  refine ⟨foldl_length _ (ReverseWindingStep_length Base) _ _, ?_, ?_⟩
  · intro k hk
    exact hout k (by omega)
  · intro t ht
    have hr : Base + 3 * t + 2 < vs.length := by omega
    refine ⟨?_, ?_, ?_⟩
    · have := hin t 0 ht (by omega)
      rw [Nat.add_zero] at this
      rw [this]
      exact ReverseWindingStep_local Base vs (3 * t) _ (by omega)
    · rw [hin t 1 ht (by omega)]
      unfold ReverseWindingStep
      simp only
      rw [getElem?_set2, if_neg (by omega), if_pos (by omega), if_pos (by omega)]
      rw [List.getD_eq_getElem?_getD, List.getElem?_eq_getElem hr]
      rfl
    · rw [hin t 2 ht (by omega)]
      unfold ReverseWindingStep
      simp only
      rw [getElem?_set2, if_pos (by omega), if_pos (by omega)]
      have hr1 : Base + 3 * t + 1 < vs.length := by omega
      rw [List.getD_eq_getElem?_getD, List.getElem?_eq_getElem hr1]
      rfl

end Passes

section Passes2

variable {K : Type} [LinearOrderedField K]

/-! ### Normal generation -/

theorem GenerateNormalsStep_eq (Engine : FEngine K) (Base : Nat)
    (vs : List (FStaticMeshBuildVertex K)) (i : Nat) :
    GenerateNormalsStep Engine Base vs i =
      ((vs.set (Base + i)
        { vs.getD (Base + i) FStaticMeshBuildVertex.Default with
          TangentZ := TriangleNormal Engine vs (Base + i) }).set (Base + i + 1)
        { vs.getD (Base + i + 1) FStaticMeshBuildVertex.Default with
          TangentZ := TriangleNormal Engine vs (Base + i) }).set (Base + i + 2)
        { vs.getD (Base + i + 2) FStaticMeshBuildVertex.Default with
          TangentZ := TriangleNormal Engine vs (Base + i) } := rfl

theorem GenerateNormalsStep_length (Engine : FEngine K) (Base : Nat)
    (vs : List (FStaticMeshBuildVertex K)) (i : Nat) :
    (GenerateNormalsStep Engine Base vs i).length = vs.length := by
  simp [GenerateNormalsStep]

theorem GenerateNormalsStep_local (Engine : FEngine K) (Base : Nat)
    (vs : List (FStaticMeshBuildVertex K)) (i k : Nat)
    (hk : k < Base + i ∨ Base + i + 3 ≤ k) :
    (GenerateNormalsStep Engine Base vs i)[k]? = vs[k]? := by
  rw [GenerateNormalsStep_eq, getElem?_set3]
  rw [if_neg (by omega), if_neg (by omega), if_neg (by omega)]

theorem TriangleNormal_congr (Engine : FEngine K) (vs vs' : List (FStaticMeshBuildVertex K))
    (Start : Nat) (h : ∀ j', j' < 3 → vs[Start + j']? = vs'[Start + j']?) :
    TriangleNormal Engine vs Start = TriangleNormal Engine vs' Start := by
  unfold TriangleNormal
  have h0 := h 0 (by omega)
  rw [Nat.add_zero] at h0
  rw [getD_congr _ h0, getD_congr _ (h 1 (by omega)), getD_congr _ (h 2 (by omega))]

theorem GenerateNormalsStep_det (Engine : FEngine K) (Base : Nat)
    (vs vs' : List (FStaticMeshBuildVertex K)) (i j : Nat) (_ : j < 3)
    (h : ∀ j', j' < 3 → vs[Base + i + j']? = vs'[Base + i + j']?) :
    (GenerateNormalsStep Engine Base vs i)[Base + i + j]? =
      (GenerateNormalsStep Engine Base vs' i)[Base + i + j]? := by
  rw [GenerateNormalsStep_eq, GenerateNormalsStep_eq, getElem?_set3, getElem?_set3]
  have h0 := h 0 (by omega)
  have h1 := h 1 (by omega)
  have h2 := h 2 (by omega)
  rw [Nat.add_zero] at h0
  rw [TriangleNormal_congr Engine vs vs' (Base + i) h]
  rw [getD_congr _ h0, getD_congr _ h1, getD_congr _ h2]
  have l0 := getElem?_length_iff h0
  have l1 := getElem?_length_iff h1
  have l2 := getElem?_length_iff h2
  by_cases c2 : Base + i + j = Base + i + 2
  · rw [if_pos c2, if_pos c2]
    by_cases hl : Base + i + 2 < vs.length
    · rw [if_pos hl, if_pos (l2.mp hl)]
    · rw [if_neg hl, if_neg (fun h' => hl (l2.mpr h'))]
  · rw [if_neg c2, if_neg c2]
    by_cases c1 : Base + i + j = Base + i + 1
    · rw [if_pos c1, if_pos c1]
      by_cases hl : Base + i + 1 < vs.length
      · rw [if_pos hl, if_pos (l1.mp hl)]
      · rw [if_neg hl, if_neg (fun h' => hl (l1.mpr h'))]
    · rw [if_neg c1, if_neg c1]
      have c0 : Base + i + j = Base + i := by omega
      rw [if_pos c0, if_pos c0]
      by_cases hl : Base + i < vs.length
      · rw [if_pos hl, if_pos (l0.mp hl)]
      · rw [if_neg hl, if_neg (fun h' => hl (l0.mpr h'))]

/-- The normal generation over a section of `Num` vertices (a multiple of 3) that lies
inside the array: every slot outside the section is untouched, and each of the three
slots of triangle `t` keeps its vertex with the normal replaced by the flat normal of
the triangle, computed from the three positions the slots held before the loop. -/
theorem GenerateNormals_spec (Engine : FEngine K) (Num Base : Nat)
    (vs : List (FStaticMeshBuildVertex K)) (hmod : Num % 3 = 0) (hlen : Base + Num ≤ vs.length) :
    (GenerateNormals Engine Num Base vs).length = vs.length ∧
    (∀ k, (k < Base ∨ Base + Num ≤ k) → (GenerateNormals Engine Num Base vs)[k]? = vs[k]?) ∧
    (∀ t j, t < Num / 3 → j < 3 →
      (GenerateNormals Engine Num Base vs)[Base + 3 * t + j]? =
        some { vs.getD (Base + 3 * t + j) FStaticMeshBuildVertex.Default with
               TangentZ := TriangleNormal Engine vs (Base + 3 * t) }) := by
  unfold GenerateNormals
  rw [TriangleStarts_of_mod hmod]
  obtain ⟨hout, hin⟩ := foldl_triangles (GenerateNormalsStep Engine Base) Base
    (GenerateNormalsStep_local Engine Base) (GenerateNormalsStep_det Engine Base) vs (Num / 3)
  refine ⟨foldl_length _ (GenerateNormalsStep_length Engine Base) _ _, ?_, ?_⟩
  · intro k hk
    exact hout k (by omega)
  · intro t j ht hj
    rw [hin t j ht hj, GenerateNormalsStep_eq, getElem?_set3]
    have hj3 : j = 0 ∨ j = 1 ∨ j = 2 := by omega
    rcases hj3 with e | e | e
    · subst e
      rw [if_neg (by omega), if_neg (by omega), if_pos (by omega), if_pos (by omega)]
      rfl
    · subst e
      rw [if_neg (by omega), if_pos (by omega), if_pos (by omega)]
    · subst e
      rw [if_pos (by omega), if_pos (by omega)]

/-- The normal generation loop leaves every position where it is. -/
theorem GenerateNormals_positions (Engine : FEngine K) (Num Base : Nat)
    (vs : List (FStaticMeshBuildVertex K)) :
    (GenerateNormals Engine Num Base vs).map (fun v => v.Position) =
      vs.map (fun v => v.Position) := by
  unfold GenerateNormals
  apply foldl_map_eq
  intro vs i
  rw [GenerateNormalsStep_eq]
  rw [map_set_getD _ _ _ _ FStaticMeshBuildVertex.Default, map_set_getD _ _ _ _ FStaticMeshBuildVertex.Default,
    map_set_getD _ _ _ _ FStaticMeshBuildVertex.Default]
  · rfl
  · show _ = (fun v : FStaticMeshBuildVertex K => v.Position) _
    simp only
    rw [getD_congr FStaticMeshBuildVertex.Default (List.getElem?_set_ne (by omega))]
  · show _ = (fun v : FStaticMeshBuildVertex K => v.Position) _
    simp only
    rw [getD_congr FStaticMeshBuildVertex.Default (List.getElem?_set_ne (by omega)),
      getD_congr FStaticMeshBuildVertex.Default (List.getElem?_set_ne (by omega))]

end Passes2

theorem getD_map_eq {α γ : Type} (f : α → γ) {l l' : List α} (h : l.map f = l'.map f) (k : Nat)
    (d : α) : f (l.getD k d) = f (l'.getD k d) := by
  have hk : (l.map f)[k]? = (l'.map f)[k]? := by rw [h]
  rw [List.getElem?_map, List.getElem?_map] at hk
  rw [List.getD_eq_getElem?_getD, List.getD_eq_getElem?_getD]
  cases h1 : l[k]? with
  | none =>
    cases h2 : l'[k]? with
    | none => rfl
    | some y => rw [h1, h2] at hk; exact Option.noConfusion hk
  | some x =>
    cases h2 : l'[k]? with
    | none => rw [h1, h2] at hk; exact Option.noConfusion hk
    | some y =>
      rw [h1, h2] at hk
      simpa using hk

theorem length_eq_of_map_eq {α γ : Type} (f : α → γ) {l l' : List α} (h : l.map f = l'.map f) :
    l.length = l'.length := by
  have := congrArg List.length h
  simpa using this

section Passes3

variable {K : Type} [LinearOrderedField K]

/-! ### Tangent generation -/

/-- The tangent generation loop leaves every position and every normal where it is. -/
theorem GenerateTangents_keeps (Engine : FEngine K) (TangentsDirection : K) (Num Base : Nat)
    (vs : List (FStaticMeshBuildVertex K)) :
    (GenerateTangents Engine TangentsDirection Num Base vs).map
        (fun v => (v.Position, v.TangentZ)) =
      vs.map (fun v => (v.Position, v.TangentZ)) := by
  unfold GenerateTangents
  apply foldl_map_eq
  intro vs i
  unfold GenerateTangentsStep
  simp only
  rw [map_set_getD _ _ _ _ FStaticMeshBuildVertex.Default, map_set_getD _ _ _ _ FStaticMeshBuildVertex.Default,
    map_set_getD _ _ _ _ FStaticMeshBuildVertex.Default]
  · rfl
  · rw [getD_congr FStaticMeshBuildVertex.Default (List.getElem?_set_ne (by omega))]
    rfl
  · rw [getD_congr FStaticMeshBuildVertex.Default (List.getElem?_set_ne (by omega)),
      getD_congr FStaticMeshBuildVertex.Default (List.getElem?_set_ne (by omega))]
    rfl

/-! ### Geometry generation -/

/-- The vertex array part of one iteration of the geometry generation loop. -/
theorem GeometryGenerationStep_vertices (Engine : FEngine K)
    (C : FglTFRuntimeStaticMeshConfig K) (Primitive : FglTFRuntimePrimitive K) (NumUVs : Nat)
    (bColors bApply : Bool) (T : FTransform K) (Base : Nat) (st : FGeometryState K) (k : Nat) :
    (GeometryGenerationStep Engine C Primitive NumUVs bColors bApply T Base st
        k).StaticMeshBuildVertices =
      st.StaticMeshBuildVertices.set (Base + k)
        (GeometryVertex Engine C Primitive NumUVs bColors bApply T
          (st.StaticMeshBuildVertices.getD (Base + k) FStaticMeshBuildVertex.Default)
          (Primitive.Indices.getD k 0)) := rfl

/-- After the first `n` iterations of the geometry generation loop: the arrays keep
their lengths, the slots outside `[Base, Base + n)` are untouched, and slot `Base + k`
holds the vertex of source index `Indices[k]`, written over what the slot held. -/
theorem GeometryGeneration_prefix (Engine : FEngine K) (C : FglTFRuntimeStaticMeshConfig K)
    (Primitive : FglTFRuntimePrimitive K) (NumUVs : Nat) (bColors bApply : Bool)
    (T : FTransform K) (Base : Nat) (st : FGeometryState K) (n : Nat) :
    let r := (List.range n).foldl
      (GeometryGenerationStep Engine C Primitive NumUVs bColors bApply T Base) st
    r.StaticMeshBuildVertices.length = st.StaticMeshBuildVertices.length ∧
    r.LODIndices.length = st.LODIndices.length ∧
    (∀ k, (k < Base ∨ Base + n ≤ k) →
      r.StaticMeshBuildVertices[k]? = st.StaticMeshBuildVertices[k]?) ∧
    (∀ k, k < n → Base + k < st.StaticMeshBuildVertices.length →
      r.StaticMeshBuildVertices[Base + k]? =
        some (GeometryVertex Engine C Primitive NumUVs bColors bApply T
          (st.StaticMeshBuildVertices.getD (Base + k) FStaticMeshBuildVertex.Default)
          (Primitive.Indices.getD k 0))) ∧
    (∀ k, k < n → Base + k < st.LODIndices.length → r.LODIndices[Base + k]? = some (Base + k)) ∧
    (r.bMissingNormals = true ↔ (st.bMissingNormals = true ∨
      ∃ k, k < n ∧ Primitive.Normals[Primitive.Indices.getD k 0]? = none)) ∧
    (r.bMissingTangents = true ↔ (st.bMissingTangents = true ∨
      ∃ k, k < n ∧ Primitive.Tangents[Primitive.Indices.getD k 0]? = none)) := by
  induction n with
  | zero =>
    simp
  | succ n ih =>
    simp only [List.range_succ, List.foldl_append, List.foldl_cons, List.foldl_nil]
    simp only at ih
    obtain ⟨h1, h2, h3, h4, h5, h6, h7⟩ := ih
    generalize (List.range n).foldl
      (GeometryGenerationStep Engine C Primitive NumUVs bColors bApply T Base) st = r at *
    refine ⟨?_, ?_, ?_, ?_, ?_, ?_, ?_⟩
    · rw [GeometryGenerationStep_vertices, List.length_set, h1]
    · simp [GeometryGenerationStep, h2]
    · intro k hk
      rw [GeometryGenerationStep_vertices, List.getElem?_set_ne (by omega)]
      exact h3 k (by omega)
    · intro k hk hlen
      rw [GeometryGenerationStep_vertices]
      by_cases hkn : k < n
      · rw [List.getElem?_set_ne (by omega)]
        exact h4 k hkn hlen
      · have e : k = n := by omega
        subst e
        rw [List.getElem?_set_self (by omega)]
        rw [getD_congr _ (h3 (Base + k) (by omega))]
    · intro k hk hlen
      simp only [GeometryGenerationStep]
      by_cases hkn : k < n
      · rw [List.getElem?_set_ne (by omega)]
        exact h5 k hkn hlen
      · have e : k = n := by omega
        subst e
        rw [List.getElem?_set_self (by omega)]
    · simp only [GeometryGenerationStep, GetSafeValue]
      constructor
      · intro h
        cases hn : Primitive.Normals[Primitive.Indices.getD n 0]? with
        | none => exact Or.inr ⟨n, Nat.lt_succ_self n, hn⟩
        | some v =>
          rw [hn] at h
          rcases h6.mp h with h' | ⟨k, hk, hk'⟩
          · exact Or.inl h'
          · exact Or.inr ⟨k, Nat.lt_succ_of_lt hk, hk'⟩
      · intro h
        cases hn : Primitive.Normals[Primitive.Indices.getD n 0]? with
        | none => rfl
        | some v =>
          simp only
          apply h6.mpr
          rcases h with h' | ⟨k, hk, hk'⟩
          · exact Or.inl h'
          · by_cases hkn : k < n
            · exact Or.inr ⟨k, hkn, hk'⟩
            · have e : k = n := by omega
              subst e
              rw [hn] at hk'
              exact Option.noConfusion hk'
    · simp only [GeometryGenerationStep, GetSafeValue]
      constructor
      · intro h
        cases hn : Primitive.Tangents[Primitive.Indices.getD n 0]? with
        | none => exact Or.inr ⟨n, Nat.lt_succ_self n, hn⟩
        | some v =>
          rw [hn] at h
          rcases h7.mp h with h' | ⟨k, hk, hk'⟩
          · exact Or.inl h'
          · exact Or.inr ⟨k, Nat.lt_succ_of_lt hk, hk'⟩
      · intro h
        cases hn : Primitive.Tangents[Primitive.Indices.getD n 0]? with
        | none => rfl
        | some v =>
          simp only
          apply h7.mpr
          rcases h with h' | ⟨k, hk, hk'⟩
          · exact Or.inl h'
          · by_cases hkn : k < n
            · exact Or.inr ⟨k, hkn, hk'⟩
            · have e : k = n := by omega
              subst e
              rw [hn] at hk'
              exact Option.noConfusion hk'

end Passes3

section Branch

variable {K : Type} [LinearOrderedField K]

/-- The geometry state that the passes of a Triangles primitive start from. -/
theorem TrianglesBranch_vertices (Engine : FEngine K) (C : FglTFRuntimeStaticMeshConfig K)
    (LOD : FglTFRuntimeMeshLOD K) (NumUVs : Nat) (bColors : Bool)
    (Primitive : FglTFRuntimePrimitive K) (StaticMaterial : FStaticMaterial)
    (st : FPrimitiveLoopState K) :
    (TrianglesBranch Engine C LOD NumUVs bColors Primitive StaticMaterial
        st).StaticMeshBuildVertices =
      TrianglePasses Engine C Primitive st.VertexInstanceBaseIndex
        (GeometryGeneration Engine C Primitive NumUVs bColors
          (decide (LOD.Primitives.length = LOD.AdditionalTransforms.length))
          (LOD.AdditionalTransforms.getD st.AdditionalTransformsPrimitiveIndex FTransform.Identity)
          st.VertexInstanceBaseIndex (GeometryStart Primitive st)) := rfl

theorem Reversed_length (C : FglTFRuntimeStaticMeshConfig K) (Num Base : Nat)
    (vs : List (FStaticMeshBuildVertex K)) : (Reversed C Num Base vs).length = vs.length := by
  unfold Reversed
  split
  · exact foldl_length _ (ReverseWindingStep_length Base) _ _
  · rfl

theorem Reversed_outside (C : FglTFRuntimeStaticMeshConfig K) (Num Base : Nat)
    (vs : List (FStaticMeshBuildVertex K)) (hlen : Base + Num ≤ vs.length) (k : Nat)
    (hk : k < Base ∨ Base + Num ≤ k) : (Reversed C Num Base vs)[k]? = vs[k]? := by
  unfold Reversed
  split
  · rename_i h
    have hmod : Num % 3 = 0 := by
      simp only [Bool.and_eq_true, beq_iff_eq] at h
      exact h.2
    exact (ReverseWinding_spec Num Base vs hmod hlen).2.1 k hk
  · rfl

/-- Slot `Base + k` of a section after the winding pass holds what slot
`Base + WindingSource k` held before it. -/
theorem Reversed_inside (C : FglTFRuntimeStaticMeshConfig K) (Num Base : Nat)
    (vs : List (FStaticMeshBuildVertex K)) (hmod : Num % 3 = 0) (hlen : Base + Num ≤ vs.length)
    (k : Nat) (hk : k < Num) :
    (Reversed C Num Base vs)[Base + k]? = vs[Base + WindingSource C.bReverseWinding k]? := by
  unfold Reversed WindingSource
  cases hr : C.bReverseWinding with
  | false => simp
  | true =>
    have hcond : (true && Num % 3 == 0) = true := by simp [hmod]
    rw [if_pos hcond, if_pos rfl]
    have hspec := (ReverseWinding_spec Num Base vs hmod hlen).2.2 (k / 3) (by omega)
    have hk3 : k % 3 = 0 ∨ k % 3 = 1 ∨ k % 3 = 2 := by omega
    rcases hk3 with e | e | e
    · have : Base + k = Base + 3 * (k / 3) := by omega
      rw [if_neg (by omega), if_neg (by omega), this]
      exact hspec.1
    · have : Base + k = Base + 3 * (k / 3) + 1 := by omega
      rw [if_pos e, this]
      have e2 : Base + (k + 1) = Base + 3 * (k / 3) + 2 := by omega
      rw [← this, e2]
      rw [this]
      exact hspec.2.1
    · have : Base + k = Base + 3 * (k / 3) + 2 := by omega
      rw [if_neg (by omega), if_pos e]
      have e2 : Base + (k - 1) = Base + 3 * (k / 3) + 1 := by omega
      rw [e2, this]
      exact hspec.2.2

/-- The passes of `TrianglePasses` when the normal pass runs: the tangent pass, if any, is applied to
the output of the normal pass. -/
theorem TrianglePasses_generated (Engine : FEngine K) (C : FglTFRuntimeStaticMeshConfig K)
    (Primitive : FglTFRuntimePrimitive K) (Base : Nat) (G : FGeometryState K)
    (hmod : Primitive.Indices.length % 3 = 0)
    (hgen : bCanGenerateNormals C G.bMissingNormals = true) :
    (TrianglePasses Engine C Primitive Base G).map (fun v => (v.Position, v.TangentZ)) =
      (GenerateNormals Engine Primitive.Indices.length Base
        (Reversed C Primitive.Indices.length Base G.StaticMeshBuildVertices)).map
        (fun v => (v.Position, v.TangentZ)) := by
  unfold TrianglePasses Reversed
  simp only [hgen, hmod, Bool.true_and, beq_self_eq_true, if_true, Bool.and_true]
  split_ifs <;> first | exact GenerateTangents_keeps _ _ _ _ _ | rfl

/-- The passes of `TrianglePasses` when the normal pass does not run: the tangent pass, if any, is
applied to the output of the winding pass. -/
theorem TrianglePasses_kept (Engine : FEngine K) (C : FglTFRuntimeStaticMeshConfig K)
    (Primitive : FglTFRuntimePrimitive K) (Base : Nat) (G : FGeometryState K)
    (hgen : (bCanGenerateNormals C G.bMissingNormals &&
      Primitive.Indices.length % 3 == 0) = false) :
    (TrianglePasses Engine C Primitive Base G).map (fun v => (v.Position, v.TangentZ)) =
      (Reversed C Primitive.Indices.length Base G.StaticMeshBuildVertices).map
        (fun v => (v.Position, v.TangentZ)) := by
  unfold TrianglePasses Reversed
  simp only [hgen, Bool.false_eq_true, if_false]
  split_ifs <;> first | exact GenerateTangents_keeps _ _ _ _ _ | rfl

end Branch

section Branch2

variable {K : Type} [LinearOrderedField K]

theorem getElem?_map_of_map_eq {α γ δ : Type} (f : α → γ) (g : γ → δ) {l l' : List α}
    (h : l.map f = l'.map f) (k : Nat) :
    l[k]?.map (fun v => g (f v)) = l'[k]?.map (fun v => g (f v)) := by
  have hk : (l.map f)[k]? = (l'.map f)[k]? := by rw [h]
  rw [List.getElem?_map, List.getElem?_map] at hk
  have := congrArg (Option.map g) hk
  simpa [Option.map_map, Function.comp] using this

theorem TriangleNormal_of_map_eq (Engine : FEngine K) {l l' : List (FStaticMeshBuildVertex K)}
    (h : l.map (fun v => (v.Position, v.TangentZ)) = l'.map (fun v => (v.Position, v.TangentZ)))
    (Start : Nat) : TriangleNormal Engine l Start = TriangleNormal Engine l' Start := by
  unfold TriangleNormal
  have e := fun k => congrArg Prod.fst
    (getD_map_eq (fun v : FStaticMeshBuildVertex K => (v.Position, v.TangentZ)) h k
      FStaticMeshBuildVertex.Default)
  simp only at e
  rw [e Start, e (Start + 1), e (Start + 2)]

theorem TriangleNormal_of_positions (Engine : FEngine K) {l l' : List (FStaticMeshBuildVertex K)}
    (h : l.map (fun v => v.Position) = l'.map (fun v => v.Position))
    (Start : Nat) : TriangleNormal Engine l Start = TriangleNormal Engine l' Start := by
  unfold TriangleNormal
  have e := fun k => getD_map_eq (fun v : FStaticMeshBuildVertex K => v.Position) h k
      FStaticMeshBuildVertex.Default
  simp only at e
  rw [e Start, e (Start + 1), e (Start + 2)]

/-- The geometry generation of a Triangles primitive, from the loop state `st`: lengths,
untouched slots, written slots and the two "missing" flags. -/
theorem GeometryGeneration_spec (Engine : FEngine K) (C : FglTFRuntimeStaticMeshConfig K)
    (Primitive : FglTFRuntimePrimitive K) (NumUVs : Nat) (bColors bApply : Bool)
    (T : FTransform K) (st : FPrimitiveLoopState K) :
    let G := GeometryGeneration Engine C Primitive NumUVs bColors bApply T
      st.VertexInstanceBaseIndex (GeometryStart Primitive st)
    G.StaticMeshBuildVertices.length = st.StaticMeshBuildVertices.length ∧
    G.LODIndices.length = st.LODIndices.length + Primitive.Indices.length ∧
    (∀ k, (k < st.VertexInstanceBaseIndex ∨
        st.VertexInstanceBaseIndex + Primitive.Indices.length ≤ k) →
      G.StaticMeshBuildVertices[k]? = st.StaticMeshBuildVertices[k]?) ∧
    (∀ k, k < Primitive.Indices.length →
      st.VertexInstanceBaseIndex + k < st.StaticMeshBuildVertices.length →
      G.StaticMeshBuildVertices[st.VertexInstanceBaseIndex + k]? =
        some (GeometryVertex Engine C Primitive NumUVs bColors bApply T
          (st.StaticMeshBuildVertices.getD (st.VertexInstanceBaseIndex + k)
            FStaticMeshBuildVertex.Default)
          (Primitive.Indices.getD k 0))) ∧
    (G.bMissingNormals = true ↔
      ∃ k, k < Primitive.Indices.length ∧
        Primitive.Normals[Primitive.Indices.getD k 0]? = none) ∧
    (G.bMissingTangents = true ↔
      ∃ k, k < Primitive.Indices.length ∧
        Primitive.Tangents[Primitive.Indices.getD k 0]? = none) := by
  have h := GeometryGeneration_prefix Engine C Primitive NumUVs bColors bApply T
    st.VertexInstanceBaseIndex (GeometryStart Primitive st) Primitive.Indices.length
  obtain ⟨h1, h2, h3, h4, _, h6, h7⟩ := h
  refine ⟨h1, ?_, h3, h4, ?_, ?_⟩
  · unfold GeometryGeneration
    rw [h2]
    simp [GeometryStart]
  · unfold GeometryGeneration
    rw [h6]
    simp [GeometryStart]
  · unfold GeometryGeneration
    rw [h7]
    simp [GeometryStart]

/-- The normals of a Triangles primitive whose normal pass runs (index count a multiple
of 3, section inside the array): the array keeps its length, positions and normals
outside the section are untouched, and each slot of triangle `t` carries the flat normal
of the triangle, taken from the three positions the section ends up with. -/
theorem TrianglesBranch_generated (Engine : FEngine K) (C : FglTFRuntimeStaticMeshConfig K)
    (LOD : FglTFRuntimeMeshLOD K) (NumUVs : Nat) (bColors : Bool)
    (Primitive : FglTFRuntimePrimitive K) (StaticMaterial : FStaticMaterial)
    (st : FPrimitiveLoopState K)
    (hmod : Primitive.Indices.length % 3 = 0)
    (hlen : st.VertexInstanceBaseIndex + Primitive.Indices.length ≤
      st.StaticMeshBuildVertices.length)
    (hgen : C.NormalsGenerationStrategy = .Always ∨
      (C.NormalsGenerationStrategy = .IfMissing ∧
        ∃ k, k < Primitive.Indices.length ∧
          Primitive.Normals[Primitive.Indices.getD k 0]? = none)) :
    let vs := (TrianglesBranch Engine C LOD NumUVs bColors Primitive StaticMaterial
      st).StaticMeshBuildVertices
    vs.length = st.StaticMeshBuildVertices.length ∧
    (∀ k, (k < st.VertexInstanceBaseIndex ∨
        st.VertexInstanceBaseIndex + Primitive.Indices.length ≤ k) →
      vs[k]?.map (fun v => (v.Position, v.TangentZ)) =
        st.StaticMeshBuildVertices[k]?.map (fun v => (v.Position, v.TangentZ))) ∧
    (∀ t j, t < Primitive.Indices.length / 3 → j < 3 →
      vs[st.VertexInstanceBaseIndex + 3 * t + j]?.map (fun v => v.TangentZ) =
        some (TriangleNormal Engine vs (st.VertexInstanceBaseIndex + 3 * t))) := by
  intro vs
  obtain ⟨g1, _, g3, _, g5, _⟩ := GeometryGeneration_spec Engine C Primitive NumUVs bColors
    (decide (LOD.Primitives.length = LOD.AdditionalTransforms.length))
    (LOD.AdditionalTransforms.getD st.AdditionalTransformsPrimitiveIndex FTransform.Identity) st
  generalize hG : GeometryGeneration Engine C Primitive NumUVs bColors
    (decide (LOD.Primitives.length = LOD.AdditionalTransforms.length))
    (LOD.AdditionalTransforms.getD st.AdditionalTransformsPrimitiveIndex FTransform.Identity)
    st.VertexInstanceBaseIndex (GeometryStart Primitive st) = G at g1 g3 g5
  have hcan : bCanGenerateNormals C G.bMissingNormals = true := by
    unfold bCanGenerateNormals
    rcases hgen with h | ⟨h, hm⟩
    · simp [h]
    · simp [h, g5.mpr hm]
  have hvs : vs = TrianglePasses Engine C Primitive st.VertexInstanceBaseIndex G := by
    rw [← hG]; rfl
  have hmap := TrianglePasses_generated Engine C Primitive st.VertexInstanceBaseIndex G hmod hcan
  rw [← hvs] at hmap
  have hRlen := Reversed_length C Primitive.Indices.length st.VertexInstanceBaseIndex
    G.StaticMeshBuildVertices
  have hlenG : st.VertexInstanceBaseIndex + Primitive.Indices.length ≤
      G.StaticMeshBuildVertices.length := by rw [g1]; exact hlen
  have hlenR : st.VertexInstanceBaseIndex + Primitive.Indices.length ≤
      (Reversed C Primitive.Indices.length st.VertexInstanceBaseIndex
        G.StaticMeshBuildVertices).length := by rw [hRlen]; exact hlenG
  obtain ⟨n1, n2, n3⟩ := GenerateNormals_spec Engine Primitive.Indices.length
    st.VertexInstanceBaseIndex _ hmod hlenR
  refine ⟨?_, ?_, ?_⟩
  · rw [length_eq_of_map_eq _ hmap, n1, hRlen, g1]
  · intro k hk
    have := getElem?_map_of_map_eq (fun v : FStaticMeshBuildVertex K => (v.Position, v.TangentZ))
      id hmap k
    simp only [id] at this
    rw [this, n2 k hk, Reversed_outside C _ _ _ hlenG k hk, g3 k hk]
  · intro t j ht hj
    have := getElem?_map_of_map_eq (fun v : FStaticMeshBuildVertex K => (v.Position, v.TangentZ))
      Prod.snd hmap (st.VertexInstanceBaseIndex + 3 * t + j)
    simp only at this
    rw [this, n3 t j ht hj, TriangleNormal_of_map_eq Engine hmap,
      TriangleNormal_of_positions Engine (GenerateNormals_positions Engine _ _ _)]
    rfl

end Branch2

section BranchFacts

variable {K : Type} [LinearOrderedField K]

theorem GetSafeValue_fst {T : Type} (Values : List T) (Index : Nat) (d : T) (b : Bool) :
    (GetSafeValue Values Index d b).1 = Values[Index]?.getD d := by
  unfold GetSafeValue
  cases Values[Index]? <;> rfl

theorem GeometryVertex_TangentZ (Engine : FEngine K) (C : FglTFRuntimeStaticMeshConfig K)
    (Primitive : FglTFRuntimePrimitive K) (NumUVs : Nat) (bColors : Bool) (T : FTransform K)
    (Old : FStaticMeshBuildVertex K) (VertexIndex : Nat) :
    (GeometryVertex Engine C Primitive NumUVs bColors false T Old VertexIndex).TangentZ =
      Primitive.Normals[VertexIndex]?.getD FVector.ZeroVector := by
  unfold GeometryVertex
  simp only [Bool.false_eq_true, if_false]
  exact GetSafeValue_fst _ _ _ _

theorem WindingSource_lt (b : Bool) (Num k : Nat) (hmod : Num % 3 = 0) (hk : k < Num) :
    WindingSource b k < Num := by
  unfold WindingSource
  split_ifs <;> omega

end BranchFacts


section WholeLOD

variable {K : Type} [LinearOrderedField K]

/-! ### Unit normals -/

theorem FVector.SizeSquared_scale (A : FVector K) (s : K) :
    (A.scale s).SizeSquared = s * s * A.SizeSquared := by
  unfold FVector.scale FVector.SizeSquared
  ring

theorem SMALL_NUMBER_pos : (0 : K) < SMALL_NUMBER := by
  unfold SMALL_NUMBER
  positivity

/-- With an exact inverse square root, `GetSafeNormal` gives a vector of squared size 1
for every vector whose squared size reaches the tolerance, and the zero vector below. -/
theorem GetSafeNormal_unit (InvSqrt : K → K)
    (hInv : ∀ s : K, 0 < s → InvSqrt s * InvSqrt s * s = 1) (A : FVector K) :
    (SMALL_NUMBER ≤ A.SizeSquared → (A.GetSafeNormal InvSqrt).SizeSquared = 1) ∧
    (A.SizeSquared < SMALL_NUMBER → A.GetSafeNormal InvSqrt = FVector.ZeroVector) := by
  unfold FVector.GetSafeNormal
  constructor
  · intro h
    by_cases h1 : A.SizeSquared = 1
    · rw [if_pos h1]; exact h1
    · rw [if_neg h1, if_neg (not_lt.mpr h), FVector.SizeSquared_scale]
      exact hInv _ (lt_of_lt_of_le SMALL_NUMBER_pos h)
  · intro h
    have h1 : ¬ A.SizeSquared = 1 := by
      intro e
      rw [e] at h
      unfold SMALL_NUMBER at h
      have : (1 : K) / 100000000 < 1 := by
        rw [div_lt_one (by norm_num)]
        norm_num
      exact absurd h (not_lt.mpr this.le)
    rw [if_neg h1, if_pos h]

/-- The flat normal does not change when the three corners move by the same vector. -/
theorem NormalFromCross_translate (Engine : FEngine K) (P0 P1 P2 D : FVector K) :
    NormalFromCross Engine (P0.sub D) (P1.sub D) (P2.sub D) = NormalFromCross Engine P0 P1 P2 := by
  unfold NormalFromCross
  have e1 : (P1.sub D).sub (P0.sub D) = P1.sub P0 := by
    unfold FVector.sub; simp
  have e2 : (P2.sub D).sub (P0.sub D) = P2.sub P0 := by
    unfold FVector.sub; simp
  simp only [e1, e2]

/-! ### The primitive loop over Triangles primitives -/

theorem TriangleNormal_of_positions_at (Engine : FEngine K)
    {l l' : List (FStaticMeshBuildVertex K)} (Start : Nat)
    (h : ∀ j, j < 3 → l[Start + j]?.map (fun v => v.Position) =
      l'[Start + j]?.map (fun v => v.Position)) :
    TriangleNormal Engine l Start = TriangleNormal Engine l' Start := by
  have e : ∀ k, l[k]?.map (fun v => v.Position) = l'[k]?.map (fun v => v.Position) →
      (l.getD k FStaticMeshBuildVertex.Default).Position =
        (l'.getD k FStaticMeshBuildVertex.Default).Position := by
    intro k hk
    rw [List.getD_eq_getElem?_getD, List.getD_eq_getElem?_getD]
    cases h1 : l[k]? with
    | none =>
      cases h2 : l'[k]? with
      | none => rfl
      | some y => rw [h1, h2] at hk; exact Option.noConfusion hk
    | some x =>
      cases h2 : l'[k]? with
      | none => rw [h1, h2] at hk; exact Option.noConfusion hk
      | some y =>
        rw [h1, h2] at hk
        simpa using hk
  unfold TriangleNormal
  have h0 := h 0 (by omega)
  rw [Nat.add_zero] at h0
  rw [e _ h0, e _ (h 1 (by omega)), e _ (h 2 (by omega))]

/-- A Triangles primitive, under the policy Always and with an index count that is a
multiple of 3, extends the flat prefix of the array by its own section. -/
theorem ProcessPrimitive_flat (Engine : FEngine K) (C : FglTFRuntimeStaticMeshConfig K)
    (Comp : UStaticMeshComponent K) (LOD : FglTFRuntimeMeshLOD K) (CurrentLODIndex NumUVs : Nat)
    (bColors : Bool) (st : FPrimitiveLoopState K) (Primitive : FglTFRuntimePrimitive K)
    (hAlways : C.NormalsGenerationStrategy = .Always)
    (hMode : Primitive.Mode = MODE_TRIANGLES) (hmod : Primitive.Indices.length % 3 = 0)
    (hBase : st.VertexInstanceBaseIndex % 3 = 0)
    (hlen : st.VertexInstanceBaseIndex + Primitive.Indices.length ≤
      st.StaticMeshBuildVertices.length)
    (hflat : FlatBelow Engine st.StaticMeshBuildVertices st.VertexInstanceBaseIndex) :
    ∃ st', ProcessPrimitive Engine C Comp LOD CurrentLODIndex NumUVs bColors st Primitive =
        .Next st' ∧
      st'.StaticMeshBuildVertices.length = st.StaticMeshBuildVertices.length ∧
      st'.VertexInstanceBaseIndex = st.VertexInstanceBaseIndex + Primitive.Indices.length ∧
      FlatBelow Engine st'.StaticMeshBuildVertices st'.VertexInstanceBaseIndex := by
  have hstep : ProcessPrimitive Engine C Comp LOD CurrentLODIndex NumUVs bColors st Primitive =
      .Next (TrianglesBranch Engine C LOD NumUVs bColors Primitive
        ⟨Primitive.Material, "LOD_" ++ toString CurrentLODIndex ++ "_Section_" ++
          toString st.StaticMaterials.length ++ "_" ++ Primitive.MaterialName⟩
        { st with Sections := st.Sections ++ [{}] }) := by
    unfold ProcessPrimitive
    simp [hMode, MODE_TRIANGLES, MODE_LINES, MODE_POINTS]
  refine ⟨_, hstep, ?_⟩
  obtain ⟨h1, h2, h3⟩ := TrianglesBranch_generated Engine C LOD NumUVs bColors Primitive
    ⟨Primitive.Material, "LOD_" ++ toString CurrentLODIndex ++ "_Section_" ++
      toString st.StaticMaterials.length ++ "_" ++ Primitive.MaterialName⟩
    { st with Sections := st.Sections ++ [{}] } hmod hlen (Or.inl hAlways)
  change _ = st.StaticMeshBuildVertices.length at h1
  change ∀ k, (k < st.VertexInstanceBaseIndex ∨
      st.VertexInstanceBaseIndex + Primitive.Indices.length ≤ k) → _ = 
      st.StaticMeshBuildVertices[k]?.map (fun v => (v.Position, v.TangentZ)) at h2
  refine ⟨h1, rfl, ?_⟩
  intro t j ht hj
  change 3 * t + 3 ≤ st.VertexInstanceBaseIndex + Primitive.Indices.length at ht
  generalize (TrianglesBranch Engine C LOD NumUVs bColors Primitive
        ⟨Primitive.Material, "LOD_" ++ toString CurrentLODIndex ++ "_Section_" ++
          toString st.StaticMaterials.length ++ "_" ++ Primitive.MaterialName⟩
        { st with Sections := st.Sections ++ [{}] }).StaticMeshBuildVertices = vs' at h1 h2 h3 ⊢
  by_cases hold : 3 * t + 3 ≤ st.VertexInstanceBaseIndex
  · have hk : ∀ j, j < 3 → vs'[3 * t + j]?.map (fun v => (v.Position, v.TangentZ)) =
        st.StaticMeshBuildVertices[3 * t + j]?.map (fun v => (v.Position, v.TangentZ)) :=
      fun j hj => h2 (3 * t + j) (Or.inl (by omega))
    have hz : ∀ j, j < 3 → vs'[3 * t + j]?.map (fun v => v.TangentZ) =
        st.StaticMeshBuildVertices[3 * t + j]?.map (fun v => v.TangentZ) := by
      intro j hj
      have := congrArg (Option.map Prod.snd) (hk j hj)
      simpa [Option.map_map, Function.comp] using this
    have hp : ∀ j, j < 3 → vs'[3 * t + j]?.map (fun v => v.Position) =
        st.StaticMeshBuildVertices[3 * t + j]?.map (fun v => v.Position) := by
      intro j hj
      have := congrArg (Option.map Prod.fst) (hk j hj)
      simpa [Option.map_map, Function.comp] using this
    rw [hz j hj, TriangleNormal_of_positions_at Engine (3 * t) hp]
    exact hflat t j hold hj
  · have e : 3 * t = st.VertexInstanceBaseIndex + 3 * (t - st.VertexInstanceBaseIndex / 3) := by
      omega
    have := h3 (t - st.VertexInstanceBaseIndex / 3) j (by omega) hj
    rw [← e] at this
    exact this

/-- The primitive loop over Triangles primitives, under the policy Always and with index
counts that are multiples of 3: it runs to its end and extends the flat prefix of the
array by the sections of all the primitives. -/
theorem PrimitiveLoop_flat (Engine : FEngine K) (C : FglTFRuntimeStaticMeshConfig K)
    (Comp : UStaticMeshComponent K) (LOD : FglTFRuntimeMeshLOD K) (CurrentLODIndex NumUVs : Nat)
    (bColors : Bool) (hAlways : C.NormalsGenerationStrategy = .Always)
    (Primitives : List (FglTFRuntimePrimitive K)) (st : FPrimitiveLoopState K)
    (hPrims : ∀ p ∈ Primitives, p.Mode = MODE_TRIANGLES ∧ p.Indices.length % 3 = 0)
    (hBase : st.VertexInstanceBaseIndex % 3 = 0)
    (hlen : st.VertexInstanceBaseIndex + TotalIndices Primitives ≤
      st.StaticMeshBuildVertices.length)
    (hflat : FlatBelow Engine st.StaticMeshBuildVertices st.VertexInstanceBaseIndex) :
    ∃ st', PrimitiveLoop Engine C Comp LOD CurrentLODIndex NumUVs bColors Primitives st =
        .Next st' ∧
      st'.StaticMeshBuildVertices.length = st.StaticMeshBuildVertices.length ∧
      st'.VertexInstanceBaseIndex = st.VertexInstanceBaseIndex + TotalIndices Primitives ∧
      FlatBelow Engine st'.StaticMeshBuildVertices st'.VertexInstanceBaseIndex := by
  induction Primitives generalizing st with
  | nil =>
    exact ⟨st, rfl, rfl, by simp [TotalIndices], hflat⟩
  | cons p Rest ih =>
    have hp := hPrims p (List.mem_cons_self _ _)
    have hsum : TotalIndices (p :: Rest) = p.Indices.length + TotalIndices Rest := by
      simp [TotalIndices]
    rw [hsum] at hlen
    obtain ⟨st1, e1, l1, b1, f1⟩ := ProcessPrimitive_flat Engine C Comp LOD CurrentLODIndex
      NumUVs bColors st p hAlways hp.1 hp.2 hBase (by omega) hflat
    obtain ⟨st2, e2, l2, b2, f2⟩ := ih st1
      (fun q hq => hPrims q (List.mem_cons_of_mem _ hq))
      (by rw [b1]; omega) (by rw [b1, l1]; omega) f1
    refine ⟨st2, ?_, by rw [l2, l1], by rw [b2, b1, hsum]; omega, f2⟩
    unfold PrimitiveLoop
    rw [e1]
    exact e2

end WholeLOD

section WholeLOD2

variable {K : Type} [LinearOrderedField K]

theorem LODPrepass_total_aux (Primitives : List (FglTFRuntimePrimitive K)) (Acc : Nat × Bool × Nat) :
    (Primitives.foldl
      (fun Acc Primitive =>
        (if Primitive.UVs.length > Acc.1 then Primitive.UVs.length else Acc.1,
         if Primitive.Colors.length > 0 then true else Acc.2.1,
         Acc.2.2 + Primitive.Indices.length)) Acc).2.2 = Acc.2.2 + TotalIndices Primitives := by
  induction Primitives generalizing Acc with
  | nil => simp [TotalIndices]
  | cons p Rest ih =>
    rw [List.foldl_cons, ih]
    simp [TotalIndices]
    omega

/-- The vertex array of a LOD is sized to the sum of the index counts of its primitives. -/
theorem LODPrepass_total (LOD : FglTFRuntimeMeshLOD K) (b : Bool) :
    (LODPrepass LOD b).2.2 = TotalIndices LOD.Primitives := by
  unfold LODPrepass
  rw [LODPrepass_total_aux]
  simp

/-- The pivot shift keeps the flat normals: normals are not touched and the three corners
of a triangle move by the same vector. -/
theorem FlatBelow_shift (Engine : FEngine K) (vs : List (FStaticMeshBuildVertex K)) (D : FVector K)
    (hflat : FlatBelow Engine vs vs.length) :
    FlatBelow Engine
      (vs.map (fun Vertex => { Vertex with Position := Vertex.Position.sub D })) vs.length := by
  intro t j ht hj
  have r0 : 3 * t < vs.length := by omega
  have r1 : 3 * t + 1 < vs.length := by omega
  have r2 : 3 * t + 2 < vs.length := by omega
  have rj : 3 * t + j < vs.length := by omega
  have hf := hflat t j ht hj
  rw [List.getElem?_eq_getElem rj, Option.map_some', Option.some.injEq] at hf
  rw [List.getElem?_map, List.getElem?_eq_getElem rj, Option.map_some', Option.map_some',
    Option.some.injEq]
  simp only
  rw [hf]
  unfold TriangleNormal
  simp only [List.getD_eq_getElem?_getD, List.getElem?_map, List.getElem?_eq_getElem r0,
    List.getElem?_eq_getElem r1, List.getElem?_eq_getElem r2, Option.map_some', Option.getD_some]
  exact (NormalFromCross_translate Engine _ _ _ D).symm

/-- The vertices that `FinishLOD` stores for the LOD. -/
theorem FinishLOD_resources (Engine : FEngine K) (CurrentLODIndex NumUVs : Nat) (bColors : Bool)
    (Context : FglTFRuntimeStaticMeshContext K) (st : FPrimitiveLoopState K) :
    ∃ L : FStaticMeshLODResources K,
      (FinishLOD Engine CurrentLODIndex NumUVs bColors Context st).LODResources =
        Context.LODResources.set CurrentLODIndex L ∧
      L.Sections = st.Sections ∧ L.Indices = st.LODIndices ∧
      (L.Vertices = st.StaticMeshBuildVertices ∨
        ∃ D, L.Vertices = st.StaticMeshBuildVertices.map
          (fun Vertex => { Vertex with Position := Vertex.Position.sub D })) := by
  unfold FinishLOD
  refine ⟨_, rfl, rfl, rfl, ?_⟩
  simp only
  split
  · right; exact ⟨_, rfl⟩
  · left; rfl

end WholeLOD2

/-! ### The real square root -/

/-- The inverse of the real square root is an exact inverse square root. -/
theorem Real_inv_sqrt_exact (s : ℝ) (hs : 0 < s) : (Real.sqrt s)⁻¹ * (Real.sqrt s)⁻¹ * s = 1 := by
  rw [← mul_inv, Real.mul_self_sqrt hs.le, inv_mul_cancel₀ hs.ne']

section AsyncFacts

variable {K : Type} [LinearOrderedField K]

/-- On every parser state and for every document: when the mesh index is not found and
the cache does not answer, `LoadStaticMeshAsync` builds nothing, finalizes the mesh
object that the context constructor created, caches it when write caching is enabled,
and hands it to the callback. -/
theorem LoadStaticMeshAsync_mesh_not_found (Engine : FEngine K) (Asset : FAsset K)
    (Parser : FglTFRuntimeParser K) (MeshIndex : Int) (bBound : Bool)
    (C : FglTFRuntimeStaticMeshConfig K)
    (hMiss : (CanReadFromCache C.CacheMode &&
      TMapContains Parser.StaticMeshesCache MeshIndex) = false)
    (hNone : Asset.GetMeshObject MeshIndex = none) :
    (LoadStaticMeshAsync Engine Asset Parser MeshIndex bBound C).Log =
      Parser.Log ++ [FEvent.Finalize Parser.NumObjects] ++
        (if CanWriteToCache C.CacheMode then [FEvent.CacheWrite MeshIndex Parser.NumObjects]
         else []) ++
        (if bBound then [FEvent.Callback (some Parser.NumObjects)] else []) ∧
    (LoadStaticMeshAsync Engine Asset Parser MeshIndex bBound C).StaticMeshesCache =
      (if CanWriteToCache C.CacheMode then
        TMapAdd Parser.StaticMeshesCache MeshIndex Parser.NumObjects
       else Parser.StaticMeshesCache) := by
  unfold LoadStaticMeshAsync
  rw [hMiss]
  simp only [Bool.false_eq_true, if_false, LoadStaticMeshAsync_Worker, MakeContext, hNone,
    Option.isSome_some, if_true, FinalizeStaticMesh]
  cases hW : CanWriteToCache C.CacheMode <;> cases bBound <;>
    simp [ExecuteIfBound, FglTFRuntimeParser.Emit]

/-- On every parser state and for every document: when the named node is not found,
`LoadStaticMeshRecursiveAsync` records the error and ends without running the
callback. -/
theorem LoadStaticMeshRecursiveAsync_node_not_found (Engine : FEngine K) (Asset : FAsset K)
    (Parser : FglTFRuntimeParser K) (Fuel : Nat) (NodeName : String)
    (ExcludeNodes : List String) (bBound : Bool) (C : FglTFRuntimeStaticMeshConfig K)
    (hName : NodeName.isEmpty = false) (hNone : Asset.LoadNodeByName NodeName = none) :
    CallbackCount (LoadStaticMeshRecursiveAsync Engine Asset Parser Fuel NodeName ExcludeNodes
      bBound C).Log = CallbackCount Parser.Log := by
  unfold LoadStaticMeshRecursiveAsync LoadNodeTree
  simp [hName, hNone, MakeContext, AddError, FglTFRuntimeParser.Emit, CallbackCount]

end AsyncFacts

section Materials

variable {K : Type} [LinearOrderedField K]

/-- A Triangles primitive goes through the Triangles branch, after its section is added. -/
theorem ProcessPrimitive_triangles (Engine : FEngine K) (C : FglTFRuntimeStaticMeshConfig K)
    (Comp : UStaticMeshComponent K) (LOD : FglTFRuntimeMeshLOD K) (CurrentLODIndex NumUVs : Nat)
    (bColors : Bool) (st : FPrimitiveLoopState K) (Primitive : FglTFRuntimePrimitive K)
    (hMode : Primitive.Mode = MODE_TRIANGLES) :
    ProcessPrimitive Engine C Comp LOD CurrentLODIndex NumUVs bColors st Primitive =
      .Next (TrianglesBranch Engine C LOD NumUVs bColors Primitive
        ⟨Primitive.Material, "LOD_" ++ toString CurrentLODIndex ++ "_Section_" ++
          toString st.StaticMaterials.length ++ "_" ++ Primitive.MaterialName⟩
        { st with Sections := st.Sections ++ [{}] }) := by
  unfold ProcessPrimitive
  simp [hMode, MODE_TRIANGLES, MODE_LINES, MODE_POINTS]

/-- The material part of the Triangles branch, for the section in slot `k`, the last one. -/
theorem TrianglesBranch_material (Engine : FEngine K) (C : FglTFRuntimeStaticMeshConfig K)
    (LOD : FglTFRuntimeMeshLOD K) (NumUVs : Nat) (bColors : Bool)
    (Primitive : FglTFRuntimePrimitive K) (StaticMaterial : FStaticMaterial)
    (st : FPrimitiveLoopState K) (k : Nat) (hk : st.Sections.length = k + 1) :
    let st' := TrianglesBranch Engine C LOD NumUVs bColors Primitive StaticMaterial st
    st'.Sections.length = k + 1 ∧
    ((Primitive.bHasMaterial = true ∨ TMapFind st.SectionMaterialMap k = none) →
      st'.StaticMaterials = st.StaticMaterials ++ [StaticMaterial] ∧
      st'.Sections[k]?.map (fun S => S.MaterialIndex) = some st.StaticMaterials.length ∧
      st'.StaticMaterials[st.StaticMaterials.length]? = some StaticMaterial ∧
      TMapFind st'.SectionMaterialMap k = some st.StaticMaterials.length) ∧
    (∀ j, Primitive.bHasMaterial = false → TMapFind st.SectionMaterialMap k = some j →
      st'.StaticMaterials = st.StaticMaterials ∧
      st'.Sections[k]?.map (fun S => S.MaterialIndex) = some j ∧
      st'.SectionMaterialMap = st.SectionMaterialMap) ∧
    (∀ k', k' ≠ k → TMapFind st'.SectionMaterialMap k' = TMapFind st.SectionMaterialMap k') := by
  intro st'
  have hidx : st.Sections.length - 1 = k := by omega
  have hlt : k < st.Sections.length := by omega
  have hsec : ∀ S : FStaticMeshSection,
      (st.Sections.set k S)[k]?.map (fun S => S.MaterialIndex) = some S.MaterialIndex := by
    intro S
    rw [List.getElem?_set_self hlt]
    rfl
  refine ⟨?_, ?_, ?_, ?_⟩
  · show (st.Sections.set (st.Sections.length - 1) _).length = k + 1
    rw [List.length_set, hk]
  · intro h
    have hnew : (Primitive.bHasMaterial ||
        !TMapContains st.SectionMaterialMap (st.Sections.length - 1)) = true := by
      rw [hidx, TMapContains_eq_isSome]
      rcases h with h | h
      · simp [h]
      · simp [h]
    refine ⟨?_, ?_, ?_, ?_⟩
    · show (if _ then _ else _) = _
      rw [if_pos hnew]
    · show (st.Sections.set (st.Sections.length - 1) _)[k]?.map _ = _
      rw [hidx, hsec]
      simp only
      rw [if_pos (by rw [← hidx]; exact hnew)]
    · show (if _ then _ else _)[_]? = _
      rw [if_pos hnew]
      simp
    · show TMapFind (if _ then _ else _) k = _
      rw [if_pos hnew, hidx, TMapFind_TMapAdd, if_pos rfl]
      rw [if_pos (by rw [← hidx]; exact hnew)]
  · intro j hno hj
    have hold : (Primitive.bHasMaterial ||
        !TMapContains st.SectionMaterialMap (st.Sections.length - 1)) = false := by
      rw [hidx, TMapContains_eq_isSome, hno, hj]
      rfl
    have hcont : TMapContains st.SectionMaterialMap (st.Sections.length - 1) = true := by
      rw [hidx, TMapContains_eq_isSome, hj]
      rfl
    refine ⟨?_, ?_, ?_⟩
    · show (if _ then _ else _) = _
      rw [if_neg (by rw [hold]; exact Bool.false_ne_true)]
    · show (st.Sections.set (st.Sections.length - 1) _)[k]?.map _ = _
      rw [hidx, hsec]
      simp only
      rw [if_neg (by rw [← hidx, hold]; exact Bool.false_ne_true),
        if_pos (by rw [← hidx]; exact hcont), hj]
      rfl
    · show (if _ then _ else _) = _
      rw [if_neg (by rw [hold]; exact Bool.false_ne_true)]
  · intro k' hk'
    show TMapFind (if _ then _ else _) k' = _
    split
    · rw [TMapFind_TMapAdd, if_neg (by rw [hidx]; exact fun e => hk' e.symm)]
    · rfl

end Materials

/-! ### The loop over the LODs of a build of Triangles primitives -/

section WholeBuild

variable {K : Type} [LinearOrderedField K]

theorem LODPrepass_colors_aux (Primitives : List (FglTFRuntimePrimitive K))
    (Acc : Nat × Bool × Nat) :
    (Primitives.foldl
      (fun Acc Primitive =>
        (if Primitive.UVs.length > Acc.1 then Primitive.UVs.length else Acc.1,
         if Primitive.Colors.length > 0 then true else Acc.2.1,
         Acc.2.2 + Primitive.Indices.length)) Acc).2.1 =
      (Acc.2.1 || Primitives.any (fun p => decide (p.Colors.length > 0))) := by
  induction Primitives generalizing Acc with
  | nil => simp
  | cons p Rest ih =>
    rw [List.foldl_cons, ih]
    by_cases h : p.Colors.length > 0
    · simp [h]
    · simp [h]

/-- The colour flag after the prepass of a LOD: the flag the earlier LODs left, or a
primitive of this LOD with colours. -/
theorem LODPrepass_colors (LOD : FglTFRuntimeMeshLOD K) (b : Bool) :
    (LODPrepass LOD b).2.1 = (b || HasColors LOD) := by
  unfold LODPrepass HasColors
  rw [LODPrepass_colors_aux]

/-- The primitive loop over Triangles primitives runs to its end. -/
theorem PrimitiveLoop_triangles (Engine : FEngine K) (C : FglTFRuntimeStaticMeshConfig K)
    (Comp : UStaticMeshComponent K) (LOD : FglTFRuntimeMeshLOD K) (CurrentLODIndex NumUVs : Nat)
    (bColors : Bool) (Primitives : List (FglTFRuntimePrimitive K)) (st : FPrimitiveLoopState K)
    (hPrims : ∀ p ∈ Primitives, p.Mode = MODE_TRIANGLES) :
    ∃ st', PrimitiveLoop Engine C Comp LOD CurrentLODIndex NumUVs bColors Primitives st =
      .Next st' := by
  induction Primitives generalizing st with
  | nil => exact ⟨st, rfl⟩
  | cons p Rest ih =>
    obtain ⟨st2, e2⟩ := ih
      (TrianglesBranch Engine C LOD NumUVs bColors p
        ⟨p.Material, "LOD_" ++ toString CurrentLODIndex ++ "_Section_" ++
          toString st.StaticMaterials.length ++ "_" ++ p.MaterialName⟩
        { st with Sections := st.Sections ++ [{}] })
      (fun q hq => hPrims q (List.mem_cons_of_mem _ hq))
    refine ⟨st2, ?_⟩
    unfold PrimitiveLoop
    rw [ProcessPrimitive_triangles Engine C Comp LOD CurrentLODIndex NumUVs bColors st p
      (hPrims p (List.mem_cons_self _ _))]
    exact e2

/-- One turn of the LOD loop whose primitive loop runs to its end. -/
theorem LODLoop_cons_next (Engine : FEngine K) (Comp : UStaticMeshComponent K)
    (LOD : FglTFRuntimeMeshLOD K) (Rest : List (FglTFRuntimeMeshLOD K)) (s : FLODLoopState K)
    (st : FPrimitiveLoopState K)
    (h : PrimitiveLoop Engine s.Context.StaticMeshConfig Comp LOD s.LODIndex
      (LODPrepass LOD s.bHasVertexColors).1 (LODPrepass LOD s.bHasVertexColors).2.1
      LOD.Primitives
      (PrimitiveLoopStart (LODPrepass LOD s.bHasVertexColors).2.2 s.SectionMaterialMap
        s.Context.StaticMaterials) = .Next st) :
    LODLoop Engine Comp (LOD :: Rest) s =
      LODLoop Engine Comp Rest
        { Context := FinishLOD Engine s.LODIndex (LODPrepass LOD s.bHasVertexColors).1
            (LODPrepass LOD s.bHasVertexColors).2.1 s.Context st,
          bHasVertexColors := (LODPrepass LOD s.bHasVertexColors).2.1,
          SectionMaterialMap := st.SectionMaterialMap,
          LODIndex := s.LODIndex + 1 } := by
  rw [LODLoop]
  simp only
  rw [h]

theorem FinishLOD_config (Engine : FEngine K) (CurrentLODIndex NumUVs : Nat) (bColors : Bool)
    (Context : FglTFRuntimeStaticMeshContext K) (st : FPrimitiveLoopState K) :
    (FinishLOD Engine CurrentLODIndex NumUVs bColors Context st).StaticMeshConfig =
      Context.StaticMeshConfig ∧
    (FinishLOD Engine CurrentLODIndex NumUVs bColors Context st).StaticMesh =
      Context.StaticMesh ∧
    (FinishLOD Engine CurrentLODIndex NumUVs bColors Context st).LODResources.length =
      Context.LODResources.length :=
  ⟨rfl, rfl, by simp [FinishLOD]⟩

/-- What a turn of the LOD loop for a LOD other than LOD 0 leaves alone. -/
theorem FinishLOD_keeps (Engine : FEngine K) (CurrentLODIndex NumUVs : Nat) (bColors : Bool)
    (Context : FglTFRuntimeStaticMeshContext K) (st : FPrimitiveLoopState K) :
    (∀ j, j ≠ CurrentLODIndex →
      (FinishLOD Engine CurrentLODIndex NumUVs bColors Context st).LODResources[j]? =
        Context.LODResources[j]?) ∧
    (CurrentLODIndex ≠ 0 →
      (FinishLOD Engine CurrentLODIndex NumUVs bColors Context st).BoundingBoxAndSphere =
          Context.BoundingBoxAndSphere ∧
        (FinishLOD Engine CurrentLODIndex NumUVs bColors Context st).LOD0PivotDelta =
          Context.LOD0PivotDelta) := by
  refine ⟨?_, ?_⟩
  · intro j hj
    show (Context.LODResources.set CurrentLODIndex _)[j]? = _
    rw [List.getElem?_set_ne (fun e => hj e.symm)]
  · intro h0
    refine ⟨?_, ?_⟩
    · show (if CurrentLODIndex = 0 then _ else _) = _
      rw [if_neg h0]
    · show (if _ then _ else _) = _
      rw [if_neg]
      simp [h0]

/-- A build of Triangles primitives runs through all its LODs and hands back the mesh of
the context, with the finalize flag set and no effect outside the mesh. -/
theorem LODLoop_outcome (Engine : FEngine K) (Comp : UStaticMeshComponent K)
    (LODs : List (FglTFRuntimeMeshLOD K)) (s : FLODLoopState K) (hTri : AllTriangles LODs) :
    (LODLoop Engine Comp LODs s).Outcome = .Returned s.Context.StaticMesh ∧
    (LODLoop Engine Comp LODs s).bFinalizeStaticMesh = true ∧
    (LODLoop Engine Comp LODs s).Effects.GlyphInstances = [] ∧
    (LODLoop Engine Comp LODs s).Context.StaticMeshConfig = s.Context.StaticMeshConfig ∧
    (LODLoop Engine Comp LODs s).Context.LODResources.length =
      s.Context.LODResources.length := by
  induction LODs generalizing s with
  | nil => exact ⟨rfl, rfl, rfl, rfl, rfl⟩
  | cons LOD Rest ih =>
    obtain ⟨st, hst⟩ := PrimitiveLoop_triangles Engine s.Context.StaticMeshConfig Comp LOD
      s.LODIndex (LODPrepass LOD s.bHasVertexColors).1 (LODPrepass LOD s.bHasVertexColors).2.1
      LOD.Primitives
      (PrimitiveLoopStart (LODPrepass LOD s.bHasVertexColors).2.2 s.SectionMaterialMap
        s.Context.StaticMaterials) (hTri LOD (List.mem_cons_self _ _))
    rw [LODLoop_cons_next Engine Comp LOD Rest s st hst]
    obtain ⟨a, b, c, d, e⟩ := ih
      { Context := FinishLOD Engine s.LODIndex (LODPrepass LOD s.bHasVertexColors).1
          (LODPrepass LOD s.bHasVertexColors).2.1 s.Context st,
        bHasVertexColors := (LODPrepass LOD s.bHasVertexColors).2.1,
        SectionMaterialMap := st.SectionMaterialMap,
        LODIndex := s.LODIndex + 1 }
      (fun L hL => hTri L (List.mem_cons_of_mem _ hL))
    obtain ⟨f1, f2, f3⟩ := FinishLOD_config Engine s.LODIndex
      (LODPrepass LOD s.bHasVertexColors).1 (LODPrepass LOD s.bHasVertexColors).2.1 s.Context st
    exact ⟨a.trans (congrArg _ f2), b, c, d.trans f1, e.trans f3⟩

/-- The LODs below the one the loop is at keep their resources; once LOD 0 is done, the
bounds and the recorded pivot delta stay as they are. -/
theorem LODLoop_keeps_below (Engine : FEngine K) (Comp : UStaticMeshComponent K)
    (LODs : List (FglTFRuntimeMeshLOD K)) (s : FLODLoopState K) (hTri : AllTriangles LODs) :
    (∀ j, j < s.LODIndex →
      (LODLoop Engine Comp LODs s).Context.LODResources[j]? = s.Context.LODResources[j]?) ∧
    (0 < s.LODIndex →
      (LODLoop Engine Comp LODs s).Context.BoundingBoxAndSphere =
          s.Context.BoundingBoxAndSphere ∧
        (LODLoop Engine Comp LODs s).Context.LOD0PivotDelta = s.Context.LOD0PivotDelta) := by
  induction LODs generalizing s with
  | nil => exact ⟨fun _ _ => rfl, fun _ => ⟨rfl, rfl⟩⟩
  | cons LOD Rest ih =>
    obtain ⟨st, hst⟩ := PrimitiveLoop_triangles Engine s.Context.StaticMeshConfig Comp LOD
      s.LODIndex (LODPrepass LOD s.bHasVertexColors).1 (LODPrepass LOD s.bHasVertexColors).2.1
      LOD.Primitives
      (PrimitiveLoopStart (LODPrepass LOD s.bHasVertexColors).2.2 s.SectionMaterialMap
        s.Context.StaticMaterials) (hTri LOD (List.mem_cons_self _ _))
    rw [LODLoop_cons_next Engine Comp LOD Rest s st hst]
    obtain ⟨a, b⟩ := ih
      { Context := FinishLOD Engine s.LODIndex (LODPrepass LOD s.bHasVertexColors).1
          (LODPrepass LOD s.bHasVertexColors).2.1 s.Context st,
        bHasVertexColors := (LODPrepass LOD s.bHasVertexColors).2.1,
        SectionMaterialMap := st.SectionMaterialMap,
        LODIndex := s.LODIndex + 1 }
      (fun L hL => hTri L (List.mem_cons_of_mem _ hL))
    obtain ⟨k1, k2⟩ := FinishLOD_keeps Engine s.LODIndex
      (LODPrepass LOD s.bHasVertexColors).1 (LODPrepass LOD s.bHasVertexColors).2.1 s.Context st
    refine ⟨?_, ?_⟩
    · intro j hj
      rw [a j (Nat.lt_succ_of_lt hj)]
      exact k1 j (Nat.ne_of_lt hj)
    · intro h0
      obtain ⟨b1, b2⟩ := b (Nat.succ_pos _)
      obtain ⟨k3, k4⟩ := k2 (Nat.pos_iff_ne_zero.mp h0)
      exact ⟨b1.trans k3, b2.trans k4⟩

/-- The turn of the LOD loop for LOD number `i` of a build of Triangles primitives: the
loop reaches the LOD in a state `si` with the configuration of the build, its primitive
loop runs from the start state to a state `st`, and what the build stores for the LOD is
what `FinishLOD` makes of `st`; the colour flag the loop arrives with is the start flag or
a primitive with colours in an earlier LOD. -/
theorem LODLoop_at (Engine : FEngine K) (Comp : UStaticMeshComponent K)
    (LODs : List (FglTFRuntimeMeshLOD K)) (s : FLODLoopState K) (hTri : AllTriangles LODs)
    (i : Nat) (LOD : FglTFRuntimeMeshLOD K) (hi : LODs[i]? = some LOD) :
    ∃ (si : FLODLoopState K) (st : FPrimitiveLoopState K),
      si.LODIndex = s.LODIndex + i ∧
      si.Context.StaticMeshConfig = s.Context.StaticMeshConfig ∧
      si.bHasVertexColors = (s.bHasVertexColors || (LODs.take i).any HasColors) ∧
      (i = 0 → si = s) ∧
      PrimitiveLoop Engine si.Context.StaticMeshConfig Comp LOD si.LODIndex
        (LODPrepass LOD si.bHasVertexColors).1 (LODPrepass LOD si.bHasVertexColors).2.1
        LOD.Primitives
        (PrimitiveLoopStart (LODPrepass LOD si.bHasVertexColors).2.2 si.SectionMaterialMap
          si.Context.StaticMaterials) = .Next st ∧
      (LODLoop Engine Comp LODs s).Context.LODResources[si.LODIndex]? =
        (FinishLOD Engine si.LODIndex (LODPrepass LOD si.bHasVertexColors).1
          (LODPrepass LOD si.bHasVertexColors).2.1 si.Context st).LODResources[si.LODIndex]? ∧
      (si.LODIndex = 0 →
        (LODLoop Engine Comp LODs s).Context.BoundingBoxAndSphere =
          (FinishLOD Engine si.LODIndex (LODPrepass LOD si.bHasVertexColors).1
            (LODPrepass LOD si.bHasVertexColors).2.1 si.Context st).BoundingBoxAndSphere ∧
        (LODLoop Engine Comp LODs s).Context.LOD0PivotDelta =
          (FinishLOD Engine si.LODIndex (LODPrepass LOD si.bHasVertexColors).1
            (LODPrepass LOD si.bHasVertexColors).2.1 si.Context st).LOD0PivotDelta) := by
  induction LODs generalizing s i with
  | nil => simp at hi
  | cons L Rest ih =>
    obtain ⟨st, hst⟩ := PrimitiveLoop_triangles Engine s.Context.StaticMeshConfig Comp L
      s.LODIndex (LODPrepass L s.bHasVertexColors).1 (LODPrepass L s.bHasVertexColors).2.1
      L.Primitives
      (PrimitiveLoopStart (LODPrepass L s.bHasVertexColors).2.2 s.SectionMaterialMap
        s.Context.StaticMaterials) (hTri L (List.mem_cons_self _ _))
    have hRest : AllTriangles Rest := fun L' hL => hTri L' (List.mem_cons_of_mem _ hL)
    rw [LODLoop_cons_next Engine Comp L Rest s st hst]
    cases i with
    | zero =>
      have hL : L = LOD := by simpa using hi
      subst hL
      obtain ⟨a, b⟩ := LODLoop_keeps_below Engine Comp Rest
        { Context := FinishLOD Engine s.LODIndex (LODPrepass L s.bHasVertexColors).1
            (LODPrepass L s.bHasVertexColors).2.1 s.Context st,
          bHasVertexColors := (LODPrepass L s.bHasVertexColors).2.1,
          SectionMaterialMap := st.SectionMaterialMap,
          LODIndex := s.LODIndex + 1 } hRest
      refine ⟨s, st, rfl, rfl, by simp, fun _ => rfl, hst, a s.LODIndex (Nat.lt_succ_self _),
        fun _ => b (Nat.succ_pos _)⟩
    | succ i =>
      have hi' : Rest[i]? = some LOD := by simpa using hi
      obtain ⟨si, sti, h1, h2, h3, _, h5, h6, h7⟩ := ih
        { Context := FinishLOD Engine s.LODIndex (LODPrepass L s.bHasVertexColors).1
            (LODPrepass L s.bHasVertexColors).2.1 s.Context st,
          bHasVertexColors := (LODPrepass L s.bHasVertexColors).2.1,
          SectionMaterialMap := st.SectionMaterialMap,
          LODIndex := s.LODIndex + 1 } hRest i hi'
      refine ⟨si, sti, by rw [h1]; show s.LODIndex + 1 + i = _; omega, h2, ?_,
        fun h => absurd h (Nat.succ_ne_zero _), h5, h6, h7⟩
      rw [h3]
      show ((LODPrepass L s.bHasVertexColors).2.1 || _) = _
      rw [LODPrepass_colors, List.take_succ_cons, List.any_cons, Bool.or_assoc]

end WholeBuild

section WholeBuild2

variable {K : Type} [LinearOrderedField K]

theorem FVector.sub_ZeroVector (A : FVector K) : A.sub FVector.ZeroVector = A := by
  unfold FVector.sub FVector.ZeroVector
  simp

/-- What `FinishLOD` stores for the LOD: every vertex moved by the pivot delta of the
policy, which is the zero vector under the policy Asset. -/
theorem FinishLOD_stored (Engine : FEngine K) (CurrentLODIndex NumUVs : Nat) (bColors : Bool)
    (Context : FglTFRuntimeStaticMeshContext K) (st : FPrimitiveLoopState K) :
    ∃ L : FStaticMeshLODResources K,
      (FinishLOD Engine CurrentLODIndex NumUVs bColors Context st).LODResources =
        Context.LODResources.set CurrentLODIndex L ∧
      L.Sections = st.Sections ∧ L.Indices = st.LODIndices ∧ L.NumTexCoords = NumUVs ∧
      L.bHasColorVertexData = bColors ∧
      L.Vertices = st.StaticMeshBuildVertices.map (fun Vertex =>
        { Vertex with
          Position := Vertex.Position.sub
            (PivotDeltaOf Context.StaticMeshConfig.PivotPosition st.BoundingBox) }) := by
  unfold FinishLOD
  refine ⟨_, rfl, rfl, rfl, rfl, rfl, ?_⟩
  simp only
  by_cases h : Context.StaticMeshConfig.PivotPosition = .Asset
  · rw [if_neg (by simp [h]), h]
    have e : ∀ V : FStaticMeshBuildVertex K,
        { V with
          Position := V.Position.sub
            (PivotDeltaOf EglTFRuntimePivotPosition.Asset st.BoundingBox) } = V := by
      intro V
      show { V with Position := V.Position.sub FVector.ZeroVector } = V
      rw [FVector.sub_ZeroVector]
    simp only [e, List.map_id']
  · rw [if_pos (by simp [h]), if_pos (by simp [h])]

/-- The pivot delta that `FinishLOD` records for LOD 0: the delta of the policy, or what
the context held under the policy Asset. -/
theorem FinishLOD_recorded (Engine : FEngine K) (NumUVs : Nat) (bColors : Bool)
    (Context : FglTFRuntimeStaticMeshContext K) (st : FPrimitiveLoopState K) :
    (FinishLOD Engine 0 NumUVs bColors Context st).LOD0PivotDelta =
      (if Context.StaticMeshConfig.PivotPosition = .Asset then Context.LOD0PivotDelta
       else PivotDeltaOf Context.StaticMeshConfig.PivotPosition st.BoundingBox) := by
  by_cases h : Context.StaticMeshConfig.PivotPosition = .Asset
  · rw [if_pos h]
    show (if _ then _ else _) = _
    rw [if_neg (by simp [h])]
  · rw [if_neg h]
    show (if _ then _ else _) = _
    rw [if_pos (by simp [h]), if_pos (by simp [h])]

/-- The bounds that `FinishLOD` stores for LOD 0: the centre of the bounding box moved by
the pivot delta, the half size of the box, and the radius measured from the centre of the
box, not moved, to the moved vertices. -/
theorem FinishLOD_bounds (Engine : FEngine K) (NumUVs : Nat) (bColors : Bool)
    (Context : FglTFRuntimeStaticMeshContext K) (st : FPrimitiveLoopState K) :
    (FinishLOD Engine 0 NumUVs bColors Context st).BoundingBoxAndSphere =
      { Origin := st.BoundingBox.GetCenterAndExtents.1.sub
          (PivotDeltaOf Context.StaticMeshConfig.PivotPosition st.BoundingBox),
        BoxExtent := st.BoundingBox.GetCenterAndExtents.2,
        SphereRadius := SphereRadiusOf Engine st.BoundingBox.GetCenterAndExtents.1
          (st.StaticMeshBuildVertices.map (fun Vertex =>
            { Vertex with
              Position := Vertex.Position.sub
                (PivotDeltaOf Context.StaticMeshConfig.PivotPosition st.BoundingBox) })) } := by
  unfold FinishLOD
  simp only [if_true]
  by_cases h : Context.StaticMeshConfig.PivotPosition = .Asset
  · have e : ∀ V : FStaticMeshBuildVertex K,
        { V with
          Position := V.Position.sub
            (PivotDeltaOf EglTFRuntimePivotPosition.Asset st.BoundingBox) } = V := by
      intro V
      show { V with Position := V.Position.sub FVector.ZeroVector } = V
      rw [FVector.sub_ZeroVector]
    rw [if_neg (by simp [h]), if_neg (by simp [h]), h]
    simp only [e, List.map_id']
    rfl
  · rw [if_pos (by simp [h]), if_pos (by simp [h])]

/-- The LOD number `i` of a build of Triangles primitives, as `LoadStaticMesh_Internal`
leaves it: the primitive loop of the LOD runs from its start state to a state `st`, with
the colour flag `b` that is set when a primitive of this LOD or of an earlier one has
colours, and the resources of the LOD hold the sections and indices of `st` and the
vertices of `st` moved by the pivot delta of the LOD's bounding box. -/
theorem Build_LOD (Engine : FEngine K) (StaticMeshContext : FglTFRuntimeStaticMeshContext K)
    (Comp : UStaticMeshComponent K) (hTri : AllTriangles StaticMeshContext.LODs)
    (i : Nat) (LOD : FglTFRuntimeMeshLOD K) (hi : StaticMeshContext.LODs[i]? = some LOD) :
    ∃ (NumUVs : Nat) (Map : List (Nat × Nat)) (Materials : List FStaticMaterial)
      (st : FPrimitiveLoopState K) (L : FStaticMeshLODResources K),
      PrimitiveLoop Engine StaticMeshContext.StaticMeshConfig Comp LOD i NumUVs
        ((StaticMeshContext.LODs.take (i + 1)).any HasColors) LOD.Primitives
        (PrimitiveLoopStart (TotalIndices LOD.Primitives) Map Materials) = .Next st ∧
      (i = 0 → Map = [] ∧ Materials = StaticMeshContext.StaticMaterials) ∧
      (LoadStaticMesh_Internal Engine StaticMeshContext Comp).Context.LODResources[i]? =
        some L ∧
      L.Sections = st.Sections ∧ L.Indices = st.LODIndices ∧ L.NumTexCoords = NumUVs ∧
      L.bHasColorVertexData = (StaticMeshContext.LODs.take (i + 1)).any HasColors ∧
      L.Vertices = st.StaticMeshBuildVertices.map (fun Vertex =>
        { Vertex with
          Position := Vertex.Position.sub
            (PivotDeltaOf StaticMeshContext.StaticMeshConfig.PivotPosition
              st.BoundingBox) }) ∧
      (i = 0 →
        (LoadStaticMesh_Internal Engine StaticMeshContext Comp).Context.LOD0PivotDelta =
          (if StaticMeshContext.StaticMeshConfig.PivotPosition = .Asset then
            StaticMeshContext.LOD0PivotDelta
           else PivotDeltaOf StaticMeshContext.StaticMeshConfig.PivotPosition st.BoundingBox) ∧
        (LoadStaticMesh_Internal Engine StaticMeshContext Comp).Context.BoundingBoxAndSphere =
          { Origin := st.BoundingBox.GetCenterAndExtents.1.sub
              (PivotDeltaOf StaticMeshContext.StaticMeshConfig.PivotPosition st.BoundingBox),
            BoxExtent := st.BoundingBox.GetCenterAndExtents.2,
            SphereRadius := SphereRadiusOf Engine st.BoundingBox.GetCenterAndExtents.1
              L.Vertices }) := by
  obtain ⟨si, st, h1, h2, h3, h4, h5, h6, h7⟩ := LODLoop_at Engine Comp StaticMeshContext.LODs
    { Context :=
        { StaticMeshContext with
          LODResources := List.replicate StaticMeshContext.LODs.length {} },
      bHasVertexColors := false,
      SectionMaterialMap := [],
      LODIndex := 0 } hTri i LOD hi
  obtain ⟨_, _, _, _, hlen⟩ := LODLoop_outcome Engine Comp StaticMeshContext.LODs
    { Context :=
        { StaticMeshContext with
          LODResources := List.replicate StaticMeshContext.LODs.length {} },
      bHasVertexColors := false,
      SectionMaterialMap := [],
      LODIndex := 0 } hTri
  obtain ⟨L, e1, e2, e3, e4, e5, e6⟩ := FinishLOD_stored Engine si.LODIndex
    (LODPrepass LOD si.bHasVertexColors).1 (LODPrepass LOD si.bHasVertexColors).2.1
    si.Context st
  have hlt : i < StaticMeshContext.LODs.length := by
    rcases Nat.lt_or_ge i StaticMeshContext.LODs.length with h | h
    · exact h
    · rw [List.getElem?_eq_none h] at hi
      exact Option.noConfusion hi
  have hidx : si.LODIndex = i := by rw [h1]; exact Nat.zero_add i
  have hb : (LODPrepass LOD si.bHasVertexColors).2.1 =
      (StaticMeshContext.LODs.take (i + 1)).any HasColors := by
    rw [LODPrepass_colors, h3, List.take_succ, hi]
    simp
  have hT : (LODPrepass LOD si.bHasVertexColors).2.2 = TotalIndices LOD.Primitives :=
    LODPrepass_total LOD _
  have hcfg : si.Context.StaticMeshConfig = StaticMeshContext.StaticMeshConfig := h2
  rw [hidx, hb, hT, hcfg] at h5
  rw [hb] at e5
  rw [hcfg] at e6
  refine ⟨_, si.SectionMaterialMap, si.Context.StaticMaterials, st, L, h5, ?_, ?_, e2, e3,
    e4, e5, e6, ?_⟩
  · intro h0
    rw [h4 h0]
    exact ⟨rfl, rfl⟩
  rotate_left
  · intro h0
    have hsi := h4 h0
    have hz : si.LODIndex = 0 := by rw [hidx]; exact h0
    obtain ⟨b1, b2⟩ := h7 hz
    rw [hz] at b1 b2
    refine ⟨?_, ?_⟩
    · show (LODLoop Engine Comp StaticMeshContext.LODs _).Context.LOD0PivotDelta = _
      rw [b2, FinishLOD_recorded, hcfg, hsi]
    · show (LODLoop Engine Comp StaticMeshContext.LODs _).Context.BoundingBoxAndSphere = _
      rw [b1, FinishLOD_bounds, hcfg, e6]
  · have hres : (LoadStaticMesh_Internal Engine StaticMeshContext Comp).Context.LODResources[i]? =
        (si.Context.LODResources.set i L)[i]? := by
      rw [hidx] at e1 h6
      rw [← e1]
      exact h6
    have hsome : i < (LoadStaticMesh_Internal Engine StaticMeshContext
        Comp).Context.LODResources.length := by
      show i < (LODLoop Engine Comp StaticMeshContext.LODs _).Context.LODResources.length
      rw [hlen]
      simpa using hlt
    rw [hres, List.getElem?_set, if_pos rfl]
    split
    · rfl
    · rename_i hn
      have hnone : (LoadStaticMesh_Internal Engine StaticMeshContext
          Comp).Context.LODResources[i]? = none := by
        rw [hres, List.getElem?_set, if_pos rfl, if_neg hn]
      rw [List.getElem?_eq_getElem hsome] at hnone
      exact Option.noConfusion hnone

/-- The colour flag of LOD number `i` of a build of Triangles primitives is set exactly
when a primitive of LOD `i` or of an earlier LOD of the build has colours. -/
theorem Build_color_flag (Engine : FEngine K)
    (StaticMeshContext : FglTFRuntimeStaticMeshContext K) (Comp : UStaticMeshComponent K)
    (hTri : AllTriangles StaticMeshContext.LODs) (i : Nat)
    (hi : i < StaticMeshContext.LODs.length) :
    (LoadStaticMesh_Internal Engine StaticMeshContext Comp).Context.LODResources[i]?.map
        (fun L => L.bHasColorVertexData) =
      some ((StaticMeshContext.LODs.take (i + 1)).any HasColors) := by
  obtain ⟨_, _, _, _, L, _, _, h3, _, _, _, h7, _, _⟩ := Build_LOD Engine StaticMeshContext Comp
    hTri i StaticMeshContext.LODs[i] (List.getElem?_eq_getElem hi)
  rw [h3, Option.map_some', h7]

end WholeBuild2

section Transforms

variable {K : Type} [LinearOrderedField K]

/-- The vertex of the geometry generation loop when the additional transform is applied. -/
theorem GeometryVertex_transformed (Engine : FEngine K) (C : FglTFRuntimeStaticMeshConfig K)
    (Primitive : FglTFRuntimePrimitive K) (NumUVs : Nat) (bColors : Bool) (T : FTransform K)
    (Old : FStaticMeshBuildVertex K) (VertexIndex : Nat) :
    let V := GeometryVertex Engine C Primitive NumUVs bColors true T Old VertexIndex
    V.Position = T.TransformPosition (Primitive.Positions[VertexIndex]?.getD FVector.ZeroVector) ∧
    V.TangentZ = T.Rotation.RotateVector (Primitive.Normals[VertexIndex]?.getD FVector.ZeroVector) ∧
    V.TangentX = T.Rotation.RotateVector
      (Primitive.Tangents[VertexIndex]?.getD ⟨0, 0, 0, 1⟩).toFVector := by
  simp [GeometryVertex, GetSafeValue_fst, FTransform.TransformVectorNoScale]

/-- With no winding reversal and the policies Never, the passes change nothing. -/
theorem TrianglePasses_never (Engine : FEngine K) (C : FglTFRuntimeStaticMeshConfig K)
    (Primitive : FglTFRuntimePrimitive K) (Base : Nat) (G : FGeometryState K)
    (hW : C.bReverseWinding = false) (hN : C.NormalsGenerationStrategy = .Never)
    (hT : C.TangentsGenerationStrategy = .Never) :
    TrianglePasses Engine C Primitive Base G = G.StaticMeshBuildVertices := by
  unfold TrianglePasses bCanGenerateNormals bCanGenerateTangents
  simp [hW, hN, hT]

end Transforms

section Defaults

variable {K : Type} [LinearOrderedField K]

/-- The vertex of the geometry generation loop is the vertex filled from the source
arrays, sent through the additional-transform step. -/
theorem GeometryVertex_split (Engine : FEngine K) (C : FglTFRuntimeStaticMeshConfig K)
    (Primitive : FglTFRuntimePrimitive K) (NumUVs : Nat) (bColors bApply : Bool)
    (T : FTransform K) (Old : FStaticMeshBuildVertex K) (VertexIndex : Nat) :
    GeometryVertex Engine C Primitive NumUVs bColors bApply T Old VertexIndex =
      AdditionalTransformed bApply T
        (GeometryVertex Engine C Primitive NumUVs bColors false T Old VertexIndex) := by
  cases bApply <;> simp [GeometryVertex, AdditionalTransformed]

end Defaults

/-! ### Bounding boxes -/

section Boxes

variable {K : Type} [LinearOrderedField K]

theorem TightInterval_single (q : K) : TightInterval q q [q] := by
  refine ⟨?_, List.mem_singleton_self q, List.mem_singleton_self q⟩
  intro x hx
  rw [List.mem_singleton] at hx
  rw [hx]
  exact ⟨le_refl q, le_refl q⟩

theorem TightInterval_snoc {lo hi : K} {xs : List K} (h : TightInterval lo hi xs) (q : K) :
    TightInterval (min lo q) (max hi q) (xs ++ [q]) := by
  obtain ⟨h1, h2, h3⟩ := h
  refine ⟨?_, ?_, ?_⟩
  · intro x hx
    rw [List.mem_append, List.mem_singleton] at hx
    rcases hx with hx | hx
    · exact ⟨le_trans (min_le_left lo q) (h1 x hx).1, le_trans (h1 x hx).2 (le_max_left hi q)⟩
    · rw [hx]
      exact ⟨min_le_right lo q, le_max_right hi q⟩
  · rw [List.mem_append, List.mem_singleton]
    rcases min_choice lo q with e | e
    · rw [e]; exact Or.inl h2
    · rw [e]; exact Or.inr rfl
  · rw [List.mem_append, List.mem_singleton]
    rcases max_choice hi q with e | e
    · rw [e]; exact Or.inl h3
    · rw [e]; exact Or.inr rfl

theorem TightInterval_unique {lo hi lo' hi' : K} {xs ys : List K}
    (h : TightInterval lo hi xs) (h' : TightInterval lo' hi' ys)
    (hset : ∀ x, x ∈ xs ↔ x ∈ ys) : lo = lo' ∧ hi = hi' := by
  obtain ⟨h1, h2, h3⟩ := h
  obtain ⟨g1, g2, g3⟩ := h'
  exact ⟨le_antisymm (h1 lo' ((hset lo').mpr g2)).1 (g1 lo ((hset lo).mp h2)).1,
    le_antisymm (g1 hi ((hset hi).mp h3)).2 (h1 hi' ((hset hi').mpr g3)).2⟩

theorem TightInterval_shift {lo hi : K} {xs : List K} (h : TightInterval lo hi xs) (d : K) :
    TightInterval (lo - d) (hi - d) (xs.map (fun x => x - d)) := by
  obtain ⟨h1, h2, h3⟩ := h
  refine ⟨?_, List.mem_map.mpr ⟨lo, h2, rfl⟩, List.mem_map.mpr ⟨hi, h3, rfl⟩⟩
  intro x hx
  obtain ⟨y, hy, e⟩ := List.mem_map.mp hx
  rw [← e]
  exact ⟨sub_le_sub_right (h1 y hy).1 d, sub_le_sub_right (h1 y hy).2 d⟩

/-- The first point makes the box the point itself. -/
theorem addPoint_first (B : FBox K) (hB : B.IsValid = false) (q : FVector K) :
    TightBox (B.addPoint q) [q] := by
  unfold FBox.addPoint
  rw [hB]
  exact ⟨rfl, TightInterval_single _, TightInterval_single _, TightInterval_single _⟩

/-- A further point keeps the box the hull of its points. -/
theorem addPoint_tight {B : FBox K} {P : List (FVector K)} (h : TightBox B P) (q : FVector K) :
    TightBox (B.addPoint q) (P ++ [q]) := by
  obtain ⟨hv, hx, hy, hz⟩ := h
  unfold FBox.addPoint
  rw [hv, if_pos rfl]
  refine ⟨rfl, ?_, ?_, ?_⟩
  · rw [List.map_append]; exact TightInterval_snoc hx q.X
  · rw [List.map_append]; exact TightInterval_snoc hy q.Y
  · rw [List.map_append]; exact TightInterval_snoc hz q.Z

theorem BoxOf_snoc (P : List (FVector K)) (q : FVector K) :
    BoxOf (P ++ [q]) = (BoxOf P).addPoint q := by
  unfold BoxOf
  rw [List.foldl_append]
  rfl

/-- The box recomputed from a non-empty list of points is valid and is their hull. -/
theorem BoxOf_tight (P : List (FVector K)) (hP : P ≠ []) : TightBox (BoxOf P) P := by
  induction P using List.reverseRecOn with
  | nil => exact absurd rfl hP
  | append_singleton P q ih =>
    rw [BoxOf_snoc]
    by_cases hnil : P = []
    · subst hnil
      exact addPoint_first _ rfl q
    · exact addPoint_tight (ih hnil) q

theorem mem_map_of_set_eq {P Q : List (FVector K)} (hset : ∀ p, p ∈ P ↔ p ∈ Q) (f : FVector K → K)
    (x : K) : x ∈ P.map f ↔ x ∈ Q.map f := by
  constructor
  · intro h
    obtain ⟨p, hp, e⟩ := List.mem_map.mp h
    exact List.mem_map.mpr ⟨p, (hset p).mp hp, e⟩
  · intro h
    obtain ⟨p, hp, e⟩ := List.mem_map.mp h
    exact List.mem_map.mpr ⟨p, (hset p).mpr hp, e⟩

/-- Two boxes that are the hull of the same set of points are equal. -/
theorem TightBox_unique {B B' : FBox K} {P Q : List (FVector K)} (h : TightBox B P)
    (h' : TightBox B' Q) (hset : ∀ p, p ∈ P ↔ p ∈ Q) : B = B' := by
  obtain ⟨hv, hx, hy, hz⟩ := h
  obtain ⟨gv, gx, gy, gz⟩ := h'
  obtain ⟨x1, x2⟩ := TightInterval_unique hx gx (mem_map_of_set_eq hset _)
  obtain ⟨y1, y2⟩ := TightInterval_unique hy gy (mem_map_of_set_eq hset _)
  obtain ⟨z1, z2⟩ := TightInterval_unique hz gz (mem_map_of_set_eq hset _)
  obtain ⟨⟨a1, a2, a3⟩, ⟨b1, b2, b3⟩, v⟩ := B
  obtain ⟨⟨c1, c2, c3⟩, ⟨d1, d2, d3⟩, w⟩ := B'
  simp only at hv gv x1 x2 y1 y2 z1 z2
  rw [hv, gv, x1, x2, y1, y2, z1, z2]

/-- The recomputed box depends on the set of the points only, not on their order or
their multiplicity. -/
theorem BoxOf_congr {P Q : List (FVector K)} (hset : ∀ p, p ∈ P ↔ p ∈ Q) :
    BoxOf P = BoxOf Q := by
  by_cases hP : P = []
  · have hQ : Q = [] := by
      rw [List.eq_nil_iff_forall_not_mem]
      intro q hq
      rw [hP] at hset
      exact List.not_mem_nil q ((hset q).mpr hq)
    rw [hP, hQ]
  · have hQ : Q ≠ [] := by
      intro hQ
      apply hP
      rw [List.eq_nil_iff_forall_not_mem]
      intro p hp
      rw [hQ] at hset
      exact List.not_mem_nil p ((hset p).mp hp)
    exact TightBox_unique (BoxOf_tight P hP) (BoxOf_tight Q hQ) hset

/-- Moving every point by `-D` moves the recomputed box by `-D`. -/
theorem BoxOf_shift (P : List (FVector K)) (hP : P ≠ []) (D : FVector K) :
    BoxOf (P.map (fun p => p.sub D)) = ⟨(BoxOf P).Min.sub D, (BoxOf P).Max.sub D, true⟩ := by
  have hP' : P.map (fun p => p.sub D) ≠ [] := by
    intro h
    exact hP (List.map_eq_nil_iff.mp h)
  obtain ⟨_, hx, hy, hz⟩ := BoxOf_tight P hP
  refine TightBox_unique (BoxOf_tight _ hP') ⟨rfl, ?_, ?_, ?_⟩ (fun _ => Iff.rfl)
  · have := TightInterval_shift hx D.X
    rw [List.map_map] at this ⊢
    exact this
  · have := TightInterval_shift hy D.Y
    rw [List.map_map] at this ⊢
    exact this
  · have := TightInterval_shift hz D.Z
    rw [List.map_map] at this ⊢
    exact this

/-- A box moved by its own centre has its centre at the origin. -/
theorem GetCenter_shift_center (B : FBox K) :
    (⟨B.Min.sub B.GetCenter, B.Max.sub B.GetCenter, true⟩ : FBox K).GetCenter =
      FVector.ZeroVector := by
  unfold FBox.GetCenter FVector.add FVector.sub FVector.scale FVector.ZeroVector
  simp only [FVector.mk.injEq]
  refine ⟨?_, ?_, ?_⟩ <;> ring

end Boxes

/-! ### The bounding box of a LOD -/

section LODBox

variable {K : Type} [LinearOrderedField K]

/-- The position that the geometry generation loop writes does not depend on what the
slot held. -/
theorem GeometryVertex_position_old (Engine : FEngine K) (C : FglTFRuntimeStaticMeshConfig K)
    (Primitive : FglTFRuntimePrimitive K) (NumUVs : Nat) (bColors bApply : Bool)
    (T : FTransform K) (Old Old' : FStaticMeshBuildVertex K) (VertexIndex : Nat) :
    (GeometryVertex Engine C Primitive NumUVs bColors bApply T Old VertexIndex).Position =
      (GeometryVertex Engine C Primitive NumUVs bColors bApply T Old' VertexIndex).Position := by
  cases bApply <;> simp [GeometryVertex]

/-- The bounding box after the first `n` iterations of the geometry generation loop. -/
theorem GeometryGeneration_box_upto (Engine : FEngine K) (C : FglTFRuntimeStaticMeshConfig K)
    (Primitive : FglTFRuntimePrimitive K) (NumUVs : Nat) (bColors bApply : Bool)
    (T : FTransform K) (Base : Nat) (st : FGeometryState K) (n : Nat) :
    ((List.range n).foldl
      (GeometryGenerationStep Engine C Primitive NumUVs bColors bApply T Base) st).BoundingBox =
      ((List.range n).map (fun k =>
        (GeometryVertex Engine C Primitive NumUVs bColors bApply T FStaticMeshBuildVertex.Default
          (Primitive.Indices.getD k 0)).Position)).foldl FBox.addPoint st.BoundingBox := by
  induction n with
  | zero => rfl
  | succ n ih =>
    rw [List.range_succ, List.foldl_append, List.map_append, List.foldl_append, ← ih]
    simp only [List.foldl_cons, List.foldl_nil, List.map_cons, List.map_nil]
    unfold GeometryGenerationStep
    simp only
    rw [GeometryVertex_position_old Engine C Primitive NumUVs bColors bApply T _
      FStaticMeshBuildVertex.Default]

/-- The geometry generation of a Triangles primitive adds the positions it writes, one
per index, to the bounding box. -/
theorem GeometryGeneration_box (Engine : FEngine K) (C : FglTFRuntimeStaticMeshConfig K)
    (Primitive : FglTFRuntimePrimitive K) (NumUVs : Nat) (bColors bApply : Bool)
    (T : FTransform K) (st : FPrimitiveLoopState K)
    (hlen : st.VertexInstanceBaseIndex + Primitive.Indices.length ≤
      st.StaticMeshBuildVertices.length) :
    ∃ New : List (FVector K), New.length = Primitive.Indices.length ∧
      (GeometryGeneration Engine C Primitive NumUVs bColors bApply T
        st.VertexInstanceBaseIndex (GeometryStart Primitive st)).BoundingBox =
          New.foldl FBox.addPoint st.BoundingBox ∧
      ∀ k, k < Primitive.Indices.length →
        (GeometryGeneration Engine C Primitive NumUVs bColors bApply T
          st.VertexInstanceBaseIndex
          (GeometryStart Primitive st)).StaticMeshBuildVertices[st.VertexInstanceBaseIndex +
            k]?.map (fun v => v.Position) = New[k]? := by
  refine ⟨(List.range Primitive.Indices.length).map (fun k =>
    (GeometryVertex Engine C Primitive NumUVs bColors bApply T FStaticMeshBuildVertex.Default
      (Primitive.Indices.getD k 0)).Position), by simp, ?_, ?_⟩
  · unfold GeometryGeneration
    rw [GeometryGeneration_box_upto]
    rfl
  · intro k hk
    obtain ⟨_, _, _, g4, _, _⟩ := GeometryGeneration_spec Engine C Primitive NumUVs bColors
      bApply T st
    rw [g4 k hk (by omega), Option.map_some', List.getElem?_map,
      List.getElem?_range hk, Option.map_some']
    exact congrArg some (GeometryVertex_position_old Engine C Primitive NumUVs bColors bApply T _
      FStaticMeshBuildVertex.Default _)

/-- The passes after the geometry generation move positions only through the winding
reversal. -/
theorem TrianglePasses_positions (Engine : FEngine K) (C : FglTFRuntimeStaticMeshConfig K)
    (Primitive : FglTFRuntimePrimitive K) (Base : Nat) (G : FGeometryState K) :
    (TrianglePasses Engine C Primitive Base G).map (fun v => v.Position) =
      (Reversed C Primitive.Indices.length Base G.StaticMeshBuildVertices).map
        (fun v => v.Position) := by
  have hfst : ∀ l l' : List (FStaticMeshBuildVertex K),
      l.map (fun v => (v.Position, v.TangentZ)) = l'.map (fun v => (v.Position, v.TangentZ)) →
      l.map (fun v => v.Position) = l'.map (fun v => v.Position) := by
    intro l l' h
    have := congrArg (List.map Prod.fst) h
    simpa [List.map_map, Function.comp] using this
  cases hgen : (bCanGenerateNormals C G.bMissingNormals &&
      Primitive.Indices.length % 3 == 0) with
  | false => exact hfst _ _ (TrianglePasses_kept Engine C Primitive Base G hgen)
  | true =>
    simp only [Bool.and_eq_true, beq_iff_eq] at hgen
    rw [hfst _ _ (TrianglePasses_generated Engine C Primitive Base G hgen.2 hgen.1),
      GenerateNormals_positions]

theorem WindingSource_involutive (b : Bool) (k : Nat) :
    WindingSource b (WindingSource b k) = k := by
  unfold WindingSource
  cases b with
  | false => rfl
  | true =>
    simp only [if_true]
    have h3 : k % 3 = 0 ∨ k % 3 = 1 ∨ k % 3 = 2 := by omega
    rcases h3 with h | h | h
    · have e1 : (if k % 3 = 1 then k + 1 else if k % 3 = 2 then k - 1 else k) = k := by
        rw [if_neg (by omega), if_neg (by omega)]
      rw [e1, e1]
    · have e1 : (if k % 3 = 1 then k + 1 else if k % 3 = 2 then k - 1 else k) = k + 1 := by
        rw [if_pos h]
      rw [e1, if_neg (by omega), if_pos (by omega)]
      omega
    · have e1 : (if k % 3 = 1 then k + 1 else if k % 3 = 2 then k - 1 else k) = k - 1 := by
        rw [if_neg (by omega), if_pos h]
      rw [e1, if_pos (by omega)]
      omega

/-- The winding pass permutes the slots of the section by an involution. -/
theorem Reversed_permutes (C : FglTFRuntimeStaticMeshConfig K) (Num Base : Nat)
    (vs : List (FStaticMeshBuildVertex K)) (hlen : Base + Num ≤ vs.length) :
    ∃ σ : Nat → Nat, (∀ k, k < Num → σ k < Num ∧ σ (σ k) = k) ∧
      ∀ k, k < Num → (Reversed C Num Base vs)[Base + k]? = vs[Base + σ k]? := by
  by_cases hmod : Num % 3 = 0
  · refine ⟨WindingSource C.bReverseWinding, ?_, ?_⟩
    · intro k hk
      exact ⟨WindingSource_lt _ Num k hmod hk, WindingSource_involutive _ k⟩
    · intro k hk
      exact Reversed_inside C Num Base vs hmod hlen k hk
  · refine ⟨id, fun k hk => ⟨hk, rfl⟩, ?_⟩
    intro k _
    unfold Reversed
    rw [if_neg]
    · rfl
    · simp [hmod]

/-- The positions and the bounding box after the Triangles branch: the array keeps its
length, the slots below the section keep their positions, and the box has grown by a list
of points that is, as a set, the positions in the slots of the section. -/
theorem TrianglesBranch_box (Engine : FEngine K) (C : FglTFRuntimeStaticMeshConfig K)
    (LOD : FglTFRuntimeMeshLOD K) (NumUVs : Nat) (bColors : Bool)
    (Primitive : FglTFRuntimePrimitive K) (StaticMaterial : FStaticMaterial)
    (st : FPrimitiveLoopState K)
    (hlen : st.VertexInstanceBaseIndex + Primitive.Indices.length ≤
      st.StaticMeshBuildVertices.length) :
    let st' := TrianglesBranch Engine C LOD NumUVs bColors Primitive StaticMaterial st
    st'.StaticMeshBuildVertices.length = st.StaticMeshBuildVertices.length ∧
    st'.VertexInstanceBaseIndex = st.VertexInstanceBaseIndex + Primitive.Indices.length ∧
    (∀ j, j < st.VertexInstanceBaseIndex →
      st'.StaticMeshBuildVertices[j]?.map (fun v => v.Position) =
        st.StaticMeshBuildVertices[j]?.map (fun v => v.Position)) ∧
    ∃ New : List (FVector K),
      st'.BoundingBox = New.foldl FBox.addPoint st.BoundingBox ∧
      ∀ p, p ∈ New ↔ ∃ k, k < Primitive.Indices.length ∧
        st'.StaticMeshBuildVertices[st.VertexInstanceBaseIndex + k]?.map
          (fun v => v.Position) = some p := by
  intro st'
  obtain ⟨g1, _, g3, _, _, _⟩ := GeometryGeneration_spec Engine C Primitive NumUVs bColors
    (decide (LOD.Primitives.length = LOD.AdditionalTransforms.length))
    (LOD.AdditionalTransforms.getD st.AdditionalTransformsPrimitiveIndex FTransform.Identity) st
  obtain ⟨New, n1, n2, n3⟩ := GeometryGeneration_box Engine C Primitive NumUVs bColors
    (decide (LOD.Primitives.length = LOD.AdditionalTransforms.length))
    (LOD.AdditionalTransforms.getD st.AdditionalTransformsPrimitiveIndex FTransform.Identity) st
    hlen
  have hvs : st'.StaticMeshBuildVertices = TrianglePasses Engine C Primitive
      st.VertexInstanceBaseIndex (GeometryGeneration Engine C Primitive NumUVs bColors
        (decide (LOD.Primitives.length = LOD.AdditionalTransforms.length))
        (LOD.AdditionalTransforms.getD st.AdditionalTransformsPrimitiveIndex FTransform.Identity)
        st.VertexInstanceBaseIndex (GeometryStart Primitive st)) := rfl
  generalize hG : GeometryGeneration Engine C Primitive NumUVs bColors
    (decide (LOD.Primitives.length = LOD.AdditionalTransforms.length))
    (LOD.AdditionalTransforms.getD st.AdditionalTransformsPrimitiveIndex FTransform.Identity)
    st.VertexInstanceBaseIndex (GeometryStart Primitive st) = G at g1 g3 n2 n3 hvs
  have hbox : st'.BoundingBox = G.BoundingBox := by rw [← hG]; rfl
  have hpos := TrianglePasses_positions Engine C Primitive st.VertexInstanceBaseIndex G
  rw [← hvs] at hpos
  have hposk : ∀ j : Nat,
      st'.StaticMeshBuildVertices[j]?.map (fun v : FStaticMeshBuildVertex K => v.Position) =
      (Reversed C Primitive.Indices.length st.VertexInstanceBaseIndex
        G.StaticMeshBuildVertices)[j]?.map (fun v : FStaticMeshBuildVertex K => v.Position) := by
    intro j
    have := congrArg (fun l => l[j]?) hpos
    simpa [List.getElem?_map] using this
  have hlenG : st.VertexInstanceBaseIndex + Primitive.Indices.length ≤
      G.StaticMeshBuildVertices.length := by rw [g1]; exact hlen
  obtain ⟨σ, s1, s2⟩ := Reversed_permutes C Primitive.Indices.length st.VertexInstanceBaseIndex
    G.StaticMeshBuildVertices hlenG
  refine ⟨?_, rfl, ?_, New, by rw [hbox, n2], ?_⟩
  · rw [length_eq_of_map_eq _ hpos, Reversed_length, g1]
  · intro j hj
    rw [hposk j, Reversed_outside C _ _ _ hlenG j (Or.inl hj), g3 j (Or.inl hj)]
  · intro p
    constructor
    · intro hp
      obtain ⟨k, hk⟩ := List.mem_iff_getElem?.mp hp
      have hkN : k < Primitive.Indices.length := by
        rcases Nat.lt_or_ge k New.length with h | h
        · rw [← n1]; exact h
        · rw [List.getElem?_eq_none h] at hk
          exact Option.noConfusion hk
      refine ⟨σ k, (s1 k hkN).1, ?_⟩
      rw [hposk, s2 (σ k) (s1 k hkN).1, (s1 k hkN).2, n3 k hkN, hk]
    · rintro ⟨k, hk, e⟩
      rw [hposk, s2 k hk, n3 (σ k) (s1 k hk).1] at e
      exact List.mem_iff_getElem?.mpr ⟨σ k, e⟩

/-- The bounding box of the loop state is the box of the positions in the slots below
`VertexInstanceBaseIndex`, as a set. -/
theorem PrimitiveLoop_box (Engine : FEngine K) (C : FglTFRuntimeStaticMeshConfig K)
    (Comp : UStaticMeshComponent K) (LOD : FglTFRuntimeMeshLOD K) (CurrentLODIndex NumUVs : Nat)
    (bColors : Bool) (Primitives : List (FglTFRuntimePrimitive K)) (st : FPrimitiveLoopState K)
    (hPrims : ∀ p ∈ Primitives, p.Mode = MODE_TRIANGLES)
    (hlen : st.VertexInstanceBaseIndex + TotalIndices Primitives ≤
      st.StaticMeshBuildVertices.length)
    (hbox : ∃ P : List (FVector K), st.BoundingBox = BoxOf P ∧
      ∀ p, p ∈ P ↔ ∃ j, j < st.VertexInstanceBaseIndex ∧
        st.StaticMeshBuildVertices[j]?.map (fun v => v.Position) = some p) :
    ∃ st', PrimitiveLoop Engine C Comp LOD CurrentLODIndex NumUVs bColors Primitives st =
        .Next st' ∧
      st'.StaticMeshBuildVertices.length = st.StaticMeshBuildVertices.length ∧
      st'.VertexInstanceBaseIndex = st.VertexInstanceBaseIndex + TotalIndices Primitives ∧
      ∃ P : List (FVector K), st'.BoundingBox = BoxOf P ∧
        ∀ p, p ∈ P ↔ ∃ j, j < st'.VertexInstanceBaseIndex ∧
          st'.StaticMeshBuildVertices[j]?.map (fun v => v.Position) = some p := by
  induction Primitives generalizing st with
  | nil => exact ⟨st, rfl, rfl, by simp [TotalIndices], hbox⟩
  | cons q Rest ih =>
    have hsum : TotalIndices (q :: Rest) = q.Indices.length + TotalIndices Rest := by
      simp [TotalIndices]
    rw [hsum] at hlen
    obtain ⟨P, hP1, hP2⟩ := hbox
    obtain ⟨t1, t2, t3, New, t4, t5⟩ := TrianglesBranch_box Engine C LOD NumUVs bColors q
      ⟨q.Material, "LOD_" ++ toString CurrentLODIndex ++ "_Section_" ++
        toString st.StaticMaterials.length ++ "_" ++ q.MaterialName⟩
      { st with Sections := st.Sections ++ [{}] } (by
        show st.VertexInstanceBaseIndex + q.Indices.length ≤ st.StaticMeshBuildVertices.length
        omega)
    generalize hst1 : TrianglesBranch Engine C LOD NumUVs bColors q
      ⟨q.Material, "LOD_" ++ toString CurrentLODIndex ++ "_Section_" ++
        toString st.StaticMaterials.length ++ "_" ++ q.MaterialName⟩
      { st with Sections := st.Sections ++ [{}] } = st1 at t1 t2 t3 t4 t5
    change st1.StaticMeshBuildVertices.length = st.StaticMeshBuildVertices.length at t1
    change st1.VertexInstanceBaseIndex = st.VertexInstanceBaseIndex + q.Indices.length at t2
    change ∀ j, j < st.VertexInstanceBaseIndex →
      st1.StaticMeshBuildVertices[j]?.map (fun v => v.Position) =
        st.StaticMeshBuildVertices[j]?.map (fun v => v.Position) at t3
    change st1.BoundingBox = New.foldl FBox.addPoint st.BoundingBox at t4
    change ∀ p, p ∈ New ↔ ∃ k, k < q.Indices.length ∧
      st1.StaticMeshBuildVertices[st.VertexInstanceBaseIndex + k]?.map
        (fun v => v.Position) = some p at t5
    have hinv : ∃ P' : List (FVector K), st1.BoundingBox = BoxOf P' ∧
        ∀ p, p ∈ P' ↔ ∃ j, j < st1.VertexInstanceBaseIndex ∧
          st1.StaticMeshBuildVertices[j]?.map (fun v => v.Position) = some p := by
      refine ⟨P ++ New, ?_, ?_⟩
      · rw [t4, hP1]
        unfold BoxOf
        rw [List.foldl_append]
      · intro p
        rw [List.mem_append, hP2 p, t5 p, t2]
        constructor
        · rintro (⟨j, hj, e⟩ | ⟨k, hk, e⟩)
          · exact ⟨j, by omega, by rw [t3 j hj]; exact e⟩
          · exact ⟨st.VertexInstanceBaseIndex + k, by omega, e⟩
        · rintro ⟨j, hj, e⟩
          by_cases hjb : j < st.VertexInstanceBaseIndex
          · exact Or.inl ⟨j, hjb, by rw [← t3 j hjb]; exact e⟩
          · refine Or.inr ⟨j - st.VertexInstanceBaseIndex, by omega, ?_⟩
            have ej : st.VertexInstanceBaseIndex + (j - st.VertexInstanceBaseIndex) = j := by
              omega
            rw [ej]
            exact e
    obtain ⟨st2, e2, l2, b2, i2⟩ := ih st1
      (fun r hr => hPrims r (List.mem_cons_of_mem _ hr)) (by rw [t2, t1]; omega) hinv
    refine ⟨st2, ?_, by rw [l2, t1], by rw [b2, t2, hsum]; omega, i2⟩
    unfold PrimitiveLoop
    rw [ProcessPrimitive_triangles Engine C Comp LOD CurrentLODIndex NumUVs bColors st q
      (hPrims q (List.mem_cons_self _ _)), hst1]
    exact e2

/-- At the end of the primitive loop of a LOD of Triangles primitives, every slot of the
vertex array has been written and the bounding box of the loop is the box recomputed from
the positions in the array. -/
theorem PrimitiveLoop_box_end (Engine : FEngine K) (C : FglTFRuntimeStaticMeshConfig K)
    (Comp : UStaticMeshComponent K) (LOD : FglTFRuntimeMeshLOD K) (CurrentLODIndex NumUVs : Nat)
    (bColors : Bool) (Map : List (Nat × Nat)) (Materials : List FStaticMaterial)
    (st : FPrimitiveLoopState K)
    (hPrims : ∀ p ∈ LOD.Primitives, p.Mode = MODE_TRIANGLES)
    (hst : PrimitiveLoop Engine C Comp LOD CurrentLODIndex NumUVs bColors LOD.Primitives
      (PrimitiveLoopStart (TotalIndices LOD.Primitives) Map Materials) = .Next st) :
    st.StaticMeshBuildVertices.length = TotalIndices LOD.Primitives ∧
    st.BoundingBox = BoxOf (st.StaticMeshBuildVertices.map (fun v => v.Position)) := by
  obtain ⟨st', e, l, b, P, hP1, hP2⟩ := PrimitiveLoop_box Engine C Comp LOD CurrentLODIndex
    NumUVs bColors LOD.Primitives (PrimitiveLoopStart (TotalIndices LOD.Primitives) Map Materials)
    hPrims (by simp [PrimitiveLoopStart]) ⟨[], rfl, by simp [PrimitiveLoopStart]⟩
  rw [hst] at e
  have hst' : st = st' := by
    injection e
  subst hst'
  have hl : st.StaticMeshBuildVertices.length = TotalIndices LOD.Primitives := by
    rw [l]; simp [PrimitiveLoopStart]
  have hb : st.VertexInstanceBaseIndex = TotalIndices LOD.Primitives := by
    rw [b]; simp [PrimitiveLoopStart]
  refine ⟨hl, ?_⟩
  rw [hP1]
  apply BoxOf_congr
  intro p
  rw [hP2 p, List.mem_map]
  constructor
  · rintro ⟨j, hj, e⟩
    have hjl : j < st.StaticMeshBuildVertices.length := by omega
    rw [List.getElem?_eq_getElem hjl, Option.map_some', Option.some.injEq] at e
    exact ⟨_, List.getElem_mem _, e⟩
  · rintro ⟨v, hv, e⟩
    obtain ⟨j, hj, ej⟩ := List.getElem_of_mem hv
    refine ⟨j, by omega, ?_⟩
    rw [List.getElem?_eq_getElem hj, Option.map_some', ej, e]

end LODBox

section Pivot

variable {K : Type} [LinearOrderedField K]

/-- The pivot delta of each policy, with the half Z size of the box written out. -/
theorem PivotDeltaOf_cases (PivotPosition : EglTFRuntimePivotPosition) (B : FBox K) :
    (PivotPosition = .Asset → PivotDeltaOf PivotPosition B = ⟨0, 0, 0⟩) ∧
    (PivotPosition = .Center → PivotDeltaOf PivotPosition B = B.GetCenter) ∧
    (PivotPosition = .Top →
      PivotDeltaOf PivotPosition B = B.GetCenter.add ⟨0, 0, B.GetSize.Z / 2⟩) ∧
    (PivotPosition = .Bottom →
      PivotDeltaOf PivotPosition B = B.GetCenter.sub ⟨0, 0, B.GetSize.Z / 2⟩) := by
  have hz : B.GetExtent.Z = B.GetSize.Z / 2 := by
    unfold FBox.GetExtent FBox.GetSize FVector.scale FVector.sub
    simp only
    ring
  refine ⟨?_, ?_, ?_, ?_⟩ <;> intro h <;> rw [h] <;> unfold PivotDeltaOf <;> simp only
  · rfl
  · rw [hz]
  · rw [hz]

end Pivot

section Sphere

variable {K : Type} [LinearOrderedField K]

set_option maxRecDepth 8000 in
/-- The build of `OffCentreContext` with any engine: the output positions, the stored
origin, and the stored radius in terms of the engine's square root. -/
theorem OffCentre_build (Engine : FEngine K) (Comp : UStaticMeshComponent K) :
    (LoadStaticMesh_Internal Engine (OffCentreContext K) Comp).Context.LODResources.map
        (fun L => L.Vertices.map (fun v => v.Position)) =
      [[⟨10, 10, 0⟩, ⟨-10, 0, 0⟩, ⟨0, -10, 0⟩]] ∧
    (LoadStaticMesh_Internal Engine (OffCentreContext K) Comp).Context.BoundingBoxAndSphere.Origin =
      ⟨0, 0, 0⟩ ∧
    (LoadStaticMesh_Internal Engine (OffCentreContext K)
      Comp).Context.BoundingBoxAndSphere.SphereRadius =
      max (Engine.Sqrt 178) (max (Engine.Sqrt 178) (max (Engine.Sqrt 98) 0)) := by
  simp [LoadStaticMesh_Internal, OffCentreContext,
    LODLoop, LODPrepass, PrimitiveLoop, PrimitiveLoopStart, ProcessPrimitive, MODE_LINES, MODE_POINTS,
    MODE_TRIANGLES, TrianglesBranch, GeometryStart, GeometryGeneration, GeometryGenerationStep,
    GeometryVertex, GetSafeValue, FinishLOD, TMapContains, FBox.Init, FBox.addPoint,
    FBox.GetCenterAndExtents, FBox.GetExtent, FBox.GetCenter, FVector.add, FVector.sub, FVector.scale,
    List.range_succ, List.range_zero, FStaticMeshBuildVertex.Default, PopulateUVs, MAX_STATIC_TEXCOORDS,
    FVector.ZeroVector, FVector4.toFVector, PivotDeltaOf, SphereRadiusOf, FVector.Size,
    FVector.SizeSquared, TrianglePasses, bCanGenerateNormals, bCanGenerateTangents,
    GenerateNormals, GenerateNormalsStep, TriangleStarts, NormalFromCross]
  have e1 : (13 : K) ⊓ -7 ⊓ 3 = -7 := by norm_num [min_def]
  have e2 : (13 : K) ⊔ -7 ⊔ 3 = 13 := by norm_num [max_def]
  have e3 : (13 : K) ⊓ 3 ⊓ -7 = -7 := by norm_num [min_def]
  have e4 : (13 : K) ⊔ 3 ⊔ -7 = 13 := by norm_num [max_def]
  rw [e1, e2, e3, e4]
  norm_num

/-- The stored radius of every build of Triangles primitives: the largest distance to an
output vertex of LOD 0, measured not from the stored origin but from the stored origin
moved back by the pivot delta `D`. Under the policy Asset `D` is (0,0,0). -/
theorem Build_sphere_radius (Engine : FEngine K)
    (StaticMeshContext : FglTFRuntimeStaticMeshContext K) (Comp : UStaticMeshComponent K)
    (hTri : AllTriangles StaticMeshContext.LODs) (LOD : FglTFRuntimeMeshLOD K)
    (hi : StaticMeshContext.LODs[0]? = some LOD) :
    ∃ (L : FStaticMeshLODResources K) (D : FVector K),
      (LoadStaticMesh_Internal Engine StaticMeshContext Comp).Context.LODResources[0]? =
        some L ∧
      (StaticMeshContext.StaticMeshConfig.PivotPosition = .Asset → D = ⟨0, 0, 0⟩) ∧
      (StaticMeshContext.StaticMeshConfig.PivotPosition = .Center →
        D = (BoxOf (L.Vertices.map (fun v => v.Position.add D))).GetCenter) ∧
      (LoadStaticMesh_Internal Engine StaticMeshContext
        Comp).Context.BoundingBoxAndSphere.SphereRadius =
        SphereRadiusOf Engine
          ((LoadStaticMesh_Internal Engine StaticMeshContext
            Comp).Context.BoundingBoxAndSphere.Origin.add D) L.Vertices := by
  obtain ⟨NumUVs, Map, Materials, st, L, b1, _, b3, _, _, _, _, b8, b9⟩ :=
    Build_LOD Engine StaticMeshContext Comp hTri 0 LOD hi
  obtain ⟨_, hbox⟩ := PrimitiveLoop_box_end Engine StaticMeshContext.StaticMeshConfig
    Comp LOD 0 NumUVs _ Map Materials st (hTri LOD (List.getElem?_mem hi)) b1
  obtain ⟨c1, c2, _, _⟩ := PivotDeltaOf_cases StaticMeshContext.StaticMeshConfig.PivotPosition
    st.BoundingBox
  have hback : ∀ A B : FVector K, (A.sub B).add B = A := by
    intro A B
    unfold FVector.sub FVector.add
    simp
  refine ⟨L, PivotDeltaOf StaticMeshContext.StaticMeshConfig.PivotPosition st.BoundingBox,
    b3, c1, ?_, ?_⟩
  · intro hC
    have hpos : L.Vertices.map (fun v => v.Position.add
        (PivotDeltaOf StaticMeshContext.StaticMeshConfig.PivotPosition st.BoundingBox)) =
        st.StaticMeshBuildVertices.map (fun v => v.Position) := by
      rw [b8, List.map_map]
      apply List.map_congr_left
      intro v _
      exact hback _ _
    rw [hpos, ← hbox]
    exact c2 hC
  · rw [(b9 rfl).2]
    simp only
    rw [hback]

end Sphere

/-! ### Lines and Points primitives -/

section PointsLines

variable {K : Type} [LinearOrderedField K]

/-- The transform of the glyph of one point: at the position, no rotation, scale 0.1. -/
theorem GlyphInstances_upto (Engine : FEngine K) (Primitive : FglTFRuntimePrimitive K)
    (hColors : Primitive.Colors = [] ∨ Primitive.Indices.length ≤ Primitive.Colors.length)
    (n : Nat) (hn : n ≤ Primitive.Indices.length) :
    ∃ Instances : List (FGlyphInstance K),
      (List.range n).foldl
        (fun (Acc : List (FGlyphInstance K) × Bool) PointIndex =>
          if Acc.2 then Acc
          else
            let VertexIndexStart := Primitive.Indices.getD PointIndex 0
            let Position :=
              (GetSafeValue Primitive.Positions VertexIndexStart FVector.ZeroVector false).1
            let Scale : K := GLYPHER_SCALING_FACTOR
            let Transform : FTransform K :=
              { Rotation := ⟨0, 0, 0, 1⟩, Translation := Position,
                Scale3D := (⟨1, 1, 1⟩ : FVector K).scale Scale }
            if Primitive.Colors.isEmpty then (Acc.1 ++ [⟨Transform, none⟩], false)
            else
              match Primitive.Colors[PointIndex]? with
              | some Color => (Acc.1 ++ [⟨Transform, some (Engine.ToFColor Color)⟩], false)
              | none => (Acc.1 ++ [⟨Transform, none⟩], true))
        ([], false) = (Instances, false) ∧
      Instances.length = n ∧
      ∀ k, k < n → Instances[k]?.map (fun I => I.Transform) =
        some ⟨⟨0, 0, 0, 1⟩,
          Primitive.Positions[Primitive.Indices.getD k 0]?.getD FVector.ZeroVector,
          ⟨1 / 10, 1 / 10, 1 / 10⟩⟩ := by
  induction n with
  | zero => exact ⟨[], rfl, rfl, fun k hk => absurd hk (Nat.not_lt_zero k)⟩
  | succ n ih =>
    obtain ⟨I, h1, h2, h3⟩ := ih (Nat.le_of_succ_le hn)
    rw [List.range_succ, List.foldl_append, h1]
    simp only [List.foldl_cons, List.foldl_nil, GetSafeValue_fst, Bool.false_eq_true, if_false]
    have hscale : (⟨1, 1, 1⟩ : FVector K).scale GLYPHER_SCALING_FACTOR =
        ⟨1 / 10, 1 / 10, 1 / 10⟩ := by
      simp [FVector.scale, GLYPHER_SCALING_FACTOR]
    rw [hscale]
    have hentry : ∀ (c : Option FColor) (k : Nat), k < n + 1 →
        (I ++ [(⟨⟨⟨0, 0, 0, 1⟩,
          Primitive.Positions[Primitive.Indices.getD n 0]?.getD FVector.ZeroVector,
          ⟨1 / 10, 1 / 10, 1 / 10⟩⟩, c⟩ : FGlyphInstance K)])[k]?.map (fun I => I.Transform) =
        some ⟨⟨0, 0, 0, 1⟩,
          Primitive.Positions[Primitive.Indices.getD k 0]?.getD FVector.ZeroVector,
          ⟨1 / 10, 1 / 10, 1 / 10⟩⟩ := by
      intro c k hk
      by_cases hkn : k < n
      · rw [List.getElem?_append_left (by rw [h2]; exact hkn)]
        exact h3 k hkn
      · have e : k = n := by omega
        subst e
        rw [List.getElem?_append_right (by rw [h2]), h2, Nat.sub_self]
        rfl
    by_cases hE : Primitive.Colors.isEmpty = true
    · rw [if_pos hE]
      exact ⟨_, rfl, by simp [h2], hentry none⟩
    · rw [if_neg hE]
      have hlt : n < Primitive.Colors.length := by
        rcases hColors with h | h
        · rw [h] at hE
          exact absurd rfl hE
        · omega
      rw [List.getElem?_eq_getElem hlt]
      exact ⟨_, rfl, by simp [h2], hentry _⟩

/-- The glyph loop of a Points primitive whose colours, if any, cover its indices runs to
its end: one instance per index, at the referenced position (the zero vector when the
index has no position), without rotation, with the scale (0.1, 0.1, 0.1). -/
theorem GlyphInstances_spec (Engine : FEngine K) (Primitive : FglTFRuntimePrimitive K)
    (hColors : Primitive.Colors = [] ∨ Primitive.Indices.length ≤ Primitive.Colors.length) :
    ∃ Instances : List (FGlyphInstance K),
      GlyphInstances Engine Primitive = (Instances, false) ∧
      Instances.length = Primitive.Indices.length ∧
      ∀ k, k < Primitive.Indices.length → Instances[k]?.map (fun I => I.Transform) =
        some ⟨⟨0, 0, 0, 1⟩,
          Primitive.Positions[Primitive.Indices.getD k 0]?.getD FVector.ZeroVector,
          ⟨1 / 10, 1 / 10, 1 / 10⟩⟩ :=
  GlyphInstances_upto Engine Primitive hColors Primitive.Indices.length (Nat.le_refl _)

/-- The Points branch: above the ceiling of 1000 indices it returns null and creates
nothing; at or below it, on a component without a parent, it stops the program before
any instance is added; on a component with a parent it returns the glyph proxy mesh with
the instances of the glyph loop when that loop runs to its end, and stops the program
with the instances added so far when it does not. -/
theorem PointsBranch_cases (Engine : FEngine K) (Comp : UStaticMeshComponent K)
    (Primitive : FglTFRuntimePrimitive K) (st : FPrimitiveLoopState K) :
    (1000 < Primitive.Indices.length →
      PointsBranch Engine Comp Primitive st = .Return st (.Returned none) {}) ∧
    (Primitive.Indices.length ≤ 1000 → Comp.Parents = [] →
      PointsBranch Engine Comp Primitive st = .Return st .Crashed {}) ∧
    (∀ Instances, Primitive.Indices.length ≤ 1000 → Comp.Parents ≠ [] →
      GlyphInstances Engine Primitive = (Instances, false) →
      PointsBranch Engine Comp Primitive st =
        .Return st (.Returned Engine.GlyphMesh)
          { GlyphInstances := Instances, bGlyphProxy := true }) ∧
    (∀ Instances, Primitive.Indices.length ≤ 1000 → Comp.Parents ≠ [] →
      GlyphInstances Engine Primitive = (Instances, true) →
      PointsBranch Engine Comp Primitive st =
        .Return st .Crashed { GlyphInstances := Instances, bGlyphProxy := true }) := by
  refine ⟨?_, ?_, ?_, ?_⟩
  · intro h
    unfold PointsBranch
    simp [RESTRICT_POINTCLOUD_SIZE_FOR_TESTING_ON_LAPTOP, h]
  · intro h hP
    unfold PointsBranch
    simp [RESTRICT_POINTCLOUD_SIZE_FOR_TESTING_ON_LAPTOP, Nat.not_lt.mpr h, hP]
  · intro Instances h hP hI
    unfold PointsBranch
    cases hPar : Comp.Parents with
    | nil => exact absurd hPar hP
    | cons a l => simp [RESTRICT_POINTCLOUD_SIZE_FOR_TESTING_ON_LAPTOP, Nat.not_lt.mpr h, hI]
  · intro Instances h hP hI
    unfold PointsBranch
    cases hPar : Comp.Parents with
    | nil => exact absurd hPar hP
    | cons a l => simp [RESTRICT_POINTCLOUD_SIZE_FOR_TESTING_ON_LAPTOP, Nat.not_lt.mpr h, hI]

/-- A Points primitive leaves the body of the primitive loop as the Points branch does. -/
theorem ProcessPrimitive_points (Engine : FEngine K) (C : FglTFRuntimeStaticMeshConfig K)
    (Comp : UStaticMeshComponent K) (LOD : FglTFRuntimeMeshLOD K) (CurrentLODIndex NumUVs : Nat)
    (bColors : Bool) (st : FPrimitiveLoopState K) (Primitive : FglTFRuntimePrimitive K)
    (hMode : Primitive.Mode = MODE_POINTS) (Outcome : FOutcome) (Effects : FSideEffects K)
    (h : PointsBranch Engine Comp Primitive { st with Sections := st.Sections ++ [{}] } =
      .Return { st with Sections := st.Sections ++ [{}] } Outcome Effects) :
    ProcessPrimitive Engine C Comp LOD CurrentLODIndex NumUVs bColors st Primitive =
      .Return { st with Sections := st.Sections ++ [{}] } Outcome Effects := by
  unfold ProcessPrimitive
  simp only [hMode, MODE_POINTS, MODE_LINES, if_neg (by decide : ¬ (0 : Nat) = 1), if_true]
  rw [h]

/-- A Lines primitive leaves the body of the primitive loop with the result of the Lines
branch. -/
theorem ProcessPrimitive_lines (Engine : FEngine K) (C : FglTFRuntimeStaticMeshConfig K)
    (Comp : UStaticMeshComponent K) (LOD : FglTFRuntimeMeshLOD K) (CurrentLODIndex NumUVs : Nat)
    (bColors : Bool) (st : FPrimitiveLoopState K) (Primitive : FglTFRuntimePrimitive K)
    (hMode : Primitive.Mode = MODE_LINES) :
    ProcessPrimitive Engine C Comp LOD CurrentLODIndex NumUVs bColors st Primitive =
      .Return { st with Sections := st.Sections ++ [{}] }
        (LinesBranch Engine Comp Primitive).1 (LinesBranch Engine Comp Primitive).2 := by
  unfold ProcessPrimitive
  simp [hMode]

/-- A loop that appends one entry per turn and never raises its stop flag ends with the
flag down and as many entries as it had turns. -/
theorem foldl_flag_append {α β : Type} (f : List β × Bool → α → List β × Bool)
    (l : List α) (init : List β)
    (h : ∀ acc a, a ∈ l → ∃ b, f (acc, false) a = (acc ++ [b], false)) :
    (l.foldl f (init, false)).2 = false ∧
    (l.foldl f (init, false)).1.length = init.length + l.length := by
  induction l generalizing init with
  | nil => exact ⟨rfl, rfl⟩
  | cons a l ih =>
    obtain ⟨b, hb⟩ := h init a (List.mem_cons_self _ _)
    rw [List.foldl_cons, hb]
    obtain ⟨i1, i2⟩ := ih (init ++ [b]) (fun acc y hy => h acc y (List.mem_cons_of_mem _ hy))
    refine ⟨i1, ?_⟩
    rw [i2]
    simp
    omega

/-- The beam loop of a primitive whose colours, if any, cover its indices runs to its
end, with one beam per pair of indices. -/
theorem LineBeams_spec (Engine : FEngine K) (MeshTransform : FTransform K)
    (Primitive : FglTFRuntimePrimitive K)
    (hColors : Primitive.Colors = [] ∨ Primitive.Indices.length ≤ Primitive.Colors.length) :
    (LineBeams Engine MeshTransform Primitive).2 = false ∧
    (LineBeams Engine MeshTransform Primitive).1.length = Primitive.Indices.length / 2 := by
  have key : (LineBeams Engine MeshTransform Primitive).2 = false ∧
      (LineBeams Engine MeshTransform Primitive).1.length =
        ([] : List (FBeam K)).length + (List.range (Primitive.Indices.length / 2)).length := by
    unfold LineBeams
    apply foldl_flag_append
    intro acc a ha
    rw [List.mem_range] at ha
    simp only [Bool.false_eq_true, if_false]
    by_cases hE : Primitive.Colors.isEmpty = true
    · rw [if_pos hE]
      exact ⟨_, rfl⟩
    · rw [if_neg hE]
      have hlt : a * 2 + 1 < Primitive.Colors.length := by
        rcases hColors with h | h
        · rw [h] at hE
          exact absurd rfl hE
        · omega
      rw [List.getElem?_eq_getElem hlt,
        List.getElem?_eq_getElem (Nat.lt_of_succ_lt hlt)]
      exact ⟨_, rfl⟩
  refine ⟨key.1, ?_⟩
  rw [key.2]
  simp

/-- The Lines branch of a primitive whose colours, if any, cover its indices: `return
nullptr` after one beam per pair of indices, when the line effect can be loaded. -/
theorem LinesBranch_returns (Engine : FEngine K) (Comp : UStaticMeshComponent K)
    (Primitive : FglTFRuntimePrimitive K)
    (hColors : Primitive.Colors = [] ∨ Primitive.Indices.length ≤ Primitive.Colors.length) :
    (LinesBranch Engine Comp Primitive).1 = .Returned none ∧
    (LinesBranch Engine Comp Primitive).2.Beams.length =
      (if Engine.bLineSystem then Primitive.Indices.length / 2 else 0) ∧
    (LinesBranch Engine Comp Primitive).2.GlyphInstances = [] ∧
    (LinesBranch Engine Comp Primitive).2.bGlyphProxy = false := by
  obtain ⟨k1, k2⟩ := LineBeams_spec Engine Comp.ComponentTransform Primitive hColors
  unfold LinesBranch
  cases hL : Engine.bLineSystem with
  | false => simp
  | true =>
    simp only [if_true, k1, Bool.false_eq_true, if_false]
    exact ⟨trivial, k2, trivial, trivial⟩

/-- A build whose first primitive leaves the primitive loop by a `return`: the build hands
back what the primitive returned, with its effects; the finalize flag is cleared and the
mesh of the context replaced exactly when the glyph proxy mesh was installed. -/
theorem LoadStaticMesh_Internal_first (Engine : FEngine K)
    (StaticMeshContext : FglTFRuntimeStaticMeshContext K) (Comp : UStaticMeshComponent K)
    (LOD : FglTFRuntimeMeshLOD K) (Rest : List (FglTFRuntimeMeshLOD K))
    (Primitive : FglTFRuntimePrimitive K) (RestPrimitives : List (FglTFRuntimePrimitive K))
    (hLODs : StaticMeshContext.LODs = LOD :: Rest)
    (hPrims : LOD.Primitives = Primitive :: RestPrimitives)
    (Outcome : FOutcome) (Effects : FSideEffects K)
    (hstep : ∀ NumUVs bColors st, ∃ st1,
      ProcessPrimitive Engine StaticMeshContext.StaticMeshConfig Comp LOD 0 NumUVs bColors st
        Primitive = .Return st1 Outcome Effects) :
    (LoadStaticMesh_Internal Engine StaticMeshContext Comp).Outcome = Outcome ∧
    (LoadStaticMesh_Internal Engine StaticMeshContext Comp).Effects = Effects ∧
    (LoadStaticMesh_Internal Engine StaticMeshContext Comp).bFinalizeStaticMesh =
      !Effects.bGlyphProxy ∧
    (LoadStaticMesh_Internal Engine StaticMeshContext Comp).Context.StaticMesh =
      (if Effects.bGlyphProxy then Engine.GlyphMesh else StaticMeshContext.StaticMesh) := by
  unfold LoadStaticMesh_Internal
  rw [hLODs, LODLoop]
  simp only
  rw [hPrims, PrimitiveLoop]
  obtain ⟨st1, h⟩ := hstep
    (LODPrepass LOD false).1 (LODPrepass LOD false).2.1
    (PrimitiveLoopStart (LODPrepass LOD false).2.2 [] StaticMeshContext.StaticMaterials)
  rw [h]
  exact ⟨rfl, rfl, rfl, rfl⟩

end PointsLines

/-! ### Screen sizes -/

section ScreenSizes

variable {K : Type} [LinearOrderedField K]

/-- The default loop after `k` turns: the running screen size is `1 - k * Delta` and the
first `k` entries of the array hold the ramp. -/
theorem DefaultScreenSizes_upto (Delta : K) (ScreenSize : List K) (k : Nat) :
    ((List.range k).foldl
      (fun (Acc : List K × K) LODIndex => (Acc.1.set LODIndex Acc.2, Acc.2 - Delta))
      (ScreenSize, 1)).2 = 1 - (k : K) * Delta ∧
    ((List.range k).foldl
      (fun (Acc : List K × K) LODIndex => (Acc.1.set LODIndex Acc.2, Acc.2 - Delta))
      (ScreenSize, 1)).1.length = ScreenSize.length ∧
    ∀ i, ((List.range k).foldl
      (fun (Acc : List K × K) LODIndex => (Acc.1.set LODIndex Acc.2, Acc.2 - Delta))
      (ScreenSize, 1)).1[i]? =
        if i < k ∧ i < ScreenSize.length then some (1 - (i : K) * Delta) else ScreenSize[i]? := by
  induction k with
  | zero => simp
  | succ k ih =>
    obtain ⟨h1, h2, h3⟩ := ih
    rw [List.range_succ, List.foldl_append]
    simp only [List.foldl_cons, List.foldl_nil]
    refine ⟨?_, ?_, ?_⟩
    · rw [h1]
      push_cast
      ring
    · rw [List.length_set, h2]
    · intro i
      rw [List.getElem?_set, h2, h1]
      by_cases hik : k = i
      · subst hik
        rw [if_pos rfl]
        by_cases hl : k < ScreenSize.length
        · rw [if_pos hl, if_pos ⟨Nat.lt_succ_self _, hl⟩]
        · rw [if_neg hl, if_neg (fun h => hl h.2)]
          exact (List.getElem?_eq_none (Nat.le_of_not_lt hl)).symm
      · rw [if_neg hik, h3 i]
        have e : (i < k + 1 ∧ i < ScreenSize.length) ↔ (i < k ∧ i < ScreenSize.length) := by
          constructor
          · rintro ⟨a, b⟩
            exact ⟨by omega, b⟩
          · rintro ⟨a, b⟩
            exact ⟨by omega, b⟩
        simp only [e]

/-- The default thresholds: entry `i` of a LOD is `1 - i * (1/n) / m`; the entries that
are no LOD keep what they held. -/
theorem DefaultScreenSizes_spec (n : Nat) (m : K) (ScreenSize : List K) :
    (DefaultScreenSizes n m ScreenSize).length = ScreenSize.length ∧
    ∀ i, (DefaultScreenSizes n m ScreenSize)[i]? =
      if i < n ∧ i < ScreenSize.length then some (1 - (i : K) * (1 / (n : K)) / m)
      else ScreenSize[i]? := by
  obtain ⟨_, h2, h3⟩ := DefaultScreenSizes_upto ((1 / (n : K)) / m) ScreenSize n
  refine ⟨h2, ?_⟩
  intro i
  unfold DefaultScreenSizes
  simp only
  rw [h3 i, mul_div_assoc]

theorem TMapFind_of_not_mem {α β : Type} [DecidableEq α] (M : List (α × β)) (Key : α)
    (h : Key ∉ M.map Prod.fst) : TMapFind M Key = none := by
  induction M with
  | nil => rfl
  | cons p M ih =>
    rw [List.map_cons, List.mem_cons, not_or] at h
    unfold TMapFind
    rw [if_neg (fun e => h.1 e.symm)]
    exact ih h.2

/-- The override loop: the array keeps its length, the entry of a LOD with an override
holds the override, every other entry keeps what it held. -/
theorem OverrideScreenSizes_spec (n : Nat) (LODScreenSize : List (Int × K))
    (hKeys : (LODScreenSize.map Prod.fst).Nodup) (ScreenSize : List K) :
    (OverrideScreenSizes n LODScreenSize ScreenSize).length = ScreenSize.length ∧
    ∀ i, (OverrideScreenSizes n LODScreenSize ScreenSize)[i]? =
      if i < n ∧ i < ScreenSize.length then
        (match TMapFind LODScreenSize (i : Int) with
          | some Value => some Value
          | none => ScreenSize[i]?)
      else ScreenSize[i]? := by
  induction LODScreenSize generalizing ScreenSize with
  | nil =>
    refine ⟨rfl, ?_⟩
    intro i
    unfold OverrideScreenSizes TMapFind
    simp
  | cons p Rest ih =>
    rw [List.map_cons, List.nodup_cons] at hKeys
    obtain ⟨hp, hRest⟩ := hKeys
    have hstep : OverrideScreenSizes n (p :: Rest) ScreenSize =
        OverrideScreenSizes n Rest
          (if p.1 ≥ 0 ∧ p.1 < (n : Int) then ScreenSize.set p.1.toNat p.2 else ScreenSize) := by
      unfold OverrideScreenSizes
      rw [List.foldl_cons]
    have hlen : (if p.1 ≥ 0 ∧ p.1 < (n : Int) then ScreenSize.set p.1.toNat p.2
        else ScreenSize).length = ScreenSize.length := by
      split <;> simp
    obtain ⟨i1, i2⟩ := ih hRest
      (if p.1 ≥ 0 ∧ p.1 < (n : Int) then ScreenSize.set p.1.toNat p.2 else ScreenSize)
    rw [hstep]
    refine ⟨by rw [i1, hlen], ?_⟩
    intro i
    rw [i2 i, hlen]
    by_cases hi : i < n ∧ i < ScreenSize.length
    · rw [if_pos hi, if_pos hi]
      have hcons : TMapFind (p :: Rest) (i : Int) =
          if p.1 = (i : Int) then some p.2 else TMapFind Rest (i : Int) := rfl
      rw [hcons]
      by_cases hk : p.1 = (i : Int)
      · rw [if_pos hk]
        have hnone : TMapFind Rest (i : Int) = none :=
          TMapFind_of_not_mem Rest _ (by rw [← hk]; exact hp)
        rw [hnone]
        simp only
        have hin : p.1 ≥ 0 ∧ p.1 < (n : Int) := by
          rw [hk]
          exact ⟨Int.natCast_nonneg i, by exact_mod_cast hi.1⟩
        rw [if_pos hin, hk, Int.toNat_natCast, List.getElem?_set_self hi.2]
      · rw [if_neg hk]
        cases hf : TMapFind Rest (i : Int) with
        | some v => rfl
        | none =>
          simp only
          by_cases hin : p.1 ≥ 0 ∧ p.1 < (n : Int)
          · rw [if_pos hin, List.getElem?_set_ne]
            intro e
            apply hk
            rw [← e, Int.toNat_of_nonneg hin.1]
          · rw [if_neg hin]
    · rw [if_neg hi, if_neg hi]
      by_cases hin : p.1 ≥ 0 ∧ p.1 < (n : Int)
      · rw [if_pos hin]
        by_cases hl : i < ScreenSize.length
        · rw [List.getElem?_set_ne]
          intro e
          apply hi
          refine ⟨?_, hl⟩
          have : (p.1.toNat : Int) < n := by
            rw [Int.toNat_of_nonneg hin.1]
            exact hin.2
          rw [e] at this
          exact_mod_cast this
        · rw [List.getElem?_eq_none (by rw [List.length_set]; omega),
            List.getElem?_eq_none (by omega)]
      · rw [if_neg hin]

/-- Pairs whose key is no LOD index do nothing in the override loop. -/
theorem OverrideScreenSizes_filter (n : Nat) (LODScreenSize : List (Int × K))
    (ScreenSize : List K) :
    OverrideScreenSizes n LODScreenSize ScreenSize =
      OverrideScreenSizes n
        (LODScreenSize.filter (fun Pair => decide (Pair.1 ≥ 0 ∧ Pair.1 < (n : Int))))
        ScreenSize := by
  induction LODScreenSize generalizing ScreenSize with
  | nil => rfl
  | cons p Rest ih =>
    have hstep : ∀ (L : List (Int × K)) (S : List K), OverrideScreenSizes n (p :: L) S =
        OverrideScreenSizes n L
          (if p.1 ≥ 0 ∧ p.1 < (n : Int) then S.set p.1.toNat p.2 else S) := by
      intro L S
      unfold OverrideScreenSizes
      rw [List.foldl_cons]
    by_cases hin : p.1 ≥ 0 ∧ p.1 < (n : Int)
    · rw [List.filter_cons_of_pos (by simpa using hin), hstep, hstep, ih]
    · rw [List.filter_cons_of_neg (by simpa using hin), hstep, if_neg hin, ih]

end ScreenSizes

/-! ### The guards of the passes -/

section PassGuards

variable {K : Type} [LinearOrderedField K]

/-- The geometry generation reads the configuration only through `bReverseTangents`. -/
theorem GeometryGeneration_config (Engine : FEngine K) (C : FglTFRuntimeStaticMeshConfig K)
    (r : Bool) (n : EglTFRuntimeNormalsGenerationStrategy)
    (t : EglTFRuntimeTangentsGenerationStrategy)
    (Primitive : FglTFRuntimePrimitive K) (NumUVs : Nat) (bColors bApply : Bool)
    (T : FTransform K) (Base : Nat) (st : FGeometryState K) :
    GeometryGeneration Engine
        { C with bReverseWinding := r, NormalsGenerationStrategy := n,
                 TangentsGenerationStrategy := t }
        Primitive NumUVs bColors bApply T Base st =
      GeometryGeneration Engine C Primitive NumUVs bColors bApply T Base st := rfl

/-- With an index count that is no multiple of 3 the three passes leave the vertices of
the geometry generation as they are. -/
theorem TrianglePasses_not_thrice (Engine : FEngine K) (C : FglTFRuntimeStaticMeshConfig K)
    (Primitive : FglTFRuntimePrimitive K) (Base : Nat) (G : FGeometryState K)
    (hmod : Primitive.Indices.length % 3 ≠ 0) :
    TrianglePasses Engine C Primitive Base G = G.StaticMeshBuildVertices := by
  have h : (Primitive.Indices.length % 3 == 0) = false := by simpa using hmod
  simp [TrianglePasses, h]

/-- With the winding reversal on and no generation of normals or tangents, the passes
are the winding reversal alone. -/
theorem TrianglePasses_reverse_only (Engine : FEngine K) (C : FglTFRuntimeStaticMeshConfig K)
    (Primitive : FglTFRuntimePrimitive K) (Base : Nat) (G : FGeometryState K)
    (hmod : Primitive.Indices.length % 3 = 0)
    (hW : C.bReverseWinding = true) (hN : C.NormalsGenerationStrategy = .Never)
    (hT : C.TangentsGenerationStrategy = .Never) :
    TrianglePasses Engine C Primitive Base G =
      ReverseWinding Primitive.Indices.length Base G.StaticMeshBuildVertices := by
  simp [TrianglePasses, bCanGenerateNormals, bCanGenerateTangents, hW, hN, hT, hmod]

/-- The winding reversal is an involution on the slots of a section of whole triangles. -/
theorem ReverseWinding_involutive (Num Base : Nat) (vs : List (FStaticMeshBuildVertex K))
    (hmod : Num % 3 = 0) (hlen : Base + Num ≤ vs.length) :
    ReverseWinding Num Base (ReverseWinding Num Base vs) = vs := by
  obtain ⟨l1, o1, i1⟩ := ReverseWinding_spec Num Base vs hmod hlen
  obtain ⟨l2, o2, i2⟩ := ReverseWinding_spec Num Base (ReverseWinding Num Base vs) hmod
    (by rw [l1]; exact hlen)
  apply List.ext_getElem?
  intro k
  by_cases hk : k < Base ∨ Base + Num ≤ k
  · rw [o2 k hk, o1 k hk]
  · have hk1 : Base ≤ k := by omega
    have hk2 : k < Base + Num := by omega
    have ht : (k - Base) / 3 < Num / 3 := by omega
    obtain ⟨a0, a1, a2⟩ := i1 ((k - Base) / 3) ht
    obtain ⟨b0, b1, b2⟩ := i2 ((k - Base) / 3) ht
    have hcase : (k - Base) % 3 = 0 ∨ (k - Base) % 3 = 1 ∨ (k - Base) % 3 = 2 := by omega
    rcases hcase with h | h | h
    · have e : k = Base + 3 * ((k - Base) / 3) := by omega
      rw [e, b0, a0]
    · have e : k = Base + 3 * ((k - Base) / 3) + 1 := by omega
      rw [e, b1, a2]
    · have e : k = Base + 3 * ((k - Base) / 3) + 2 := by omega
      rw [e, b2, a1]

/-- The geometry generation does not read `bReverseWinding`. -/
theorem GeometryGeneration_winding (Engine : FEngine K) (C : FglTFRuntimeStaticMeshConfig K)
    (r : Bool) (Primitive : FglTFRuntimePrimitive K) (NumUVs : Nat) (bColors bApply : Bool)
    (T : FTransform K) (Base : Nat) (st : FGeometryState K) :
    GeometryGeneration Engine { C with bReverseWinding := r }
        Primitive NumUVs bColors bApply T Base st =
      GeometryGeneration Engine C Primitive NumUVs bColors bApply T Base st := rfl

/-- When neither generation policy triggers, the passes are the winding pass alone. -/
theorem TrianglePasses_no_generation (Engine : FEngine K) (C : FglTFRuntimeStaticMeshConfig K)
    (Primitive : FglTFRuntimePrimitive K) (Base : Nat) (G : FGeometryState K)
    (hN : bCanGenerateNormals C G.bMissingNormals = false)
    (hT : bCanGenerateTangents C G.bMissingTangents = false) :
    TrianglePasses Engine C Primitive Base G =
      Reversed C Primitive.Indices.length Base G.StaticMeshBuildVertices := by
  simp [TrianglePasses, Reversed, hN, hT]

/-- The guard of the normal generation fails under the policy `Never`, and under the
policy `IfMissing` when no normal is missing. -/
theorem bCanGenerateNormals_false (C : FglTFRuntimeStaticMeshConfig K) (b : Bool)
    (h : C.NormalsGenerationStrategy = .Never ∨
      (C.NormalsGenerationStrategy = .IfMissing ∧ b = false)) :
    bCanGenerateNormals C b = false := by
  rcases h with h | ⟨h, hb⟩
  · simp [bCanGenerateNormals, h]
  · simp [bCanGenerateNormals, h, hb]

/-- The guard of the tangent generation fails under the policy `Never`, and under the
policy `IfMissing` when no tangent is missing. -/
theorem bCanGenerateTangents_false (C : FglTFRuntimeStaticMeshConfig K) (b : Bool)
    (h : C.TangentsGenerationStrategy = .Never ∨
      (C.TangentsGenerationStrategy = .IfMissing ∧ b = false)) :
    bCanGenerateTangents C b = false := by
  rcases h with h | ⟨h, hb⟩
  · simp [bCanGenerateTangents, h]
  · simp [bCanGenerateTangents, h, hb]

end PassGuards

/-! ### The guard of the tangent generation -/

section TangentGuard

variable {K : Type} [LinearOrderedField K]

/-- The geometry generation does not read the tangents policy. -/
theorem GeometryGeneration_tangents_policy (Engine : FEngine K)
    (C : FglTFRuntimeStaticMeshConfig K) (t : EglTFRuntimeTangentsGenerationStrategy)
    (Primitive : FglTFRuntimePrimitive K) (NumUVs : Nat) (bColors bApply : Bool)
    (T : FTransform K) (Base : Nat) (st : FGeometryState K) :
    GeometryGeneration Engine { C with TangentsGenerationStrategy := t }
        Primitive NumUVs bColors bApply T Base st =
      GeometryGeneration Engine C Primitive NumUVs bColors bApply T Base st := rfl

/-- The body of the tangent generation loop divides by `TangentDivisor`. -/
theorem GenerateTangentsStep_divisor (Engine : FEngine K) (TangentsDirection : K) (Base : Nat)
    (vs : List (FStaticMeshBuildVertex K)) (i : Nat) :
    GenerateTangentsStep Engine TangentsDirection Base vs i =
      (let V0 := vs.getD (Base + i) FStaticMeshBuildVertex.Default
       let V1 := vs.getD (Base + i + 1) FStaticMeshBuildVertex.Default
       let V2 := vs.getD (Base + i + 2) FStaticMeshBuildVertex.Default
       let UV0 := V0.UVs.getD 0 FVector2D.ZeroVector
       let UV1 := V1.UVs.getD 0 FVector2D.ZeroVector
       let UV2 := V2.UVs.getD 0 FVector2D.ZeroVector
       let TriangleTangentX :=
         (((V1.Position.sub V0.Position).scale (UV2.Y - UV0.Y)).sub
           ((V2.Position.sub V0.Position).scale (UV1.Y - UV0.Y))).scale
           (1 / TangentDivisor Base vs i)
       ((vs.set (Base + i) (CornerTangent Engine TangentsDirection TriangleTangentX V0)).set
          (Base + i + 1) (CornerTangent Engine TangentsDirection TriangleTangentX V1)).set
          (Base + i + 2) (CornerTangent Engine TangentsDirection TriangleTangentX V2)) := rfl

/-- The normal generation keeps the tangent and the bitangent of every vertex. -/
theorem GenerateNormals_tangents (Engine : FEngine K) (Num Base : Nat)
    (vs : List (FStaticMeshBuildVertex K)) :
    (GenerateNormals Engine Num Base vs).map (fun v => (v.TangentX, v.TangentY)) =
      vs.map (fun v => (v.TangentX, v.TangentY)) := by
  unfold GenerateNormals
  apply foldl_map_eq
  intro vs i
  rw [GenerateNormalsStep_eq]
  rw [map_set_getD _ _ _ _ FStaticMeshBuildVertex.Default,
    map_set_getD _ _ _ _ FStaticMeshBuildVertex.Default,
    map_set_getD _ _ _ _ FStaticMeshBuildVertex.Default]
  · rfl
  · show _ = (fun v : FStaticMeshBuildVertex K => (v.TangentX, v.TangentY)) _
    simp only
    rw [getD_congr FStaticMeshBuildVertex.Default (List.getElem?_set_ne (by omega))]
  · show _ = (fun v : FStaticMeshBuildVertex K => (v.TangentX, v.TangentY)) _
    simp only
    rw [getD_congr FStaticMeshBuildVertex.Default (List.getElem?_set_ne (by omega)),
      getD_congr FStaticMeshBuildVertex.Default (List.getElem?_set_ne (by omega))]

/-- When the primitive has no UV channel, or its normals are missing and the normal pass
does not run, the passes end before the tangent generation: their result is the result of
the winding reversal and the normal generation, whatever the tangents policy. -/
theorem TrianglePasses_tangents_skipped (Engine : FEngine K)
    (C : FglTFRuntimeStaticMeshConfig K) (Primitive : FglTFRuntimePrimitive K) (Base : Nat)
    (G : FGeometryState K)
    (hskip : Primitive.UVs.length = 0 ∨
      (G.bMissingNormals = true ∧
        (bCanGenerateNormals C G.bMissingNormals &&
          Primitive.Indices.length % 3 == 0) = false)) :
    TrianglePasses Engine C Primitive Base G =
      (if (bCanGenerateNormals C G.bMissingNormals &&
          Primitive.Indices.length % 3 == 0) = true then
        GenerateNormals Engine Primitive.Indices.length Base
          (Reversed C Primitive.Indices.length Base G.StaticMeshBuildVertices)
       else Reversed C Primitive.Indices.length Base G.StaticMeshBuildVertices) := by
  rcases hskip with h | ⟨h1, h2⟩
  · simp [TrianglePasses, Reversed, h]
  · have h2' := h2
    rw [h1] at h2'
    simp [TrianglePasses, Reversed, h1, h2']

end TangentGuard

/-! ### Material indices and the transform index of the primitive loop -/

section LoopInvariants

variable {K : Type} [LinearOrderedField K]

/-- The Triangles branch keeps the material indices valid: when the sections before the
new one and the values of the section-material map are below the number of materials,
so are all sections and all values of the map afterwards, and no material is dropped. -/
theorem TrianglesBranch_material_valid (Engine : FEngine K)
    (C : FglTFRuntimeStaticMeshConfig K) (LOD : FglTFRuntimeMeshLOD K) (NumUVs : Nat)
    (bColors : Bool) (Primitive : FglTFRuntimePrimitive K) (StaticMaterial : FStaticMaterial)
    (st : FPrimitiveLoopState K) (Secs : List FStaticMeshSection) (S0 : FStaticMeshSection)
    (hSecs : st.Sections = Secs ++ [S0])
    (hValid : ∀ S ∈ Secs, S.MaterialIndex < st.StaticMaterials.length)
    (hMap : ∀ k j, TMapFind st.SectionMaterialMap k = some j → j < st.StaticMaterials.length) :
    let st' := TrianglesBranch Engine C LOD NumUVs bColors Primitive StaticMaterial st
    (∀ S ∈ st'.Sections, S.MaterialIndex < st'.StaticMaterials.length) ∧
    (∀ k j, TMapFind st'.SectionMaterialMap k = some j → j < st'.StaticMaterials.length) ∧
    st.StaticMaterials.length ≤ st'.StaticMaterials.length := by
  intro st'
  have hidx : st.Sections.length - 1 = Secs.length := by
    rw [hSecs, List.length_append]; simp
  by_cases hnew : (Primitive.bHasMaterial ||
      !TMapContains st.SectionMaterialMap (st.Sections.length - 1)) = true
  · have e1 : st'.StaticMaterials = st.StaticMaterials ++ [StaticMaterial] := by
      show (if (Primitive.bHasMaterial ||
        !TMapContains st.SectionMaterialMap (st.Sections.length - 1)) = true then _ else _) = _
      rw [if_pos hnew]
    have e2 : st'.SectionMaterialMap = TMapAdd st.SectionMaterialMap (st.Sections.length - 1)
        st.StaticMaterials.length := by
      show (if (Primitive.bHasMaterial ||
        !TMapContains st.SectionMaterialMap (st.Sections.length - 1)) = true then _ else _) = _
      rw [if_pos hnew]
      show TMapAdd _ _ (if (Primitive.bHasMaterial ||
        !TMapContains st.SectionMaterialMap (st.Sections.length - 1)) = true then _ else _) = _
      rw [if_pos hnew]
    have e3 : ∀ S ∈ st'.Sections, S ∈ Secs ∨ S.MaterialIndex = st.StaticMaterials.length := by
      intro S hS
      have hS' : S ∈ st.Sections.set (st.Sections.length - 1)
          { st.Sections.getD (st.Sections.length - 1) {} with
            NumTriangles := Primitive.Indices.length / 3,
            FirstIndex := st.VertexInstanceBaseIndex,
            bEnableCollision := true,
            bCastShadow := true,
            MaterialIndex :=
              if (Primitive.bHasMaterial ||
                  !TMapContains st.SectionMaterialMap (st.Sections.length - 1)) = true then
                st.StaticMaterials.length
              else if TMapContains st.SectionMaterialMap (st.Sections.length - 1) = true then
                (TMapFind st.SectionMaterialMap (st.Sections.length - 1)).getD 0
              else 0 } := hS
      rw [hidx, hSecs, List.set_append_right _ _ (le_refl _)] at hS'
      simp only [Nat.sub_self, List.set_cons_zero, List.mem_append, List.mem_singleton] at hS'
      rcases hS' with h | h
      · exact Or.inl h
      · right
        rw [h]
        show (if _ then _ else _) = _
        rw [← hidx, if_pos hnew]
    rw [e1, e2]
    refine ⟨?_, ?_, ?_⟩
    · intro S hS
      rw [List.length_append, List.length_singleton]
      rcases e3 S hS with h | h
      · exact Nat.lt_succ_of_lt (hValid S h)
      · rw [h]; exact Nat.lt_succ_self _
    · intro k j hkj
      rw [List.length_append, List.length_singleton]
      rw [TMapFind_TMapAdd] at hkj
      by_cases hk : st.Sections.length - 1 = k
      · rw [if_pos hk] at hkj
        cases hkj
        exact Nat.lt_succ_self _
      · rw [if_neg hk] at hkj
        exact Nat.lt_succ_of_lt (hMap k j hkj)
    · rw [List.length_append]; exact Nat.le_add_right _ _
  · have hnew' : (Primitive.bHasMaterial ||
        !TMapContains st.SectionMaterialMap (st.Sections.length - 1)) = false := by
      simpa using hnew
    have hcont : TMapContains st.SectionMaterialMap (st.Sections.length - 1) = true := by
      cases hb : Primitive.bHasMaterial <;>
        cases hc : TMapContains st.SectionMaterialMap (st.Sections.length - 1) <;>
        simp [hb, hc] at hnew' ⊢
    have e1 : st'.StaticMaterials = st.StaticMaterials := by
      show (if (Primitive.bHasMaterial ||
        !TMapContains st.SectionMaterialMap (st.Sections.length - 1)) = true then _ else _) = _
      rw [if_neg hnew]
    have e2 : st'.SectionMaterialMap = st.SectionMaterialMap := by
      show (if (Primitive.bHasMaterial ||
        !TMapContains st.SectionMaterialMap (st.Sections.length - 1)) = true then _ else _) = _
      rw [if_neg hnew]
    obtain ⟨j0, hj0⟩ : ∃ j0, TMapFind st.SectionMaterialMap (st.Sections.length - 1) =
        some j0 := by
      rw [TMapContains_eq_isSome] at hcont
      exact Option.isSome_iff_exists.mp hcont
    have e3 : ∀ S ∈ st'.Sections, S ∈ Secs ∨ S.MaterialIndex = j0 := by
      intro S hS
      have hS' : S ∈ st.Sections.set (st.Sections.length - 1)
          { st.Sections.getD (st.Sections.length - 1) {} with
            NumTriangles := Primitive.Indices.length / 3,
            FirstIndex := st.VertexInstanceBaseIndex,
            bEnableCollision := true,
            bCastShadow := true,
            MaterialIndex :=
              if (Primitive.bHasMaterial ||
                  !TMapContains st.SectionMaterialMap (st.Sections.length - 1)) = true then
                st.StaticMaterials.length
              else if TMapContains st.SectionMaterialMap (st.Sections.length - 1) = true then
                (TMapFind st.SectionMaterialMap (st.Sections.length - 1)).getD 0
              else 0 } := hS
      rw [if_neg hnew, if_pos hcont, hj0] at hS'
      rw [hidx, hSecs, List.set_append_right _ _ (le_refl _)] at hS'
      simp only [Nat.sub_self, List.set_cons_zero, List.mem_append, List.mem_singleton] at hS'
      rcases hS' with h | h
      · exact Or.inl h
      · right
        rw [h]
        rfl
    rw [e1, e2]
    refine ⟨?_, hMap, le_refl _⟩
    intro S hS
    rcases e3 S hS with h | h
    · exact hValid S h
    · rw [h]; exact hMap _ _ hj0

/-- The primitive loop over Triangles primitives keeps the material indices valid. -/
theorem PrimitiveLoop_material_valid (Engine : FEngine K) (C : FglTFRuntimeStaticMeshConfig K)
    (Comp : UStaticMeshComponent K) (LOD : FglTFRuntimeMeshLOD K) (CurrentLODIndex NumUVs : Nat)
    (bColors : Bool) (Primitives : List (FglTFRuntimePrimitive K)) (st : FPrimitiveLoopState K)
    (hPrims : ∀ p ∈ Primitives, p.Mode = MODE_TRIANGLES)
    (hValid : ∀ S ∈ st.Sections, S.MaterialIndex < st.StaticMaterials.length)
    (hMap : ∀ k j, TMapFind st.SectionMaterialMap k = some j → j < st.StaticMaterials.length) :
    ∃ st', PrimitiveLoop Engine C Comp LOD CurrentLODIndex NumUVs bColors Primitives st =
        .Next st' ∧
      (∀ S ∈ st'.Sections, S.MaterialIndex < st'.StaticMaterials.length) ∧
      (∀ k j, TMapFind st'.SectionMaterialMap k = some j → j < st'.StaticMaterials.length) ∧
      st.StaticMaterials.length ≤ st'.StaticMaterials.length := by
  induction Primitives generalizing st with
  | nil => exact ⟨st, rfl, hValid, hMap, le_refl _⟩
  | cons p Rest ih =>
    obtain ⟨v1, v2, v3⟩ := TrianglesBranch_material_valid Engine C LOD NumUVs bColors p
      ⟨p.Material, "LOD_" ++ toString CurrentLODIndex ++ "_Section_" ++
        toString st.StaticMaterials.length ++ "_" ++ p.MaterialName⟩
      { st with Sections := st.Sections ++ [{}] } st.Sections {} rfl hValid hMap
    obtain ⟨st2, e2, w1, w2, w3⟩ := ih
      (TrianglesBranch Engine C LOD NumUVs bColors p
        ⟨p.Material, "LOD_" ++ toString CurrentLODIndex ++ "_Section_" ++
          toString st.StaticMaterials.length ++ "_" ++ p.MaterialName⟩
        { st with Sections := st.Sections ++ [{}] })
      (fun q hq => hPrims q (List.mem_cons_of_mem _ hq)) v1 v2
    refine ⟨st2, ?_, w1, w2, le_trans v3 w3⟩
    unfold PrimitiveLoop
    rw [ProcessPrimitive_triangles Engine C Comp LOD CurrentLODIndex NumUVs bColors st p
      (hPrims p (List.mem_cons_self _ _))]
    exact e2

/-- The materials that the end of a LOD stores in the context are those of the loop. -/
theorem FinishLOD_materials (Engine : FEngine K) (CurrentLODIndex NumUVs : Nat) (bColors : Bool)
    (Context : FglTFRuntimeStaticMeshContext K) (st : FPrimitiveLoopState K) :
    (FinishLOD Engine CurrentLODIndex NumUVs bColors Context st).StaticMaterials =
      st.StaticMaterials := rfl

/-- The loop over the LODs of Triangles primitives keeps the material indices valid: when
every section stored so far and every value of the section-material map is below the
number of materials, every section of the result is. -/
theorem LODLoop_material_valid (Engine : FEngine K) (Comp : UStaticMeshComponent K)
    (LODs : List (FglTFRuntimeMeshLOD K)) (s : FLODLoopState K) (hTri : AllTriangles LODs)
    (hValid : ∀ L ∈ s.Context.LODResources, ∀ S ∈ L.Sections,
      S.MaterialIndex < s.Context.StaticMaterials.length)
    (hMap : ∀ k j, TMapFind s.SectionMaterialMap k = some j →
      j < s.Context.StaticMaterials.length) :
    ∀ L ∈ (LODLoop Engine Comp LODs s).Context.LODResources, ∀ S ∈ L.Sections,
      S.MaterialIndex < (LODLoop Engine Comp LODs s).Context.StaticMaterials.length := by
  induction LODs generalizing s with
  | nil => exact hValid
  | cons LOD Rest ih =>
    have hLOD : ∀ p ∈ LOD.Primitives, p.Mode = MODE_TRIANGLES :=
      hTri LOD (List.mem_cons_self _ _)
    have hRest : AllTriangles Rest := fun L hL => hTri L (List.mem_cons_of_mem _ hL)
    obtain ⟨st, e, w1, w2, w3⟩ := PrimitiveLoop_material_valid Engine
      s.Context.StaticMeshConfig Comp LOD s.LODIndex (LODPrepass LOD s.bHasVertexColors).1
      (LODPrepass LOD s.bHasVertexColors).2.1 LOD.Primitives
      (PrimitiveLoopStart (LODPrepass LOD s.bHasVertexColors).2.2 s.SectionMaterialMap
        s.Context.StaticMaterials) hLOD
      (fun S hS => absurd hS (List.not_mem_nil S)) hMap
    rw [LODLoop_cons_next Engine Comp LOD Rest s st e]
    apply ih _ hRest
    · intro L hL S hS
      show S.MaterialIndex < (FinishLOD Engine s.LODIndex _ _ s.Context st).StaticMaterials.length
      rw [FinishLOD_materials]
      obtain ⟨L0, hL0, hSec, _⟩ := FinishLOD_stored Engine s.LODIndex
        (LODPrepass LOD s.bHasVertexColors).1 (LODPrepass LOD s.bHasVertexColors).2.1
        s.Context st
      have hL' : L ∈ s.Context.LODResources.set s.LODIndex L0 := by
        rw [← hL0]; exact hL
      rcases List.mem_or_eq_of_mem_set hL' with h | h
      · exact lt_of_lt_of_le (hValid L h S hS) w3
      · rw [h, hSec] at hS
        exact w1 S hS
    · intro k j hkj
      show j < (FinishLOD Engine s.LODIndex _ _ s.Context st).StaticMaterials.length
      rw [FinishLOD_materials]
      exact w2 k j hkj

/-- The Points branch always leaves the function: it hands back a pointer or stops the
program; without a parent component it does not get to the glyph proxy mesh. -/
theorem PointsBranch_returns (Engine : FEngine K) (Comp : UStaticMeshComponent K)
    (Primitive : FglTFRuntimePrimitive K) (st : FPrimitiveLoopState K) :
    ∃ (Outcome : FOutcome) (Effects : FSideEffects K),
      PointsBranch Engine Comp Primitive st = .Return st Outcome Effects ∧
      (Comp.Parents = [] → Effects.bGlyphProxy = false) := by
  obtain ⟨c1, c2, c3, c4⟩ := PointsBranch_cases Engine Comp Primitive st
  by_cases h1000 : 1000 < Primitive.Indices.length
  · exact ⟨_, _, c1 h1000, fun _ => rfl⟩
  · have hle : Primitive.Indices.length ≤ 1000 := by omega
    by_cases hPar : Comp.Parents = []
    · exact ⟨_, _, c2 hle hPar, fun _ => rfl⟩
    · rcases hG : GlyphInstances Engine Primitive with ⟨Instances, bStopped⟩
      cases bStopped with
      | false => exact ⟨_, _, c3 Instances hle hPar hG, fun h => absurd h hPar⟩
      | true => exact ⟨_, _, c4 Instances hle hPar hG, fun h => absurd h hPar⟩

/-- A pass through the body of the primitive loop that goes on to the next primitive
advances the transform index exactly when the primitive is in Triangles mode. -/
theorem ProcessPrimitive_transform_index (Engine : FEngine K)
    (C : FglTFRuntimeStaticMeshConfig K) (Comp : UStaticMeshComponent K)
    (LOD : FglTFRuntimeMeshLOD K) (CurrentLODIndex NumUVs : Nat) (bColors : Bool)
    (st st' : FPrimitiveLoopState K) (Primitive : FglTFRuntimePrimitive K)
    (h : ProcessPrimitive Engine C Comp LOD CurrentLODIndex NumUVs bColors st Primitive =
      .Next st') :
    st'.AdditionalTransformsPrimitiveIndex =
      st.AdditionalTransformsPrimitiveIndex +
        (if Primitive.Mode = MODE_TRIANGLES then 1 else 0) := by
  by_cases hL : Primitive.Mode = MODE_LINES
  · rw [ProcessPrimitive_lines Engine C Comp LOD CurrentLODIndex NumUVs bColors st Primitive
      hL] at h
    cases h
  · by_cases hP : Primitive.Mode = MODE_POINTS
    · obtain ⟨O, E, e, _⟩ := PointsBranch_returns Engine Comp Primitive
        { st with Sections := st.Sections ++ [{}] }
      rw [ProcessPrimitive_points Engine C Comp LOD CurrentLODIndex NumUVs bColors st
        Primitive hP O E e] at h
      cases h
    · by_cases hT : Primitive.Mode = MODE_TRIANGLES
      · rw [ProcessPrimitive_triangles Engine C Comp LOD CurrentLODIndex NumUVs bColors st
          Primitive hT] at h
        injection h with h
        rw [← h, if_pos hT]
        rfl
      · unfold ProcessPrimitive at h
        simp only [hL, hP, hT, if_false] at h
        injection h with h
        rw [← h, if_neg hT]
        rfl

/-- The primitive loop that runs to its end has advanced the transform index by the
number of Triangles primitives it went through, not by the number of primitives. -/
theorem PrimitiveLoop_transform_index (Engine : FEngine K)
    (C : FglTFRuntimeStaticMeshConfig K) (Comp : UStaticMeshComponent K)
    (LOD : FglTFRuntimeMeshLOD K) (CurrentLODIndex NumUVs : Nat) (bColors : Bool)
    (Primitives : List (FglTFRuntimePrimitive K)) (st st' : FPrimitiveLoopState K)
    (h : PrimitiveLoop Engine C Comp LOD CurrentLODIndex NumUVs bColors Primitives st =
      .Next st') :
    st'.AdditionalTransformsPrimitiveIndex =
      st.AdditionalTransformsPrimitiveIndex +
        (Primitives.filter (fun p => decide (p.Mode = MODE_TRIANGLES))).length := by
  induction Primitives generalizing st with
  | nil =>
    unfold PrimitiveLoop at h
    injection h with h
    rw [← h]
    simp
  | cons p Rest ih =>
    unfold PrimitiveLoop at h
    split at h
    · simp at h
    · rename_i st1 e1
      have a := ProcessPrimitive_transform_index Engine C Comp LOD CurrentLODIndex NumUVs
        bColors st st1 p e1
      have b := ih st1 h
      rw [b, a]
      by_cases hT : p.Mode = MODE_TRIANGLES
      · simp [hT]; omega
      · simp [hT]

end LoopInvariants

/-! ### The point-cloud texture -/

/-- The exact exponent is the ceiling of the base-2 logarithm of the square root of the
point count, computed over the real numbers. -/
theorem ExactCeilLog2Sqrt_real (PointCount : Nat) (hn : 1 ≤ PointCount) :
    ⌈Real.log (Real.sqrt PointCount) / Real.log 2⌉ = (ExactCeilLog2Sqrt PointCount : ℤ) := by
  have hn' : (1 : ℝ) ≤ (PointCount : ℝ) := by exact_mod_cast hn
  have hsqrt1 : (1 : ℝ) ≤ Real.sqrt PointCount := by
    rw [show (1 : ℝ) = Real.sqrt 1 from Real.sqrt_one.symm]
    exact Real.sqrt_le_sqrt hn'
  have hsqrt : (0 : ℝ) < Real.sqrt PointCount := lt_of_lt_of_le one_pos hsqrt1
  have h2 : (1 : ℝ) < 2 := by norm_num
  rw [Real.log_div_log, Int.ceil_eq_iff]
  unfold ExactCeilLog2Sqrt
  constructor
  · rw [Real.lt_logb_iff_rpow_lt h2 hsqrt]
    by_cases he : Nat.clog 4 PointCount = 0
    · rw [he]
      have : (2 : ℝ) ^ (((0 : ℕ) : ℤ) - 1 : ℝ) = 1 / 2 := by
        norm_num [Real.rpow_neg_one]
      rw [this]
      linarith
    · obtain ⟨m, hm⟩ := Nat.exists_eq_succ_of_ne_zero he
      have hgt : 1 < PointCount := by
        by_contra hc
        exact he (Nat.clog_of_right_le_one (by omega) 4)
      have hlt := Nat.pow_pred_clog_lt_self (show 1 < 4 by norm_num) hgt
      rw [hm] at hlt
      rw [hm]
      have e1 : (((m.succ : ℕ) : ℤ) : ℝ) - 1 = (m : ℝ) := by push_cast; ring
      rw [e1, Real.rpow_natCast, Real.lt_sqrt (by positivity)]
      have hlt' : ((4 ^ m : ℕ) : ℝ) < (PointCount : ℝ) := by
        exact_mod_cast hlt
      have e2 : ((2 : ℝ) ^ m) ^ 2 = ((4 ^ m : ℕ) : ℝ) := by
        push_cast
        rw [← pow_mul, mul_comm, pow_mul]
        norm_num
      rw [e2]
      exact hlt'
  · rw [Real.logb_le_iff_le_rpow h2 hsqrt]
    have hle := Nat.le_pow_clog (show 1 < 4 by norm_num) PointCount
    have hle' : (PointCount : ℝ) ≤ ((4 ^ Nat.clog 4 PointCount : ℕ) : ℝ) := by
      exact_mod_cast hle
    have e2 : ((2 : ℝ) ^ Nat.clog 4 PointCount) ^ 2 =
        ((4 ^ Nat.clog 4 PointCount : ℕ) : ℝ) := by
      push_cast
      rw [← pow_mul, mul_comm, pow_mul]
      norm_num
    have e3 : (2 : ℝ) ^ (((Nat.clog 4 PointCount : ℕ) : ℤ) : ℝ) =
        (2 : ℝ) ^ Nat.clog 4 PointCount := by
      rw [show (((Nat.clog 4 PointCount : ℕ) : ℤ) : ℝ) = ((Nat.clog 4 PointCount : ℕ) : ℝ) by
        push_cast; rfl]
      exact Real.rpow_natCast 2 _
    rw [e3, Real.sqrt_le_left (by positivity), e2]
    exact hle'

theorem two_pow_mul_self (e : Nat) : 2 ^ e * 2 ^ e = 4 ^ e := by
  rw [← mul_pow]
  norm_num

/-- The exact exponent of a count between two powers of 4. -/
theorem ExactCeilLog2Sqrt_eq (PointCount e : Nat) (hlo : 4 ^ e < PointCount)
    (hhi : PointCount ≤ 4 ^ (e + 1)) : ExactCeilLog2Sqrt PointCount = e + 1 := by
  unfold ExactCeilLog2Sqrt
  apply le_antisymm
  · exact (Nat.le_pow_iff_clog_le (by norm_num)).mp hhi
  · exact (Nat.pow_lt_iff_lt_clog (by norm_num)).mp hlo

/-- The point counts `2 * 4^k` (2, 8, 32, ...) with the exact exponent: the texture is
`2^(k+1)` wide and `2^(k+1)` high, although half the square of the width is the point
count, so that the grid of half the height, `2^(k+1)` by `2^k`, has a texel for every
point. The test of source line 843 is `>`, not `>=`. -/
theorem InjectPointcloudData_twice_pow (k : Nat) :
    InjectPointcloudData ExactCeilLog2Sqrt (2 * 4 ^ k) = (2 ^ (k + 1), 2 ^ (k + 1)) ∧
    2 ^ (k + 1) * 2 ^ (k + 1) / 2 = 2 * 4 ^ k ∧
    2 ^ (k + 1) * (2 ^ (k + 1) / 2) = 2 * 4 ^ k := by
  have hpos : 0 < 4 ^ k := pow_pos (by norm_num) k
  have hexp : ExactCeilLog2Sqrt (2 * 4 ^ k) = k + 1 :=
    ExactCeilLog2Sqrt_eq _ k (by omega) (by rw [pow_succ]; omega)
  have h4 : (2 : Nat) ^ (k + 1) * 2 ^ (k + 1) = 2 * (2 * 4 ^ k) := by
    rw [← mul_pow, pow_succ]
    ring
  have h2 : (2 : Nat) ^ (k + 1) / 2 = 2 ^ k := by
    rw [pow_succ]
    exact Nat.mul_div_cancel _ (by norm_num)
  have h5 : (2 : Nat) ^ (k + 1) * 2 ^ k = 2 * 4 ^ k := by
    have : (4 : Nat) ^ k = 2 ^ k * 2 ^ k := (two_pow_mul_self k).symm
    rw [this, pow_succ]
    ring
  refine ⟨?_, ?_, ?_⟩
  · unfold InjectPointcloudData
    simp only [hexp, h4]
    rw [Nat.mul_div_cancel_left _ (by norm_num : 0 < 2)]
    simp
  · rw [h4]
    exact Nat.mul_div_cancel_left _ (by norm_num)
  · rw [h2, h5]

section SocketFacts

variable {K : Type} [LinearOrderedField K]

theorem foldl_append_map {α β : Type} (f : α → β) (l : List α) (init : List β) :
    l.foldl (fun Acc a => Acc ++ [f a]) init = init ++ l.map f := by
  induction l generalizing init with
  | nil => simp
  | cons a l ih => simp [ih]

theorem foldl_append_filter_map {α β : Type} (p : α → Bool) (f : α → β) (l : List α)
    (init : List β) :
    l.foldl (fun Acc a => if p a then Acc else Acc ++ [f a]) init =
      init ++ (l.filter (fun a => !p a)).map f := by
  induction l generalizing init with
  | nil => simp
  | cons a l ih =>
    rw [List.foldl_cons, ih]
    cases hp : p a <;> simp [hp]

theorem FStringEq_refl (A : String) : FStringEq A A = true := by
  simp [FStringEq]

/-- A map keyed by `FString` contains a name exactly when one of its keys equals the name
up to case. -/
theorem TMapContainsFString_iff {β : Type} (M : List (String × β)) (Key : String) :
    TMapContainsFString M Key = true ↔ ∃ p ∈ M, FStringEq p.1 Key = true := by
  unfold TMapContainsFString
  simp only [List.any_eq_true]

theorem TMapContainsFString_of_mem {β : Type} (M : List (String × β)) (Key : String)
    (h : Key ∈ M.map Prod.fst) : TMapContainsFString M Key = true := by
  rw [TMapContainsFString_iff]
  rw [List.mem_map] at h
  obtain ⟨p, hp, e⟩ := h
  exact ⟨p, hp, by rw [e]; exact FStringEq_refl Key⟩

/-- The sockets of the finalizer in closed form. -/
theorem FinalizeSockets_eq (StaticMeshContext : FglTFRuntimeStaticMeshContext K)
    (Sockets : List (UStaticMeshSocket K)) :
    FinalizeSockets StaticMeshContext Sockets =
      Sockets ++ StaticMeshContext.StaticMeshConfig.Sockets.map SocketOfPair ++
        (StaticMeshContext.AdditionalSockets.filter
          (fun Pair => !TMapContainsFString StaticMeshContext.StaticMeshConfig.Sockets Pair.1)).map
          SocketOfPair ++
        (if StaticMeshContext.StaticMeshConfig.ExportOriginalPivotToSocket.isEmpty then []
         else [⟨StaticMeshContext.StaticMeshConfig.ExportOriginalPivotToSocket,
                StaticMeshContext.LOD0PivotDelta.neg, ⟨0, 0, 0, 1⟩, ⟨1, 1, 1⟩⟩]) := by
  unfold FinalizeSockets
  simp only [foldl_append_map, foldl_append_filter_map]
  cases h : StaticMeshContext.StaticMeshConfig.ExportOriginalPivotToSocket.isEmpty
  · simp [UStaticMeshSocket.New]
  · simp

/-- The names of the sockets that the two loops of the finalizer attach are pairwise
distinct, and so are all the names the finalizer attaches when no export name is
configured or the export name is none of them. -/
theorem FinalizeSockets_names_nodup (StaticMeshContext : FglTFRuntimeStaticMeshContext K)
    (hExplicit : (StaticMeshContext.StaticMeshConfig.Sockets.map Prod.fst).Nodup)
    (hDiscovered : (StaticMeshContext.AdditionalSockets.map Prod.fst).Nodup)
    (hExport : StaticMeshContext.StaticMeshConfig.ExportOriginalPivotToSocket.isEmpty = true ∨
      (StaticMeshContext.StaticMeshConfig.ExportOriginalPivotToSocket ∉
          StaticMeshContext.StaticMeshConfig.Sockets.map Prod.fst ∧
        StaticMeshContext.StaticMeshConfig.ExportOriginalPivotToSocket ∉
          StaticMeshContext.AdditionalSockets.map Prod.fst)) :
    ((FinalizeSockets StaticMeshContext []).map (fun S => S.SocketName)).Nodup := by
  rw [FinalizeSockets_eq]
  simp only [List.nil_append, List.map_append, List.map_map]
  have hname : ((fun S : UStaticMeshSocket K => S.SocketName) ∘ SocketOfPair) =
      (Prod.fst : String × FTransform K → String) := by
    funext Pair
    rfl
  rw [hname]
  have hfilter : ((StaticMeshContext.AdditionalSockets.filter
      (fun Pair => !TMapContainsFString StaticMeshContext.StaticMeshConfig.Sockets Pair.1)).map
      Prod.fst).Nodup :=
    List.Nodup.sublist (List.Sublist.map _ (List.filter_sublist _)) hDiscovered
  have hdisj : ∀ a, a ∈ StaticMeshContext.StaticMeshConfig.Sockets.map Prod.fst →
      a ∉ (StaticMeshContext.AdditionalSockets.filter
        (fun Pair => !TMapContainsFString StaticMeshContext.StaticMeshConfig.Sockets Pair.1)).map
        Prod.fst := by
    intro a ha hb
    rw [List.mem_map] at hb
    obtain ⟨p, hp, e⟩ := hb
    rw [List.mem_filter] at hp
    have hc := TMapContainsFString_of_mem StaticMeshContext.StaticMeshConfig.Sockets p.1
      (by rw [e]; exact ha)
    rw [hc] at hp
    simp at hp
  have h12 : (StaticMeshContext.StaticMeshConfig.Sockets.map Prod.fst ++
      (StaticMeshContext.AdditionalSockets.filter
        (fun Pair => !TMapContainsFString StaticMeshContext.StaticMeshConfig.Sockets Pair.1)).map
        Prod.fst).Nodup := by
    rw [List.nodup_append]
    exact ⟨hExplicit, hfilter, fun a ha hb => hdisj a ha hb⟩
  rcases hExport with h | ⟨h1, h2⟩
  · rw [h]
    simpa using h12
  · cases hE : StaticMeshContext.StaticMeshConfig.ExportOriginalPivotToSocket.isEmpty
    · simp only [Bool.false_eq_true, if_false, List.map_cons, List.map_nil]
      rw [List.nodup_append]
      refine ⟨h12, List.nodup_singleton _, ?_⟩
      intro a ha hb
      rw [List.mem_singleton] at hb
      rw [hb] at ha
      rw [List.mem_append] at ha
      rcases ha with ha | ha
      · exact h1 ha
      · apply h2
        rw [List.mem_map] at ha ⊢
        obtain ⟨p, hp, e⟩ := ha
        exact ⟨p, (List.mem_filter.mp hp).1, e⟩
    · simpa using h12

end SocketFacts

/-! ### The glyph proxy mesh and the entry points -/

section ProxyMesh

variable {K : Type} [LinearOrderedField K]

theorem LoadMeshIntoMeshLOD_log (Asset : FAsset K) (Parser : FglTFRuntimeParser K) (J : Nat) :
    (LoadMeshIntoMeshLOD Asset Parser J).2.Log = Parser.Log ∧
    (LoadMeshIntoMeshLOD Asset Parser J).2.bFinalizeStaticMesh = Parser.bFinalizeStaticMesh := by
  unfold LoadMeshIntoMeshLOD
  split
  · exact ⟨rfl, rfl⟩
  · split
    · exact ⟨rfl, rfl⟩
    · exact ⟨rfl, rfl⟩

/-- The decoding of the LODs writes nothing but the LOD cache. -/
theorem LoadLODs_keeps (Asset : FAsset K) (MeshIndices : List Int)
    (Parser : FglTFRuntimeParser K) (LODs : List (FglTFRuntimeMeshLOD K)) :
    (LoadLODs Asset MeshIndices Parser LODs).2.2.Log = Parser.Log ∧
    (LoadLODs Asset MeshIndices Parser LODs).2.2.StaticMeshesCache = Parser.StaticMeshesCache ∧
    (LoadLODs Asset MeshIndices Parser LODs).2.2.bFinalizeStaticMesh =
      Parser.bFinalizeStaticMesh := by
  induction MeshIndices generalizing Parser LODs with
  | nil => exact ⟨rfl, rfl, rfl⟩
  | cons MeshIndex Rest ih =>
    unfold LoadLODs
    split
    · exact ⟨rfl, rfl, rfl⟩
    · rename_i J hJ
      split
      · rename_i P1 h1
        have e1 := LoadMeshIntoMeshLOD_log Asset Parser J
        have e2 := LoadMeshIntoMeshLOD_cache Asset Parser J
        rw [h1] at e1 e2
        exact ⟨e1.1, e2, e1.2⟩
      · rename_i LOD P1 h1
        have e1 := LoadMeshIntoMeshLOD_log Asset Parser J
        have e2 := LoadMeshIntoMeshLOD_cache Asset Parser J
        rw [h1] at e1 e2
        obtain ⟨i1, i2, i3⟩ := ih P1 (LODs ++ [LOD])
        exact ⟨i1.trans e1.1, i2.trans e2, i3.trans e1.2⟩

/-- What a call of the builder from an entry point leaves in the parser: the flag of the
build, the event of the build, and the event of the stop when the build does not return. -/
theorem RunBuild_log (Engine : FEngine K) (Parser : FglTFRuntimeParser K)
    (C : FglTFRuntimeStaticMeshContext K) (Comp : UStaticMeshComponent K) :
    (RunBuild Engine Parser C Comp).2.bFinalizeStaticMesh =
      (LoadStaticMesh_Internal Engine C Comp).bFinalizeStaticMesh ∧
    ((RunBuild Engine Parser C Comp).2.Log = Parser.Log ++ [.Build] ∨
      (RunBuild Engine Parser C Comp).2.Log = Parser.Log ++ [.Build, .Crash]) ∧
    (∀ StaticMesh Context, (RunBuild Engine Parser C Comp).1 = some (StaticMesh, Context) →
      (LoadStaticMesh_Internal Engine C Comp).Outcome = .Returned StaticMesh ∧
      Context = (LoadStaticMesh_Internal Engine C Comp).Context) := by
  unfold RunBuild
  simp only
  cases h : (LoadStaticMesh_Internal Engine C Comp).Outcome with
  | Returned m =>
    refine ⟨rfl, Or.inl rfl, ?_⟩
    intro StaticMesh Context e
    simp only [Option.some.injEq, Prod.mk.injEq] at e
    exact ⟨by rw [e.1], e.2.symm⟩
  | Crashed =>
    refine ⟨rfl, Or.inr ?_, ?_⟩
    · simp [FglTFRuntimeParser.Emit]
    · intro StaticMesh Context e
      simp at e

/-- A call of `LoadStaticMeshLODs` either logs nothing but the build and, at most, the
stop of the program, and leaves the mesh cache alone, or it ends with
`bFinalizeStaticMesh` set. -/
theorem LoadStaticMeshLODs_cases (Engine : FEngine K) (Asset : FAsset K)
    (Parser : FglTFRuntimeParser K) (MeshIndices : List Int)
    (C : FglTFRuntimeStaticMeshConfig K) (Comp : UStaticMeshComponent K) :
    ((∃ Events : List FEvent,
        (LoadStaticMeshLODs Engine Asset Parser MeshIndices C Comp).2.Log =
          Parser.Log ++ Events ∧
        ∀ Event ∈ Events, Event = .Build ∨ Event = .Crash) ∧
      (LoadStaticMeshLODs Engine Asset Parser MeshIndices C Comp).2.StaticMeshesCache =
        Parser.StaticMeshesCache) ∨
    (LoadStaticMeshLODs Engine Asset Parser MeshIndices C Comp).2.bFinalizeStaticMesh = true := by
  unfold LoadStaticMeshLODs
  simp only [MakeContext]
  have hK := LoadLODs_keeps Asset MeshIndices { Parser with NumObjects := Parser.NumObjects + 1 }
    ({ StaticMeshConfig := C, StaticMesh := some Parser.NumObjects } :
      FglTFRuntimeStaticMeshContext K).LODs
  split
  · rename_i x LODs P2 hL
    rw [hL] at hK
    left
    exact ⟨⟨[], by rw [List.append_nil]; exact hK.1, fun e he => absurd he (List.not_mem_nil e)⟩,
      hK.2.1⟩
  · rename_i x LODs P2 hL
    rw [hL] at hK
    have hR := RunBuild_log Engine P2
      { ({ StaticMeshConfig := C, StaticMesh := some Parser.NumObjects } :
          FglTFRuntimeStaticMeshContext K) with LODs := LODs } Comp
    have hC := RunBuild_cache Engine P2
      { ({ StaticMeshConfig := C, StaticMesh := some Parser.NumObjects } :
          FglTFRuntimeStaticMeshContext K) with LODs := LODs } Comp
    have hEvents : ∃ Events : List FEvent,
        (RunBuild Engine P2
          { ({ StaticMeshConfig := C, StaticMesh := some Parser.NumObjects } :
              FglTFRuntimeStaticMeshContext K) with LODs := LODs } Comp).2.Log =
          Parser.Log ++ Events ∧ ∀ Event ∈ Events, Event = .Build ∨ Event = .Crash := by
      rcases hR.2.1 with h | h
      · refine ⟨[.Build], by rw [h, hK.1], ?_⟩
        intro e he
        rw [List.mem_singleton] at he
        exact Or.inl he
      · refine ⟨[.Build, .Crash], by rw [h, hK.1], ?_⟩
        intro e he
        simp only [List.mem_cons, List.mem_singleton, List.not_mem_nil, or_false] at he
        exact he
    split
    · rename_i P3 hB
      rw [hB] at hEvents hC
      left
      exact ⟨hEvents, hC.trans hK.2.1⟩
    · rename_i P3 hB
      rw [hB] at hEvents hC
      left
      exact ⟨hEvents, hC.trans hK.2.1⟩
    · rename_i StaticMesh Context1 P3 hB
      rw [hB] at hEvents hC
      split
      · rename_i hfin
        right
        have hf : (FinalizeStaticMesh P3 Context1).2.bFinalizeStaticMesh =
            P3.bFinalizeStaticMesh := by
          unfold FinalizeStaticMesh
          split <;> rfl
        rw [hf, hfin]
      · left
        exact ⟨hEvents, hC.trans hK.2.1⟩

end ProxyMesh

/-! ### Defaults in the output vertices -/

section OutputDefaults

variable {K : Type} [LinearOrderedField K]


end OutputDefaults

/-! ### What the entry points finalize and cache -/

section OwnMeshesSteps

variable {K : Type}

end OwnMeshesSteps

section OwnMeshesCalls

variable {K : Type} [LinearOrderedField K]

end OwnMeshesCalls

/-! ## Claims -/

section Claims

variable {K : Type} [LinearOrderedField K]

/-! ### Entry points and caches (C1 - C4) -/

/-- C1. The claim wants a null result, no finalize and no mesh object when the mesh index is
not found or the primitives fail to decode. Evaluated on a fresh parser with a bound
callback: for a document without mesh 0 and for one whose mesh 0 does not decode,
`LoadStaticMeshAsync` finalizes the empty mesh object 0 that the context constructor
created, writes it to the cache and hands it to the callback; `LoadStaticMeshLODsAsync`
finalizes it and hands it to the callback. No build is logged in any of the four runs. -/
theorem Async_failed_decode_finalizes_empty_mesh :
    (LoadStaticMeshAsync SampleEngine EmptyAsset FglTFRuntimeParser.New 0 true {}).Log =
      [.Finalize 0, .CacheWrite 0 0, .Callback (some 0)] ∧
    (LoadStaticMeshAsync SampleEngine UndecodableAsset FglTFRuntimeParser.New 0 true {}).Log =
      [.Finalize 0, .CacheWrite 0 0, .Callback (some 0)] ∧
    (LoadStaticMeshLODsAsync SampleEngine EmptyAsset FglTFRuntimeParser.New [0] true {}).Log =
      [.Finalize 0, .Callback (some 0)] ∧
    (LoadStaticMeshLODsAsync SampleEngine UndecodableAsset FglTFRuntimeParser.New [0] true {}).Log =
      [.Finalize 0, .Callback (some 0)] := by
  decide

/-- C2. The claim wants the mesh cache unchanged when the decode fails. Evaluated on a fresh
parser (empty cache): after `LoadStaticMeshAsync` at index 0 on a document without mesh 0,
or on one whose mesh 0 does not decode, the cache maps index 0 to the unbuilt mesh object
0, in the cache modes ReadWrite and Write; `LoadStaticMesh` leaves the cache empty on the
same inputs. -/
theorem LoadStaticMeshAsync_failed_decode_writes_cache :
    (LoadStaticMeshAsync SampleEngine EmptyAsset FglTFRuntimeParser.New 0 true
      {}).StaticMeshesCache = [(0, 0)] ∧
    (LoadStaticMeshAsync SampleEngine UndecodableAsset FglTFRuntimeParser.New 0 true
      {}).StaticMeshesCache = [(0, 0)] ∧
    (LoadStaticMeshAsync SampleEngine EmptyAsset FglTFRuntimeParser.New 0 true
      { CacheMode := .Write }).StaticMeshesCache = [(0, 0)] ∧
    (LoadStaticMesh SampleEngine EmptyAsset FglTFRuntimeParser.New 0 {}).2.StaticMeshesCache = [] ∧
    (LoadStaticMesh SampleEngine UndecodableAsset FglTFRuntimeParser.New 0
      {}).2.StaticMeshesCache = [] := by
  decide

/-- C3. The claim wants the callback run exactly once, also when a lookup fails. Evaluated
on a fresh parser with a bound callback: `LoadStaticMeshRecursiveAsync` never runs the
callback when the named node is not found, when the document has no scene, or when a
node refers to a mesh the document does not have; on a missing mesh index
`LoadStaticMeshAsync` and `LoadStaticMeshLODsAsync` run it once. -/
theorem LoadStaticMeshRecursiveAsync_failed_lookup_no_callback :
    CallbackCount (LoadStaticMeshRecursiveAsync SampleEngine EmptyAsset FglTFRuntimeParser.New 8
      "Root" [] true {}).Log = 0 ∧
    CallbackCount (LoadStaticMeshRecursiveAsync SampleEngine EmptyAsset FglTFRuntimeParser.New 8
      "" [] true {}).Log = 0 ∧
    CallbackCount (LoadStaticMeshRecursiveAsync SampleEngine DanglingNodeAsset
      FglTFRuntimeParser.New 8 "Root" [] true {}).Log = 0 ∧
    CallbackCount (LoadStaticMeshAsync SampleEngine EmptyAsset FglTFRuntimeParser.New 0 true
      {}).Log = 1 ∧
    CallbackCount (LoadStaticMeshLODsAsync SampleEngine EmptyAsset FglTFRuntimeParser.New [0] true
      {}).Log = 1 := by
  decide

/-- C4. Cache round trip: once `LoadStaticMesh` at index `MeshIndex` has handed back a mesh
with write caching enabled, then after any further `LoadStaticMesh` requests made with
read caching enabled, a `LoadStaticMesh` at `MeshIndex` with read caching enabled hands
back that same mesh and leaves the whole parser state as it was: both caches are
unchanged and nothing is built or finalized. On a freshly constructed parser the mesh
cache answers no index. -/
theorem LoadStaticMesh_cache_round_trip (Engine : FEngine K) (Asset : FAsset K)
    (Parser Parser1 : FglTFRuntimeParser K) (MeshIndex : Int)
    (StaticMeshConfig : FglTFRuntimeStaticMeshConfig K) (StaticMesh : UObjectId)
    (hWrite : CanWriteToCache StaticMeshConfig.CacheMode = true)
    (hFirst : LoadStaticMesh Engine Asset Parser MeshIndex StaticMeshConfig =
      (.Returned (some StaticMesh), Parser1))
    (Requests : List (Int × FglTFRuntimeStaticMeshConfig K))
    (hRequests : ∀ Request ∈ Requests, CanReadFromCache Request.2.CacheMode = true)
    (LaterConfig : FglTFRuntimeStaticMeshConfig K)
    (hRead : CanReadFromCache LaterConfig.CacheMode = true) :
    LoadStaticMesh Engine Asset (LoadStaticMeshRequests Engine Asset Requests Parser1) MeshIndex
        LaterConfig =
      (.Returned (some StaticMesh), LoadStaticMeshRequests Engine Asset Requests Parser1) ∧
    ∀ Index : Int,
      TMapContains (FglTFRuntimeParser.New : FglTFRuntimeParser K).StaticMeshesCache Index =
        false := by
  obtain ⟨hFind, J, hJ⟩ := LoadStaticMesh_returned_cached hWrite hFirst
  refine ⟨?_, fun _ => rfl⟩
  exact LoadStaticMesh_hit hJ hRead
    (LoadStaticMeshRequests_keeps_entry Engine Asset Requests Parser1 MeshIndex StaticMesh
      hRequests hFind)

/-- C4, at a concrete input: mesh 0 of `TriangleAsset` is loaded on a fresh parser, two
more requests follow (index 0 again and the missing index 5), and the next load of
index 0 hands back mesh object 0 again without touching the parser. -/
theorem LoadStaticMesh_cache_round_trip_witness :
    LoadStaticMesh SampleEngine TriangleAsset
        (LoadStaticMeshRequests SampleEngine TriangleAsset [(0, {}), (5, {})]
          (LoadStaticMesh SampleEngine TriangleAsset FglTFRuntimeParser.New 0 {}).2) 0 {} =
      (.Returned (some 0),
        LoadStaticMeshRequests SampleEngine TriangleAsset [(0, {}), (5, {})]
          (LoadStaticMesh SampleEngine TriangleAsset FglTFRuntimeParser.New 0 {}).2) ∧
    ∀ Index : Int,
      TMapContains (FglTFRuntimeParser.New : FglTFRuntimeParser ℚ).StaticMeshesCache Index =
        false :=
  LoadStaticMesh_cache_round_trip SampleEngine TriangleAsset FglTFRuntimeParser.New
    (LoadStaticMesh SampleEngine TriangleAsset FglTFRuntimeParser.New 0 {}).2 0 {} 0
    (by decide) (Prod.ext (by decide) rfl) [(0, {}), (5, {})]
    (by intro r hr; simp at hr; rcases hr with h | h <;> (subst h; decide)) {} (by decide)

/-! ### Sections and indices of a Triangles primitive (C5) -/

/-- C5, at the four-index primitive: the LOD's index buffer gets 4 indices from it while
its section has `NumTriangles = 1`, and 4 is not 3 times 1. -/
theorem Triangles_index_count_not_thrice :
    (LoadStaticMesh_Internal_Dummy SampleEngine FourIndexContext).Context.LODResources.map
        (fun L => (L.Indices.length, L.Sections.map (fun S => S.NumTriangles))) = [(4, [1])] ∧
      ¬ (4 = 3 * 1) := by
  decide

/-- C5. A Triangles primitive with `n` indices adds exactly one section, with
`NumTriangles = n / 3` (integer division) and starting at the current base index, and
contributes exactly `n` indices to the LOD's index buffer: that is
`3 * NumTriangles + n % 3`, which is `3 * NumTriangles` exactly when `n` is a multiple
of 3. -/
theorem Triangles_index_count (Engine : FEngine K)
    (StaticMeshConfig : FglTFRuntimeStaticMeshConfig K)
    (StaticMeshComponent : UStaticMeshComponent K) (LOD : FglTFRuntimeMeshLOD K)
    (CurrentLODIndex NumUVs : Nat) (bHasVertexColors : Bool) (st : FPrimitiveLoopState K)
    (Primitive : FglTFRuntimePrimitive K) (hMode : Primitive.Mode = MODE_TRIANGLES) :
    ∃ (st' : FPrimitiveLoopState K) (Section : FStaticMeshSection),
      ProcessPrimitive Engine StaticMeshConfig StaticMeshComponent LOD CurrentLODIndex NumUVs
        bHasVertexColors st Primitive = .Next st' ∧
      st'.Sections = st.Sections ++ [Section] ∧
      Section.NumTriangles = Primitive.Indices.length / 3 ∧
      Section.FirstIndex = st.VertexInstanceBaseIndex ∧
      st'.LODIndices.length = st.LODIndices.length + Primitive.Indices.length ∧
      st'.LODIndices.length - st.LODIndices.length =
        3 * Section.NumTriangles + Primitive.Indices.length % 3 := by
  have hstep : ProcessPrimitive Engine StaticMeshConfig StaticMeshComponent LOD CurrentLODIndex
      NumUVs bHasVertexColors st Primitive =
      .Next (TrianglesBranch Engine StaticMeshConfig LOD NumUVs bHasVertexColors Primitive
        ⟨Primitive.Material, "LOD_" ++ toString CurrentLODIndex ++ "_Section_" ++
          toString st.StaticMaterials.length ++ "_" ++ Primitive.MaterialName⟩
        { st with Sections := st.Sections ++ [{}] }) := by
    unfold ProcessPrimitive
    simp [hMode, MODE_TRIANGLES, MODE_LINES, MODE_POINTS]
  obtain ⟨_, g2, _⟩ := GeometryGeneration_spec Engine StaticMeshConfig Primitive NumUVs
    bHasVertexColors (decide (LOD.Primitives.length = LOD.AdditionalTransforms.length))
    (LOD.AdditionalTransforms.getD st.AdditionalTransformsPrimitiveIndex FTransform.Identity)
    { st with Sections := st.Sections ++ [{}] }
  have hlenI : (TrianglesBranch Engine StaticMeshConfig LOD NumUVs bHasVertexColors Primitive
        ⟨Primitive.Material, "LOD_" ++ toString CurrentLODIndex ++ "_Section_" ++
          toString st.StaticMaterials.length ++ "_" ++ Primitive.MaterialName⟩
        { st with Sections := st.Sections ++ [{}] }).LODIndices.length =
      st.LODIndices.length + Primitive.Indices.length := g2
  obtain ⟨Section, hS, hT, hF⟩ : ∃ Section : FStaticMeshSection,
      (TrianglesBranch Engine StaticMeshConfig LOD NumUVs bHasVertexColors Primitive
        ⟨Primitive.Material, "LOD_" ++ toString CurrentLODIndex ++ "_Section_" ++
          toString st.StaticMaterials.length ++ "_" ++ Primitive.MaterialName⟩
        { st with Sections := st.Sections ++ [{}] }).Sections = st.Sections ++ [Section] ∧
      Section.NumTriangles = Primitive.Indices.length / 3 ∧
      Section.FirstIndex = st.VertexInstanceBaseIndex := by
    unfold TrianglesBranch
    simp only [List.length_append, List.length_singleton, Nat.add_sub_cancel]
    rw [List.set_append_right _ _ (Nat.le_refl _), Nat.sub_self, List.set_cons_zero]
    exact ⟨_, rfl, rfl, rfl⟩
  refine ⟨_, Section, hstep, hS, hT, hF, hlenI, ?_⟩
  rw [hlenI, hT]
  omega

/-- C5, at a concrete input: the triangle primitive with three indices, from the start of
the primitive loop. -/
theorem Triangles_index_count_witness :
    ∃ (st' : FPrimitiveLoopState ℚ) (Section : FStaticMeshSection),
      ProcessPrimitive SampleEngine {} DummyComponent TriangleLOD 0 1 false TriangleLoopStart
        TrianglePrimitive = .Next st' ∧
      st'.Sections = TriangleLoopStart.Sections ++ [Section] ∧
      Section.NumTriangles = TrianglePrimitive.Indices.length / 3 ∧
      Section.FirstIndex = TriangleLoopStart.VertexInstanceBaseIndex ∧
      st'.LODIndices.length = TriangleLoopStart.LODIndices.length +
        TrianglePrimitive.Indices.length ∧
      st'.LODIndices.length - TriangleLoopStart.LODIndices.length =
        3 * Section.NumTriangles + TrianglePrimitive.Indices.length % 3 :=
  Triangles_index_count SampleEngine {} DummyComponent TriangleLOD 0 1 false TriangleLoopStart
    TrianglePrimitive (by decide)

/-! ### The one-triangle scenario (C6, C7) -/

/-- C6, evaluated: the three vertices of the scenario's triangle get the normal
(0,0,-1), which is not (0,0,1). -/
theorem Scenario_normal_is_not_plus_z :
    (LoadStaticMesh_Internal_Dummy SampleEngine TriangleContext).Context.LODResources.map
        (fun L => L.Vertices.map (fun v => v.TangentZ)) =
      [[⟨0, 0, -1⟩, ⟨0, 0, -1⟩, ⟨0, 0, -1⟩]] ∧
    ¬ ((⟨0, 0, -1⟩ : FVector ℚ) = ⟨0, 0, 1⟩) := by
  decide!

set_option maxRecDepth 4000 in
/-- C6. Building the scenario's mesh (one LOD, one Triangles primitive with positions
(0,0,0), (1,0,0), (0,1,0), indices 0, 1, 2, no normals) under the default configuration,
with any engine and any component, hands back the mesh of the context and yields one LOD
with exactly one section, of `NumTriangles = 1`, and three vertices at the source
positions that all carry the normal (0,0,-1) = (V2 - V0) × (V1 - V0). -/
theorem Scenario_one_section_normal_minus_z (Engine : FEngine ℚ)
    (StaticMeshComponent : UStaticMeshComponent ℚ) :
    (LoadStaticMesh_Internal Engine TriangleContext StaticMeshComponent).Outcome =
      .Returned (some 0) ∧
    (LoadStaticMesh_Internal Engine TriangleContext StaticMeshComponent).Context.LODResources.map
        (fun L => (L.Sections.map (fun S => S.NumTriangles),
          L.Vertices.map (fun v => (v.Position, v.TangentZ)))) =
      [([1], [(⟨0, 0, 0⟩, ⟨0, 0, -1⟩), (⟨1, 0, 0⟩, ⟨0, 0, -1⟩), (⟨0, 1, 0⟩, ⟨0, 0, -1⟩)])] := by
  simp [LoadStaticMesh_Internal, TriangleContext, TrianglePrimitive,
    LODLoop, LODPrepass, PrimitiveLoop, PrimitiveLoopStart, ProcessPrimitive, MODE_LINES, MODE_POINTS,
    MODE_TRIANGLES, TrianglesBranch, GeometryStart, GeometryGeneration, GeometryGenerationStep,
    GeometryVertex, GetSafeValue, TrianglePasses, bCanGenerateNormals, bCanGenerateTangents,
    GenerateNormals, GenerateNormalsStep, TriangleStarts, NormalFromCross, FVector.GetSafeNormal,
    FVector.CrossProduct, FVector.sub, FVector.SizeSquared, FinishLOD, TMapContains,
    List.range_succ, List.range_zero, FStaticMeshBuildVertex.Default, PopulateUVs, MAX_STATIC_TEXCOORDS,
    FVector.ZeroVector, FVector4.toFVector]

/-- C7, evaluated: the extent stored for the scenario's triangle is (1/2, 1/2, 0), which
is not (1,1,0). -/
theorem Scenario_extent_is_not_full_size :
    (LoadStaticMesh_Internal_Dummy SampleEngine TriangleContext).Context.BoundingBoxAndSphere.BoxExtent =
      ⟨1 / 2, 1 / 2, 0⟩ ∧
    ¬ ((⟨1 / 2, 1 / 2, 0⟩ : FVector ℚ) = ⟨1, 1, 0⟩) := by
  decide!

set_option maxRecDepth 4000 in
/-- C7. Building the scenario's mesh under the default configuration, with any engine and
any component, stores in the build's bounds the origin (1/2, 1/2, 0) and the box extent
(1/2, 1/2, 0): the extent is the half size of the bounding box, whose full size, twice
the extent, is (1,1,0). -/
theorem Scenario_bounds_half_extent (Engine : FEngine ℚ)
    (StaticMeshComponent : UStaticMeshComponent ℚ) :
    (LoadStaticMesh_Internal Engine TriangleContext
      StaticMeshComponent).Context.BoundingBoxAndSphere.Origin = ⟨1 / 2, 1 / 2, 0⟩ ∧
    (LoadStaticMesh_Internal Engine TriangleContext
      StaticMeshComponent).Context.BoundingBoxAndSphere.BoxExtent = ⟨1 / 2, 1 / 2, 0⟩ ∧
    ((LoadStaticMesh_Internal Engine TriangleContext
      StaticMeshComponent).Context.BoundingBoxAndSphere.BoxExtent.scale 2) = ⟨1, 1, 0⟩ := by
  simp [LoadStaticMesh_Internal, TriangleContext, TrianglePrimitive,
    LODLoop, LODPrepass, PrimitiveLoop, PrimitiveLoopStart, ProcessPrimitive, MODE_LINES, MODE_POINTS,
    MODE_TRIANGLES, TrianglesBranch, GeometryStart, GeometryGeneration, GeometryGenerationStep,
    GeometryVertex, GetSafeValue, FinishLOD, TMapContains, FBox.Init, FBox.addPoint,
    FBox.GetCenterAndExtents, FBox.GetExtent, FVector.add, FVector.sub, FVector.scale,
    List.range_succ, List.range_zero, FStaticMeshBuildVertex.Default, PopulateUVs, MAX_STATIC_TEXCOORDS,
    FVector.ZeroVector, FVector4.toFVector]

/-! ### Normal generation (C8 - C10) -/

/-- C9, evaluated: under the policy "always generate normals" the three vertices of a
degenerate triangle (collinear positions) get the zero normal, whose squared length is 0,
not 1. -/
theorem Degenerate_triangle_normal_not_unit :
    (LoadStaticMesh_Internal_Dummy SampleEngine DegenerateContext).Context.LODResources.map
        (fun L => L.Vertices.map (fun v => v.TangentZ.SizeSquared)) = [[0, 0, 0]] ∧
    ¬ ((0 : ℚ) = 1) := by
  decide!

/-- C9. For a build with a single LOD of Triangles primitives whose index counts are
multiples of 3, under the policy "always generate normals" and for any further
configuration: the build hands back the mesh of the context, the LOD's vertex buffer has
one vertex per index, and every triangle of the buffer carries on its three vertices the
flat normal `GetSafeNormal((V2 - V0) × (V1 - V0))` of its output positions. With an exact
inverse square root that normal has squared length 1 whenever the cross product has
squared length at least 1e-8, and is the zero vector for a degenerate triangle. -/
theorem SingleLOD_generated_normals_unit_or_zero (Engine : FEngine K)
    (hInv : ∀ s : K, 0 < s → Engine.InvSqrt s * Engine.InvSqrt s * s = 1)
    (StaticMeshContext : FglTFRuntimeStaticMeshContext K)
    (StaticMeshComponent : UStaticMeshComponent K) (LOD : FglTFRuntimeMeshLOD K)
    (hLODs : StaticMeshContext.LODs = [LOD])
    (hAlways : StaticMeshContext.StaticMeshConfig.NormalsGenerationStrategy = .Always)
    (hPrims : ∀ p ∈ LOD.Primitives, p.Mode = MODE_TRIANGLES ∧ p.Indices.length % 3 = 0) :
    (LoadStaticMesh_Internal Engine StaticMeshContext StaticMeshComponent).Outcome =
      .Returned StaticMeshContext.StaticMesh ∧
    ∃ L : FStaticMeshLODResources K,
      (LoadStaticMesh_Internal Engine StaticMeshContext StaticMeshComponent).Context.LODResources =
        [L] ∧
      L.Vertices.length = TotalIndices LOD.Primitives ∧
      ∀ t, 3 * t + 3 ≤ L.Vertices.length →
        ∃ V0 V1 V2 : FStaticMeshBuildVertex K,
          L.Vertices[3 * t]? = some V0 ∧ L.Vertices[3 * t + 1]? = some V1 ∧
          L.Vertices[3 * t + 2]? = some V2 ∧
          V0.TangentZ = (FVector.CrossProduct (V2.Position.sub V0.Position)
            (V1.Position.sub V0.Position)).GetSafeNormal Engine.InvSqrt ∧
          V1.TangentZ = V0.TangentZ ∧ V2.TangentZ = V0.TangentZ ∧
          (SMALL_NUMBER ≤ (FVector.CrossProduct (V2.Position.sub V0.Position)
              (V1.Position.sub V0.Position)).SizeSquared → V0.TangentZ.SizeSquared = 1) ∧
          ((FVector.CrossProduct (V2.Position.sub V0.Position)
              (V1.Position.sub V0.Position)).SizeSquared < SMALL_NUMBER →
            V0.TangentZ = FVector.ZeroVector) := by
  obtain ⟨Config, Mesh, LODs, Materials, Bounds, Delta, Sockets, Resources⟩ := StaticMeshContext
  simp only at hLODs hAlways
  subst hLODs
  unfold LoadStaticMesh_Internal
  unfold LODLoop
  simp only [List.length_singleton]
  obtain ⟨st', e, l, b, f⟩ := PrimitiveLoop_flat Engine Config
    StaticMeshComponent LOD 0 (LODPrepass LOD false).1 (LODPrepass LOD false).2.1 hAlways
    LOD.Primitives
    (PrimitiveLoopStart (LODPrepass LOD false).2.2 [] Materials)
    hPrims rfl
    (by simp [PrimitiveLoopStart, LODPrepass_total])
    (by intro t j ht; exact absurd ht (by simp [PrimitiveLoopStart]))
  rw [e]
  simp only
  unfold LODLoop
  simp only
  refine ⟨rfl, ?_⟩
  obtain ⟨L, hL, _, _, hV⟩ := FinishLOD_resources Engine 0 (LODPrepass LOD false).1
    (LODPrepass LOD false).2.1
    { StaticMeshConfig := Config, StaticMesh := Mesh, LODs := [LOD], StaticMaterials := Materials,
      BoundingBoxAndSphere := Bounds, LOD0PivotDelta := Delta, AdditionalSockets := Sockets,
      LODResources := List.replicate 1 {} } st'
  have hlen' : st'.StaticMeshBuildVertices.length = TotalIndices LOD.Primitives := by
    rw [l]; simp [PrimitiveLoopStart, LODPrepass_total]
  have hb' : st'.VertexInstanceBaseIndex = st'.StaticMeshBuildVertices.length := by
    rw [b, hlen']; simp [PrimitiveLoopStart]
  rw [hb'] at f
  have hflatL : FlatBelow Engine L.Vertices L.Vertices.length ∧
      L.Vertices.length = TotalIndices LOD.Primitives := by
    rcases hV with hV | ⟨D, hV⟩
    · rw [hV]; exact ⟨f, hlen'⟩
    · rw [hV, List.length_map]; exact ⟨FlatBelow_shift Engine _ D f, hlen'⟩
  refine ⟨L, ?_, hflatL.2, ?_⟩
  · rw [hL]; rfl
  · intro t ht
    have r0 : 3 * t < L.Vertices.length := by omega
    have r1 : 3 * t + 1 < L.Vertices.length := by omega
    have r2 : 3 * t + 2 < L.Vertices.length := by omega
    have e0 := List.getElem?_eq_getElem r0
    have e1 := List.getElem?_eq_getElem r1
    have e2 := List.getElem?_eq_getElem r2
    have hN : TriangleNormal Engine L.Vertices (3 * t) =
        (FVector.CrossProduct (L.Vertices[3 * t + 2].Position.sub L.Vertices[3 * t].Position)
          (L.Vertices[3 * t + 1].Position.sub L.Vertices[3 * t].Position)).GetSafeNormal
          Engine.InvSqrt := by
      unfold TriangleNormal NormalFromCross
      rw [getD_of_getElem? e0, getD_of_getElem? e1, getD_of_getElem? e2]
    have t0 := hflatL.1 t 0 ht (by omega)
    have t1 := hflatL.1 t 1 ht (by omega)
    have t2 := hflatL.1 t 2 ht (by omega)
    rw [Nat.add_zero, e0, Option.map_some', Option.some.injEq, hN] at t0
    rw [e1, Option.map_some', Option.some.injEq, hN] at t1
    rw [e2, Option.map_some', Option.some.injEq, hN] at t2
    obtain ⟨hu, hz⟩ := GetSafeNormal_unit Engine.InvSqrt hInv
      (FVector.CrossProduct (L.Vertices[3 * t + 2].Position.sub L.Vertices[3 * t].Position)
          (L.Vertices[3 * t + 1].Position.sub L.Vertices[3 * t].Position))
    refine ⟨_, _, _, e0, e1, e2, t0, by rw [t1, t0], by rw [t2, t0], ?_, ?_⟩
    · intro h; rw [t0]; exact hu h
    · intro h; rw [t0]; exact hz h

/-- C9, at a concrete input over the reals, with the inverse of the real square root as
`InvSqrt`: one triangle with the positions (0,0,0), (2,0,0), (0,2,0), whose cross product
has squared length 16. -/
theorem SingleLOD_generated_normals_unit_or_zero_witness :
    (LoadStaticMesh_Internal (EngineOf (fun s : ℝ => (Real.sqrt s)⁻¹) Real.sqrt)
        (DoubleTriangleContext ℝ) DummyComponent).Outcome =
      .Returned (DoubleTriangleContext ℝ).StaticMesh ∧
    ∃ L : FStaticMeshLODResources ℝ,
      (LoadStaticMesh_Internal (EngineOf (fun s : ℝ => (Real.sqrt s)⁻¹) Real.sqrt)
        (DoubleTriangleContext ℝ) DummyComponent).Context.LODResources = [L] ∧
      L.Vertices.length = TotalIndices (DoubleTriangleLOD ℝ).Primitives ∧
      ∀ t, 3 * t + 3 ≤ L.Vertices.length →
        ∃ V0 V1 V2 : FStaticMeshBuildVertex ℝ,
          L.Vertices[3 * t]? = some V0 ∧ L.Vertices[3 * t + 1]? = some V1 ∧
          L.Vertices[3 * t + 2]? = some V2 ∧
          V0.TangentZ = (FVector.CrossProduct (V2.Position.sub V0.Position)
            (V1.Position.sub V0.Position)).GetSafeNormal
              (EngineOf (fun s : ℝ => (Real.sqrt s)⁻¹) Real.sqrt).InvSqrt ∧
          V1.TangentZ = V0.TangentZ ∧ V2.TangentZ = V0.TangentZ ∧
          (SMALL_NUMBER ≤ (FVector.CrossProduct (V2.Position.sub V0.Position)
              (V1.Position.sub V0.Position)).SizeSquared → V0.TangentZ.SizeSquared = 1) ∧
          ((FVector.CrossProduct (V2.Position.sub V0.Position)
              (V1.Position.sub V0.Position)).SizeSquared < SMALL_NUMBER →
            V0.TangentZ = FVector.ZeroVector) :=
  SingleLOD_generated_normals_unit_or_zero (EngineOf (fun s : ℝ => (Real.sqrt s)⁻¹) Real.sqrt)
    Real_inv_sqrt_exact (DoubleTriangleContext ℝ) DummyComponent (DoubleTriangleLOD ℝ) rfl rfl
    (by
      intro p hp
      simp only [DoubleTriangleLOD, List.mem_singleton] at hp
      subst hp
      exact ⟨rfl, rfl⟩)

/-- C10. For a Triangles primitive whose index count is a multiple of 3, in a LOD without
additional transforms (the transforms array does not match the primitives), from any
loop state whose vertex array holds the section: the normal generation pass runs exactly when the policy is Always,
or the policy is IfMissing and some referenced index has no entry in the source normals.
When it runs, every slot of a triangle carries the flat normal of the triangle. When it
does not run, the vertex in slot `k` of the section carries the source normal at the
index it was emitted for (`Indices[k]`, or the index of the exchanged corner under
winding reversal), and the zero vector where that index has no source normal. -/
theorem Triangles_normals_policy (Engine : FEngine K)
    (StaticMeshConfig : FglTFRuntimeStaticMeshConfig K)
    (LOD : FglTFRuntimeMeshLOD K) (NumUVs : Nat) (bHasVertexColors : Bool)
    (Primitive : FglTFRuntimePrimitive K) (StaticMaterial : FStaticMaterial)
    (st : FPrimitiveLoopState K)
    (hmod : Primitive.Indices.length % 3 = 0)
    (hlen : st.VertexInstanceBaseIndex + Primitive.Indices.length ≤
      st.StaticMeshBuildVertices.length)
    (hNoTransforms : LOD.Primitives.length ≠ LOD.AdditionalTransforms.length) :
    ((bCanGenerateNormals StaticMeshConfig
        (GeometryGeneration Engine StaticMeshConfig Primitive NumUVs bHasVertexColors
          (decide (LOD.Primitives.length = LOD.AdditionalTransforms.length))
          (LOD.AdditionalTransforms.getD st.AdditionalTransformsPrimitiveIndex FTransform.Identity)
          st.VertexInstanceBaseIndex (GeometryStart Primitive st)).bMissingNormals &&
        Primitive.Indices.length % 3 == 0) = true ↔
      (StaticMeshConfig.NormalsGenerationStrategy = .Always ∨
        (StaticMeshConfig.NormalsGenerationStrategy = .IfMissing ∧
          ∃ k, k < Primitive.Indices.length ∧
            Primitive.Normals[Primitive.Indices.getD k 0]? = none))) ∧
    ((StaticMeshConfig.NormalsGenerationStrategy = .Always ∨
        (StaticMeshConfig.NormalsGenerationStrategy = .IfMissing ∧
          ∃ k, k < Primitive.Indices.length ∧
            Primitive.Normals[Primitive.Indices.getD k 0]? = none)) →
      ∀ t j, t < Primitive.Indices.length / 3 → j < 3 →
        (TrianglesBranch Engine StaticMeshConfig LOD NumUVs bHasVertexColors Primitive
          StaticMaterial st).StaticMeshBuildVertices[st.VertexInstanceBaseIndex + 3 * t + j]?.map
            (fun v => v.TangentZ) =
          some (TriangleNormal Engine
            (TrianglesBranch Engine StaticMeshConfig LOD NumUVs bHasVertexColors Primitive
              StaticMaterial st).StaticMeshBuildVertices (st.VertexInstanceBaseIndex + 3 * t))) ∧
    (¬ (StaticMeshConfig.NormalsGenerationStrategy = .Always ∨
        (StaticMeshConfig.NormalsGenerationStrategy = .IfMissing ∧
          ∃ k, k < Primitive.Indices.length ∧
            Primitive.Normals[Primitive.Indices.getD k 0]? = none)) →
      ∀ k, k < Primitive.Indices.length →
        (TrianglesBranch Engine StaticMeshConfig LOD NumUVs bHasVertexColors Primitive
          StaticMaterial st).StaticMeshBuildVertices[st.VertexInstanceBaseIndex + k]?.map
            (fun v => v.TangentZ) =
          some (Primitive.Normals[Primitive.Indices.getD
            (WindingSource StaticMeshConfig.bReverseWinding k) 0]?.getD FVector.ZeroVector)) := by
  have hdec : decide (LOD.Primitives.length = LOD.AdditionalTransforms.length) = false :=
    decide_eq_false hNoTransforms
  obtain ⟨g1, _, _, g4, g5, _⟩ := GeometryGeneration_spec Engine StaticMeshConfig Primitive
    NumUVs bHasVertexColors (decide (LOD.Primitives.length = LOD.AdditionalTransforms.length))
    (LOD.AdditionalTransforms.getD st.AdditionalTransformsPrimitiveIndex FTransform.Identity) st
  have hiff : (bCanGenerateNormals StaticMeshConfig
        (GeometryGeneration Engine StaticMeshConfig Primitive NumUVs bHasVertexColors
          (decide (LOD.Primitives.length = LOD.AdditionalTransforms.length))
          (LOD.AdditionalTransforms.getD st.AdditionalTransformsPrimitiveIndex FTransform.Identity)
          st.VertexInstanceBaseIndex (GeometryStart Primitive st)).bMissingNormals &&
        Primitive.Indices.length % 3 == 0) = true ↔
      (StaticMeshConfig.NormalsGenerationStrategy = .Always ∨
        (StaticMeshConfig.NormalsGenerationStrategy = .IfMissing ∧
          ∃ k, k < Primitive.Indices.length ∧
            Primitive.Normals[Primitive.Indices.getD k 0]? = none)) := by
    unfold bCanGenerateNormals
    simp only [hmod, beq_self_eq_true, Bool.and_true, Bool.or_eq_true, Bool.and_eq_true,
      decide_eq_true_eq]
    rw [g5]
    constructor
    · rintro (⟨hm, hs⟩ | hs)
      · exact Or.inr ⟨hs, hm⟩
      · exact Or.inl hs
    · rintro (hs | ⟨hs, hm⟩)
      · exact Or.inr hs
      · exact Or.inl ⟨hm, hs⟩
  refine ⟨hiff, ?_, ?_⟩
  · intro hgen t j ht hj
    exact (TrianglesBranch_generated Engine StaticMeshConfig LOD NumUVs bHasVertexColors
      Primitive StaticMaterial st hmod hlen hgen).2.2 t j ht hj
  · intro hgen k hk
    have hfalse := (Bool.not_eq_true _).mp (fun h => hgen (hiff.mp h))
    have hmap := TrianglePasses_kept Engine StaticMeshConfig Primitive
      st.VertexInstanceBaseIndex _ hfalse
    rw [TrianglesBranch_vertices]
    have := getElem?_map_of_map_eq (fun v : FStaticMeshBuildVertex K => (v.Position, v.TangentZ))
      Prod.snd hmap (st.VertexInstanceBaseIndex + k)
    simp only at this
    rw [this, Reversed_inside StaticMeshConfig _ _ _ hmod (by rw [g1]; exact hlen) k hk]
    have hw := WindingSource_lt StaticMeshConfig.bReverseWinding _ k hmod hk
    rw [g4 _ hw (by omega), Option.map_some', hdec, GeometryVertex_TangentZ]

/-- C10, at a concrete input: a triangle with the source normal (0,0,1) on every vertex
under the default policy IfMissing keeps its source normals; slot 1 carries (0,0,1). -/
theorem Triangles_normals_policy_witness :
    (TrianglesBranch SampleEngine {} NormalsLOD 1 false NormalsPrimitive ⟨none, ""⟩
      TriangleLoopState).StaticMeshBuildVertices[
        TriangleLoopState.VertexInstanceBaseIndex + 1]?.map (fun v => v.TangentZ) =
      some (NormalsPrimitive.Normals[NormalsPrimitive.Indices.getD
        (WindingSource
          ({} : FglTFRuntimeStaticMeshConfig ℚ).bReverseWinding 1) 0]?.getD FVector.ZeroVector) :=
  (Triangles_normals_policy SampleEngine {} NormalsLOD 1 false NormalsPrimitive ⟨none, ""⟩
    TriangleLoopState (by decide) (by decide) (by decide)).2.2 (by decide) 1 (by decide)

/-! ### Materials, colours, transforms and defaults (C11 - C14) -/

/-- C11. A Triangles primitive reached by the primitive loop in the state `st` occupies
the slot `k = |st.Sections|` of its LOD; `st.SectionMaterialMap` is the slot-to-index map
as the earlier primitives of the build left it (within a LOD every primitive has a slot
of its own, so an entry for slot `k` was written by an earlier LOD), and
`st.StaticMaterials` is the output material list. If the primitive has an explicit material
or slot `k` is not mapped, its material is appended to the list, its section gets the new
index, that index holds the primitive's own material, and slot `k` is mapped to it. If it
has no explicit material and slot `k` is mapped to `j`, nothing is appended, the section
gets `j` and the map stays as it is. The mapping of the other slots never changes. -/
theorem Triangles_material_rule (Engine : FEngine K)
    (StaticMeshConfig : FglTFRuntimeStaticMeshConfig K)
    (StaticMeshComponent : UStaticMeshComponent K) (LOD : FglTFRuntimeMeshLOD K)
    (CurrentLODIndex NumUVs : Nat) (bHasVertexColors : Bool) (st : FPrimitiveLoopState K)
    (Primitive : FglTFRuntimePrimitive K) (hMode : Primitive.Mode = MODE_TRIANGLES) :
    ∃ st', ProcessPrimitive Engine StaticMeshConfig StaticMeshComponent LOD CurrentLODIndex
        NumUVs bHasVertexColors st Primitive = .Next st' ∧
      st'.Sections.length = st.Sections.length + 1 ∧
      ((Primitive.bHasMaterial = true ∨
          TMapFind st.SectionMaterialMap st.Sections.length = none) →
        st'.StaticMaterials.length = st.StaticMaterials.length + 1 ∧
        st'.StaticMaterials.take st.StaticMaterials.length = st.StaticMaterials ∧
        st'.Sections[st.Sections.length]?.map (fun S => S.MaterialIndex) =
          some st.StaticMaterials.length ∧
        st'.StaticMaterials[st.StaticMaterials.length]?.map (fun M => M.MaterialInterface) =
          some Primitive.Material ∧
        TMapFind st'.SectionMaterialMap st.Sections.length = some st.StaticMaterials.length) ∧
      (∀ j, Primitive.bHasMaterial = false →
        TMapFind st.SectionMaterialMap st.Sections.length = some j →
        st'.StaticMaterials = st.StaticMaterials ∧
        st'.Sections[st.Sections.length]?.map (fun S => S.MaterialIndex) = some j ∧
        st'.SectionMaterialMap = st.SectionMaterialMap) ∧
      (∀ k, k ≠ st.Sections.length →
        TMapFind st'.SectionMaterialMap k = TMapFind st.SectionMaterialMap k) := by
  refine ⟨_, ProcessPrimitive_triangles Engine StaticMeshConfig StaticMeshComponent LOD
    CurrentLODIndex NumUVs bHasVertexColors st Primitive hMode, ?_⟩
  obtain ⟨h1, h2, h3, h4⟩ := TrianglesBranch_material Engine StaticMeshConfig LOD NumUVs
    bHasVertexColors Primitive
    ⟨Primitive.Material, "LOD_" ++ toString CurrentLODIndex ++ "_Section_" ++
      toString st.StaticMaterials.length ++ "_" ++ Primitive.MaterialName⟩
    { st with Sections := st.Sections ++ [{}] } st.Sections.length (by simp)
  refine ⟨h1, ?_, h3, h4⟩
  intro h
  obtain ⟨a, b, c, d⟩ := h2 h
  refine ⟨?_, ?_, b, ?_, d⟩
  · rw [a]; simp
  · rw [a]; simp
  · rw [c]; rfl

/-- C11, at LOD 1 of a two-LOD build: slot 0 is mapped to index 0 by LOD 0; the primitive
with the explicit material 8 gets the new index 1, which holds material 8. -/
theorem Triangles_material_rule_witness :
    ExplicitPrimitive.Mode = MODE_TRIANGLES ∧
    ∃ st', ProcessPrimitive SampleEngine {} DummyComponent { Primitives := [ExplicitPrimitive] }
        1 1 false SecondLODLoopStart ExplicitPrimitive = .Next st' ∧
      st'.Sections.length = SecondLODLoopStart.Sections.length + 1 ∧
      ((ExplicitPrimitive.bHasMaterial = true ∨
          TMapFind SecondLODLoopStart.SectionMaterialMap SecondLODLoopStart.Sections.length =
            none) →
        st'.StaticMaterials.length = SecondLODLoopStart.StaticMaterials.length + 1 ∧
        st'.StaticMaterials.take SecondLODLoopStart.StaticMaterials.length =
          SecondLODLoopStart.StaticMaterials ∧
        st'.Sections[SecondLODLoopStart.Sections.length]?.map (fun S => S.MaterialIndex) =
          some SecondLODLoopStart.StaticMaterials.length ∧
        st'.StaticMaterials[SecondLODLoopStart.StaticMaterials.length]?.map
            (fun M => M.MaterialInterface) = some ExplicitPrimitive.Material ∧
        TMapFind st'.SectionMaterialMap SecondLODLoopStart.Sections.length =
          some SecondLODLoopStart.StaticMaterials.length) ∧
      (∀ j, ExplicitPrimitive.bHasMaterial = false →
        TMapFind SecondLODLoopStart.SectionMaterialMap SecondLODLoopStart.Sections.length =
            some j →
        st'.StaticMaterials = SecondLODLoopStart.StaticMaterials ∧
        st'.Sections[SecondLODLoopStart.Sections.length]?.map (fun S => S.MaterialIndex) =
          some j ∧
        st'.SectionMaterialMap = SecondLODLoopStart.SectionMaterialMap) ∧
      (∀ k, k ≠ SecondLODLoopStart.Sections.length →
        TMapFind st'.SectionMaterialMap k =
          TMapFind SecondLODLoopStart.SectionMaterialMap k) :=
  ⟨by decide, Triangles_material_rule SampleEngine {} DummyComponent
    { Primitives := [ExplicitPrimitive] } 1 1 false SecondLODLoopStart ExplicitPrimitive
    (by decide)⟩

/-- The rule of C11 in two whole builds of two LODs with one primitive each. The later
primitive has an explicit material: its section gets the new index 1, which holds its
material 8. The later primitive has none: its section reuses index 0 of LOD 0 and the
material list keeps its single entry, material 7. -/
theorem TwoLOD_material_builds :
    ((LoadStaticMesh_Internal_Dummy SampleEngine ExplicitLaterContext).Context.LODResources.map
        (fun L => L.Sections.map (fun S => S.MaterialIndex)) = [[0], [1]] ∧
      (LoadStaticMesh_Internal_Dummy SampleEngine ExplicitLaterContext).Context.StaticMaterials.map
        (fun M => M.MaterialInterface) = [some 7, some 8]) ∧
    ((LoadStaticMesh_Internal_Dummy SampleEngine InheritingContext).Context.LODResources.map
        (fun L => L.Sections.map (fun S => S.MaterialIndex)) = [[0], [0]] ∧
      (LoadStaticMesh_Internal_Dummy SampleEngine InheritingContext).Context.StaticMaterials.map
        (fun M => M.MaterialInterface) = [some 7]) := by
  decide!

/-- C12, evaluated on two LODs of one triangle each, the first with vertex colours, the
second without. The claim wants colour data on LOD 1 only if a primitive of LOD 1 has
colours; the build marks both LODs as carrying colour data although no primitive of LOD 1
has colours, and gives the three vertices of LOD 1 the colour white. With the two LODs in
the other order the LOD without colours carries no colour data: the colour flag of the
builder is raised by a LOD with colours and never lowered for the LODs after it. -/
theorem Later_LOD_inherits_color_flag :
    (LoadStaticMesh_Internal_Dummy SampleEngine ColoredThenPlainContext).Context.LODResources.map
        (fun L => L.bHasColorVertexData) = [true, true] ∧
    ColoredThenPlainContext.LODs.map HasColors = [true, false] ∧
    (LoadStaticMesh_Internal_Dummy SampleEngine ColoredThenPlainContext).Context.LODResources.map
        (fun L => L.Vertices.map (fun v => v.Color)) =
      [[FColor.White, FColor.White, FColor.White], [FColor.White, FColor.White, FColor.White]] ∧
    (LoadStaticMesh_Internal_Dummy SampleEngine PlainThenColoredContext).Context.LODResources.map
        (fun L => L.bHasColorVertexData) = [false, true] := by
  decide!

/-- C13, evaluated on a triangle with the normals (0,0,1) and an additional transform
that only scales by 2: the positions are doubled, the normals stay (0,0,1), while
rotation and scale without translation would give (0,0,2). -/
theorem Additional_transform_leaves_normal_unscaled :
    (LoadStaticMesh_Internal_Dummy SampleEngine DoubledContext).Context.LODResources.map
        (fun L => L.Vertices.map (fun v => (v.Position, v.TangentZ))) =
      [[(⟨0, 0, 0⟩, ⟨0, 0, 1⟩), (⟨2, 0, 0⟩, ⟨0, 0, 1⟩), (⟨0, 2, 0⟩, ⟨0, 0, 1⟩)]] ∧
    DoublingTransform.TransformVector ⟨0, 0, 1⟩ = ⟨0, 0, 2⟩ ∧
    ¬ ((⟨0, 0, 1⟩ : FVector ℚ) = ⟨0, 0, 2⟩) := by
  decide!

/-- C13. In a LOD whose additional transforms are as many as its primitives, let `T` be
the transform the Triangles branch reads for the primitive. The vertex that the geometry
generation loop writes for the `k`-th index of the primitive has the source position
mapped by `T.TransformPosition` (scale, then rotation, then translation), and the source
normal and the source tangent mapped by the rotation of `T` alone: neither the scale nor
the translation of `T` enters them. With no winding reversal and no generation of normals
and tangents this is the vertex the branch leaves in the slot. -/
theorem Additional_transform_rotates_normals (Engine : FEngine K)
    (StaticMeshConfig : FglTFRuntimeStaticMeshConfig K)
    (LOD : FglTFRuntimeMeshLOD K) (NumUVs : Nat) (bHasVertexColors : Bool)
    (Primitive : FglTFRuntimePrimitive K) (StaticMaterial : FStaticMaterial)
    (st : FPrimitiveLoopState K) (T : FTransform K)
    (hApply : LOD.Primitives.length = LOD.AdditionalTransforms.length)
    (hT : LOD.AdditionalTransforms[st.AdditionalTransformsPrimitiveIndex]? = some T)
    (hlen : st.VertexInstanceBaseIndex + Primitive.Indices.length ≤
      st.StaticMeshBuildVertices.length)
    (k : Nat) (hk : k < Primitive.Indices.length) :
    ∃ V : FStaticMeshBuildVertex K,
      (GeometryGeneration Engine StaticMeshConfig Primitive NumUVs bHasVertexColors
        (decide (LOD.Primitives.length = LOD.AdditionalTransforms.length))
        (LOD.AdditionalTransforms.getD st.AdditionalTransformsPrimitiveIndex FTransform.Identity)
        st.VertexInstanceBaseIndex
        (GeometryStart Primitive st)).StaticMeshBuildVertices[st.VertexInstanceBaseIndex + k]? =
          some V ∧
      V.Position = T.TransformPosition
        (Primitive.Positions[Primitive.Indices.getD k 0]?.getD FVector.ZeroVector) ∧
      V.TangentZ = T.Rotation.RotateVector
        (Primitive.Normals[Primitive.Indices.getD k 0]?.getD FVector.ZeroVector) ∧
      V.TangentX = T.Rotation.RotateVector
        (Primitive.Tangents[Primitive.Indices.getD k 0]?.getD ⟨0, 0, 0, 1⟩).toFVector ∧
      (StaticMeshConfig.bReverseWinding = false →
        StaticMeshConfig.NormalsGenerationStrategy = .Never →
        StaticMeshConfig.TangentsGenerationStrategy = .Never →
        (TrianglesBranch Engine StaticMeshConfig LOD NumUVs bHasVertexColors Primitive
          StaticMaterial st).StaticMeshBuildVertices[st.VertexInstanceBaseIndex + k]? =
            some V) := by
  obtain ⟨_, _, _, g4, _, _⟩ := GeometryGeneration_spec Engine StaticMeshConfig Primitive NumUVs
    bHasVertexColors (decide (LOD.Primitives.length = LOD.AdditionalTransforms.length))
    (LOD.AdditionalTransforms.getD st.AdditionalTransformsPrimitiveIndex FTransform.Identity) st
  have h4 := g4 k hk (by omega)
  have hd : decide (LOD.Primitives.length = LOD.AdditionalTransforms.length) = true :=
    decide_eq_true hApply
  have hTd : LOD.AdditionalTransforms.getD st.AdditionalTransformsPrimitiveIndex
      FTransform.Identity = T := getD_of_getElem? hT
  refine ⟨_, h4, ?_⟩
  rw [hd, hTd]
  obtain ⟨p1, p2, p3⟩ := GeometryVertex_transformed Engine StaticMeshConfig Primitive NumUVs
    bHasVertexColors T
    (st.StaticMeshBuildVertices.getD (st.VertexInstanceBaseIndex + k)
      FStaticMeshBuildVertex.Default) (Primitive.Indices.getD k 0)
  refine ⟨p1, p2, p3, ?_⟩
  intro hW hN hTn
  rw [TrianglesBranch_vertices, TrianglePasses_never Engine StaticMeshConfig Primitive _ _ hW hN hTn,
    ← hd, ← hTd]
  exact h4

/-- C13 on the triangle of `DoubledLOD`, second index: the transform doubles the position
(1,0,0) and leaves the normal (0,0,1) as it is. -/
theorem Additional_transform_rotates_normals_witness :
    DoubledLOD.Primitives.length = DoubledLOD.AdditionalTransforms.length ∧
    DoubledLOD.AdditionalTransforms[TriangleLoopState.AdditionalTransformsPrimitiveIndex]? =
      some DoublingTransform ∧
    ∃ V : FStaticMeshBuildVertex ℚ,
      (GeometryGeneration SampleEngine NeverConfig NormalsPrimitive 1 false
        (decide (DoubledLOD.Primitives.length = DoubledLOD.AdditionalTransforms.length))
        (DoubledLOD.AdditionalTransforms.getD TriangleLoopState.AdditionalTransformsPrimitiveIndex
          FTransform.Identity)
        TriangleLoopState.VertexInstanceBaseIndex
        (GeometryStart NormalsPrimitive TriangleLoopState)).StaticMeshBuildVertices[
          TriangleLoopState.VertexInstanceBaseIndex + 1]? = some V ∧
      V.Position = DoublingTransform.TransformPosition
        (NormalsPrimitive.Positions[NormalsPrimitive.Indices.getD 1 0]?.getD FVector.ZeroVector) ∧
      V.TangentZ = DoublingTransform.Rotation.RotateVector
        (NormalsPrimitive.Normals[NormalsPrimitive.Indices.getD 1 0]?.getD FVector.ZeroVector) ∧
      V.TangentX = DoublingTransform.Rotation.RotateVector
        (NormalsPrimitive.Tangents[NormalsPrimitive.Indices.getD 1 0]?.getD
          ⟨0, 0, 0, 1⟩).toFVector ∧
      (NeverConfig.bReverseWinding = false →
        NeverConfig.NormalsGenerationStrategy = .Never →
        NeverConfig.TangentsGenerationStrategy = .Never →
        (TrianglesBranch SampleEngine NeverConfig DoubledLOD 1 false NormalsPrimitive
          ⟨none, ""⟩ TriangleLoopState).StaticMeshBuildVertices[
            TriangleLoopState.VertexInstanceBaseIndex + 1]? = some V) :=
  ⟨by decide, by decide,
    Additional_transform_rotates_normals SampleEngine NeverConfig DoubledLOD 1 false NormalsPrimitive
      ⟨none, ""⟩ TriangleLoopState DoublingTransform (by decide) (by decide) (by decide) 1
      (by decide)⟩

/-- The build of `ShortArraysContext`, evaluated: the mesh of the context comes back, and
the vertices of the indices 5 and 7, which have no entry in any array, carry the
defaults. -/
theorem ShortArrays_build :
    (LoadStaticMesh_Internal_Dummy SampleEngine ShortArraysContext).Outcome =
      .Returned (some 0) ∧
    (LoadStaticMesh_Internal_Dummy SampleEngine ShortArraysContext).Context.LODResources.map
        (fun L => L.Vertices.map (fun v => (v.Position, v.TangentZ))) =
      [[(⟨1, 2, 3⟩, ⟨0, 0, 1⟩), (⟨0, 0, 0⟩, ⟨0, 0, 0⟩), (⟨0, 0, 0⟩, ⟨0, 0, 0⟩)]] ∧
    (LoadStaticMesh_Internal_Dummy SampleEngine ShortArraysContext).Context.LODResources.map
        (fun L => L.Vertices.map (fun v => (v.TangentX, v.UVs[0]?))) =
      [[(⟨1, 0, 0⟩, some ⟨1 / 2, 1 / 4⟩), (⟨0, 0, 0⟩, some ⟨0, 0⟩),
        (⟨0, 0, 0⟩, some ⟨0, 0⟩)]] := by
  decide!

/-- C15. In a build of Triangles primitives, let `st` be the state in which the primitive
loop of LOD `i` ends: `st.StaticMeshBuildVertices` holds the pre-pivot vertices and
`st.BoundingBox` is the box of this LOD, the box recomputed from the pre-pivot positions.
The build stores for the LOD the same vertices, each with its position moved by minus a
delta `D`: (0,0,0) under the policy Asset, the centre of the box under Center, the centre
plus (0,0,half the Z size of the box) under Top and the centre minus it under Bottom. The
delta recorded in the context for the socket export is the `D` of LOD 0; under Asset,
where the builder writes nothing, that is so for a context that starts with the recorded
delta (0,0,0), as the context constructor leaves it. -/
theorem Pivot_delta_by_policy (Engine : FEngine K)
    (StaticMeshContext : FglTFRuntimeStaticMeshContext K)
    (StaticMeshComponent : UStaticMeshComponent K)
    (hTri : AllTriangles StaticMeshContext.LODs)
    (i : Nat) (LOD : FglTFRuntimeMeshLOD K) (hi : StaticMeshContext.LODs[i]? = some LOD) :
    ∃ (NumUVs : Nat) (Map : List (Nat × Nat)) (Materials : List FStaticMaterial)
      (st : FPrimitiveLoopState K) (L : FStaticMeshLODResources K) (D : FVector K),
      PrimitiveLoop Engine StaticMeshContext.StaticMeshConfig StaticMeshComponent LOD i NumUVs
        ((StaticMeshContext.LODs.take (i + 1)).any HasColors) LOD.Primitives
        (PrimitiveLoopStart (TotalIndices LOD.Primitives) Map Materials) = .Next st ∧
      st.BoundingBox = BoxOf (st.StaticMeshBuildVertices.map (fun v => v.Position)) ∧
      (LoadStaticMesh_Internal Engine StaticMeshContext
        StaticMeshComponent).Context.LODResources[i]? = some L ∧
      L.Vertices.length = st.StaticMeshBuildVertices.length ∧
      (∀ (j : Nat) (v : FStaticMeshBuildVertex K), st.StaticMeshBuildVertices[j]? = some v →
        L.Vertices[j]? = some { v with Position := v.Position.sub D }) ∧
      (StaticMeshContext.StaticMeshConfig.PivotPosition = .Asset → D = ⟨0, 0, 0⟩) ∧
      (StaticMeshContext.StaticMeshConfig.PivotPosition = .Center →
        D = st.BoundingBox.GetCenter) ∧
      (StaticMeshContext.StaticMeshConfig.PivotPosition = .Top →
        D = st.BoundingBox.GetCenter.add ⟨0, 0, st.BoundingBox.GetSize.Z / 2⟩) ∧
      (StaticMeshContext.StaticMeshConfig.PivotPosition = .Bottom →
        D = st.BoundingBox.GetCenter.sub ⟨0, 0, st.BoundingBox.GetSize.Z / 2⟩) ∧
      (i = 0 →
        (StaticMeshContext.StaticMeshConfig.PivotPosition ≠ .Asset ∨
          StaticMeshContext.LOD0PivotDelta = ⟨0, 0, 0⟩) →
        (LoadStaticMesh_Internal Engine StaticMeshContext
          StaticMeshComponent).Context.LOD0PivotDelta = D) := by
  obtain ⟨NumUVs, Map, Materials, st, L, b1, _, b3, _, _, _, _, b8, b9⟩ :=
    Build_LOD Engine StaticMeshContext StaticMeshComponent hTri i LOD hi
  have hmem : LOD ∈ StaticMeshContext.LODs := List.getElem?_mem hi
  obtain ⟨_, hbox⟩ := PrimitiveLoop_box_end Engine StaticMeshContext.StaticMeshConfig
    StaticMeshComponent LOD i NumUVs _ Map Materials st (hTri LOD hmem) b1
  obtain ⟨c1, c2, c3, c4⟩ := PivotDeltaOf_cases StaticMeshContext.StaticMeshConfig.PivotPosition
    st.BoundingBox
  refine ⟨NumUVs, Map, Materials, st, L,
    PivotDeltaOf StaticMeshContext.StaticMeshConfig.PivotPosition st.BoundingBox,
    b1, hbox, b3, ?_, ?_, c1, c2, c3, c4, ?_⟩
  · rw [b8, List.length_map]
  · intro j v hv
    rw [b8, List.getElem?_map, hv]
    rfl
  · intro h0 hfresh
    rw [(b9 h0).1]
    by_cases hA : StaticMeshContext.StaticMeshConfig.PivotPosition = .Asset
    · rw [if_pos hA, c1 hA]
      rcases hfresh with h | h
      · exact absurd hA h
      · exact h
    · rw [if_neg hA]

/-- C15 on the scenario's triangle under the policy Center. -/
theorem Pivot_delta_by_policy_witness :
    AllTriangles CenteredContext.LODs ∧ CenteredContext.LODs[0]? = some TriangleLOD ∧
    ∃ (NumUVs : Nat) (Map : List (Nat × Nat)) (Materials : List FStaticMaterial)
      (st : FPrimitiveLoopState ℚ) (L : FStaticMeshLODResources ℚ) (D : FVector ℚ),
      PrimitiveLoop SampleEngine CenteredContext.StaticMeshConfig DummyComponent TriangleLOD 0
        NumUVs ((CenteredContext.LODs.take (0 + 1)).any HasColors) TriangleLOD.Primitives
        (PrimitiveLoopStart (TotalIndices TriangleLOD.Primitives) Map Materials) = .Next st ∧
      st.BoundingBox = BoxOf (st.StaticMeshBuildVertices.map (fun v => v.Position)) ∧
      (LoadStaticMesh_Internal SampleEngine CenteredContext
        DummyComponent).Context.LODResources[0]? = some L ∧
      L.Vertices.length = st.StaticMeshBuildVertices.length ∧
      (∀ (j : Nat) (v : FStaticMeshBuildVertex ℚ), st.StaticMeshBuildVertices[j]? = some v →
        L.Vertices[j]? = some { v with Position := v.Position.sub D }) ∧
      (CenteredContext.StaticMeshConfig.PivotPosition = .Asset → D = ⟨0, 0, 0⟩) ∧
      (CenteredContext.StaticMeshConfig.PivotPosition = .Center →
        D = st.BoundingBox.GetCenter) ∧
      (CenteredContext.StaticMeshConfig.PivotPosition = .Top →
        D = st.BoundingBox.GetCenter.add ⟨0, 0, st.BoundingBox.GetSize.Z / 2⟩) ∧
      (CenteredContext.StaticMeshConfig.PivotPosition = .Bottom →
        D = st.BoundingBox.GetCenter.sub ⟨0, 0, st.BoundingBox.GetSize.Z / 2⟩) ∧
      (0 = 0 →
        (CenteredContext.StaticMeshConfig.PivotPosition ≠ .Asset ∨
          CenteredContext.LOD0PivotDelta = ⟨0, 0, 0⟩) →
        (LoadStaticMesh_Internal SampleEngine CenteredContext
          DummyComponent).Context.LOD0PivotDelta = D) :=
  have hTri : AllTriangles CenteredContext.LODs := by
    unfold AllTriangles
    decide
  ⟨hTri, rfl, Pivot_delta_by_policy SampleEngine CenteredContext DummyComponent hTri 0
    TriangleLOD rfl⟩

/-- The build of `CenteredContext`, evaluated: the centre of the box of the triangle is
(1/2, 1/2, 0); the three output positions are the source positions minus the centre, and
the centre is recorded as the pivot delta of LOD 0. -/
theorem Centered_build :
    (LoadStaticMesh_Internal_Dummy SampleEngine CenteredContext).Context.LODResources.map
        (fun L => L.Vertices.map (fun v => v.Position)) =
      [[⟨-1 / 2, -1 / 2, 0⟩, ⟨1 / 2, -1 / 2, 0⟩, ⟨-1 / 2, 1 / 2, 0⟩]] ∧
    (LoadStaticMesh_Internal_Dummy SampleEngine CenteredContext).Context.LOD0PivotDelta =
      ⟨1 / 2, 1 / 2, 0⟩ := by
  decide!

/-- C16. In a build of Triangles primitives under the pivot policy Center, every LOD with
at least one vertex: the bounding box recomputed from the output positions of the LOD is
valid and has its centre at the origin. -/
theorem Center_pivot_centres_box (Engine : FEngine K)
    (StaticMeshContext : FglTFRuntimeStaticMeshContext K)
    (StaticMeshComponent : UStaticMeshComponent K)
    (hTri : AllTriangles StaticMeshContext.LODs)
    (hCenter : StaticMeshContext.StaticMeshConfig.PivotPosition = .Center)
    (i : Nat) (LOD : FglTFRuntimeMeshLOD K) (hi : StaticMeshContext.LODs[i]? = some LOD)
    (hNonEmpty : 0 < TotalIndices LOD.Primitives) :
    ∃ L : FStaticMeshLODResources K,
      (LoadStaticMesh_Internal Engine StaticMeshContext
        StaticMeshComponent).Context.LODResources[i]? = some L ∧
      L.Vertices.length = TotalIndices LOD.Primitives ∧
      (BoxOf (L.Vertices.map (fun v => v.Position))).IsValid = true ∧
      (BoxOf (L.Vertices.map (fun v => v.Position))).GetCenter = ⟨0, 0, 0⟩ := by
  obtain ⟨NumUVs, Map, Materials, st, L, b1, _, b3, _, _, _, _, b8, _⟩ :=
    Build_LOD Engine StaticMeshContext StaticMeshComponent hTri i LOD hi
  have hmem : LOD ∈ StaticMeshContext.LODs := List.getElem?_mem hi
  obtain ⟨hlen, hbox⟩ := PrimitiveLoop_box_end Engine StaticMeshContext.StaticMeshConfig
    StaticMeshComponent LOD i NumUVs _ Map Materials st (hTri LOD hmem) b1
  have hne : st.StaticMeshBuildVertices.map (fun v => v.Position) ≠ [] := by
    intro h
    have := congrArg List.length h
    rw [List.length_map, hlen] at this
    simp at this
    omega
  have hpos : L.Vertices.map (fun v => v.Position) =
      (st.StaticMeshBuildVertices.map (fun v => v.Position)).map
        (fun p => p.sub st.BoundingBox.GetCenter) := by
    rw [b8, hCenter, List.map_map, List.map_map]
    rfl
  refine ⟨L, b3, by rw [b8, List.length_map, hlen], ?_, ?_⟩
  · rw [hpos, BoxOf_shift _ hne]
  · rw [hpos, BoxOf_shift _ hne, ← hbox]
    exact GetCenter_shift_center st.BoundingBox

/-- C16 on the scenario's triangle. -/
theorem Center_pivot_centres_box_witness :
    AllTriangles CenteredContext.LODs ∧
    CenteredContext.StaticMeshConfig.PivotPosition = .Center ∧
    CenteredContext.LODs[0]? = some TriangleLOD ∧
    0 < TotalIndices TriangleLOD.Primitives ∧
    ∃ L : FStaticMeshLODResources ℚ,
      (LoadStaticMesh_Internal SampleEngine CenteredContext
        DummyComponent).Context.LODResources[0]? = some L ∧
      L.Vertices.length = TotalIndices TriangleLOD.Primitives ∧
      (BoxOf (L.Vertices.map (fun v => v.Position))).IsValid = true ∧
      (BoxOf (L.Vertices.map (fun v => v.Position))).GetCenter = ⟨0, 0, 0⟩ :=
  have hTri : AllTriangles CenteredContext.LODs := by
    unfold AllTriangles
    decide
  ⟨hTri, rfl, rfl, by decide,
    Center_pivot_centres_box SampleEngine CenteredContext DummyComponent hTri rfl 0
      TriangleLOD rfl (by decide)⟩

/-- C17, evaluated over the reals with the real square root, on one triangle with the
positions (13,13,0), (-7,3,0), (3,-7,0) under the pivot policy Center. The claim wants
every output vertex of LOD 0 inside the stored sphere. The output positions are
(10,10,0), (-10,0,0), (0,-10,0) and the stored origin is (0,0,0), but the stored radius
is the square root of 178, below the distance of the first output vertex from the stored
origin, the square root of 200: that vertex lies outside the stored sphere. -/
theorem Stored_sphere_misses_vertex :
    (LoadStaticMesh_Internal (EngineOf (fun s => (Real.sqrt s)⁻¹) Real.sqrt)
      (OffCentreContext ℝ) DummyComponent).Context.LODResources.map
        (fun L => L.Vertices.map (fun v => v.Position)) =
      [[⟨10, 10, 0⟩, ⟨-10, 0, 0⟩, ⟨0, -10, 0⟩]] ∧
    (LoadStaticMesh_Internal (EngineOf (fun s => (Real.sqrt s)⁻¹) Real.sqrt)
      (OffCentreContext ℝ) DummyComponent).Context.BoundingBoxAndSphere.Origin = ⟨0, 0, 0⟩ ∧
    (LoadStaticMesh_Internal (EngineOf (fun s => (Real.sqrt s)⁻¹) Real.sqrt)
      (OffCentreContext ℝ) DummyComponent).Context.BoundingBoxAndSphere.SphereRadius =
        Real.sqrt 178 ∧
    (LoadStaticMesh_Internal (EngineOf (fun s => (Real.sqrt s)⁻¹) Real.sqrt)
      (OffCentreContext ℝ) DummyComponent).Context.BoundingBoxAndSphere.SphereRadius <
      ((⟨10, 10, 0⟩ : FVector ℝ).sub
        (LoadStaticMesh_Internal (EngineOf (fun s => (Real.sqrt s)⁻¹) Real.sqrt)
          (OffCentreContext ℝ) DummyComponent).Context.BoundingBoxAndSphere.Origin).Size
        Real.sqrt := by
  obtain ⟨h1, h2, h3⟩ := OffCentre_build (EngineOf (fun s => (Real.sqrt s)⁻¹) Real.sqrt)
    (DummyComponent : UStaticMeshComponent ℝ)
  have hr : max (Real.sqrt 178) (max (Real.sqrt 178) (max (Real.sqrt 98) 0)) =
      Real.sqrt 178 := by
    have h98 : Real.sqrt 98 ≤ Real.sqrt 178 := Real.sqrt_le_sqrt (by norm_num)
    have h0 : (0 : ℝ) ≤ Real.sqrt 98 := Real.sqrt_nonneg _
    rw [max_eq_left h0, max_eq_left h98, max_self]
  have hR : (LoadStaticMesh_Internal (EngineOf (fun s => (Real.sqrt s)⁻¹) Real.sqrt)
      (OffCentreContext ℝ) DummyComponent).Context.BoundingBoxAndSphere.SphereRadius =
        Real.sqrt 178 := by
    rw [h3]
    exact hr
  refine ⟨h1, h2, hR, ?_⟩
  rw [hR, h2]
  have hs : ((⟨10, 10, 0⟩ : FVector ℝ).sub ⟨0, 0, 0⟩).Size Real.sqrt = Real.sqrt 200 := by
    unfold FVector.Size FVector.SizeSquared FVector.sub
    norm_num
  rw [hs]
  exact Real.sqrt_lt_sqrt (by norm_num) (by norm_num)

/-! ### Points and Lines primitives (C18, C19) -/

/-- C18, evaluated. The claim wants one glyph instance per index for every Points
primitive of at most 1000 indices. A mesh with one point, loaded with `LoadStaticMesh`: the
build runs with the fresh component of the one-argument `LoadStaticMesh_Internal` (the one
every entry point but `LoadStaticMeshLODs` uses), the component has no parent, `Parents[0]`
is out of range, and the build ends there, before the glyph component exists, without
any instance. -/
theorem Points_glyphs_out_of_range :
    OnePointPrimitive.Mode = MODE_POINTS ∧
    OnePointPrimitive.Indices.length = 1 ∧
    (LoadStaticMesh_Internal_Dummy SampleEngine OnePointContext).Outcome = .Crashed ∧
    (LoadStaticMesh_Internal_Dummy SampleEngine
      OnePointContext).Effects.GlyphInstances.length = 0 ∧
    (LoadStaticMesh SampleEngine OnePointAsset FglTFRuntimeParser.New 0 {}).1 = .Crashed := by
  decide

/-- A second out-of-range access of the Points branch, evaluated. A mesh that draws its
only vertex twice and has the colour of that vertex, built for a component with a parent:
the glyph loop adds the instance of a point before it reads `Colors[PointIndex]`, so the
build stops at `PointIndex = 1` with both instances added, the first with its colour, the
second without. -/
theorem RepeatedPoint_colour_out_of_range :
    RepeatedPointPrimitive.Indices.length = 2 ∧
    (LoadStaticMesh_Internal SampleEngine RepeatedPointContext AttachedComponent).Outcome =
      .Crashed ∧
    (LoadStaticMesh_Internal SampleEngine RepeatedPointContext
      AttachedComponent).Effects.GlyphInstances.map (fun I => I.Color) =
      [some FColor.White, none] := by
  decide

/-- C19, evaluated on a mesh with one point, built for a component with a parent: the
builder returns the glyph proxy mesh, object 1000 of the sample engine, not null. -/
theorem Points_build_returns_proxy_mesh :
    OnePointPrimitive.Mode = MODE_POINTS ∧
    (LoadStaticMesh_Internal SampleEngine OnePointContext AttachedComponent).Outcome =
      .Returned (some 1000) ∧
    ¬ (FOutcome.Returned (some 1000) = FOutcome.Returned none) := by
  decide

/-- C19. A build whose first primitive processed is `Primitive`, with colours, if any,
for all its indices. In Lines mode, for every index count, the builder returns null with
the finalize flag set, after one beam per pair of indices when the line effect can be
loaded. In Points mode with more than 1000 indices it returns null without any effect.
In Points mode with at most 1000 indices, for a component with a parent, it returns what
the load of the glyph proxy mesh gave, which also replaces the mesh of the context, clears
the finalize flag, and has created one glyph instance per index: at the referenced
position (the zero vector when the index has no position), not rotated, with the scale
(0.1, 0.1, 0.1). The result of the load is not checked: the builder returns the proxy
mesh, not null, when the proxy mesh can be loaded, and null when it cannot. -/
theorem First_primitive_Lines_or_Points (Engine : FEngine K)
    (StaticMeshContext : FglTFRuntimeStaticMeshContext K)
    (StaticMeshComponent : UStaticMeshComponent K)
    (LOD : FglTFRuntimeMeshLOD K) (Rest : List (FglTFRuntimeMeshLOD K))
    (Primitive : FglTFRuntimePrimitive K) (RestPrimitives : List (FglTFRuntimePrimitive K))
    (hLODs : StaticMeshContext.LODs = LOD :: Rest)
    (hPrims : LOD.Primitives = Primitive :: RestPrimitives)
    (hColors : Primitive.Colors = [] ∨ Primitive.Indices.length ≤ Primitive.Colors.length) :
    (Primitive.Mode = MODE_LINES →
      (LoadStaticMesh_Internal Engine StaticMeshContext StaticMeshComponent).Outcome =
        .Returned none ∧
      (LoadStaticMesh_Internal Engine StaticMeshContext
        StaticMeshComponent).bFinalizeStaticMesh = true ∧
      (LoadStaticMesh_Internal Engine StaticMeshContext
        StaticMeshComponent).Effects.Beams.length =
        (if Engine.bLineSystem then Primitive.Indices.length / 2 else 0) ∧
      (LoadStaticMesh_Internal Engine StaticMeshContext
        StaticMeshComponent).Effects.GlyphInstances = []) ∧
    (Primitive.Mode = MODE_POINTS → 1000 < Primitive.Indices.length →
      (LoadStaticMesh_Internal Engine StaticMeshContext StaticMeshComponent).Outcome =
        .Returned none ∧
      (LoadStaticMesh_Internal Engine StaticMeshContext
        StaticMeshComponent).bFinalizeStaticMesh = true ∧
      (LoadStaticMesh_Internal Engine StaticMeshContext
        StaticMeshComponent).Effects.Beams = [] ∧
      (LoadStaticMesh_Internal Engine StaticMeshContext
        StaticMeshComponent).Effects.GlyphInstances = [] ∧
      (LoadStaticMesh_Internal Engine StaticMeshContext
        StaticMeshComponent).Effects.PointClouds = []) ∧
    (Primitive.Mode = MODE_POINTS → Primitive.Indices.length ≤ 1000 →
      StaticMeshComponent.Parents ≠ [] →
      (LoadStaticMesh_Internal Engine StaticMeshContext StaticMeshComponent).Outcome =
        .Returned Engine.GlyphMesh ∧
      (LoadStaticMesh_Internal Engine StaticMeshContext
        StaticMeshComponent).Context.StaticMesh = Engine.GlyphMesh ∧
      (LoadStaticMesh_Internal Engine StaticMeshContext
        StaticMeshComponent).bFinalizeStaticMesh = false ∧
      (LoadStaticMesh_Internal Engine StaticMeshContext
        StaticMeshComponent).Effects.GlyphInstances.length = Primitive.Indices.length ∧
      (∀ k, k < Primitive.Indices.length →
        (LoadStaticMesh_Internal Engine StaticMeshContext
          StaticMeshComponent).Effects.GlyphInstances[k]?.map (fun I => I.Transform) =
          some ⟨⟨0, 0, 0, 1⟩,
            Primitive.Positions[Primitive.Indices.getD k 0]?.getD FVector.ZeroVector,
            ⟨1 / 10, 1 / 10, 1 / 10⟩⟩) ∧
      (∀ Mesh, Engine.GlyphMesh = some Mesh →
        (LoadStaticMesh_Internal Engine StaticMeshContext StaticMeshComponent).Outcome =
          .Returned (some Mesh)) ∧
      (Engine.GlyphMesh = none →
        (LoadStaticMesh_Internal Engine StaticMeshContext StaticMeshComponent).Outcome =
          .Returned none)) := by
  refine ⟨?_, ?_, ?_⟩
  · intro hMode
    obtain ⟨l1, l2, l3, l4⟩ := LinesBranch_returns Engine StaticMeshComponent Primitive hColors
    obtain ⟨f1, f2, f3, _⟩ := LoadStaticMesh_Internal_first Engine StaticMeshContext
      StaticMeshComponent LOD Rest Primitive RestPrimitives hLODs hPrims
      (LinesBranch Engine StaticMeshComponent Primitive).1
      (LinesBranch Engine StaticMeshComponent Primitive).2
      (fun NumUVs bColors st => ⟨_, ProcessPrimitive_lines Engine _ StaticMeshComponent LOD 0
        NumUVs bColors st Primitive hMode⟩)
    rw [f1, f2, f3]
    exact ⟨l1, by rw [l4]; rfl, l2, l3⟩
  · intro hMode hBig
    obtain ⟨f1, f2, f3, _⟩ := LoadStaticMesh_Internal_first Engine StaticMeshContext
      StaticMeshComponent LOD Rest Primitive RestPrimitives hLODs hPrims (.Returned none) {}
      (fun NumUVs bColors st => ⟨_, ProcessPrimitive_points Engine _ StaticMeshComponent LOD 0
        NumUVs bColors st Primitive hMode _ _
        ((PointsBranch_cases Engine StaticMeshComponent Primitive _).1 hBig)⟩)
    rw [f1, f2, f3]
    exact ⟨rfl, rfl, rfl, rfl, rfl⟩
  · intro hMode hSmall hParent
    obtain ⟨Instances, g1, g2, g3⟩ := GlyphInstances_spec Engine Primitive hColors
    obtain ⟨f1, f2, f3, f4⟩ := LoadStaticMesh_Internal_first Engine StaticMeshContext
      StaticMeshComponent LOD Rest Primitive RestPrimitives hLODs hPrims
      (.Returned Engine.GlyphMesh) { GlyphInstances := Instances, bGlyphProxy := true }
      (fun NumUVs bColors st => ⟨_, ProcessPrimitive_points Engine _ StaticMeshComponent LOD 0
        NumUVs bColors st Primitive hMode _ _
        ((PointsBranch_cases Engine StaticMeshComponent Primitive _).2.2.1 Instances hSmall
          hParent g1)⟩)
    rw [f1, f2, f3, f4]
    exact ⟨rfl, rfl, rfl, g2, g3, fun Mesh h => by rw [h], fun h => by rw [h]⟩

/-- C19 on the mesh with one point and a component with a parent. -/
theorem First_primitive_Lines_or_Points_witness :
    OnePointContext.LODs = [{ Primitives := [OnePointPrimitive] }] ∧
    (OnePointPrimitive.Colors = [] ∨
      OnePointPrimitive.Indices.length ≤ OnePointPrimitive.Colors.length) ∧
    OnePointPrimitive.Mode = MODE_POINTS ∧ OnePointPrimitive.Indices.length ≤ 1000 ∧
    AttachedComponent.Parents ≠ [] ∧
    SampleEngine.GlyphMesh = some 1000 ∧
    (LoadStaticMesh_Internal SampleEngine OnePointContext AttachedComponent).Outcome =
      .Returned SampleEngine.GlyphMesh ∧
    (LoadStaticMesh_Internal SampleEngine OnePointContext
      AttachedComponent).bFinalizeStaticMesh = false ∧
    (LoadStaticMesh_Internal SampleEngine OnePointContext
      AttachedComponent).Effects.GlyphInstances.length = OnePointPrimitive.Indices.length ∧
    (LoadStaticMesh_Internal SampleEngine OnePointContext AttachedComponent).Outcome =
      .Returned (some 1000) :=
  have h := (First_primitive_Lines_or_Points SampleEngine OnePointContext AttachedComponent
    { Primitives := [OnePointPrimitive] } [] OnePointPrimitive [] rfl rfl (Or.inl rfl)).2.2
      rfl (by decide) (by decide)
  ⟨rfl, Or.inl rfl, rfl, by decide, by decide, rfl, h.1, h.2.2.1, h.2.2.2.1,
    h.2.2.2.2.2.1 1000 rfl⟩

/-! ### The finalizer (C20) -/

set_option linter.unusedVariables false in
/-- C20. A finalized mesh with `n` LODs, `1 <= n <= 8` (the engine's threshold array has
`MAX_STATIC_MESH_LODS = 8` entries), and a positive multiplier `m`; the configuration's
overrides form a map, one pair per key. The threshold of LOD `i` is the override of the
configuration for `i` when there is one and `1 - i * (1/n) / m` otherwise; the entries of
the array that belong to no LOD keep what they held; and the pairs whose key is negative
or at least `n` change nothing: the result is the same without them. -/
theorem LOD_screen_sizes (StaticMeshContext : FglTFRuntimeStaticMeshContext K)
    (ScreenSize : List K) (n : Nat) (m : K)
    (hArray : ScreenSize.length = MAX_STATIC_MESH_LODS)
    (hLODs : StaticMeshContext.LODResources.length = n) (hn : 1 ≤ n)
    (hMax : n ≤ MAX_STATIC_MESH_LODS)
    (hMul : StaticMeshContext.StaticMeshConfig.LODScreenSizeMultiplier = m) (hm : 0 < m)
    (hKeys : (StaticMeshContext.StaticMeshConfig.LODScreenSize.map Prod.fst).Nodup) :
    (∀ i : Nat, i < n →
      (FinalizeScreenSizes StaticMeshContext ScreenSize)[i]? =
        some ((TMapFind StaticMeshContext.StaticMeshConfig.LODScreenSize (i : Int)).getD
          (1 - (i : K) * (1 / (n : K)) / m))) ∧
    (∀ i : Nat, n ≤ i →
      (FinalizeScreenSizes StaticMeshContext ScreenSize)[i]? = ScreenSize[i]?) ∧
    FinalizeScreenSizes StaticMeshContext ScreenSize =
      FinalizeScreenSizes
        { StaticMeshContext with
          StaticMeshConfig :=
            { StaticMeshContext.StaticMeshConfig with
              LODScreenSize := StaticMeshContext.StaticMeshConfig.LODScreenSize.filter
                (fun Pair => decide (Pair.1 ≥ 0 ∧ Pair.1 < (n : Int))) } }
        ScreenSize := by
  obtain ⟨d1, d2⟩ := DefaultScreenSizes_spec n m ScreenSize
  obtain ⟨o1, o2⟩ := OverrideScreenSizes_spec n StaticMeshContext.StaticMeshConfig.LODScreenSize
    hKeys (DefaultScreenSizes n m ScreenSize)
  have hF : FinalizeScreenSizes StaticMeshContext ScreenSize =
      OverrideScreenSizes n StaticMeshContext.StaticMeshConfig.LODScreenSize
        (DefaultScreenSizes n m ScreenSize) := by
    unfold FinalizeScreenSizes
    rw [hLODs, hMul]
  refine ⟨?_, ?_, ?_⟩
  · intro i hi
    have hil : i < ScreenSize.length := by rw [hArray]; omega
    rw [hF, o2 i, d1, if_pos ⟨hi, hil⟩, d2 i, if_pos ⟨hi, hil⟩]
    cases TMapFind StaticMeshContext.StaticMeshConfig.LODScreenSize (i : Int) <;> rfl
  · intro i hi
    rw [hF, o2 i, d1, if_neg (fun h => by omega), d2 i, if_neg (fun h => by omega)]
  · rw [hF, OverrideScreenSizes_filter]
    unfold FinalizeScreenSizes
    simp only [hLODs, hMul]

/-- C20 on three LODs with the default multiplier 2, an override 3/4 for LOD 1 and
overrides for the keys -1 and 3: the thresholds are 1, 3/4 and 2/3. -/
theorem LOD_screen_sizes_witness :
    (List.replicate 8 (0 : ℚ)).length = MAX_STATIC_MESH_LODS ∧
    ThreeLODContext.LODResources.length = 3 ∧ 1 ≤ 3 ∧ 3 ≤ MAX_STATIC_MESH_LODS ∧
    ThreeLODContext.StaticMeshConfig.LODScreenSizeMultiplier = 2 ∧ (0 : ℚ) < 2 ∧
    (ThreeLODContext.StaticMeshConfig.LODScreenSize.map Prod.fst).Nodup ∧
    ((∀ i : Nat, i < 3 →
      (FinalizeScreenSizes ThreeLODContext (List.replicate 8 (0 : ℚ)))[i]? =
        some ((TMapFind ThreeLODContext.StaticMeshConfig.LODScreenSize (i : Int)).getD
          (1 - (i : ℚ) * (1 / ((3 : Nat) : ℚ)) / 2))) ∧
    (∀ i : Nat, 3 ≤ i →
      (FinalizeScreenSizes ThreeLODContext (List.replicate 8 (0 : ℚ)))[i]? =
        (List.replicate 8 (0 : ℚ))[i]?) ∧
    FinalizeScreenSizes ThreeLODContext (List.replicate 8 (0 : ℚ)) =
      FinalizeScreenSizes
        { ThreeLODContext with
          StaticMeshConfig :=
            { ThreeLODContext.StaticMeshConfig with
              LODScreenSize := ThreeLODContext.StaticMeshConfig.LODScreenSize.filter
                (fun Pair => decide (Pair.1 ≥ 0 ∧ Pair.1 < ((3 : Nat) : Int))) } }
        (List.replicate 8 (0 : ℚ))) :=
  ⟨rfl, rfl, by decide, by decide, rfl, by norm_num, by decide,
    LOD_screen_sizes ThreeLODContext (List.replicate 8 (0 : ℚ)) 3 2 rfl rfl (by decide)
      (by decide) rfl (by norm_num) (by decide)⟩

/-- The thresholds of `ThreeLODContext`, evaluated: 1, the override 3/4, and 2/3; the
other five entries of the array are untouched. -/
theorem ThreeLOD_screen_sizes :
    FinalizeScreenSizes ThreeLODContext (List.replicate 8 (0 : ℚ)) =
      [1, 3 / 4, 2 / 3, 0, 0, 0, 0, 0] := by
  decide!

/-! ### The passes after the geometry generation (C22 - C24) -/

/-- C22. A Triangles primitive whose index count is no multiple of 3: the winding
reversal, the normal generation and the tangent generation index no slot of the vertex
array (each guard `% 3 == 0` fails), the vertices of the primitive are those the
geometry generation wrote, and the state the branch leaves is the same for every value
of `bReverseWinding` and of the two generation policies. -/
theorem Passes_skipped_when_not_thrice (Engine : FEngine K)
    (C : FglTFRuntimeStaticMeshConfig K) (LOD : FglTFRuntimeMeshLOD K) (NumUVs : Nat)
    (bColors : Bool) (Primitive : FglTFRuntimePrimitive K) (StaticMaterial : FStaticMaterial)
    (st : FPrimitiveLoopState K) (hmod : Primitive.Indices.length % 3 ≠ 0) :
    TrianglePassesSlots C Primitive st.VertexInstanceBaseIndex
        (GeometryGeneration Engine C Primitive NumUVs bColors
          (decide (LOD.Primitives.length = LOD.AdditionalTransforms.length))
          (LOD.AdditionalTransforms.getD st.AdditionalTransformsPrimitiveIndex
            FTransform.Identity)
          st.VertexInstanceBaseIndex (GeometryStart Primitive st)) = [] ∧
    (TrianglesBranch Engine C LOD NumUVs bColors Primitive StaticMaterial
        st).StaticMeshBuildVertices =
      (GeometryGeneration Engine C Primitive NumUVs bColors
        (decide (LOD.Primitives.length = LOD.AdditionalTransforms.length))
        (LOD.AdditionalTransforms.getD st.AdditionalTransformsPrimitiveIndex
          FTransform.Identity)
        st.VertexInstanceBaseIndex (GeometryStart Primitive st)).StaticMeshBuildVertices ∧
    ∀ (r : Bool) (n : EglTFRuntimeNormalsGenerationStrategy)
      (t : EglTFRuntimeTangentsGenerationStrategy),
      TrianglesBranch Engine
          { C with bReverseWinding := r, NormalsGenerationStrategy := n,
                   TangentsGenerationStrategy := t }
          LOD NumUVs bColors Primitive StaticMaterial st =
        TrianglesBranch Engine C LOD NumUVs bColors Primitive StaticMaterial st := by
  have h : (Primitive.Indices.length % 3 == 0) = false := by simpa using hmod
  refine ⟨?_, ?_, ?_⟩
  · simp [TrianglePassesSlots, h]
  · rw [TrianglesBranch_vertices, TrianglePasses_not_thrice _ _ _ _ _ hmod]
  · intro r n t
    simp only [TrianglesBranch, GeometryGeneration_config,
      TrianglePasses_not_thrice _ _ _ _ _ hmod]

/-- C22 on `FourIndexPrimitive` (indices 0, 1, 2, 0) in a LOD of its own. -/
theorem Passes_skipped_when_not_thrice_witness :
    FourIndexPrimitive.Indices.length % 3 ≠ 0 ∧
    (TrianglePassesSlots ({} : FglTFRuntimeStaticMeshConfig ℚ) FourIndexPrimitive
        FourIndexLoopState.VertexInstanceBaseIndex
        (GeometryGeneration SampleEngine {} FourIndexPrimitive 1 false
          (decide (({ Primitives := [FourIndexPrimitive] } :
            FglTFRuntimeMeshLOD ℚ).Primitives.length =
            ({ Primitives := [FourIndexPrimitive] } :
              FglTFRuntimeMeshLOD ℚ).AdditionalTransforms.length))
          ((({ Primitives := [FourIndexPrimitive] } :
            FglTFRuntimeMeshLOD ℚ).AdditionalTransforms).getD
            FourIndexLoopState.AdditionalTransformsPrimitiveIndex FTransform.Identity)
          FourIndexLoopState.VertexInstanceBaseIndex
          (GeometryStart FourIndexPrimitive FourIndexLoopState)) = [] ∧
    (TrianglesBranch SampleEngine {} { Primitives := [FourIndexPrimitive] } 1 false
        FourIndexPrimitive ⟨none, "LOD_0_Section_0_"⟩
        FourIndexLoopState).StaticMeshBuildVertices =
      (GeometryGeneration SampleEngine {} FourIndexPrimitive 1 false
        (decide (({ Primitives := [FourIndexPrimitive] } :
          FglTFRuntimeMeshLOD ℚ).Primitives.length =
          ({ Primitives := [FourIndexPrimitive] } :
            FglTFRuntimeMeshLOD ℚ).AdditionalTransforms.length))
        ((({ Primitives := [FourIndexPrimitive] } :
          FglTFRuntimeMeshLOD ℚ).AdditionalTransforms).getD
          FourIndexLoopState.AdditionalTransformsPrimitiveIndex FTransform.Identity)
        FourIndexLoopState.VertexInstanceBaseIndex
        (GeometryStart FourIndexPrimitive FourIndexLoopState)).StaticMeshBuildVertices ∧
    ∀ (r : Bool) (n : EglTFRuntimeNormalsGenerationStrategy)
      (t : EglTFRuntimeTangentsGenerationStrategy),
      TrianglesBranch SampleEngine
          { ({} : FglTFRuntimeStaticMeshConfig ℚ) with
            bReverseWinding := r, NormalsGenerationStrategy := n,
            TangentsGenerationStrategy := t }
          { Primitives := [FourIndexPrimitive] } 1 false FourIndexPrimitive
          ⟨none, "LOD_0_Section_0_"⟩ FourIndexLoopState =
        TrianglesBranch SampleEngine {} { Primitives := [FourIndexPrimitive] } 1 false
          FourIndexPrimitive ⟨none, "LOD_0_Section_0_"⟩ FourIndexLoopState) :=
  ⟨by decide,
    Passes_skipped_when_not_thrice SampleEngine {} { Primitives := [FourIndexPrimitive] } 1
      false FourIndexPrimitive ⟨none, "LOD_0_Section_0_"⟩ FourIndexLoopState (by decide)⟩

/-- The vertices of `FourIndexPrimitive` after the branch, under the policies "always" and
with the winding reversal on: the four positions in index order, nothing generated. -/
theorem FourIndex_vertices :
    (TrianglesBranch SampleEngine
        { bReverseWinding := true, NormalsGenerationStrategy := .Always,
          TangentsGenerationStrategy := .Always }
        { Primitives := [FourIndexPrimitive] } 1 false FourIndexPrimitive
        ⟨none, "LOD_0_Section_0_"⟩ FourIndexLoopState).StaticMeshBuildVertices.map
        (fun v => (v.Position, v.TangentZ)) =
      [(⟨0, 0, 0⟩, ⟨0, 0, 0⟩), (⟨1, 0, 0⟩, ⟨0, 0, 0⟩), (⟨0, 1, 0⟩, ⟨0, 0, 0⟩),
       (⟨0, 0, 0⟩, ⟨0, 0, 0⟩)] := by
  decide!

/-- C23. A Triangles primitive whose index count is a multiple of 3 and whose slots exist
(the prepass allocates them), under a configuration that generates neither normals nor
tangents for it (each policy is `Never`, or `IfMissing` with an entry for every
referenced index): the vertices built with `bReverseWinding` set are the winding
exchange of the vertices built without it; they have the same number of entries, agree
outside the section, and in every triangle `t` of the section slot `3t` agrees while
slots `3t+1` and `3t+2` hold each other's vertex; the exchange applied to them gives
back the vertices built without the flag. -/
theorem Reverse_winding_exchanges_corners (Engine : FEngine K)
    (C : FglTFRuntimeStaticMeshConfig K) (LOD : FglTFRuntimeMeshLOD K) (NumUVs : Nat)
    (bColors : Bool) (Primitive : FglTFRuntimePrimitive K) (StaticMaterial : FStaticMaterial)
    (st : FPrimitiveLoopState K) (hmod : Primitive.Indices.length % 3 = 0)
    (hlen : st.VertexInstanceBaseIndex + Primitive.Indices.length ≤
      st.StaticMeshBuildVertices.length)
    (hN : C.NormalsGenerationStrategy = .Never ∨
      (C.NormalsGenerationStrategy = .IfMissing ∧
        ∀ k, k < Primitive.Indices.length →
          Primitive.Normals[Primitive.Indices.getD k 0]? ≠ none))
    (hT : C.TangentsGenerationStrategy = .Never ∨
      (C.TangentsGenerationStrategy = .IfMissing ∧
        ∀ k, k < Primitive.Indices.length →
          Primitive.Tangents[Primitive.Indices.getD k 0]? ≠ none)) :
    let Plain := (TrianglesBranch Engine { C with bReverseWinding := false }
      LOD NumUVs bColors Primitive StaticMaterial st).StaticMeshBuildVertices
    let Swapped := (TrianglesBranch Engine { C with bReverseWinding := true }
      LOD NumUVs bColors Primitive StaticMaterial st).StaticMeshBuildVertices
    Swapped = ReverseWinding Primitive.Indices.length st.VertexInstanceBaseIndex Plain ∧
    Swapped.length = Plain.length ∧
    (∀ k, (k < st.VertexInstanceBaseIndex ∨
        st.VertexInstanceBaseIndex + Primitive.Indices.length ≤ k) →
      Swapped[k]? = Plain[k]?) ∧
    (∀ t, t < Primitive.Indices.length / 3 →
      Swapped[st.VertexInstanceBaseIndex + 3 * t]? =
        Plain[st.VertexInstanceBaseIndex + 3 * t]? ∧
      Swapped[st.VertexInstanceBaseIndex + 3 * t + 1]? =
        Plain[st.VertexInstanceBaseIndex + 3 * t + 2]? ∧
      Swapped[st.VertexInstanceBaseIndex + 3 * t + 2]? =
        Plain[st.VertexInstanceBaseIndex + 3 * t + 1]?) ∧
    ReverseWinding Primitive.Indices.length st.VertexInstanceBaseIndex Swapped = Plain := by
  intro Plain Swapped
  have hG := GeometryGeneration_spec Engine C Primitive NumUVs bColors
    (decide (LOD.Primitives.length = LOD.AdditionalTransforms.length))
    (LOD.AdditionalTransforms.getD st.AdditionalTransformsPrimitiveIndex FTransform.Identity) st
  obtain ⟨hGlen, _, _, _, hmissN, hmissT⟩ := hG
  have hN' : ∀ r : Bool, bCanGenerateNormals { C with bReverseWinding := r }
      (GeometryGeneration Engine C Primitive NumUVs bColors
        (decide (LOD.Primitives.length = LOD.AdditionalTransforms.length))
        (LOD.AdditionalTransforms.getD st.AdditionalTransformsPrimitiveIndex
          FTransform.Identity)
        st.VertexInstanceBaseIndex (GeometryStart Primitive st)).bMissingNormals = false := by
    intro r
    apply bCanGenerateNormals_false
    rcases hN with h | ⟨h, hall⟩
    · exact Or.inl h
    · refine Or.inr ⟨h, ?_⟩
      rw [Bool.eq_false_iff]
      intro hb
      obtain ⟨k, hk, hnone⟩ := hmissN.mp hb
      exact hall k hk hnone
  have hT' : ∀ r : Bool, bCanGenerateTangents { C with bReverseWinding := r }
      (GeometryGeneration Engine C Primitive NumUVs bColors
        (decide (LOD.Primitives.length = LOD.AdditionalTransforms.length))
        (LOD.AdditionalTransforms.getD st.AdditionalTransformsPrimitiveIndex
          FTransform.Identity)
        st.VertexInstanceBaseIndex (GeometryStart Primitive st)).bMissingTangents = false := by
    intro r
    apply bCanGenerateTangents_false
    rcases hT with h | ⟨h, hall⟩
    · exact Or.inl h
    · refine Or.inr ⟨h, ?_⟩
      rw [Bool.eq_false_iff]
      intro hb
      obtain ⟨k, hk, hnone⟩ := hmissT.mp hb
      exact hall k hk hnone
  have hPlain : Plain = (GeometryGeneration Engine C Primitive NumUVs bColors
      (decide (LOD.Primitives.length = LOD.AdditionalTransforms.length))
      (LOD.AdditionalTransforms.getD st.AdditionalTransformsPrimitiveIndex FTransform.Identity)
      st.VertexInstanceBaseIndex (GeometryStart Primitive st)).StaticMeshBuildVertices := by
    show (TrianglesBranch Engine _ LOD NumUVs bColors Primitive StaticMaterial
      st).StaticMeshBuildVertices = _
    rw [TrianglesBranch_vertices, GeometryGeneration_winding,
      TrianglePasses_no_generation _ _ _ _ _ (hN' false) (hT' false)]
    simp [Reversed]
  have hSwapped : Swapped =
      ReverseWinding Primitive.Indices.length st.VertexInstanceBaseIndex Plain := by
    rw [hPlain]
    show (TrianglesBranch Engine _ LOD NumUVs bColors Primitive StaticMaterial
      st).StaticMeshBuildVertices = _
    rw [TrianglesBranch_vertices, GeometryGeneration_winding,
      TrianglePasses_no_generation _ _ _ _ _ (hN' true) (hT' true)]
    simp [Reversed, hmod]
  have hlen2 : st.VertexInstanceBaseIndex + Primitive.Indices.length ≤ Plain.length := by
    rw [hPlain, hGlen]; exact hlen
  obtain ⟨l1, o1, i1⟩ := ReverseWinding_spec Primitive.Indices.length
    st.VertexInstanceBaseIndex Plain hmod hlen2
  refine ⟨hSwapped, ?_, ?_, ?_, ?_⟩
  · rw [hSwapped, l1]
  · intro k hk
    rw [hSwapped, o1 k hk]
  · intro t ht
    rw [hSwapped]
    exact i1 t ht
  · rw [hSwapped]
    exact ReverseWinding_involutive _ _ _ hmod hlen2

/-- C23 on `TrianglePrimitive` in a LOD of its own, under the configuration
`NeverConfig`. -/
theorem Reverse_winding_exchanges_corners_witness :
    TrianglePrimitive.Indices.length % 3 = 0 ∧
    TriangleLoopState.VertexInstanceBaseIndex + TrianglePrimitive.Indices.length ≤
      TriangleLoopState.StaticMeshBuildVertices.length ∧
    (NeverConfig.NormalsGenerationStrategy = .Never ∨
      (NeverConfig.NormalsGenerationStrategy = .IfMissing ∧
        ∀ k, k < TrianglePrimitive.Indices.length →
          TrianglePrimitive.Normals[TrianglePrimitive.Indices.getD k 0]? ≠ none)) ∧
    (NeverConfig.TangentsGenerationStrategy = .Never ∨
      (NeverConfig.TangentsGenerationStrategy = .IfMissing ∧
        ∀ k, k < TrianglePrimitive.Indices.length →
          TrianglePrimitive.Tangents[TrianglePrimitive.Indices.getD k 0]? ≠ none)) ∧
    (let Plain := (TrianglesBranch SampleEngine { NeverConfig with bReverseWinding := false }
      TriangleLOD 1 false TrianglePrimitive ⟨none, "LOD_0_Section_0_"⟩
      TriangleLoopState).StaticMeshBuildVertices
    let Swapped := (TrianglesBranch SampleEngine { NeverConfig with bReverseWinding := true }
      TriangleLOD 1 false TrianglePrimitive ⟨none, "LOD_0_Section_0_"⟩
      TriangleLoopState).StaticMeshBuildVertices
    Swapped = ReverseWinding TrianglePrimitive.Indices.length
      TriangleLoopState.VertexInstanceBaseIndex Plain ∧
    Swapped.length = Plain.length ∧
    (∀ k, (k < TriangleLoopState.VertexInstanceBaseIndex ∨
        TriangleLoopState.VertexInstanceBaseIndex + TrianglePrimitive.Indices.length ≤ k) →
      Swapped[k]? = Plain[k]?) ∧
    (∀ t, t < TrianglePrimitive.Indices.length / 3 →
      Swapped[TriangleLoopState.VertexInstanceBaseIndex + 3 * t]? =
        Plain[TriangleLoopState.VertexInstanceBaseIndex + 3 * t]? ∧
      Swapped[TriangleLoopState.VertexInstanceBaseIndex + 3 * t + 1]? =
        Plain[TriangleLoopState.VertexInstanceBaseIndex + 3 * t + 2]? ∧
      Swapped[TriangleLoopState.VertexInstanceBaseIndex + 3 * t + 2]? =
        Plain[TriangleLoopState.VertexInstanceBaseIndex + 3 * t + 1]?) ∧
    ReverseWinding TrianglePrimitive.Indices.length
      TriangleLoopState.VertexInstanceBaseIndex Swapped = Plain) :=
  ⟨by decide, by decide, Or.inl rfl, Or.inl rfl,
    Reverse_winding_exchanges_corners SampleEngine NeverConfig TriangleLOD 1 false
      TrianglePrimitive ⟨none, "LOD_0_Section_0_"⟩ TriangleLoopState (by decide) (by decide)
      (Or.inl rfl) (Or.inl rfl)⟩

/-- The positions of `TrianglePrimitive` after the branch with the winding reversal on:
(0,0,0), (0,1,0), (1,0,0). -/
theorem Triangle_reversed_positions :
    (TrianglesBranch SampleEngine
        { bReverseWinding := true, NormalsGenerationStrategy := .Never,
          TangentsGenerationStrategy := .Never }
        TriangleLOD 1 false TrianglePrimitive ⟨none, "LOD_0_Section_0_"⟩
        TriangleLoopState).StaticMeshBuildVertices.map (fun v => v.Position) =
      [⟨0, 0, 0⟩, ⟨0, 1, 0⟩, ⟨1, 0, 0⟩] := by
  decide!

/-- C24. A Triangles primitive that has no UV channel, or one of whose indices has no
normal while the normal pass does not run (policy `Never`, or an index count that is no
multiple of 3): the state the branch leaves is the same for every tangents policy,
`Always` included; the tangents and bitangents of its vertices are those the geometry
generation wrote, exchanged as the winding reversal exchanges the vertices; and the
geometry generation wrote into slot `k` of the section the tangent of source index
`Indices[k]`, or the default (0,0,0,1) when the primitive has none for it, sent through
`TransformVectorNoScale` when additional transforms apply. -/
theorem Tangent_generation_needs_normals_and_UVs (Engine : FEngine K)
    (C : FglTFRuntimeStaticMeshConfig K) (LOD : FglTFRuntimeMeshLOD K) (NumUVs : Nat)
    (bColors : Bool) (Primitive : FglTFRuntimePrimitive K) (StaticMaterial : FStaticMaterial)
    (st : FPrimitiveLoopState K)
    (hskip : Primitive.UVs.length = 0 ∨
      ((∃ k, k < Primitive.Indices.length ∧
          Primitive.Normals[Primitive.Indices.getD k 0]? = none) ∧
        (C.NormalsGenerationStrategy = .Never ∨ Primitive.Indices.length % 3 ≠ 0))) :
    (∀ t : EglTFRuntimeTangentsGenerationStrategy,
      TrianglesBranch Engine { C with TangentsGenerationStrategy := t } LOD NumUVs bColors
          Primitive StaticMaterial st =
        TrianglesBranch Engine C LOD NumUVs bColors Primitive StaticMaterial st) ∧
    (TrianglesBranch Engine C LOD NumUVs bColors Primitive StaticMaterial
        st).StaticMeshBuildVertices.map (fun v => (v.TangentX, v.TangentY)) =
      (Reversed C Primitive.Indices.length st.VertexInstanceBaseIndex
        (GeometryGeneration Engine C Primitive NumUVs bColors
          (decide (LOD.Primitives.length = LOD.AdditionalTransforms.length))
          (LOD.AdditionalTransforms.getD st.AdditionalTransformsPrimitiveIndex
            FTransform.Identity)
          st.VertexInstanceBaseIndex (GeometryStart Primitive st)).StaticMeshBuildVertices).map
        (fun v => (v.TangentX, v.TangentY)) ∧
    (∀ k, k < Primitive.Indices.length →
      st.VertexInstanceBaseIndex + k < st.StaticMeshBuildVertices.length →
      (GeometryGeneration Engine C Primitive NumUVs bColors
          (decide (LOD.Primitives.length = LOD.AdditionalTransforms.length))
          (LOD.AdditionalTransforms.getD st.AdditionalTransformsPrimitiveIndex
            FTransform.Identity)
          st.VertexInstanceBaseIndex
          (GeometryStart Primitive st)).StaticMeshBuildVertices[
            st.VertexInstanceBaseIndex + k]?.map (fun v => v.TangentX) =
        some (if LOD.Primitives.length = LOD.AdditionalTransforms.length then
          (LOD.AdditionalTransforms.getD st.AdditionalTransformsPrimitiveIndex
            FTransform.Identity).TransformVectorNoScale
            (Primitive.Tangents[Primitive.Indices.getD k 0]?.getD ⟨0, 0, 0, 1⟩).toFVector
          else (Primitive.Tangents[Primitive.Indices.getD k 0]?.getD ⟨0, 0, 0, 1⟩).toFVector)) := by
  have hG := GeometryGeneration_spec Engine C Primitive NumUVs bColors
    (decide (LOD.Primitives.length = LOD.AdditionalTransforms.length))
    (LOD.AdditionalTransforms.getD st.AdditionalTransformsPrimitiveIndex FTransform.Identity) st
  obtain ⟨_, _, _, hslot, hmiss, _⟩ := hG
  have hskip2 : ∀ t : EglTFRuntimeTangentsGenerationStrategy,
      Primitive.UVs.length = 0 ∨
      ((GeometryGeneration Engine C Primitive NumUVs bColors
          (decide (LOD.Primitives.length = LOD.AdditionalTransforms.length))
          (LOD.AdditionalTransforms.getD st.AdditionalTransformsPrimitiveIndex
            FTransform.Identity)
          st.VertexInstanceBaseIndex (GeometryStart Primitive st)).bMissingNormals = true ∧
        (bCanGenerateNormals { C with TangentsGenerationStrategy := t }
            (GeometryGeneration Engine C Primitive NumUVs bColors
              (decide (LOD.Primitives.length = LOD.AdditionalTransforms.length))
              (LOD.AdditionalTransforms.getD st.AdditionalTransformsPrimitiveIndex
                FTransform.Identity)
              st.VertexInstanceBaseIndex (GeometryStart Primitive st)).bMissingNormals &&
          Primitive.Indices.length % 3 == 0) = false) := by
    intro t
    rcases hskip with h | ⟨hm, hn⟩
    · exact Or.inl h
    · refine Or.inr ⟨hmiss.2 hm, ?_⟩
      rcases hn with hn | hn
      · simp [bCanGenerateNormals, hn]
      · have h3 : (Primitive.Indices.length % 3 == 0) = false := by simpa using hn
        simp [h3]
  have hsame : ∀ t : EglTFRuntimeTangentsGenerationStrategy,
      TrianglePasses Engine { C with TangentsGenerationStrategy := t } Primitive
          st.VertexInstanceBaseIndex
          (GeometryGeneration Engine C Primitive NumUVs bColors
            (decide (LOD.Primitives.length = LOD.AdditionalTransforms.length))
            (LOD.AdditionalTransforms.getD st.AdditionalTransformsPrimitiveIndex
              FTransform.Identity)
            st.VertexInstanceBaseIndex (GeometryStart Primitive st)) =
        TrianglePasses Engine { C with TangentsGenerationStrategy := C.TangentsGenerationStrategy }
          Primitive st.VertexInstanceBaseIndex
          (GeometryGeneration Engine C Primitive NumUVs bColors
            (decide (LOD.Primitives.length = LOD.AdditionalTransforms.length))
            (LOD.AdditionalTransforms.getD st.AdditionalTransformsPrimitiveIndex
              FTransform.Identity)
            st.VertexInstanceBaseIndex (GeometryStart Primitive st)) := by
    intro t
    rw [TrianglePasses_tangents_skipped _ _ _ _ _ (hskip2 t),
      TrianglePasses_tangents_skipped _ _ _ _ _ (hskip2 C.TangentsGenerationStrategy)]
    rfl
  refine ⟨?_, ?_, ?_⟩
  · intro t
    have e := hsame t
    simp only [TrianglesBranch, GeometryGeneration_tangents_policy]
    rw [e]
  · rw [TrianglesBranch_vertices,
      TrianglePasses_tangents_skipped Engine C _ _ _ (hskip2 C.TangentsGenerationStrategy)]
    split
    · exact GenerateNormals_tangents _ _ _ _
    · rfl
  · intro k hk hk2
    rw [hslot k hk hk2, Option.map_some', GeometryVertex_split]
    by_cases hA : LOD.Primitives.length = LOD.AdditionalTransforms.length
    · simp [AdditionalTransformed, hA, GeometryVertex, GetSafeValue_fst]
    · simp [AdditionalTransformed, hA, GeometryVertex, GetSafeValue_fst]

/-- C24 on `TrianglePrimitive`, which has no UV channel, in a LOD of its own. -/
theorem Tangent_generation_needs_normals_and_UVs_witness :
    (TrianglePrimitive.UVs.length = 0 ∨
      ((∃ k, k < TrianglePrimitive.Indices.length ∧
          TrianglePrimitive.Normals[TrianglePrimitive.Indices.getD k 0]? = none) ∧
        (({} : FglTFRuntimeStaticMeshConfig ℚ).NormalsGenerationStrategy = .Never ∨
          TrianglePrimitive.Indices.length % 3 ≠ 0))) ∧
    ((∀ t : EglTFRuntimeTangentsGenerationStrategy,
      TrianglesBranch SampleEngine
          { ({} : FglTFRuntimeStaticMeshConfig ℚ) with TangentsGenerationStrategy := t }
          TriangleLOD 1 false TrianglePrimitive ⟨none, "LOD_0_Section_0_"⟩
          TriangleLoopState =
        TrianglesBranch SampleEngine {} TriangleLOD 1 false TrianglePrimitive
          ⟨none, "LOD_0_Section_0_"⟩ TriangleLoopState) ∧
    (TrianglesBranch SampleEngine {} TriangleLOD 1 false TrianglePrimitive
        ⟨none, "LOD_0_Section_0_"⟩
        TriangleLoopState).StaticMeshBuildVertices.map (fun v => (v.TangentX, v.TangentY)) =
      (Reversed ({} : FglTFRuntimeStaticMeshConfig ℚ) TrianglePrimitive.Indices.length
        TriangleLoopState.VertexInstanceBaseIndex
        (GeometryGeneration SampleEngine {} TrianglePrimitive 1 false
          (decide (TriangleLOD.Primitives.length = TriangleLOD.AdditionalTransforms.length))
          (TriangleLOD.AdditionalTransforms.getD
            TriangleLoopState.AdditionalTransformsPrimitiveIndex FTransform.Identity)
          TriangleLoopState.VertexInstanceBaseIndex
          (GeometryStart TrianglePrimitive TriangleLoopState)).StaticMeshBuildVertices).map
        (fun v => (v.TangentX, v.TangentY)) ∧
    (∀ k, k < TrianglePrimitive.Indices.length →
      TriangleLoopState.VertexInstanceBaseIndex + k <
        TriangleLoopState.StaticMeshBuildVertices.length →
      (GeometryGeneration SampleEngine {} TrianglePrimitive 1 false
          (decide (TriangleLOD.Primitives.length = TriangleLOD.AdditionalTransforms.length))
          (TriangleLOD.AdditionalTransforms.getD
            TriangleLoopState.AdditionalTransformsPrimitiveIndex FTransform.Identity)
          TriangleLoopState.VertexInstanceBaseIndex
          (GeometryStart TrianglePrimitive TriangleLoopState)).StaticMeshBuildVertices[
            TriangleLoopState.VertexInstanceBaseIndex + k]?.map (fun v => v.TangentX) =
        some (if TriangleLOD.Primitives.length = TriangleLOD.AdditionalTransforms.length then
          (TriangleLOD.AdditionalTransforms.getD
            TriangleLoopState.AdditionalTransformsPrimitiveIndex
            FTransform.Identity).TransformVectorNoScale
            (TrianglePrimitive.Tangents[TrianglePrimitive.Indices.getD k 0]?.getD
              ⟨0, 0, 0, 1⟩).toFVector
          else (TrianglePrimitive.Tangents[TrianglePrimitive.Indices.getD k 0]?.getD
            ⟨0, 0, 0, 1⟩).toFVector))) :=
  ⟨Or.inl rfl,
    Tangent_generation_needs_normals_and_UVs SampleEngine {} TriangleLOD 1 false
      TrianglePrimitive ⟨none, "LOD_0_Section_0_"⟩ TriangleLoopState (Or.inl rfl)⟩

/-- The tangents of `TrianglePrimitive` under the policy `Always`: the default tangent
(0,0,0) on every vertex. -/
theorem Triangle_tangents_always :
    (TrianglesBranch SampleEngine { TangentsGenerationStrategy := .Always } TriangleLOD 1
        false TrianglePrimitive ⟨none, "LOD_0_Section_0_"⟩
        TriangleLoopState).StaticMeshBuildVertices.map (fun v => v.TangentX) =
      [⟨0, 0, 0⟩, ⟨0, 0, 0⟩, ⟨0, 0, 0⟩] := by
  decide!

/-! ### The divisor of the tangent generation (C28) -/

/-- C28. The primitive `EqualUVPrimitive` (one triangle with normals, one UV channel that
gives the three corners the same coordinates, no tangents) under the default
configuration: the passes reach the tangent generation, which runs its body for the
triangle at slot 0, and the divisor of `Factor` for that triangle is 0. -/
theorem Tangent_generation_divides_by_zero :
    TrianglePasses SampleEngine {} EqualUVPrimitive 0
        (GeometryGeneration SampleEngine {} EqualUVPrimitive 1 false false FTransform.Identity
          0 (GeometryStart EqualUVPrimitive TriangleLoopState)) =
      GenerateTangentsStep SampleEngine 1 0
        (GeometryGeneration SampleEngine {} EqualUVPrimitive 1 false false FTransform.Identity
          0 (GeometryStart EqualUVPrimitive TriangleLoopState)).StaticMeshBuildVertices 0 ∧
    TangentDivisor 0
        (GeometryGeneration SampleEngine {} EqualUVPrimitive 1 false false FTransform.Identity
          0 (GeometryStart EqualUVPrimitive TriangleLoopState)).StaticMeshBuildVertices 0 =
      0 := by
  decide!

/-! ### Material indices and additional transforms across primitives (C27, C29) -/

/-- C27. A build over LODs of Triangles primitives, from a context whose render data is
freshly allocated: at the end of the build the material index of every section of every
LOD is below the number of materials of the context. -/
theorem Section_material_indices_valid (Engine : FEngine K)
    (StaticMeshContext : FglTFRuntimeStaticMeshContext K) (Comp : UStaticMeshComponent K)
    (hTri : AllTriangles StaticMeshContext.LODs) :
    ∀ L ∈ (LoadStaticMesh_Internal Engine StaticMeshContext Comp).Context.LODResources,
      ∀ S ∈ L.Sections,
        S.MaterialIndex <
          (LoadStaticMesh_Internal Engine StaticMeshContext Comp).Context.StaticMaterials.length := by
  unfold LoadStaticMesh_Internal
  apply LODLoop_material_valid Engine Comp _ _ hTri
  · intro L hL S hS
    have hL' : L = {} := List.eq_of_mem_replicate hL
    rw [hL'] at hS
    exact absurd hS (List.not_mem_nil S)
  · intro k j hkj
    simp [TMapFind] at hkj

/-- C27 on `ExplicitLaterContext`: two LODs of one primitive each. -/
theorem Section_material_indices_valid_witness :
    AllTriangles ExplicitLaterContext.LODs ∧
    ∀ L ∈ (LoadStaticMesh_Internal SampleEngine ExplicitLaterContext
        DummyComponent).Context.LODResources,
      ∀ S ∈ L.Sections,
        S.MaterialIndex <
          (LoadStaticMesh_Internal SampleEngine ExplicitLaterContext
            DummyComponent).Context.StaticMaterials.length :=
  ⟨by unfold AllTriangles; decide,
    Section_material_indices_valid SampleEngine ExplicitLaterContext DummyComponent
      (by unfold AllTriangles; decide)⟩

/-- The material indices of the sections of `ExplicitLaterContext` after the build, LOD
by LOD, and the number of materials: one section per LOD, indices 0 and 1, two
materials. -/
theorem ExplicitLater_material_indices :
    (LoadStaticMesh_Internal SampleEngine ExplicitLaterContext
        DummyComponent).Context.LODResources.map
        (fun L => L.Sections.map (fun S => S.MaterialIndex)) = [[0], [1]] ∧
    (LoadStaticMesh_Internal SampleEngine ExplicitLaterContext
        DummyComponent).Context.StaticMaterials.length = 2 := by
  decide

/-- C29. The build of `StripThenTrianglesContext`, whose only LOD holds a triangle strip
and then `TrianglePrimitive`, with as many additional transforms as primitives: the
build returns the mesh, and the three vertices of `TrianglePrimitive` (the primitive at
position 1) are at the positions `AdditionalTransforms[0]` gives, (10,0,0), (11,0,0) and
(10,1,0), not at those `AdditionalTransforms[1]` gives. -/
theorem Transform_index_skips_other_modes :
    StripThenTrianglesLOD.Primitives.length = StripThenTrianglesLOD.AdditionalTransforms.length ∧
    StripThenTrianglesLOD.Primitives[1]? = some TrianglePrimitive ∧
    (LoadStaticMesh_Internal SampleEngine StripThenTrianglesContext DummyComponent).Outcome =
      .Returned (some 0) ∧
    (LoadStaticMesh_Internal SampleEngine StripThenTrianglesContext
        DummyComponent).Context.LODResources.map
        (fun L => (L.Vertices.take 3).map (fun v => v.Position)) =
      [TrianglePrimitive.Positions.map
        (StripThenTrianglesLOD.AdditionalTransforms.getD 0 FTransform.Identity).TransformPosition] ∧
    TrianglePrimitive.Positions.map
        (StripThenTrianglesLOD.AdditionalTransforms.getD 0 FTransform.Identity).TransformPosition =
      [⟨10, 0, 0⟩, ⟨11, 0, 0⟩, ⟨10, 1, 0⟩] ∧
    TrianglePrimitive.Positions.map
        (StripThenTrianglesLOD.AdditionalTransforms.getD 1 FTransform.Identity).TransformPosition =
      [⟨0, 0, 0⟩, ⟨1, 0, 0⟩, ⟨0, 1, 0⟩] := by
  refine ⟨by decide, by decide, by decide, by decide!, by decide!, by decide!⟩

/-! ### The point-cloud texture (C25) -/

/-- The texture of 5 points and of 2048 points with the exact exponent: 4 by 2, and 64 by
64 where 64 by 32 has a texel for every point. -/
theorem Pointcloud_examples :
    InjectPointcloudData ExactCeilLog2Sqrt 5 = (4, 2) ∧
    InjectPointcloudData ExactCeilLog2Sqrt 2048 = (64, 64) ∧ 64 * (64 / 2) ≥ 2048 := by
  have he : ExactCeilLog2Sqrt 5 = 2 := ExactCeilLog2Sqrt_eq 5 1 (by norm_num) (by norm_num)
  have h5 : InjectPointcloudData ExactCeilLog2Sqrt 5 = (4, 2) := by
    unfold InjectPointcloudData
    rw [he]
    decide
  have h1 := (InjectPointcloudData_twice_pow 5).1
  norm_num at h1
  exact ⟨h5, h1, by decide⟩

/-! ### The sockets of the finalizer (C21, C30) -/

/-- C21. The sockets that a call of the finalizer attaches to a mesh without sockets are,
in this order: one per explicit socket of the configuration, with the name and the
location, rotation and scale of its transform; one per builder-discovered socket of the
context whose name is not the name of an explicit socket, names being compared as the
engine compares the keys of the socket map, without regard to the case of their letters;
and, exactly when the export name of the configuration is not empty, one socket of that
name at the negated LOD-0 pivot delta, not rotated, with scale (1,1,1). -/
theorem Finalizer_sockets_in_order (StaticMeshContext : FglTFRuntimeStaticMeshContext K) :
    FinalizeSockets StaticMeshContext [] =
      StaticMeshContext.StaticMeshConfig.Sockets.map
          (fun Pair => ⟨Pair.1, Pair.2.Translation, Pair.2.Rotation, Pair.2.Scale3D⟩) ++
        (StaticMeshContext.AdditionalSockets.filter
          (fun Pair => decide
            (∀ Explicit ∈ StaticMeshContext.StaticMeshConfig.Sockets,
              FStringEq Explicit.1 Pair.1 = false))).map
          (fun Pair => ⟨Pair.1, Pair.2.Translation, Pair.2.Rotation, Pair.2.Scale3D⟩) ++
        (if StaticMeshContext.StaticMeshConfig.ExportOriginalPivotToSocket.isEmpty then []
         else [⟨StaticMeshContext.StaticMeshConfig.ExportOriginalPivotToSocket,
                StaticMeshContext.LOD0PivotDelta.neg, ⟨0, 0, 0, 1⟩, ⟨1, 1, 1⟩⟩]) := by
  rw [FinalizeSockets_eq, List.nil_append]
  have hf : (fun Pair : String × FTransform K =>
      !TMapContainsFString StaticMeshContext.StaticMeshConfig.Sockets Pair.1) =
      (fun Pair => decide
        (∀ Explicit ∈ StaticMeshContext.StaticMeshConfig.Sockets,
          FStringEq Explicit.1 Pair.1 = false)) := by
    funext Pair
    cases hc : TMapContainsFString StaticMeshContext.StaticMeshConfig.Sockets Pair.1
    · have hall : ∀ Explicit ∈ StaticMeshContext.StaticMeshConfig.Sockets,
          FStringEq Explicit.1 Pair.1 = false := by
        intro Explicit hE
        cases he : FStringEq Explicit.1 Pair.1
        · rfl
        · have := (TMapContainsFString_iff _ _).mpr ⟨Explicit, hE, he⟩
          rw [hc] at this
          exact Bool.noConfusion this
      show (!false) = decide _
      exact (decide_eq_true hall).symm
    · obtain ⟨p, hp, he⟩ := (TMapContainsFString_iff _ _).mp hc
      have hnot : ¬ ∀ Explicit ∈ StaticMeshContext.StaticMeshConfig.Sockets,
          FStringEq Explicit.1 Pair.1 = false := by
        intro hall
        rw [hall p hp] at he
        exact Bool.noConfusion he
      show (!true) = decide _
      exact (decide_eq_false hnot).symm
  rw [hf]
  rfl

/-- The sockets of `CaseClashContext`: the explicit "Grip" and the discovered "Barrel";
the discovered "grip" is skipped, its name being the explicit name "Grip" up to case. -/
theorem CaseClash_sockets :
    (FinalizeSockets CaseClashContext []).map (fun S => S.SocketName) = ["Grip", "Barrel"] := by
  decide

/-- The sockets of `SocketsContext`: "Muzzle", "Grip" (the explicit one), "Barrel" and
"Origin" at (-1,-2,-3). -/
theorem SocketsContext_sockets :
    FinalizeSockets SocketsContext [] =
      [⟨"Muzzle", ⟨5, 0, 0⟩, ⟨0, 0, 0, 1⟩, ⟨1, 1, 1⟩⟩,
       ⟨"Grip", ⟨0, 0, 0⟩, ⟨0, 0, 0, 1⟩, ⟨1, 1, 1⟩⟩,
       ⟨"Barrel", ⟨0, 0, 9⟩, ⟨0, 0, 0, 1⟩, ⟨2, 2, 2⟩⟩,
       ⟨"Origin", ⟨-1, -2, -3⟩, ⟨0, 0, 0, 1⟩, ⟨1, 1, 1⟩⟩] := by
  decide!

/-- C30. The finalizer on `ExplicitClashContext` attaches two sockets named "Pivot", and
on `DiscoveredClashContext` two sockets named "Wheel": the export socket is added
without the test for a name that is already there. -/
theorem Export_socket_repeats_name :
    (FinalizeSockets ExplicitClashContext []).map (fun S => S.SocketName) =
      ["Pivot", "Pivot"] ∧
    ¬ ((FinalizeSockets ExplicitClashContext []).map (fun S => S.SocketName)).Nodup ∧
    (FinalizeSockets DiscoveredClashContext []).map (fun S => S.SocketName) =
      ["Wheel", "Wheel"] ∧
    ¬ ((FinalizeSockets DiscoveredClashContext []).map (fun S => S.SocketName)).Nodup := by
  have h1 : (FinalizeSockets ExplicitClashContext []).map (fun S => S.SocketName) =
      ["Pivot", "Pivot"] := by decide
  have h2 : (FinalizeSockets DiscoveredClashContext []).map (fun S => S.SocketName) =
      ["Wheel", "Wheel"] := by decide
  refine ⟨h1, ?_, h2, ?_⟩
  · rw [h1]; decide
  · rw [h2]; decide

/-! ### The glyph proxy mesh and the entry points (C26) -/

/-- The two ways to load `OnePointAsset`: `LoadStaticMeshLODs` with a component that has a
parent hands back the glyph proxy mesh 1000 and logs the build alone; `LoadStaticMesh`
stops in the build, at the read of the first parent of its fresh component. -/
theorem OnePoint_entry_points :
    (LoadStaticMeshLODs SampleEngine OnePointAsset FglTFRuntimeParser.New [0] {}
      AttachedComponent).1 = .Returned (some 1000) ∧
    (LoadStaticMeshLODs SampleEngine OnePointAsset FglTFRuntimeParser.New [0] {}
      AttachedComponent).2.Log = [.Build] ∧
    (LoadStaticMesh SampleEngine OnePointAsset FglTFRuntimeParser.New 0 {}).1 = .Crashed ∧
    (LoadStaticMesh SampleEngine OnePointAsset FglTFRuntimeParser.New 0 {}).2.Log =
      [.Build, .Crash] ∧
    (LoadStaticMesh SampleEngine OnePointAsset FglTFRuntimeParser.New 0
      {}).2.StaticMeshesCache = [] := by
  decide

end Claims

end glTFRuntime
